import Mathlib

/-!
PCGExtendedToolkit: cluster / graph core.

A shallow embedding of the edge primitives, the refinement and sanitization
passes, the intersection finders, the filter group and the contour tracer of
PCGExtendedToolkit, followed by theorems about them.

Conventions of the embedding:

* `uint32` / `uint64` values are natural numbers, reduced modulo `2^32` /
  `2^64` where the C++ arithmetic can wrap; `int32` values are integers.
* `double` values are rationals (exact arithmetic, no NaN, no rounding).
* `TArray` and `TSet` are lists. A read outside an array, which the source
  leaves undefined, gives `none` or the default stated at the definition; a
  write outside an array is dropped.
* Parallel loops are run in index order.
* Functions and constants whose bodies are not part of the sources are
  parameters, or definitions marked as modelled from the specification.
-/

set_option autoImplicit false

/-! ## Definitions -/

namespace PCGEx

/-- The range of a C++ `int32`. -/
def IsInt32 (a : Int) : Prop := -2147483648 ≤ a ∧ a < 2147483648

instance (a : Int) : Decidable (IsInt32 a) := by
  unfold IsInt32; infer_instance

/-- The conversion `int32 -> uint32` (two's complement wrap). -/
def toUInt32 (a : Int) : Nat := (a % 4294967296).toNat

/-- The conversion `uint32 -> int32` (two's complement wrap). -/
def toInt32 (u : Nat) : Int :=
  if u % 4294967296 < 2147483648 then ((u % 4294967296 : Nat) : Int)
  else ((u % 4294967296 : Nat) : Int) - 4294967296

end PCGEx

/-- `EPCGExEdgeType` of PCGExEdge.h / PCGExGraph.h. -/
inductive EPCGExEdgeType where
  | Unknown
  | Roaming
  | Shared
  | Match
  | Complete
  | Mirror
  deriving DecidableEq, Repr

namespace PCGExGraph

/-- `GetUnsignedHash64` of PCGExEdge.h: the larger of the two values goes to
the low word, the smaller one is shifted to the high word. -/
def GetUnsignedHash64 (A B : Nat) : Nat :=
  if A > B then (A % 2 ^ 64) ||| ((B <<< 32) % 2 ^ 64)
  else (B % 2 ^ 64) ||| ((A <<< 32) % 2 ^ 64)

/-- `GetHash64` of PCGExEdge.h. -/
def GetHash64 (A B : Nat) : Nat :=
  (A % 2 ^ 64) ||| ((B <<< 32) % 2 ^ 64)

/-- `FEdge` of PCGExEdge.h. `Start` and `End` are `uint32`. -/
structure FEdge where
  Start : Nat
  End : Nat
  EdgeType : EPCGExEdgeType
  bValid : Bool
  deriving DecidableEq, Repr

namespace FEdge

/-- `FEdge()`: the default member initialisers. -/
def ctor : FEdge :=
  { Start := 0, End := 0, EdgeType := EPCGExEdgeType.Unknown, bValid := true }

/-- `FEdge(const int32 InStart, const int32 InEnd)`. -/
def ctorEndpoints (InStart InEnd : Int) : FEdge :=
  { Start := PCGEx.toUInt32 InStart
    End := PCGEx.toUInt32 InEnd
    EdgeType := EPCGExEdgeType.Unknown
    bValid := InStart != InEnd && InStart != -1 && InEnd != -1 }

/-- `FEdge(const int32 InStart, const int32 InEnd, const EPCGExEdgeType InType)`:
delegates to the endpoint constructor, then sets the type. -/
def ctorTyped (InStart InEnd : Int) (InType : EPCGExEdgeType) : FEdge :=
  { ctorEndpoints InStart InEnd with EdgeType := InType }

/-- `explicit FEdge(const uint64 InValue)`: `bValid` keeps its default. -/
def ctorPacked (InValue : Nat) : FEdge :=
  { Start := (InValue &&& 0xFFFFFFFF) % 2 ^ 32
    End := ((InValue >>> 32) &&& 0xFFFFFFFF) % 2 ^ 32
    EdgeType := EPCGExEdgeType.Unknown
    bValid := true }

/-- `FEdge::Contains`. -/
def Contains (e : FEdge) (InIndex : Int) : Bool :=
  e.Start == PCGEx.toUInt32 InIndex || e.End == PCGEx.toUInt32 InIndex

end FEdge

/-- `FUnsignedEdge` of PCGExEdge.h: an `FEdge` with orientation-independent
equality. -/
structure FUnsignedEdge extends FEdge
  deriving DecidableEq, Repr

namespace FUnsignedEdge

/-- `FUnsignedEdge()`. -/
def ctor : FUnsignedEdge := { toFEdge := FEdge.ctor }

/-- `FUnsignedEdge(const int32 InStart, const int32 InEnd)`. -/
def ctorEndpoints (InStart InEnd : Int) : FUnsignedEdge :=
  { toFEdge := FEdge.ctorEndpoints InStart InEnd }

/-- `FUnsignedEdge(const int32 InStart, const int32 InEnd, const EPCGExEdgeType InType)`. -/
def ctorTyped (InStart InEnd : Int) (InType : EPCGExEdgeType) : FUnsignedEdge :=
  { toFEdge := FEdge.ctorTyped InStart InEnd InType }

/-- `explicit FUnsignedEdge(const uint64 InValue)`: the base is default
constructed, then `Start`, `End` and `Type` are assigned. -/
def ctorPacked (InValue : Nat) : FUnsignedEdge :=
  { toFEdge :=
      { FEdge.ctor with
        Start := (InValue &&& 0xFFFFFFFF) % 2 ^ 32
        End := ((InValue >>> 32) &&& 0xFFFFFFFF) % 2 ^ 32
        EdgeType := EPCGExEdgeType.Unknown } }

/-- `FUnsignedEdge::GetUnsignedHash`. -/
def GetUnsignedHash (e : FUnsignedEdge) : Nat := GetUnsignedHash64 e.Start e.End

/-- `FUnsignedEdge::operator==`. -/
def eq (a b : FUnsignedEdge) : Bool := a.GetUnsignedHash == b.GetUnsignedHash

end FUnsignedEdge

/-- `FIndexedEdge` of PCGExEdge.h. -/
structure FIndexedEdge extends FUnsignedEdge where
  EdgeIndex : Int
  PointIndex : Int
  deriving DecidableEq, Repr

namespace FIndexedEdge

/-- `FIndexedEdge()`. -/
def ctor : FIndexedEdge :=
  { toFUnsignedEdge := FUnsignedEdge.ctor, EdgeIndex := -1, PointIndex := -1 }

/-- `FIndexedEdge(const FIndexedEdge& Other)`: the base is rebuilt from the
endpoints of `Other` (so `bValid` is recomputed and `Type` is reset). -/
def ctorCopy (Other : FIndexedEdge) : FIndexedEdge :=
  { toFUnsignedEdge :=
      FUnsignedEdge.ctorEndpoints (PCGEx.toInt32 Other.Start) (PCGEx.toInt32 Other.End)
    EdgeIndex := Other.EdgeIndex
    PointIndex := Other.PointIndex }

/-- `FIndexedEdge(InIndex, InStart, InEnd, InPointIndex = -1)`. -/
def ctorIndexed (InIndex InStart InEnd : Int) (InPointIndex : Int) : FIndexedEdge :=
  { toFUnsignedEdge := FUnsignedEdge.ctorEndpoints InStart InEnd
    EdgeIndex := InIndex
    PointIndex := InPointIndex }

end FIndexedEdge

/-- An edge is not a valid self-loop: `bValid` implies `Start != End`. -/
def NoValidSelfLoop (e : FEdge) : Prop := e.bValid = true → e.Start ≠ e.End

instance (e : FEdge) : Decidable (NoValidSelfLoop e) := by
  unfold NoValidSelfLoop; infer_instance

/-! ### The older edge types of PCGExGraph.h -/

namespace Legacy

/-- `FEdge` of PCGExGraph.h (no validity flag). -/
structure FEdge where
  Start : Nat
  End : Nat
  EdgeType : EPCGExEdgeType
  deriving DecidableEq, Repr

/-- `FUnsignedEdge` of PCGExGraph.h. -/
structure FUnsignedEdge extends FEdge
  deriving DecidableEq, Repr

namespace FUnsignedEdge

/-- `FUnsignedEdge(const int32 InStart, const int32 InEnd, const EPCGExEdgeType InType)`. -/
def ctorTyped (InStart InEnd : Int) (InType : EPCGExEdgeType) : FUnsignedEdge :=
  { toFEdge :=
      { Start := PCGEx.toUInt32 InStart, End := PCGEx.toUInt32 InEnd, EdgeType := InType } }

/-- `FUnsignedEdge::GetUnsignedHash` of PCGExGraph.h: here the larger value
goes to the high word. -/
def GetUnsignedHash (e : FUnsignedEdge) : Nat :=
  if e.Start > e.End then ((e.Start <<< 32) % 2 ^ 64) ||| e.End
  else ((e.End <<< 32) % 2 ^ 64) ||| e.Start

/-- `FUnsignedEdge::operator==` of PCGExGraph.h. -/
def eq (a b : FUnsignedEdge) : Bool := a.GetUnsignedHash == b.GetUnsignedHash

end FUnsignedEdge

end Legacy

end PCGExGraph

/-! ### Vectors and packed pairs -/

/-- `FVector`, with exact rational components. -/
structure FVector where
  X : ℚ
  Y : ℚ
  Z : ℚ
  deriving DecidableEq, Repr

namespace FVector

/-- `FVector::ZeroVector`. -/
def ZeroVector : FVector := { X := 0, Y := 0, Z := 0 }

/-- `FVector(double InF)`: the same value on the three axes. -/
def ctorScalar (InF : ℚ) : FVector := { X := InF, Y := InF, Z := InF }

/-- `operator-`. -/
def sub (a b : FVector) : FVector := { X := a.X - b.X, Y := a.Y - b.Y, Z := a.Z - b.Z }

/-- `FVector::DistSquared`. -/
def DistSquared (V1 V2 : FVector) : ℚ :=
  (V2.X - V1.X) ^ 2 + (V2.Y - V1.Y) ^ 2 + (V2.Z - V1.Z) ^ 2

end FVector

namespace PCGEx

/-- Modelled from the spec: `PCGEx::H64` (PCGEx.h is not part of the sources)
packs two 32-bit values into one 64-bit value, the first in the low word, as
`GetHash64` of PCGExEdge.h does. -/
def H64 (A B : Nat) : Nat := (A % 2 ^ 32) ||| (((B % 2 ^ 32) <<< 32) % 2 ^ 64)

/-- Modelled from the spec: `PCGEx::H64A`, the low word of a packed pair, as
in `ExpandHash64` of PCGExEdge.h. -/
def H64A (Hash : Nat) : Nat := Hash &&& 0xFFFFFFFF

/-- Modelled from the spec: `PCGEx::H64B`, the high word of a packed pair, as
in `ExpandHash64` of PCGExEdge.h. -/
def H64B (Hash : Nat) : Nat := (Hash >>> 32) &&& 0xFFFFFFFF

/-- Modelled from the spec: `PCGEx::H64U`, the orientation-independent packed
pair, as `GetUnsignedHash64` of PCGExEdge.h. -/
def H64U (A B : Nat) : Nat := PCGExGraph.GetUnsignedHash64 (A % 2 ^ 32) (B % 2 ^ 32)

end PCGEx

/-! ### Cluster -/

namespace PCGExCluster

/-- Modelled from the spec: `PCGExCluster::FNode` (PCGExCluster.h is not part
of the sources). A cluster vertex: its index in the node array, the index of
its point, its cached position, the ordered packed
`(otherNodeIndex, edgeIndex)` adjacency entries and the validity flag. -/
structure FNode where
  NodeIndex : Int
  PointIndex : Int
  Position : FVector
  Adjacency : List Nat
  bValid : Bool
  deriving DecidableEq, Repr

/-- Modelled from the spec: `PCGExCluster::FCluster` (PCGExCluster.h is not
part of the sources): the node array and the edge array; the endpoints of an
edge are node indices. -/
structure FCluster where
  Nodes : List FNode
  Edges : List PCGExGraph.FIndexedEdge
  deriving DecidableEq, Repr

namespace FCluster

/-- Modelled from the spec: `FCluster::GetNode`, direct array access. -/
def GetNode (c : FCluster) (i : Int) : Option FNode :=
  if i < 0 then none else c.Nodes[i.toNat]?

/-- Modelled from the spec: `FCluster::GetEdge`, direct array access. -/
def GetEdge (c : FCluster) (i : Int) : Option PCGExGraph.FIndexedEdge :=
  if i < 0 then none else c.Edges[i.toNat]?

/-- Modelled from the spec: `FCluster::GetEdgeStart`, the node at the start of
the edge of that index. -/
def GetEdgeStart (c : FCluster) (i : Int) : Option FNode :=
  (c.GetEdge i).bind (fun e => c.GetNode (e.Start : Int))

/-- Modelled from the spec: `FCluster::GetEdgeEnd`, the node at the end of
the edge of that index. -/
def GetEdgeEnd (c : FCluster) (i : Int) : Option FNode :=
  (c.GetEdge i).bind (fun e => c.GetNode (e.End : Int))

/-- Modelled from the spec: `FCluster::GetDistSquared`, the squared distance
between the positions of two nodes (zero when an index is out of range, which
the source leaves undefined). -/
def GetDistSquared (c : FCluster) (A B : Int) : ℚ :=
  match c.GetNode A, c.GetNode B with
  | some a, some b => FVector.DistSquared a.Position b.Position
  | _, _ => 0

/-- Writes `bValid` of the edge at index `i`; a write outside the array is
dropped. -/
def SetEdgeValid (c : FCluster) (i : Int) (v : Bool) : FCluster :=
  if i < 0 then c
  else { c with Edges := c.Edges.modify (fun e => { e with bValid := v }) i.toNat }

/-- Writes `bValid` of the node at index `i`; a write outside the array is
dropped. -/
def SetNodeValid (c : FCluster) (i : Int) (v : Bool) : FCluster :=
  if i < 0 then c
  else { c with Nodes := c.Nodes.modify (fun n => { n with bValid := v }) i.toNat }

end FCluster

/-- Modelled from the spec: `FNode::HasAnyValidEdges`, whether some adjacency
entry of the node references a valid edge. -/
def FNode.HasAnyValidEdges (n : FNode) (c : FCluster) : Bool :=
  n.Adjacency.any (fun h =>
    match c.GetEdge (PCGEx.H64B h : Int) with
    | some e => e.bValid
    | none => false)

end PCGExCluster

/-! ### Edge refinement and sanitization (PCGExRefineEdges.cpp) -/

/-- `EPCGExRefineSanitization`. -/
inductive EPCGExRefineSanitization where
  | None
  | Shortest
  | Longest
  | Filters
  deriving DecidableEq, Repr

namespace PCGExRefineEdges

open PCGExCluster

/-- The `InvalidateNodes` sub-loop of `FProcessor::OnEdgesProcessingComplete`:
every node without a valid edge is invalidated. Each iteration reads the edge
flags, which the loop leaves alone, and writes its own node only. -/
def InvalidateNodes (c : FCluster) : FCluster :=
  { c with
    Nodes := c.Nodes.map (fun Node =>
      if !Node.HasAnyValidEdges c then { Node with bValid := false } else Node) }

/-- The body of the `RestoreEdges` sub-loop for one edge: a valid edge is
skipped; otherwise the condition of the source is evaluated, which reads
`GetEdgeStart(Edge->EdgeIndex)->bValid` on both sides of the `&&`. -/
def RestoreEdgeStep (c : FCluster) (Edge : PCGExGraph.FIndexedEdge) :
    PCGExGraph.FIndexedEdge :=
  if Edge.bValid then Edge
  else
    let startValid := fun (_ : Unit) =>
      match c.GetEdgeStart Edge.EdgeIndex with
      | some n => n.bValid
      | none => false
    if startValid () && startValid () then { Edge with bValid := true } else Edge

/-- The `RestoreEdges` sub-loop: it reads the node flags and the endpoints of
the edges, which it leaves alone, and writes the flag of its own edge only. -/
def RestoreEdges (c : FCluster) : FCluster :=
  { c with Edges := c.Edges.map (RestoreEdgeStep c) }

/-- `FProcessor::OnEdgesProcessingComplete`: nothing unless
`bRestoreEdgesThatConnectToValidNodes` is set; otherwise the node
invalidation loop, then, once it has completed, the edge restoration loop. -/
def OnEdgesProcessingComplete (bRestoreEdgesThatConnectToValidNodes : Bool)
    (c : FCluster) : FCluster :=
  if !bRestoreEdgesThatConnectToValidNodes then c
  else RestoreEdges (InvalidateNodes c)

/-- The `RestoreEdge` lambda of `FSanitizeRangeTask::ExecuteTask`: sets the
edge and both of its endpoint nodes valid; `-1` restores nothing. -/
def RestoreEdge (c : FCluster) (EdgeIndex : Int) : FCluster :=
  if EdgeIndex == -1 then c
  else
    match c.GetEdge EdgeIndex with
    | none => c
    | some e =>
      ((c.SetEdgeValid EdgeIndex true).SetNodeValid (e.Start : Int) true).SetNodeValid
        (e.End : Int) true

/-- The inner loop of the `Longest` branch: the running `(BestIndex,
LongestDist)` over the adjacency entries of one node, starting from
`(-1, MIN_dbl)`. -/
def FindLongest (c : FCluster) (Node : FNode) (MIN_dbl : ℚ) : Int × ℚ :=
  Node.Adjacency.foldl
    (fun (best : Int × ℚ) (AdjacencyHash : Nat) =>
      let OtherNodeIndex := PCGEx.H64A AdjacencyHash
      let EdgeIndex := PCGEx.H64B AdjacencyHash
      let Dist := c.GetDistSquared Node.NodeIndex (OtherNodeIndex : Int)
      if Dist > best.2 then (PCGEx.toInt32 EdgeIndex, Dist) else best)
    (-1, MIN_dbl)

/-- The inner loop of the `Shortest` branch: the running `(BestIndex,
ShortestDist)` over the adjacency entries of one node, starting from
`(-1, MAX_dbl)`. -/
def FindShortest (c : FCluster) (Node : FNode) (MAX_dbl : ℚ) : Int × ℚ :=
  Node.Adjacency.foldl
    (fun (best : Int × ℚ) (AdjacencyHash : Nat) =>
      let OtherNodeIndex := PCGEx.H64A AdjacencyHash
      let EdgeIndex := PCGEx.H64B AdjacencyHash
      let Dist := c.GetDistSquared Node.NodeIndex (OtherNodeIndex : Int)
      if Dist < best.2 then (PCGEx.toInt32 EdgeIndex, Dist) else best)
    (-1, MAX_dbl)

/-- `FSanitizeRangeTask::ExecuteTask` over the nodes
`StartIndex .. StartIndex + NumIterations - 1`. The engine constants `MIN_dbl`
and `MAX_dbl` are parameters. A node index outside the array, undefined in
the source, is skipped. -/
def FSanitizeRangeTask.ExecuteTask (MIN_dbl MAX_dbl : ℚ)
    (Sanitization : EPCGExRefineSanitization) (StartIndex NumIterations : Nat)
    (c : FCluster) : FCluster :=
  match Sanitization with
  | EPCGExRefineSanitization.Longest =>
    (List.range NumIterations).foldl
      (fun (c : FCluster) (i : Nat) =>
        match c.GetNode ((StartIndex + i : Nat) : Int) with
        | none => c
        | some Node => RestoreEdge c (FindLongest c Node MIN_dbl).1)
      c
  | EPCGExRefineSanitization.Shortest =>
    (List.range NumIterations).foldl
      (fun (c : FCluster) (i : Nat) =>
        match c.GetNode ((StartIndex + i : Nat) : Int) with
        | none => c
        | some Node => RestoreEdge c (FindShortest c Node MAX_dbl).1)
      c
  | _ => c

/-- The engine's `MIN_dbl` (`2.2250738585072014e-308`): the smallest positive
normal double, `2^-1022`. -/
def Engine_MIN_dbl : ℚ := 1 / 2 ^ 1022

/-- The engine's `MAX_dbl` (`1.7976931348623158e+308`): the largest finite
double, `(2^53 - 1) * 2^971`. -/
def Engine_MAX_dbl : ℚ := (2 ^ 53 - 1) * 2 ^ 971

/-- Whether node `n` of the cluster has a valid incident edge: some valid edge
of the edge array starts or ends at `n`. -/
def HasValidIncidentEdge (c : FCluster) (n : Nat) : Bool :=
  c.Edges.any (fun e => e.bValid && (e.Start == n || e.End == n))

end PCGExRefineEdges

/-! ### Building and exporting the edge list (PCGExEdge.h, PCGExRefineEdges.cpp) -/

namespace PCGExGraph

/-- The edge dataset as `BuildIndexedEdges` reads it: its points and the
values of the `PCGEx/EdgeStart` and `PCGEx/EdgeEnd` attributes, one per point
(`none` when the attribute is missing, so that `Bind` fails). -/
structure FEdgePointData (P : Type) where
  Points : List P
  EdgeStart : Option (List Int)
  EdgeEnd : Option (List Int)

/-- `FPointIO::GetNum`. -/
def FEdgePointData.GetNum {P : Type} ( EdgeIO : FEdgePointData P) : Nat := EdgeIO.Points.length

/-- The two `for` loops of `BuildIndexedEdges`, over the remaining point
indices, with the running `EdgeIndex` and `OutEdges`. An edge point whose
endpoints are not both in the map, or are mapped to the same node, is skipped
(`continue`) or, with `bInvalidateOnError`, ends the loop with `bValid = false`
(`break`). -/
def BuildIndexedEdgesLoop (StartValues EndValues : List Int)
    (NodeIndicesMap : Int → Option Int) (bInvalidateOnError : Bool) :
    List Nat → Int → List FIndexedEdge → Bool × List FIndexedEdge
  | [], _, OutEdges => (true, OutEdges)
  | i :: rest, EdgeIndex, OutEdges =>
    match NodeIndicesMap (StartValues.getD i 0), NodeIndicesMap (EndValues.getD i 0) with
    | some NodeStart, some NodeEnd =>
      if NodeStart == NodeEnd then
        if bInvalidateOnError then (false, OutEdges)
        else BuildIndexedEdgesLoop StartValues EndValues NodeIndicesMap bInvalidateOnError
          rest EdgeIndex OutEdges
      else
        BuildIndexedEdgesLoop StartValues EndValues NodeIndicesMap bInvalidateOnError
          rest (EdgeIndex + 1)
          (OutEdges ++ [FIndexedEdge.ctorIndexed EdgeIndex NodeStart NodeEnd (i : Int)])
    | _, _ =>
      if bInvalidateOnError then (false, OutEdges)
      else BuildIndexedEdgesLoop StartValues EndValues NodeIndicesMap bInvalidateOnError
        rest EdgeIndex OutEdges

/-- `BuildIndexedEdges` of PCGExEdge.h: the returned flag and `OutEdges`. -/
def BuildIndexedEdges {P : Type} ( EdgeIO : FEdgePointData P) (NodeIndicesMap : Int → Option Int)
    (OutEdges : List FIndexedEdge) (bInvalidateOnError : Bool) :
    Bool × List FIndexedEdge :=
  match EdgeIO.EdgeStart with
  | none => (false, OutEdges)
  | some StartValues =>
    match EdgeIO.EdgeEnd with
    | none => (false, OutEdges)
    | some EndValues =>
      BuildIndexedEdgesLoop StartValues EndValues NodeIndicesMap bInvalidateOnError
        (List.range EdgeIO.GetNum) 0 OutEdges

/-- The cluster edge built from the edge point of index `i`: the
`FIndexedEdge` whose `PointIndex` is `i`. -/
def EdgeBuiltFrom (Edges : List FIndexedEdge) (i : Nat) : Option FIndexedEdge :=
  Edges.find? (fun e => e.PointIndex == (i : Int))

/-- Whether the cluster edge built from the edge point of index `i` exists
and has `bValid = true`. -/
def EdgeBuiltFromIsValid (Edges : List FIndexedEdge) (i : Nat) : Bool :=
  match EdgeBuiltFrom Edges i with
  | some e => e.bValid
  | none => false

end PCGExGraph

namespace PCGExRefineEdges

/-- The `for` loop of `FProcessor::InsertEdges` in edges-only mode, from the
index `i` on, over the remaining `OriginalEdges`: `Edges[i]` decides whether
`OriginalEdges[i]` is added to `KeptEdges` or to `RemovedEdges`. An index
outside `Edges` stops the run (`none`). -/
def InsertEdgesLoop {P : Type} (Edges : List PCGExGraph.FIndexedEdge) :
    Nat → List P → List P → List P → Option (List P × List P)
  | _, [], KeptEdges, RemovedEdges => some (KeptEdges, RemovedEdges)
  | i, OriginalEdge :: rest, KeptEdges, RemovedEdges =>
    match Edges[i]? with
    | none => none
    | some e =>
      if e.bValid then InsertEdgesLoop Edges (i + 1) rest (KeptEdges ++ [OriginalEdge]) RemovedEdges
      else InsertEdgesLoop Edges (i + 1) rest KeptEdges (RemovedEdges ++ [OriginalEdge])

/-- Modelled from the spec: `FCluster::GetValidEdges` (PCGExCluster.h is not
part of the sources) returns only the `bValid` edges. -/
def GetValidEdges (c : PCGExCluster.FCluster) : List PCGExGraph.FIndexedEdge :=
  c.Edges.filter (fun e => e.bValid)

/-- The outputs `FProcessor::InsertEdges` writes to: the graph of the graph
builder when there is one, and the kept and removed edge points. -/
structure FInsertEdgesOutput (G P : Type) where
  Graph : Option G
  KeptEdges : List P
  RemovedEdges : List P
  deriving DecidableEq

/-- `FProcessor::InsertEdges`. With a graph builder, the valid edges are
inserted in its graph (`GraphInsertEdges`, a parameter) unless there is none;
without one (edges-only mode), every original edge point goes to `KeptEdges`
or `RemovedEdges`. -/
def InsertEdges {G P : Type} (GraphInsertEdges : G → List PCGExGraph.FIndexedEdge → G)
    (Cluster : PCGExCluster.FCluster) (OriginalEdges : List P)
    (out : FInsertEdgesOutput G P) : Option (FInsertEdgesOutput G P) :=
  match out.Graph with
  | some g =>
    if (GetValidEdges Cluster).isEmpty then some out
    else some { out with Graph := some (GraphInsertEdges g (GetValidEdges Cluster)) }
  | none =>
    match InsertEdgesLoop Cluster.Edges 0 OriginalEdges out.KeptEdges out.RemovedEdges with
    | none => none
    | some kr => some { out with KeptEdges := kr.1, RemovedEdges := kr.2 }

end PCGExRefineEdges

/-! ### Filter groups (PCGExFilterGroup.cpp) -/

namespace PCGExFilterGroup

/-- A filter factory as a filter group sees it. A single-filter factory has
its factory type (a code of `PCGExFactories::EType`), its priority and the
result of the `Init` of the filter it creates in the data at hand; a group
factory has its priority and its own child factories. -/
inductive FFilterFactory where
  | Single (FactoryType : Nat) (Priority : Int) (bInitResult : Bool)
  | Group (Priority : Int) (FilterFactories : List FFilterFactory)
  deriving Repr

/-- `Factory->Priority`. -/
def FFilterFactory.Priority : FFilterFactory → Int
  | FFilterFactory.Single _ p _ => p
  | FFilterFactory.Group p _ => p

/-- Whether the filter created by the factory is of a cluster-only factory
type: `PCGExFactories::ClusterOnlyFilters.Contains(Filter->Factory->GetFactoryType())`.
The set `ClusterOnlyFilters` is a parameter. -/
def FFilterFactory.IsClusterOnly (ClusterOnlyFilters : List Nat) : FFilterFactory → Bool
  | FFilterFactory.Single t _ _ => ClusterOnlyFilters.contains t
  | FFilterFactory.Group _ _ => false

mutual

/-- `FFilterGroup::InitManagedFilter` for the filter created by a factory. A
group filter is initialised recursively, with or without cluster data as its
parent; a cluster-only filter is refused without cluster data; any other
filter is initialised on a facade. The result of a nested group is that of
its `PostInitManaged`: whether it manages at least one filter. -/
def InitManagedFilter (ClusterOnlyFilters : List Nat) (bInitForCluster : Bool) :
    FFilterFactory → Bool
  | FFilterFactory.Single t _ bInitResult =>
    if ClusterOnlyFilters.contains t then
      if !bInitForCluster then false
      else bInitResult
    else bInitResult
  | FFilterFactory.Group _ FilterFactories =>
    !(InitManagedList ClusterOnlyFilters bInitForCluster FilterFactories).isEmpty

/-- The loop of `FFilterGroup::InitManaged`: a filter whose
`InitManagedFilter` fails is passed over (`continue`), the others are added
to `ManagedFilters`, in the order of the factories. -/
def InitManagedList (ClusterOnlyFilters : List Nat) (bInitForCluster : Bool) :
    List FFilterFactory → List FFilterFactory
  | [] => []
  | ManagedFactory :: rest =>
    if InitManagedFilter ClusterOnlyFilters bInitForCluster ManagedFactory then
      ManagedFactory :: InitManagedList ClusterOnlyFilters bInitForCluster rest
    else InitManagedList ClusterOnlyFilters bInitForCluster rest

end

/-- `FFilterGroup` after initialisation: the flags and the managed filters,
each with the `FilterIndex` it was given. -/
structure FFilterGroup where
  bInitForCluster : Bool
  bValid : Bool
  ManagedFilters : List (FFilterFactory × Nat)

/-- `FFilterGroup::PostInitManaged`: the group is valid when it manages a
filter; then the filters are sorted by priority (any order among equal
priorities would do; the model keeps theirs) and indexed. -/
def PostInitManaged (bInitForCluster : Bool) (ManagedFilters : List FFilterFactory) :
    Bool × FFilterGroup :=
  if ManagedFilters.isEmpty then
    (false, { bInitForCluster := bInitForCluster, bValid := false, ManagedFilters := [] })
  else
    let Sorted := ManagedFilters.insertionSort (fun A B => A.Priority ≤ B.Priority)
    (true,
      { bInitForCluster := bInitForCluster, bValid := true
        ManagedFilters := Sorted.zip (List.range Sorted.length) })

/-- `FFilterGroup::InitManaged`. -/
def InitManaged (ClusterOnlyFilters : List Nat) (bInitForCluster : Bool)
    (ManagedFactories : List FFilterFactory) : Bool × FFilterGroup :=
  PostInitManaged bInitForCluster
    (InitManagedList ClusterOnlyFilters bInitForCluster ManagedFactories)

/-- `FFilterGroup::Init(InContext, InPointDataFacade)`: the point-only
initialisation, `bInitForCluster` keeps its default `false`. -/
def FFilterGroup.Init (ClusterOnlyFilters : List Nat)
    (ManagedFactories : List FFilterFactory) : Bool × FFilterGroup :=
  InitManaged ClusterOnlyFilters false ManagedFactories

/-- `FFilterGroup::Init(InContext, InCluster, InPointDataFacade, InEdgeDataFacade)`:
the initialisation with cluster data. -/
def FFilterGroup.InitCluster (ClusterOnlyFilters : List Nat)
    (ManagedFactories : List FFilterFactory) : Bool × FFilterGroup :=
  InitManaged ClusterOnlyFilters true ManagedFactories

end PCGExFilterGroup

/-! ### Compound graph and intersections (PCGExIntersections.h, PCGExData.h) -/

/-- The fields of `FPCGExFuseSettings` (PCGExSettings.h is not part of the
sources) that the `FCompoundGraph` constructor reads. -/
structure FPCGExFuseSettings where
  bComponentWiseTolerance : Bool
  Tolerance : ℚ
  Tolerances : FVector
  deriving DecidableEq, Repr

/-- `FBox`: two corners. -/
structure FBox where
  Min : FVector
  Max : FVector
  deriving DecidableEq, Repr

namespace PCGExData

/-- `FIdxCompound` of PCGExData.h: the set of IO indices and the set of packed
`(IOIndex, PointIndex)` members. -/
structure FIdxCompound where
  IOIndices : List Int
  CompoundedHashSet : List Nat
  deriving DecidableEq, Repr

/-- `FIdxCompoundList` of PCGExData.h. -/
structure FIdxCompoundList where
  Compounds : List FIdxCompound
  deriving DecidableEq, Repr

namespace FIdxCompoundList

/-- `Compounds[Index]`; `none` outside the array. -/
def get (l : FIdxCompoundList) (Index : Int) : Option FIdxCompound :=
  if Index < 0 then none else l.Compounds[Index.toNat]?

/-- `FIdxCompoundList::IOIndexOverlap` of PCGExData.h: the intersection of
the IO indices of the compound with the given ones is not empty. -/
def IOIndexOverlap (l : FIdxCompoundList) (InIdx : Int) (InIndices : List Int) : Bool :=
  match l.get InIdx with
  | some c => decide ((c.IOIndices.filter (fun io => InIndices.contains io)).length > 0)
  | none => false

/-- Modelled from the spec: `FIdxCompoundList::GetIOIndices` (its body is not
part of the sources) appends the IO indices of the compound at `InIndex`,
the source datasets it originates from, to `OutIOIndices`. -/
def GetIOIndices (l : FIdxCompoundList) (InIndex : Int) (OutIOIndices : List Int) : List Int :=
  match l.get InIndex with
  | some c => OutIOIndices ++ c.IOIndices
  | none => OutIOIndices

/-- Modelled from the spec: `FIdxCompoundList::HasIOIndexOverlap` (its body
is not part of the sources) tells whether the compound at `InIdx` originates
from one of the given source datasets, as `IOIndexOverlap` of PCGExData.h
does for a set. -/
def HasIOIndexOverlap (l : FIdxCompoundList) (InIdx : Int) (InIndices : List Int) : Bool :=
  l.IOIndexOverlap InIdx InIndices

/-- The compounds at the indices `A` of `l` and `B` of `m` share a source IO
index. -/
def SharesIOIndex (l : FIdxCompoundList) (A : Int) (m : FIdxCompoundList) (B : Int) : Prop :=
  ∃ a b io, l.get A = some a ∧ m.get B = some b ∧ io ∈ a.IOIndices ∧ io ∈ b.IOIndices

end FIdxCompoundList

end PCGExData

namespace PCGExGraph

/-- The `CWTolerance` the `FCompoundGraph` constructor leaves in the new
object. The member has no initialiser, so before the body runs it holds
`Indeterminate`. In the component-wise branch the source builds an `FVector`
from the three inverses and discards it (the statement is an expression, not
an assignment); in the other branch it assigns `FVector(1 / Tolerance)`. -/
def FCompoundGraph.ctorCWTolerance (Indeterminate : FVector)
    (InFuseSettings : FPCGExFuseSettings) : FVector :=
  if InFuseSettings.bComponentWiseTolerance then
    let _Discarded : FVector :=
      { X := 1 / InFuseSettings.Tolerances.X
        Y := 1 / InFuseSettings.Tolerances.Y
        Z := 1 / InFuseSettings.Tolerances.Z }
    Indeterminate
  else FVector.ctorScalar (1 / InFuseSettings.Tolerance)

/-- `FCompoundGraph` of PCGExIntersections.h, without its octree and locks. -/
structure FCompoundGraph where
  CWTolerance : FVector
  PointsCompounds : PCGExData.FIdxCompoundList
  EdgesCompounds : PCGExData.FIdxCompoundList
  FuseSettings : FPCGExFuseSettings
  bFastMode : Bool
  Bounds : FBox
  bFusePoints : Bool
  deriving DecidableEq, Repr

/-- `FCompoundGraph::FCompoundGraph(InFuseSettings, InBounds, FusePoints, FastMode)`. -/
def FCompoundGraph.ctor (Indeterminate : FVector) (InFuseSettings : FPCGExFuseSettings)
    (InBounds : FBox) (FusePoints FastMode : Bool) : FCompoundGraph :=
  { CWTolerance := FCompoundGraph.ctorCWTolerance Indeterminate InFuseSettings
    PointsCompounds := { Compounds := [] }
    EdgesCompounds := { Compounds := [] }
    FuseSettings := InFuseSettings
    bFastMode := FastMode
    Bounds := InBounds
    bFusePoints := FusePoints }

end PCGExGraph

/-! ### Point-edge and edge-edge intersection finders (PCGExIntersections.h) -/

namespace PCGExGraph

/-- Modelled from the spec: the node of a graph under construction
(`PCGExGraph::FNode`, whose declaration is not part of the sources): its
validity, its index in the node array and the index of its point. -/
structure FGraphNode where
  bValid : Bool
  NodeIndex : Int
  PointIndex : Int
  deriving DecidableEq, Repr

/-- Modelled from the spec: the graph under construction (`PCGExGraph::FGraph`,
whose declaration is not part of the sources): its nodes and its edges. -/
structure FGraph where
  Nodes : List FGraphNode
  Edges : List FIndexedEdge
  deriving DecidableEq, Repr

/-- `FPESplit`. -/
structure FPESplit where
  NodeIndex : Int
  Time : ℚ
  ClosestPoint : FVector
  deriving DecidableEq, Repr

/-- `FPESplit{}`: the default member initialisers. -/
def FPESplit.ctor : FPESplit := { NodeIndex := -1, Time := -1, ClosestPoint := FVector.ZeroVector }

/-- `FPointEdgeProxy`, without the list of collinear points it collects. -/
structure FPointEdgeProxy where
  EdgeIndex : Int
  LengthSquared : ℚ
  ToleranceSquared : ℚ
  Box : FBox
  Start : FVector
  End : FVector
  deriving DecidableEq, Repr

/-- `FEESplit`. -/
structure FEESplit where
  TimeA : ℚ
  TimeB : ℚ
  Center : FVector
  deriving DecidableEq, Repr

/-- `FEESplit{}`: the default member initialisers. -/
def FEESplit.ctor : FEESplit := { TimeA := -1, TimeB := -1, Center := FVector.ZeroVector }

/-- `FEECrossing`. -/
structure FEECrossing where
  NodeIndex : Int
  EdgeA : Int
  EdgeB : Int
  Split : FEESplit
  deriving DecidableEq, Repr

/-- `FEdgeEdgeProxy`, without the list of crossings it collects. -/
structure FEdgeEdgeProxy where
  EdgeIndex : Int
  LengthSquared : ℚ
  ToleranceSquared : ℚ
  Box : FBox
  Start : FVector
  End : FVector
  deriving DecidableEq, Repr

/-- The functions the intersection finders call whose bodies are not part of
the sources: the engine's `FBox::IsInside` and `FBox::Intersect`, the two
`FindSplit` (declared in PCGExIntersections.h, defined elsewhere; each gets
the current content of the out-parameter and returns its flag and the new
content) and `FGraphEdgeMetadata::GetRootIndex` for the edge metadata at
hand. -/
structure FIntersectionOps where
  IsInside : FBox → FVector → Bool
  Intersect : FBox → FBox → Bool
  FindSplitPE : FPointEdgeProxy → FVector → FPESplit → Bool × FPESplit
  FindSplitEE : FEdgeEdgeProxy → FEdgeEdgeProxy → FEESplit → Bool × FEESplit
  GetRootIndex : Int → Int

/-- `UPCGPointData` as `FindCollinearNodes` reads it: the locations of the
points and, for a box, the indices of the points its octree visits. -/
structure FPointsData where
  Points : List FVector
  Octree : FBox → List Int

/-- `FPointEdgeIntersections`. `Added` records the calls of `Add`
(`EdgeIndex`, `Split`), whose body is not part of the sources, in order. -/
structure FPointEdgeIntersections where
  Graph : FGraph
  PointsCompounds : PCGExData.FIdxCompoundList
  EdgesCompounds : PCGExData.FIdxCompoundList
  bEnableSelfIntersection : Bool
  Edges : List FPointEdgeProxy
  Added : List (Int × FPESplit)

/-- `TArray::operator[]` with an `int32` index; `none` outside the array. -/
def getAt {α : Type} (l : List α) (i : Int) : Option α :=
  if i < 0 then none else l[i.toNat]?

/-- The `ProcessPointRef` lambda of `FindCollinearNodes`, for the point of
index `PointIndex`: the running `Split` and the calls of `Add` so far go in,
the new ones come out. `IOIndices` is only read when self-intersection is
disabled. A read outside an array, undefined in the source, ends the
lambda. -/
def ProcessPointRef (ops : FIntersectionOps) (I : FPointEdgeIntersections)
    (PointsData : FPointsData) (EdgeIndex : Int) (Edge : FPointEdgeProxy)
    (IEdge : FIndexedEdge) (IOIndices : List Int)
    (st : FPESplit × List (Int × FPESplit)) (PointIndex : Int) :
    FPESplit × List (Int × FPESplit) :=
  if PointIndex < 0 ∨ (PointsData.Points.length : Int) ≤ PointIndex then st
  else
    match getAt I.Graph.Nodes PointIndex with
    | none => st
    | some Node =>
      if !Node.bValid then st
      else
        match getAt PointsData.Points Node.PointIndex with
        | none => st
        | some Position =>
          if !ops.IsInside Edge.Box Position then st
          else if IEdge.Start == PCGEx.toUInt32 Node.PointIndex
              || IEdge.End == PCGEx.toUInt32 Node.PointIndex then st
          else
            let found := ops.FindSplitPE Edge Position st.1
            if !I.bEnableSelfIntersection then
              if !found.1 then (found.2, st.2)
              else if I.PointsCompounds.HasIOIndexOverlap Node.NodeIndex IOIndices then
                (found.2, st.2)
              else
                let Split := { found.2 with NodeIndex := Node.NodeIndex }
                (Split, st.2 ++ [(EdgeIndex, Split)])
            else
              if found.1 then
                let Split := { found.2 with NodeIndex := Node.NodeIndex }
                (Split, st.2 ++ [(EdgeIndex, Split)])
              else (found.2, st.2)

/-- `FindCollinearNodes`: the calls of `Add` it makes for the edge
`EdgeIndex`, in order. -/
def FindCollinearNodes (ops : FIntersectionOps) (I : FPointEdgeIntersections)
    (EdgeIndex : Int) (PointsData : FPointsData) : List (Int × FPESplit) :=
  match getAt I.Edges EdgeIndex, getAt I.Graph.Edges EdgeIndex with
  | some Edge, some IEdge =>
    let IOIndices :=
      if !I.bEnableSelfIntersection then
        I.EdgesCompounds.GetIOIndices (ops.GetRootIndex Edge.EdgeIndex) []
      else []
    ((PointsData.Octree Edge.Box).foldl
      (ProcessPointRef ops I PointsData EdgeIndex Edge IEdge IOIndices)
      (FPESplit.ctor, [])).2
  | _, _ => []

/-- `FEdgeEdgeIntersections`: the crossings recorded so far, the edge
proxies, the set of checked pairs; `Octree` gives, for a box, the indices (in
`Edges`) of the proxies the edge octree visits. -/
structure FEdgeEdgeIntersections where
  EdgesCompounds : PCGExData.FIdxCompoundList
  bEnableSelfIntersection : Bool
  Crossings : List FEECrossing
  Edges : List FEdgeEdgeProxy
  CheckedPairs : List Nat
  Octree : FBox → List Int

/-- Modelled from the spec: `FEdgeEdgeIntersections::Add` (its body is not
part of the sources) records the pair in the checked-pairs set, keyed by the
orientation-independent pair hash, and appends the crossing of the two
edges. -/
def FEdgeEdgeIntersections.Add (I : FEdgeEdgeIntersections) (EdgeIndex OtherEdgeIndex : Int)
    (Split : FEESplit) : FEdgeEdgeIntersections :=
  { I with
    CheckedPairs :=
      I.CheckedPairs ++ [PCGEx.H64U (PCGEx.toUInt32 EdgeIndex) (PCGEx.toUInt32 OtherEdgeIndex)]
    Crossings :=
      I.Crossings ++ [{ NodeIndex := -1, EdgeA := EdgeIndex, EdgeB := OtherEdgeIndex, Split := Split }] }

/-- The `ProcessEdge` lambda of `FindOverlappingEdges`, for the proxy at
index `ProxyIndex` of `Edges`: the running `Split` and the intersections so
far go in, the new ones come out. The proxy is the tested edge itself
(`&Edge == &OtherEdge`) when the two indices are equal. -/
def ProcessEdge (ops : FIntersectionOps) (EdgeIndex : Int) (Edge : FEdgeEdgeProxy)
    (IOIndices : List Int) (st : FEESplit × FEdgeEdgeIntersections) (ProxyIndex : Int) :
    FEESplit × FEdgeEdgeIntersections :=
  match getAt st.2.Edges ProxyIndex with
  | none => st
  | some OtherEdge =>
    if OtherEdge.EdgeIndex == -1 || ProxyIndex == EdgeIndex then st
    else if !ops.Intersect Edge.Box OtherEdge.Box then st
    else if st.2.CheckedPairs.contains
        (PCGEx.H64U (PCGEx.toUInt32 EdgeIndex) (PCGEx.toUInt32 OtherEdge.EdgeIndex)) then st
    else
      let found := ops.FindSplitEE Edge OtherEdge st.1
      if !st.2.bEnableSelfIntersection then
        if !found.1 then (found.2, st.2)
        else if st.2.EdgesCompounds.HasIOIndexOverlap
            (ops.GetRootIndex OtherEdge.EdgeIndex) IOIndices then (found.2, st.2)
        else (found.2, st.2.Add EdgeIndex OtherEdge.EdgeIndex found.2)
      else
        if found.1 then (found.2, st.2.Add EdgeIndex OtherEdge.EdgeIndex found.2)
        else (found.2, st.2)

/-- `FindOverlappingEdges`: the intersections after the edge `EdgeIndex` has
been tested against the proxies its box meets. -/
def FindOverlappingEdges (ops : FIntersectionOps) (I : FEdgeEdgeIntersections)
    (EdgeIndex : Int) : FEdgeEdgeIntersections :=
  match getAt I.Edges EdgeIndex with
  | none => I
  | some Edge =>
    let IOIndices :=
      if !I.bEnableSelfIntersection then
        I.EdgesCompounds.GetIOIndices (ops.GetRootIndex Edge.EdgeIndex) []
      else []
    ((I.Octree Edge.Box).foldl (ProcessEdge ops EdgeIndex Edge IOIndices) (FEESplit.ctor, I)).2

/-- What `FindOverlappingEdges` maintains while it tests the edge `EdgeIndex`
of `I` without self-intersection: the compounds, the flag and the proxies
stay as they are, and every crossing added joins `EdgeIndex` to an edge whose
compound shares no IO index with the compound of the tested edge. -/
def OverlapInv (ops : FIntersectionOps) (I : FEdgeEdgeIntersections) (EdgeIndex : Int)
    (Edge : FEdgeEdgeProxy) (J : FEdgeEdgeIntersections) : Prop :=
  J.EdgesCompounds = I.EdgesCompounds ∧ J.bEnableSelfIntersection = I.bEnableSelfIntersection ∧
  J.Edges = I.Edges ∧
  ∃ added, J.Crossings = I.Crossings ++ added ∧
    ∀ c ∈ added, c.EdgeA = EdgeIndex ∧
      ¬ PCGExData.FIdxCompoundList.SharesIOIndex I.EdgesCompounds (ops.GetRootIndex c.EdgeB)
          I.EdgesCompounds (ops.GetRootIndex Edge.EdgeIndex)

end PCGExGraph

/-! ### Contour tracing (PCGExPathfindingFindContours.cpp) -/

/-- `EPCGExContourShapeTypeOutput`. -/
inductive EPCGExContourShapeTypeOutput where
  | Both
  | ConvexOnly
  | ConcaveOnly
  deriving DecidableEq, Repr

namespace PCGExFindContours

open PCGExCluster

/-- The settings of `UPCGExFindContoursSettings` that `TryFindContours`
reads (seed picking is part of `FContourOps`). -/
structure FSettings where
  bDedupePaths : Bool
  bDuplicateDeadEndPoints : Bool
  OutputType : EPCGExContourShapeTypeOutput
  bKeepOnlyGracefulContours : Bool
  bFlagDeadEnds : Bool
  bTagConcave : Bool
  bTagConvex : Bool
  ConcaveTag : String
  ConvexTag : String

/-- The functions `TryFindContours` calls whose bodies are not part of the
sources: `FCluster::FindClosestNode` (for the configured picking method, with
the position and the minimum number of neighbours), `FCluster::FindClosestEdge`,
`SeedPicking.WithinDistance`, the engine's `GetSafeNormal`,
`PCGExMath::GetDegreesBetweenVectors` and `PCGExMath::CheckConvex` (which
gets `bIsConvex` and `Sign` and returns their new values). -/
structure FContourOps where
  FindClosestNode : FCluster → FVector → Int → Int
  FindClosestEdge : FCluster → Int → FVector → Int
  WithinDistance : FVector → FVector → Bool
  GetSafeNormal : FVector → FVector
  GetDegreesBetweenVectors : FVector → FVector → ℚ
  CheckConvex : FVector → FVector → FVector → Bool × Int → Bool × Int

/-- The number of adjacency entries of the node at an index
(`(Cluster->Nodes->GetData() + Index)->Adjacency.Num()`); 0 outside the
array. -/
def AdjacencyNum (c : FCluster) (Index : Int) : Nat :=
  match c.GetNode Index with
  | some n => n.Adjacency.length
  | none => 0

/-- The cached position of the node at an index; zero outside the array. -/
def NodePosition (c : FCluster) (Index : Int) : FVector :=
  match c.GetNode Index with
  | some n => n.Position
  | none => FVector.ZeroVector

/-- The projected position of the point of the node at an index
(`Positions[(Cluster->Nodes->GetData() + Index)->PointIndex]`); zero outside
the arrays. -/
def ProjectedPosition (c : FCluster) (Positions : List FVector) (Index : Int) : FVector :=
  match c.GetNode Index with
  | some n => (PCGExGraph.getAt Positions n.PointIndex).getD FVector.ZeroVector
  | none => FVector.ZeroVector

/-- Modelled from the spec: the neighbours of an expanded node
(`FExpandedNode::Neighbors`, PCGExCluster.h is not part of the sources): the
node indices the adjacency entries of the node point to, in adjacency
order. -/
def Neighbors (c : FCluster) (Index : Int) : List Int :=
  match c.GetNode Index with
  | some n => n.Adjacency.map (fun h => ((PCGEx.H64A h : Nat) : Int))
  | none => []

/-- Modelled from the spec: `FExpandedEdge::OtherNodeIndex` (PCGExCluster.h is
not part of the sources), the endpoint of the edge that is not the given one,
as `FEdge::Other` of PCGExEdge.h; -1 outside the edge array. -/
def OtherNodeIndex (c : FCluster) (EdgeIndex : Int) (NodeIndex : Int) : Int :=
  match c.GetEdge EdgeIndex with
  | some e => if (e.Start : Int) == NodeIndex then (e.End : Int) else (e.Start : Int)
  | none => -1

/-- Modelled from the spec: `PCGEx::SameSet` (PCGEx.h is not part of the
sources): the two sets have the same elements. -/
def SameSet (A B : List Int) : Bool :=
  A.length == B.length && A.all (fun a => B.contains a)

/-- `TSet::Add`. -/
def SetAdd {α : Type} [BEq α] (s : List α) (a : α) : List α :=
  if s.contains a then s else s ++ [a]

/-- `TArray::Last(IndexFromTheEnd)`; -1 outside the array. -/
def Last (Path : List Int) (IndexFromTheEnd : Nat) : Int :=
  if IndexFromTheEnd < Path.length then Path.getD (Path.length - 1 - IndexFromTheEnd) (-1)
  else -1

/-- The local variables of the `while` loop of `TryFindContours`. -/
structure FWalk where
  StartNodeIndex : Int
  PrevIndex : Int
  NextIndex : Int
  Path : List Int
  PathUniqueSet : List Int
  Exclusions : List Int
  bIsConvex : Bool
  Sign : Int
  bGracefullyClosed : Bool
  deriving DecidableEq, Repr

/-- The `for` loop over the neighbours of the current node: the running
`(BestAngle, NextBest, bGracefullyClosed)`. An excluded neighbour is passed
over; meeting the start node closes the contour and leaves the loop. -/
def ScanNeighbors (ops : FContourOps) (c : FCluster) (Positions : List FVector)
    (Exclusions : List Int) (StartNodeIndex : Int) (Origin GuideDir : FVector) :
    List Int → ℚ × Int × Bool → ℚ × Int × Bool
  | [], acc => acc
  | NeighborIndex :: rest, (BestAngle, NextBest, bGracefullyClosed) =>
    if Exclusions.contains NeighborIndex then
      ScanNeighbors ops c Positions Exclusions StartNodeIndex Origin GuideDir rest
        (BestAngle, NextBest, bGracefullyClosed)
    else if NeighborIndex == StartNodeIndex then (BestAngle, -1, true)
    else
      let OtherDir :=
        ops.GetSafeNormal (FVector.sub Origin (ProjectedPosition c Positions NeighborIndex))
      let Angle := ops.GetDegreesBetweenVectors OtherDir GuideDir
      if Angle > BestAngle then
        ScanNeighbors ops c Positions Exclusions StartNodeIndex Origin GuideDir rest
          (Angle, NeighborIndex, bGracefullyClosed)
      else
        ScanNeighbors ops c Positions Exclusions StartNodeIndex Origin GuideDir rest
          (BestAngle, NextBest, bGracefullyClosed)

/-- One turn of the `while` loop, entered with `NextIndex != -1`: `none` when
the body returns `false` (a concave turn with `ConvexOnly`, tested right after
`CheckConvex` has run), the new locals otherwise. -/
def WalkStep (ops : FContourOps) (S : FSettings) (c : FCluster) (Positions : List FVector)
    (w : FWalk) : Option FWalk :=
  let Path1 := w.Path ++ [w.NextIndex]
  let PathUniqueSet := SetAdd w.PathUniqueSet w.NextIndex
  let CurrentNeighbors := Neighbors c w.NextIndex
  let Path2 :=
    if CurrentNeighbors.length == 1 && S.bDuplicateDeadEndPoints then Path1 ++ [w.NextIndex]
    else Path1
  let Origin := ProjectedPosition c Positions w.NextIndex
  let GuideDir :=
    ops.GetSafeNormal (FVector.sub Origin (ProjectedPosition c Positions w.PrevIndex))
  let Exclusions :=
    if CurrentNeighbors.length > 1 then SetAdd w.Exclusions w.PrevIndex else w.Exclusions
  let scan := ScanNeighbors ops c Positions Exclusions w.StartNodeIndex Origin GuideDir
    CurrentNeighbors (-1, -1, w.bGracefullyClosed)
  let NextBest := scan.2.1
  let bGracefullyClosed := scan.2.2
  if NextBest != -1 then
    let bCheck := S.OutputType != EPCGExContourShapeTypeOutput.Both && Path2.length > 2
    let convex :=
      if bCheck then
        ops.CheckConvex (NodePosition c (Last Path2 2)) (NodePosition c (Last Path2 1))
          (NodePosition c (Last Path2 0)) (w.bIsConvex, w.Sign)
      else (w.bIsConvex, w.Sign)
    if bCheck && !convex.1 && S.OutputType == EPCGExContourShapeTypeOutput.ConvexOnly then none
    else
      some
        { StartNodeIndex := w.StartNodeIndex, PrevIndex := w.NextIndex, NextIndex := NextBest
          Path := Path2, PathUniqueSet := PathUniqueSet, Exclusions := []
          bIsConvex := convex.1, Sign := convex.2, bGracefullyClosed := bGracefullyClosed }
  else
    some
      { StartNodeIndex := w.StartNodeIndex, PrevIndex := w.PrevIndex, NextIndex := -1
        Path := Path2, PathUniqueSet := PathUniqueSet, Exclusions := []
        bIsConvex := w.bIsConvex, Sign := w.Sign, bGracefullyClosed := bGracefullyClosed }

/-- The `while (NextIndex != -1)` loop, with fuel: `none` when the fuel runs
out, `some none` when the body returns `false`, `some (some w)` when the loop
ends with the locals `w`. -/
def WalkLoop (ops : FContourOps) (S : FSettings) (c : FCluster) (Positions : List FVector) :
    Nat → FWalk → Option (Option FWalk)
  | 0, _ => none
  | fuel + 1, w =>
    if w.NextIndex == -1 then some (some w)
    else
      match WalkStep ops S c Positions w with
      | none => some none
      | some w2 => WalkLoop ops S c Positions fuel w2

/-- `Path` once the current node has been added (twice at a dead end when
`bDuplicateDeadEndPoints` is set): the path `WalkStep` goes on with. -/
def StepPath (S : FSettings) (c : FCluster) (w : FWalk) : List Int :=
  if (Neighbors c w.NextIndex).length == 1 && S.bDuplicateDeadEndPoints then
    (w.Path ++ [w.NextIndex]) ++ [w.NextIndex]
  else w.Path ++ [w.NextIndex]

/-- `Exclusions` when the neighbours of the current node are scanned: the
previous node is added when the current node has more than one neighbour. -/
def StepExclusions (c : FCluster) (w : FWalk) : List Int :=
  if (Neighbors c w.NextIndex).length > 1 then SetAdd w.Exclusions w.PrevIndex else w.Exclusions

/-- The neighbour scan of `WalkStep`: `(BestAngle, NextBest, bGracefullyClosed)`
after the `for` loop over the neighbours of the current node. -/
def StepScan (ops : FContourOps) (c : FCluster) (Positions : List FVector) (w : FWalk) :
    ℚ × Int × Bool :=
  ScanNeighbors ops c Positions (StepExclusions c w) w.StartNodeIndex
    (ProjectedPosition c Positions w.NextIndex)
    (ops.GetSafeNormal (FVector.sub (ProjectedPosition c Positions w.NextIndex)
      (ProjectedPosition c Positions w.PrevIndex)))
    (Neighbors c w.NextIndex) (-1, -1, w.bGracefullyClosed)

/-- The angle `WalkStep` computes for a neighbour of the current node:
between the direction from the neighbour to the current node and the incoming
direction. -/
def StepAngle (ops : FContourOps) (c : FCluster) (Positions : List FVector) (w : FWalk)
    (NeighborIndex : Int) : ℚ :=
  ops.GetDegreesBetweenVectors
    (ops.GetSafeNormal (FVector.sub (ProjectedPosition c Positions w.NextIndex)
      (ProjectedPosition c Positions NeighborIndex)))
    (ops.GetSafeNormal (FVector.sub (ProjectedPosition c Positions w.NextIndex)
      (ProjectedPosition c Positions w.PrevIndex)))

/-- The viable neighbours at a step: the neighbours of the current node that
the scan does not pass over as excluded, in adjacency order. -/
def Viable (c : FCluster) (w : FWalk) : List Int :=
  (Neighbors c w.NextIndex).filter (fun n => !(StepExclusions c w).contains n)

/-- The sets of the cluster processor that `TryFindContours` updates. -/
structure FProcessorState where
  ExistingStartPairs : List Nat
  ExistingPaths : List (List Int)
  deriving DecidableEq, Repr

/-- What one call of `TryFindContours` leaves behind: the returned flag, the
sets of the processor, the points, dead-end values (when written) and tags of
the path output, and the last values of the locals `Path`,
`bGracefullyClosed`, `bIsConvex` and `Sign`. -/
structure FContourResult (P : Type) where
  bResult : Bool
  Processor : FProcessorState
  MutablePoints : List P
  DeadEndValues : Option (List Bool)
  RawTags : List String
  Path : List Int
  bGracefullyClosed : Bool
  bIsConvex : Bool
  Sign : Int
  deriving DecidableEq

/-- A `return false` of `TryFindContours`: nothing is written to the path
output. -/
def Reject {P : Type} (Processor : FProcessorState) (RawTags : List String) (Path : List Int)
    (bGracefullyClosed bIsConvex : Bool) (Sign : Int) : FContourResult P :=
  { bResult := false, Processor := Processor, MutablePoints := [], DeadEndValues := none
    RawTags := RawTags, Path := Path, bGracefullyClosed := bGracefullyClosed
    bIsConvex := bIsConvex, Sign := Sign }

/-- The end of `TryFindContours`, once the contour is accepted: the points
of the path are copied from the vertex points, the dead-end attribute is
written when `bFlagDeadEnds` is set, the shape tag is added. The forwarding
of seed attributes and tags is left to the host. -/
def EmitPath {P : Type} [Inhabited P] (S : FSettings) (c : FCluster) (OriginPoints : List P)
    (Processor : FProcessorState) (RawTags : List String) (w : FWalk) : FContourResult P :=
  let VtxPointIndices := c.Nodes.map (fun n => n.PointIndex)
  { bResult := true
    Processor := Processor
    MutablePoints := w.Path.map (fun v =>
      (PCGExGraph.getAt OriginPoints
        ((PCGExGraph.getAt VtxPointIndices v).getD (-1))).getD default)
    DeadEndValues :=
      if S.bFlagDeadEnds then some (w.Path.map (fun v => decide (AdjacencyNum c v = 1)))
      else none
    RawTags :=
      if w.Sign != 0 then
        let Tags1 := if S.bTagConcave && !w.bIsConvex then RawTags ++ [S.ConcaveTag] else RawTags
        if S.bTagConvex && w.bIsConvex then Tags1 ++ [S.ConvexTag] else Tags1
      else RawTags
    Path := w.Path
    bGracefullyClosed := w.bGracefullyClosed
    bIsConvex := w.bIsConvex
    Sign := w.Sign }

/-- Lines 58 to 73 of `TryFindContours`: the first two nodes of the walk,
`(PrevIndex, NextIndex)`. The walk starts at the start node along the start
edge; when the sanity angle exceeds 180 the two nodes are swapped. In both
cases `StartNodeIndex` ends up equal to `PrevIndex`. -/
def OrientStart (ops : FContourOps) (c : FCluster) (Guide : FVector)
    (StartNodeIndex NextEdge : Int) : Int × Int :=
  let PrevIndex := StartNodeIndex
  let NextIndex := OtherNodeIndex c NextEdge PrevIndex
  let A := NodePosition c PrevIndex
  let B := NodePosition c NextIndex
  let SanityAngle := ops.GetDegreesBetweenVectors (ops.GetSafeNormal (FVector.sub B A))
    (ops.GetSafeNormal (FVector.sub B Guide))
  if SanityAngle > 180 then (NextIndex, StartNodeIndex) else (PrevIndex, NextIndex)

/-- The key of the first two nodes in `ExistingStartPairs`. -/
def StartHash (PrevIndex NextIndex : Int) : Nat :=
  PCGEx.H64 (PCGEx.toUInt32 PrevIndex) (PCGEx.toUInt32 NextIndex)

/-- Lines 75 to 84: with `bDedupePaths`, the start pair is added to
`ExistingStartPairs`. -/
def RecordStart (S : FSettings) (Processor : FProcessorState) (Hash : Nat) : FProcessorState :=
  if S.bDedupePaths then
    { Processor with ExistingStartPairs := SetAdd Processor.ExistingStartPairs Hash }
  else Processor

/-- Lines 174 to 177: with `bDedupePaths`, the node set of the path is added
to `ExistingPaths`. -/
def RecordPath (S : FSettings) (Processor : FProcessorState) (PathUniqueSet : List Int) :
    FProcessorState :=
  if S.bDedupePaths then
    { Processor with ExistingPaths := Processor.ExistingPaths ++ [PathUniqueSet] }
  else Processor

/-- Lines 86 to 95: the locals before the `while` loop. -/
def InitialWalk (PrevIndex NextIndex : Int) : FWalk :=
  { StartNodeIndex := PrevIndex, PrevIndex := PrevIndex, NextIndex := NextIndex
    Path := [PrevIndex], PathUniqueSet := [PrevIndex]
    Exclusions := SetAdd [PrevIndex] NextIndex
    bIsConvex := true, Sign := 0, bGracefullyClosed := false }

/-- Lines 158 to 209: what happens once the loop has ended with the locals
`w`: the contour is rejected when it is not graceful though that is required,
when it is convex though only concave ones are wanted, or when its node set
is already recorded; otherwise it is recorded and emitted. -/
def Finish {P : Type} [Inhabited P] (S : FSettings) (c : FCluster) (OriginPoints : List P)
    (RawTags : List String) (Processor : FProcessorState) (w : FWalk) : FContourResult P :=
  if (S.bKeepOnlyGracefulContours && !w.bGracefullyClosed)
      || (w.bIsConvex && S.OutputType == EPCGExContourShapeTypeOutput.ConcaveOnly) then
    Reject Processor RawTags w.Path w.bGracefullyClosed w.bIsConvex w.Sign
  else if S.bDedupePaths
      && Processor.ExistingPaths.any (fun ExistingPathSet =>
        SameSet w.PathUniqueSet ExistingPathSet) then
    Reject Processor RawTags w.Path w.bGracefullyClosed w.bIsConvex w.Sign
  else EmitPath S c OriginPoints (RecordPath S Processor w.PathUniqueSet) RawTags w

/-- What follows the loop, for each of its outcomes: out of fuel, `return
false` from its body, or its end. -/
def AfterLoop {P : Type} [Inhabited P] (S : FSettings) (c : FCluster) (OriginPoints : List P)
    (RawTags : List String) (Processor : FProcessorState) :
    Option (Option FWalk) → Option (FContourResult P)
  | none => none
  | some none => some (Reject Processor RawTags [] false false 0)
  | some (some w) => some (Finish S c OriginPoints RawTags Processor w)

/-- `ProjectedSeeds[SeedIndex]`, the guide of the walk; zero outside the
array. -/
def SeedGuide (ProjectedSeeds : List FVector) (SeedIndex : Int) : FVector :=
  (PCGExGraph.getAt ProjectedSeeds SeedIndex).getD FVector.ZeroVector

/-- `FPCGExFindContoursContext::TryFindContours` for the seed `SeedIndex`,
with fuel for the `while` loop (`none` when it runs out). -/
def TryFindContours {P : Type} [Inhabited P] (ops : FContourOps) (S : FSettings)
    (c : FCluster) (Positions ProjectedSeeds : List FVector) (OriginPoints : List P)
    (RawTags : List String) (Processor : FProcessorState) (SeedIndex : Int) (fuel : Nat) :
    Option (FContourResult P) :=
  let Guide := SeedGuide ProjectedSeeds SeedIndex
  let StartNodeIndex := ops.FindClosestNode c Guide 2
  let NextEdge := ops.FindClosestEdge c StartNodeIndex Guide
  if StartNodeIndex == -1 || NextEdge == -1 || decide (AdjacencyNum c StartNodeIndex ≤ 1) then
    some (Reject Processor RawTags [] false true 0)
  else if !ops.WithinDistance (NodePosition c StartNodeIndex) Guide then
    some (Reject Processor RawTags [] false true 0)
  else
    let Start := OrientStart ops c Guide StartNodeIndex NextEdge
    if S.bDedupePaths && Processor.ExistingStartPairs.contains (StartHash Start.1 Start.2) then
      some (Reject Processor RawTags [] false true 0)
    else
      AfterLoop S c OriginPoints RawTags (RecordStart S Processor (StartHash Start.1 Start.2))
        (WalkLoop ops S c Positions fuel (InitialWalk Start.1 Start.2))

/-- The start node of `TryFindContours` for a seed: the closest node with at
least two neighbours (line 39). -/
def StartNode (ops : FContourOps) (c : FCluster) (ProjectedSeeds : List FVector)
    (SeedIndex : Int) : Int :=
  ops.FindClosestNode c (SeedGuide ProjectedSeeds SeedIndex) 2

/-- The start edge of `TryFindContours` for a seed (line 40). -/
def StartEdge (ops : FContourOps) (c : FCluster) (ProjectedSeeds : List FVector)
    (SeedIndex : Int) : Int :=
  ops.FindClosestEdge c (StartNode ops c ProjectedSeeds SeedIndex)
    (SeedGuide ProjectedSeeds SeedIndex)

/-- The locals with which `TryFindContours` enters its `while` loop for a
seed, once the start node and edge are found and oriented. -/
def StartWalk (ops : FContourOps) (c : FCluster) (ProjectedSeeds : List FVector)
    (SeedIndex : Int) : FWalk :=
  InitialWalk
    (OrientStart ops c (SeedGuide ProjectedSeeds SeedIndex)
      (StartNode ops c ProjectedSeeds SeedIndex) (StartEdge ops c ProjectedSeeds SeedIndex)).1
    (OrientStart ops c (SeedGuide ProjectedSeeds SeedIndex)
      (StartNode ops c ProjectedSeeds SeedIndex) (StartEdge ops c ProjectedSeeds SeedIndex)).2

/-- A sequence of calls of `TryFindContours` on one cluster processor, one
per seed index of the list, each on a fresh path output: the results of the
calls and the processor after the last one (`none` when a call runs out of
fuel). -/
def RunSeeds {P : Type} [Inhabited P] (ops : FContourOps) (S : FSettings)
    (c : FCluster) (Positions ProjectedSeeds : List FVector) (OriginPoints : List P)
    (RawTags : List String) (fuel : Nat) :
    List Int → FProcessorState → Option (List (FContourResult P) × FProcessorState)
  | [], Processor => some ([], Processor)
  | SeedIndex :: rest, Processor =>
    match TryFindContours ops S c Positions ProjectedSeeds OriginPoints RawTags Processor
        SeedIndex fuel with
    | none => none
    | some out =>
      match RunSeeds ops S c Positions ProjectedSeeds OriginPoints RawTags fuel rest
          out.Processor with
      | none => none
      | some r => some (out :: r.1, r.2)

/-- The loop of `FProcessor::CompleteWork` for a trivial processor: one call
per projected seed, in index order. -/
def CompleteWork {P : Type} [Inhabited P] (ops : FContourOps) (S : FSettings)
    (c : FCluster) (Positions ProjectedSeeds : List FVector) (OriginPoints : List P)
    (RawTags : List String) (fuel : Nat) (Processor : FProcessorState) :
    Option (List (FContourResult P) × FProcessorState) :=
  RunSeeds ops S c Positions ProjectedSeeds OriginPoints RawTags fuel
    ((List.range ProjectedSeeds.length).map Int.ofNat) Processor

/-- The cluster is a single simple cycle of `n` nodes: `f` lists its nodes
in cycle order (`f i` for every integer `i`, with period `n`), each node
index once per period and all of them, and the neighbours of `f i` are
exactly `f (i - 1)` and `f (i + 1)`, in either order. -/
def IsSimpleCycle (c : FCluster) (n : Nat) (f : Int → Int) : Prop :=
  3 ≤ n ∧ c.Nodes.length = n ∧
  (∀ i, f (i + n) = f i) ∧
  (∀ i, 0 ≤ f i ∧ f i < n) ∧
  (∀ i j, f i = f j → (n : Int) ∣ (i - j)) ∧
  (∀ v : Int, 0 ≤ v → v < n → ∃ i, f i = v) ∧
  (∀ i, Neighbors c (f i) = [f (i - 1), f (i + 1)] ∨
        Neighbors c (f i) = [f (i + 1), f (i - 1)])

/-! #### Stand-ins for the missing functions, used by the evaluations -/

/-- Modelled from the spec: `FCluster::FindClosestNode`, the index of the
node nearest to the position among the nodes with at least `MinNeighbors`
adjacency entries (the first one on ties), -1 when there is none. -/
def SpecFindClosestNode (c : FCluster) (Position : FVector) (MinNeighbors : Int) : Int :=
  (c.Nodes.foldl
    (fun (best : Int × ℚ) (Node : FNode) =>
      if (Node.Adjacency.length : Int) < MinNeighbors then best
      else
        let Dist := FVector.DistSquared Position Node.Position
        if best.1 == -1 || Dist < best.2 then (Node.NodeIndex, Dist) else best)
    (-1, 0)).1

/-- Modelled from the spec: `FCluster::FindClosestEdge`, restricted to the
adjacency of the node: the edge whose opposite endpoint is closest to the
position (the first one on ties), -1 when the node has no valid edge. -/
def SpecFindClosestEdge (c : FCluster) (NodeIndex : Int) (Position : FVector) : Int :=
  match c.GetNode NodeIndex with
  | none => -1
  | some Node =>
    (Node.Adjacency.foldl
      (fun (best : Int × ℚ) (h : Nat) =>
        match c.GetEdge (PCGEx.H64B h : Nat) with
        | none => best
        | some e =>
          if !e.bValid then best
          else
            let Dist := FVector.DistSquared Position (NodePosition c (PCGEx.H64A h : Nat))
            if best.1 == -1 || Dist < best.2 then (((PCGEx.H64B h : Nat) : Int), Dist) else best)
      (-1, 0)).1

/-- Modelled from the spec: `SeedPicking.WithinDistance`, the node lies
within the pick radius of the seed. -/
def SpecWithinDistance (MaxDistance : ℚ) (NodePosition TargetPosition : FVector) : Bool :=
  decide (FVector.DistSquared NodePosition TargetPosition < MaxDistance ^ 2)

/-- Modelled from the spec: `PCGExMath::CheckConvex`, the turn at three
consecutive path points is tested for a consistent sign of the cross product
(in the working plane); the first turn sets the sign, a turn of the other
sign makes the path concave. -/
def SpecCheckConvex (A B C : FVector) (st : Bool × Int) : Bool × Int :=
  if !st.1 then st
  else
    let DP := (B.X - A.X) * (C.Y - B.Y) - (B.Y - A.Y) * (C.X - B.X)
    let CurrentSign : Int := if DP > 0 then 1 else if DP < 0 then -1 else 0
    if CurrentSign == 0 then st
    else if st.2 == 0 then (true, CurrentSign)
    else if st.2 != CurrentSign then (false, st.2)
    else st

/-- Modelled from the spec: `PCGExMath::GetDegreesBetweenVectors`, the angle
from the first direction to the second one about the up axis, in
`[0, 360)`. The degrees are replaced by a rational measure of the angle that
does not depend on the lengths of the vectors, agrees with the degrees at the
multiples of 45 and is increasing in between; the tracer only compares
angles. -/
def SpecDegreesBetweenVectors (A B : FVector) : ℚ :=
  let d := A.X * B.X + A.Y * B.Y + A.Z * B.Z
  let k := A.X * B.Y - A.Y * B.X
  if d = 0 ∧ k = 0 then 0
  else if 0 ≤ k then
    if 0 ≤ d then 90 * k / (d + k) else 90 + 90 * (-d) / (k - d)
  else
    if d < 0 then 180 + 90 * (-k) / (-d - k) else 270 + 90 * d / (d - k)

/-- The stand-ins together; directions are left unnormalised, which the
angle measure above does not see. -/
def SpecOps (MaxDistance : ℚ) : FContourOps :=
  { FindClosestNode := SpecFindClosestNode
    FindClosestEdge := SpecFindClosestEdge
    WithinDistance := SpecWithinDistance MaxDistance
    GetSafeNormal := fun v => v
    GetDegreesBetweenVectors := SpecDegreesBetweenVectors
    CheckConvex := SpecCheckConvex }

/-- The stand-ins with a `CheckConvex` that only counts its calls in `Sign`
and leaves `bIsConvex` alone. -/
def CountingOps (MaxDistance : ℚ) : FContourOps :=
  { SpecOps MaxDistance with CheckConvex := fun _ _ _ st => (st.1, st.2 + 1) }

/-- The turn at `B` on the way from `A` to `C`: the cross product of the two
steps in the working plane (positive to the left, negative to the right). -/
def TurnCross (A B C : FVector) : ℚ :=
  (B.X - A.X) * (C.Y - B.Y) - (B.Y - A.Y) * (C.X - B.X)

/-- Default settings: no deduplication, both shapes, nothing flagged. -/
def DefaultSettings : FSettings :=
  { bDedupePaths := false, bDuplicateDeadEndPoints := false
    OutputType := EPCGExContourShapeTypeOutput.Both, bKeepOnlyGracefulContours := false
    bFlagDeadEnds := false, bTagConcave := false, bTagConvex := false
    ConcaveTag := "Concave", ConvexTag := "Convex" }

end PCGExFindContours

/-! ### The point filter manager (PCGExPointFilter.cpp) -/

namespace PCGExPointFilter

/-- A filter factory as `TManager` sees it: its `Priority` and the result of
the (virtual) `Init` of the filter it creates on the manager's facade. -/
structure FFilterFactory where
  Priority : Int
  bInitResult : Bool
  deriving DecidableEq, Repr

/-- `TManager` after initialisation: `bValid` and the managed filters, each
with the `FilterIndex` it was given. -/
structure TManager where
  bValid : Bool
  ManagedFilters : List (FFilterFactory × Nat)
  deriving DecidableEq, Repr

/-- `TManager::PostInit` on the filters added so far: the returned flag and
the manager. The sort keeps the order of equal priorities (any order among
them would do). -/
def TManager.PostInit (ManagedFilters : List FFilterFactory) : Bool × TManager :=
  if ManagedFilters.isEmpty then (false, { bValid := false, ManagedFilters := [] })
  else
    let Sorted := ManagedFilters.insertionSort (fun A B => A.Priority ≤ B.Priority)
    (true, { bValid := true, ManagedFilters := Sorted.zip (List.range Sorted.length) })

/-- `TManager::Init`: a filter whose `InitFilter` fails is passed over
(`continue`), the others are added in the order of the factories. -/
def TManager.Init (InFactories : List FFilterFactory) : Bool × TManager :=
  TManager.PostInit (InFactories.filter (fun Factory => Factory.bInitResult))

end PCGExPointFilter

/-! ### The data filter manager (PCGExDataFilter.h) -/

namespace PCGExDataFilter

/-- A filter definition as `TFilterManager::Register` sees it: its
`Priority` and the `bValid` of the handler it creates once the capture
function has run on it. -/
structure FFilterDefinition where
  Priority : Int
  bValidAfterCapture : Bool
  deriving DecidableEq, Repr

/-- `TFilterManager`: `bValid` and the handlers, each with its `Index`. -/
structure TFilterManager where
  bValid : Bool
  Handlers : List (FFilterDefinition × Nat)
  deriving DecidableEq, Repr

/-- `TFilterManager(InPointIO)`: no handler, `bValid = false`. -/
def TFilterManager.ctor : TFilterManager := { bValid := false, Handlers := [] }

/-- `TFilterManager::Register`: the handlers that are valid after capture
are added to `Handlers`; the manager is valid when it has a handler, and then
all handlers are sorted by priority and indexed. Without a handler the
function returns before sorting. -/
def TFilterManager.Register (m : TFilterManager) (InDefinitions : List FFilterDefinition) :
    TFilterManager :=
  let Handlers :=
    m.Handlers ++ (InDefinitions.filter (fun Def => Def.bValidAfterCapture)).map (fun Def => (Def, 0))
  if Handlers.isEmpty then { bValid := false, Handlers := Handlers }
  else
    let Sorted := Handlers.insertionSort (fun A B => A.1.Priority ≤ B.1.Priority)
    { bValid := true
      Handlers := (Sorted.map (fun Handler => Handler.1)).zip (List.range Sorted.length) }

end PCGExDataFilter

/-! ### Sanitization (PCGExRefineEdges.cpp) -/

namespace PCGExPointFilter

/-- `TManager::Test(const PCGExGraph::FIndexedEdge& Edge)`: every managed
filter must pass; the loop returns `false` at the first one that does not.
The (virtual) `Test` of each filter is an arbitrary predicate on the edge. -/
def TManager.Test (ManagedFilters : List (PCGExGraph.FIndexedEdge → Bool))
    (Edge : PCGExGraph.FIndexedEdge) : Bool :=
  ManagedFilters.all (fun Handler => Handler Edge)

end PCGExPointFilter

namespace PCGExRefineEdges

open PCGExCluster

/-- The body of the `Filters` sub-loop of `FProcessor::Sanitize` for the index
`i`: the edge is set valid when the sanitization filters pass on it. An index
outside the edge array, undefined in the source, is skipped. -/
def SanitizeEdge (SanitizationFilterManager : List (PCGExGraph.FIndexedEdge → Bool))
    (c : FCluster) (i : Nat) : FCluster :=
  match c.GetEdge (Int.ofNat i) with
  | none => c
  | some Edge =>
    if PCGExPointFilter.TManager.Test SanitizationFilterManager Edge then
      c.SetEdgeValid (Int.ofNat i) true
    else c

/-- `FProcessor::Sanitize`, as far as the cluster goes (the completion
callback then runs `InsertEdges`). Under the `Filters` policy the sub-loops
cover the indices `0 .. EdgeDataFacade->GetNum() - 1`; otherwise the range
tasks cover the nodes `0 .. NumNodes - 1`. -/
def Sanitize (MIN_dbl MAX_dbl : ℚ) (Sanitization : EPCGExRefineSanitization)
    (SanitizationFilterManager : List (PCGExGraph.FIndexedEdge → Bool))
    (NumEdgePoints NumNodes : Nat) (c : FCluster) : FCluster :=
  match Sanitization with
  | EPCGExRefineSanitization.Filters =>
    (List.range NumEdgePoints).foldl (SanitizeEdge SanitizationFilterManager) c
  | _ => FSanitizeRangeTask.ExecuteTask MIN_dbl MAX_dbl Sanitization 0 NumNodes c

end PCGExRefineEdges

/-! ### Vertex partitioning (PCGExPartitionVertices.cpp) -/

namespace PCGExPartitionVertices

open PCGExCluster

/-- An array write `A[i] = v` with an `int32` index; `none` outside the
array. -/
def setAt {α : Type} (l : List α) (i : Int) (v : α) : Option (List α) :=
  if i < 0 ∨ l.length ≤ i.toNat then none else some (l.set i.toNat v)

/-- `TMap::Add`: the value of the key is set, replacing an earlier one. -/
def MapAdd (m : Int → Option Int) (Key Value : Int) : Int → Option Int :=
  fun k => if k = Key then some Value else m k

/-- The `for` loop over the cluster nodes in `FProcessor::Process`, on the
remaining nodes: the nodes with their new `PointIndex`, `KeptIndices` and
`Remapping` (a `TMap`, here a partial function). In this file the endpoints
of a cluster edge are indices of vertex points, as the point index of a node
is. -/
def ProcessLoop : List FNode → List Int → (Int → Option Int) →
    Option (List FNode × List Int × (Int → Option Int))
  | [], KeptIndices, Remapping => some ([], KeptIndices, Remapping)
  | Node :: rest, KeptIndices, Remapping =>
    match setAt KeptIndices Node.NodeIndex Node.PointIndex with
    | none => none
    | some KeptIndices1 =>
      match ProcessLoop rest KeptIndices1 (MapAdd Remapping Node.PointIndex Node.NodeIndex) with
      | none => none
      | some r => some ({ Node with PointIndex := Node.NodeIndex } :: r.1, r.2.1, r.2.2)

/-- `FProcessor::ProcessSingleNode`: the output point of the node is the
input vertex point of the kept index. -/
def ProcessSingleNode {P : Type} (VtxPoints : List P) (KeptIndices : List Int)
    (MutablePoints : List P) (Node : FNode) : Option (List P) :=
  match PCGExGraph.getAt KeptIndices Node.NodeIndex with
  | none => none
  | some Kept =>
    match PCGExGraph.getAt VtxPoints Kept with
    | none => none
    | some Point => setAt MutablePoints Node.NodeIndex Point

/-- The loop over the nodes that `StartParallelLoopForNodes` runs. -/
def NodeLoop {P : Type} (VtxPoints : List P) (KeptIndices : List Int) :
    List FNode → List P → Option (List P)
  | [], MutablePoints => some MutablePoints
  | Node :: rest, MutablePoints =>
    match ProcessSingleNode VtxPoints KeptIndices MutablePoints Node with
    | none => none
    | some MutablePoints1 => NodeLoop VtxPoints KeptIndices rest MutablePoints1

/-- `FProcessor::ProcessSingleEdge`: both endpoints are looked up in
`Remapping` (`TMap::operator[]`, which fails on a missing key). -/
def ProcessSingleEdge (Remapping : Int → Option Int) (Edge : PCGExGraph.FIndexedEdge) :
    Option PCGExGraph.FIndexedEdge :=
  match Remapping (PCGEx.toInt32 Edge.Start), Remapping (PCGEx.toInt32 Edge.End) with
  | some NewStart, some NewEnd =>
    some { Edge with Start := PCGEx.toUInt32 NewStart, End := PCGEx.toUInt32 NewEnd }
  | _, _ => none

/-- The loop over the edges that `StartParallelLoopForEdges` runs. -/
def EdgeLoop (Remapping : Int → Option Int) :
    List PCGExGraph.FIndexedEdge → Option (List PCGExGraph.FIndexedEdge)
  | [] => some []
  | Edge :: rest =>
    match ProcessSingleEdge Remapping Edge with
    | none => none
    | some Edge1 =>
      match EdgeLoop Remapping rest with
      | none => none
      | some rest1 => some (Edge1 :: rest1)

/-- What the processor leaves behind: the cluster nodes and edges and the
points of the vertex partition. -/
structure FPartition (P : Type) where
  Nodes : List FNode
  Edges : List PCGExGraph.FIndexedEdge
  MutablePoints : List P
  deriving DecidableEq

/-- `FProcessor::Process` followed by the node loop and the edge loop.
`MutablePoints` and `KeptIndices` are sized to the number of nodes with
indeterminate content (`IndeterminatePoint`, `IndeterminateIndex`), and
`Remapping` starts empty. `none` when an array is accessed outside its bounds
or a key is missing from `Remapping`. -/
def Run {P : Type} (IndeterminatePoint : P) (IndeterminateIndex : Int) (VtxPoints : List P)
    (Nodes : List FNode) (Edges : List PCGExGraph.FIndexedEdge) : Option (FPartition P) :=
  match ProcessLoop Nodes (List.replicate Nodes.length IndeterminateIndex) (fun _ => none) with
  | none => none
  | some r =>
    match NodeLoop VtxPoints r.2.1 r.1 (List.replicate Nodes.length IndeterminatePoint) with
    | none => none
    | some MutablePoints =>
      match EdgeLoop r.2.2 Edges with
      | none => none
      | some Edges1 => some { Nodes := r.1, Edges := Edges1, MutablePoints := MutablePoints }

end PCGExPartitionVertices

/-! ### Packing edges into 64-bit values (PCGExEdge.h, PCGExGraph.h) -/

namespace PCGExGraph

/-- `ExpandHash64` of PCGExEdge.h: the two words, each cast to `int32` and
stored in a `uint32`. -/
def ExpandHash64 (Hash : Nat) : Nat × Nat :=
  (PCGEx.toUInt32 (PCGEx.toInt32 (Hash &&& 0xFFFFFFFF)),
   PCGEx.toUInt32 (PCGEx.toInt32 ((Hash >>> 32) &&& 0xFFFFFFFF)))

/-- `FEdge::operator uint64` of PCGExEdge.h: `Start` in the low word. -/
def FEdge.toUInt64 (e : FEdge) : Nat :=
  (e.Start % 2 ^ 64) ||| ((e.End <<< 32) % 2 ^ 64)

namespace Legacy

/-- `FEdge::operator uint64` of PCGExGraph.h: `Start` in the high word. -/
def FEdge.toUInt64 (e : FEdge) : Nat :=
  ((e.Start <<< 32) % 2 ^ 64) ||| (e.End % 2 ^ 64)

/-- `explicit FEdge(const uint64 InValue)` of PCGExGraph.h. -/
def FEdge.ctorPacked (InValue : Nat) : FEdge :=
  { Start := ((InValue >>> 32) &&& 0xFFFFFFFF) % 2 ^ 32
    End := (InValue &&& 0xFFFFFFFF) % 2 ^ 32
    EdgeType := EPCGExEdgeType.Unknown }

end Legacy

end PCGExGraph

/-! ### Collection facades (PCGExData.h) -/

namespace PCGExData

/-- How a run of `GetCollectionFacades` ends: it returns with `OutFacades`, or
it reads or writes an array at an index outside its bounds. -/
inductive FFacadesOutcome (F : Type) where
  | Returned (OutFacades : List F)
  | OutOfBounds (Index : Nat)
  deriving DecidableEq, Repr

/-- The `for (int i = 0; OutFacades.Num(); ++i)` loop of
`GetCollectionFacades`, from the index `i` on, with fuel (`none` when it runs
out). The loop condition is the number of facades, taken as a boolean. The
body reads `InCollection->Pairs[i]` and writes `OutFacades[i]`. -/
def GetCollectionFacadesLoop {E F : Type} (Pairs : List E) (NewFacade : E → F) :
    Nat → Nat → List F → Option (FFacadesOutcome F)
  | 0, _, _ => none
  | fuel + 1, i, OutFacades =>
    if OutFacades.length != 0 then
      match Pairs[i]? with
      | none => some (FFacadesOutcome.OutOfBounds i)
      | some Pair =>
        if i < OutFacades.length then
          GetCollectionFacadesLoop Pairs NewFacade fuel (i + 1) (OutFacades.set i (NewFacade Pair))
        else some (FFacadesOutcome.OutOfBounds i)
    else some (FFacadesOutcome.Returned OutFacades)

/-- `GetCollectionFacades`: `OutFacades` is emptied and sized to the number of
entries of the collection, with indeterminate content, then the loop runs. -/
def GetCollectionFacades {E F : Type} (Indeterminate : F) (Pairs : List E) (NewFacade : E → F)
    (fuel : Nat) : Option (FFacadesOutcome F) :=
  GetCollectionFacadesLoop Pairs NewFacade fuel 0 (List.replicate Pairs.length Indeterminate)

end PCGExData

/-! ### Breaking clusters into paths (PCGExBreakClustersToPaths.cpp) -/

namespace PCGExBreakClustersToPaths

open PCGExCluster

/-- One of the two `for (const FNode& Node : *Cluster->Nodes)` loops of
`FProcessor::Process`, on the remaining nodes: `Breakpoints[Node.NodeIndex]`
is set to the value the loop computes for the node (`Value`). A write outside
the array, undefined in the source, ends the run with `none`. -/
def BreakpointLoop (Value : FNode → Bool) : List FNode → List Bool → Option (List Bool)
  | [], Breakpoints => some Breakpoints
  | Node :: rest, Breakpoints =>
    (PCGExPartitionVertices.setAt Breakpoints Node.NodeIndex (Value Node)).bind
      (BreakpointLoop Value rest)

/-- The part of `FProcessor::Process` that fills `Breakpoints`.
`IsComplex` is `FNode::IsComplex`, whose body is not part of the sources;
`bFactoriesEmpty` is `Context->FilterFactories.IsEmpty()`, `bInit` the result
of `FilterManager->Init` (only asked for when there are factories) and `Test`
is `FilterManager->Test`. -/
def ProcessBreakpoints (IsComplex : FNode → Bool) (bFactoriesEmpty bInit : Bool)
    (Test : FNode → Bool) (Nodes : List FNode) : Option (List Bool) :=
  let Breakpoints := List.replicate Nodes.length false
  if !bFactoriesEmpty && bInit then
    BreakpointLoop (fun Node => if IsComplex Node then true else Test Node) Nodes Breakpoints
  else
    BreakpointLoop (fun Node => IsComplex Node) Nodes Breakpoints

end PCGExBreakClustersToPaths

namespace PCGExBreakClustersToPaths

open PCGExCluster

/-- Modelled from the spec: `PCGExCluster::FNodeChain` (PCGExCluster.h is not
part of the sources): the `First` and `Last` node indices and the ordered
interior node list. -/
structure FNodeChain where
  First : Int
  Last : Int
  Nodes : List Int
  deriving DecidableEq, Repr

/-- The settings `ProcessSingleRangeIteration` reads. -/
structure FPathSettings where
  MinPointCount : Int
  bOmitAbovePointCount : Bool
  MaxPointCount : Int
  deriving DecidableEq, Repr

/-- The direction settings as `ProcessSingleRangeIteration` uses them:
whether `DirectionMethod` is `EdgeDotAttribute`, and the two functions it
calls whose bodies are not part of the sources, `FNode::GetEdgeIndex` and
`SortEndpoints` for the cluster at hand (the flag it returns for the edge it
is given). -/
structure FDirectionSettings where
  bEdgeDotAttribute : Bool
  GetEdgeIndex : FNode → Int → Int
  SortEndpoints : PCGExGraph.FIndexedEdge → Bool

/-- What one call of `ProcessSingleRangeIteration` leaves: the node list of
the chain (reversed in place when the direction asks for it) and the points
of the path it emplaced, if any; a point is `none` while uninitialised. -/
structure FIterationResult (P : Type) where
  Nodes : List Int
  Path : Option (List (Option P))
  deriving DecidableEq, Repr

/-- The `for (const int32 NodeIndex : Chain->Nodes)` loop:
`MutablePoints[PointCount++] = PathIO->GetInPoint(VtxPointsIndicesRef[NodeIndex])`.
An access outside an array, undefined in the source, ends the run with
`none`. -/
def WriteNodes {P : Type} (VtxPointIndices : List Int) (InPoints : List P) :
    List Int → List (Option P) → Int → Option (List (Option P) × Int)
  | [], MutablePoints, PointCount => some (MutablePoints, PointCount)
  | NodeIndex :: rest, MutablePoints, PointCount =>
    (PCGExGraph.getAt VtxPointIndices NodeIndex).bind fun Idx =>
    (PCGExGraph.getAt InPoints Idx).bind fun Point =>
    (PCGExPartitionVertices.setAt MutablePoints PointCount (some Point)).bind fun M =>
    WriteNodes VtxPointIndices InPoints rest M (PointCount + 1)

/-- The `if (DirectionSettings.DirectionMethod == EdgeDotAttribute)` block
of `ProcessSingleRangeIteration`, which computes `bReverse`: `SortEndpoints`
is asked about an edge from `StartIdx` to `EndIdx`, whose index is that of
the edge from the node `First` to `Last` in the one case and `Iteration` in
the other. `none` when `First` is not a node of the cluster. -/
def SortChain (DirectionSettings : FDirectionSettings) (c : FCluster) (Chain : FNodeChain)
    (Iteration StartIdx EndIdx : Int) : Option Bool :=
  if DirectionSettings.bEdgeDotAttribute then
    (c.GetNode Chain.First).map fun Node =>
      DirectionSettings.SortEndpoints
        (PCGExGraph.FIndexedEdge.ctorIndexed
          (DirectionSettings.GetEdgeIndex Node Chain.Last) StartIdx EndIdx (-1))
  else
    some (DirectionSettings.SortEndpoints
      (PCGExGraph.FIndexedEdge.ctorIndexed Iteration StartIdx EndIdx (-1)))

/-- `FProcessor::ProcessSingleRangeIteration`. `Chains` holds a chain or a
null pointer at each index; `VtxPointIndices` is `*VtxPointIndicesCache` and
`InPoints` the input points `GetInPoint` reads. An access outside an array,
undefined in the source, ends the run with `none`; a null chain leaves
nothing. -/
def ProcessSingleRangeIteration {P : Type} (Settings : FPathSettings)
    (DirectionSettings : FDirectionSettings) (c : FCluster) (VtxPointIndices : List Int)
    (InPoints : List P) (Chains : List (Option FNodeChain)) (Iteration : Int) :
    Option (Option (FIterationResult P)) :=
  match PCGExGraph.getAt Chains Iteration with
  | none => none
  | some none => some none
  | some (some Chain) =>
    let ChainSize : Int := (Chain.Nodes.length : Int) + 2
    match PCGExGraph.getAt VtxPointIndices Chain.First,
        PCGExGraph.getAt VtxPointIndices Chain.Last with
    | some StartIdx, some EndIdx =>
      match SortChain DirectionSettings c Chain Iteration StartIdx EndIdx with
      | none => none
      | some bReverse =>
        let Nodes := if bReverse then Chain.Nodes.reverse else Chain.Nodes
        let StartIdx2 := if bReverse then EndIdx else StartIdx
        let EndIdx2 := if bReverse then StartIdx else EndIdx
        if ChainSize < Settings.MinPointCount then some (some { Nodes := Nodes, Path := none })
        else if Settings.bOmitAbovePointCount && decide (ChainSize > Settings.MaxPointCount) then
          some (some { Nodes := Nodes, Path := none })
        else
          let MutablePoints : List (Option P) := List.replicate ChainSize.toNat none
          (PCGExGraph.getAt InPoints StartIdx2).bind fun First =>
          (PCGExPartitionVertices.setAt MutablePoints 0 (some First)).bind fun M1 =>
          (WriteNodes VtxPointIndices InPoints Nodes M1 1).bind fun r =>
          (PCGExGraph.getAt InPoints EndIdx2).bind fun Last =>
          (PCGExPartitionVertices.setAt r.1 r.2 (some Last)).bind fun M2 =>
          some (some { Nodes := Nodes, Path := some M2 })
    | _, _ => none

/-- The input point of a node: `GetInPoint(VtxPointsIndicesRef[NodeIndex])`;
`none` when an index is outside its array. -/
def VtxPoint {P : Type} (VtxPointIndices : List Int) (InPoints : List P) (NodeIndex : Int) :
    Option P :=
  (PCGExGraph.getAt VtxPointIndices NodeIndex).bind (PCGExGraph.getAt InPoints)

/-- The nodes of a chain from end to end: `First`, the interior nodes in
order, `Last`. -/
def FNodeChain.Order (Chain : FNodeChain) : List Int :=
  Chain.First :: Chain.Nodes ++ [Chain.Last]

end PCGExBreakClustersToPaths

/-! ### The accesses of `TryFindContours` before its walk -/

namespace PCGExFindContours

open PCGExCluster

/-- An access `TryFindContours` makes on the cluster between its lines 40 and
63: a call of `FCluster::FindClosestNode`, a call of
`FCluster::FindClosestEdge` for a node index, or the indexing of the node
array, of the expanded edges or of the expanded nodes at an index. -/
inductive FStartAccess where
  | FindClosestNode
  | FindClosestEdge (NodeIndex : Int)
  | Nodes (Index : Int)
  | ExpandedEdges (Index : Int)
  | ExpandedNodes (Index : Int)
  deriving DecidableEq, Repr

/-- Lines 40 to 63 of `TryFindContours`, for the seed `SeedIndex`: the
accesses it makes, in order. Both lookups come first; the condition
`StartNodeIndex == -1 || NextEdge == -1 || ...Adjacency.Num() <= 1` is
evaluated from left to right and stops at its first true operand; the node
array is read again for the seed position, and the expanded edges and nodes
once the seed is within distance. -/
def StartAccesses (ops : FContourOps) (c : FCluster) (ProjectedSeeds : List FVector)
    (SeedIndex : Int) : List FStartAccess :=
  let Guide := SeedGuide ProjectedSeeds SeedIndex
  let StartNodeIndex := ops.FindClosestNode c Guide 2
  let NextEdge := ops.FindClosestEdge c StartNodeIndex Guide
  [FStartAccess.FindClosestNode, FStartAccess.FindClosestEdge StartNodeIndex] ++
    (if StartNodeIndex == -1 then []
    else if NextEdge == -1 then []
    else
      FStartAccess.Nodes StartNodeIndex ::
        (if AdjacencyNum c StartNodeIndex ≤ 1 then []
        else
          FStartAccess.Nodes StartNodeIndex ::
            (if !ops.WithinDistance (NodePosition c StartNodeIndex) Guide then []
            else
              [FStartAccess.ExpandedEdges NextEdge, FStartAccess.ExpandedNodes StartNodeIndex,
                FStartAccess.ExpandedNodes (OtherNodeIndex c NextEdge StartNodeIndex)])))

end PCGExFindContours

/-! ### The pruned Voronoi graph (PCGExBuildVoronoiGraph2D.cpp) -/

namespace FVector

/-- `operator+`. -/
def add (a b : FVector) : FVector := { X := a.X + b.X, Y := a.Y + b.Y, Z := a.Z + b.Z }

end FVector

namespace PCGExBuildVoronoi2D

open PCGExGraph PCGExPartitionVertices

/-- Modelled from the spec: `PCGExGeo::FDelaunaySite2` as `Process` reads it
(the Delaunay kernel is not part of the sources; the spec treats it as a
black box producing site and edge lists): the three vertex indices `Vtx[0]`,
`Vtx[1]`, `Vtx[2]` of a site. -/
structure FDelaunaySite2 where
  Vtx0 : Int
  Vtx1 : Int
  Vtx2 : Int
  deriving DecidableEq, Repr

/-- The arrays the first loop of the pruning branch works on: `SitesPositions`,
`RemappedIndices` and the locations of the output points `Centroids`. -/
structure FSiteLoopState where
  SitesPositions : List FVector
  RemappedIndices : List Int
  Centroids : List FVector
  deriving DecidableEq, Repr

/-- The loop `for (int i = 0; i < NumSites; i++)` of the pruning branch, with
`n` turns left at the index `i`: the circumcenter of the site becomes its
position; a site out of bounds is remapped to -1, a site within bounds to the
current number of output points, and a point with its location is emplaced.
An access outside an array, undefined in the source, ends the run with
`none`. The seed of the new point is left to the host. -/
def SiteLoop (Circumcenters : List FVector) (WithinBounds : List Bool) :
    Nat → Nat → FSiteLoopState → Option FSiteLoopState
  | 0, _, st => some st
  | n + 1, i, st =>
    (Circumcenters[i]?).bind fun Centroid =>
    (setAt st.SitesPositions (Int.ofNat i) Centroid).bind fun SitesPositions =>
    (WithinBounds[i]?).bind fun bWithin =>
    if !bWithin then
      (setAt st.RemappedIndices (Int.ofNat i) (-1)).bind fun RemappedIndices =>
      SiteLoop Circumcenters WithinBounds n (i + 1)
        { SitesPositions := SitesPositions, RemappedIndices := RemappedIndices
          Centroids := st.Centroids }
    else
      (setAt st.RemappedIndices (Int.ofNat i) (Int.ofNat st.Centroids.length)).bind
        fun RemappedIndices =>
      SiteLoop Circumcenters WithinBounds n (i + 1)
        { SitesPositions := SitesPositions, RemappedIndices := RemappedIndices
          Centroids := st.Centroids ++ [Centroid] }

/-- `DelaunaySitesLocations` and `DelaunaySitesInfluenceCount`. -/
structure FSiteAccum where
  DelaunaySitesLocations : List FVector
  DelaunaySitesInfluenceCount : List Int
  deriving DecidableEq, Repr

/-- The `UpdateSitePosition` lambda installed when sites are output:
`DelaunaySitesLocations[DelSiteIndex] += InCentroid` and
`DelaunaySitesInfluenceCount[DelSiteIndex] += 1`; `none` outside the
arrays. -/
def UpdateSitePosition (acc : FSiteAccum) (DelSiteIndex : Int) (InCentroid : FVector) :
    Option FSiteAccum :=
  (getAt acc.DelaunaySitesLocations DelSiteIndex).bind fun Location =>
  (setAt acc.DelaunaySitesLocations DelSiteIndex (Location.add InCentroid)).bind fun Locations =>
  (getAt acc.DelaunaySitesInfluenceCount DelSiteIndex).bind fun Count =>
  (setAt acc.DelaunaySitesInfluenceCount DelSiteIndex (Count + 1)).bind fun Counts =>
  some { DelaunaySitesLocations := Locations, DelaunaySitesInfluenceCount := Counts }

/-- The block `Site = Voronoi->Delaunay->Sites[H]; for (int i = 0; i < 3; i++)
UpdateSitePosition(Site.Vtx[i], SitesPositions[H])`; `none` outside the
arrays. -/
def UpdateSite (Sites : List FDelaunaySite2) (SitesPositions : List FVector) (H : Int)
    (acc : FSiteAccum) : Option FSiteAccum :=
  (getAt Sites H).bind fun Site =>
  (getAt SitesPositions H).bind fun Position =>
  (UpdateSitePosition acc Site.Vtx0 Position).bind fun a0 =>
  (UpdateSitePosition a0 Site.Vtx1 Position).bind fun a1 =>
  UpdateSitePosition a1 Site.Vtx2 Position

/-- What the edge loops work on: `ValidEdges` and the site accumulators. -/
structure FEdgeLoopState where
  ValidEdges : List Nat
  Accum : FSiteAccum
  deriving DecidableEq, Repr

/-- One turn of the edge loop for `bOutputSites && bPruneOpenSites`: an edge
with a pruned end is skipped before anything else; a kept edge is added and
the sites of its two ends are updated. -/
def EdgeStepPruneOpenSites (Sites : List FDelaunaySite2) (SitesPositions : List FVector)
    (RemappedIndices : List Int) (st : FEdgeLoopState) (Hash : Nat) : Option FEdgeLoopState :=
  let HA := PCGEx.toInt32 (PCGEx.H64A Hash)
  let HB := PCGEx.toInt32 (PCGEx.H64B Hash)
  (getAt RemappedIndices HA).bind fun A =>
  (getAt RemappedIndices HB).bind fun B =>
  if A == -1 || B == -1 then some st
  else
    let ValidEdges := st.ValidEdges ++ [PCGEx.H64 (PCGEx.toUInt32 A) (PCGEx.toUInt32 B)]
    (UpdateSite Sites SitesPositions HA st.Accum).bind fun a1 =>
    (UpdateSite Sites SitesPositions HB a1).bind fun a2 =>
    some { ValidEdges := ValidEdges, Accum := a2 }

/-- One turn of the edge loop for `bOutputSites && !bPruneOpenSites`: the
sites of the two ends are updated first, then an edge with a pruned end is
skipped and a kept edge is added. -/
def EdgeStepKeepOpenSites (Sites : List FDelaunaySite2) (SitesPositions : List FVector)
    (RemappedIndices : List Int) (st : FEdgeLoopState) (Hash : Nat) : Option FEdgeLoopState :=
  let HA := PCGEx.toInt32 (PCGEx.H64A Hash)
  let HB := PCGEx.toInt32 (PCGEx.H64B Hash)
  (getAt RemappedIndices HA).bind fun A =>
  (getAt RemappedIndices HB).bind fun B =>
  (UpdateSite Sites SitesPositions HA st.Accum).bind fun a1 =>
  (UpdateSite Sites SitesPositions HB a1).bind fun a2 =>
  if A == -1 || B == -1 then some { ValidEdges := st.ValidEdges, Accum := a2 }
  else
    some { ValidEdges := st.ValidEdges ++ [PCGEx.H64 (PCGEx.toUInt32 A) (PCGEx.toUInt32 B)]
           Accum := a2 }

/-- One turn of the edge loop when sites are not output: an edge with a
pruned end is skipped and a kept edge is added. -/
def EdgeStepNoSites (RemappedIndices : List Int) (st : FEdgeLoopState) (Hash : Nat) :
    Option FEdgeLoopState :=
  (getAt RemappedIndices (PCGEx.toInt32 (PCGEx.H64A Hash))).bind fun A =>
  (getAt RemappedIndices (PCGEx.toInt32 (PCGEx.H64B Hash))).bind fun B =>
  if A == -1 || B == -1 then some st
  else
    some { st with
      ValidEdges := st.ValidEdges ++ [PCGEx.H64 (PCGEx.toUInt32 A) (PCGEx.toUInt32 B)] }

/-- What the pruning branch of `Process` leaves: the site positions, the
locations of the output points, the edges handed to
`GraphBuilder->Graph->InsertEdges` and the site accumulators. -/
structure FPruneResult where
  SitesPositions : List FVector
  Centroids : List FVector
  ValidEdges : List Nat
  Accum : FSiteAccum
  deriving DecidableEq, Repr

/-- `FProcessor::Process`, the branch `Method == Circumcenter &&
bPruneOutOfBounds` (lines 181 to 273), after the Voronoi kernel has produced
`Circumcenters`, `WithinBounds`, `VoronoiEdges` and the Delaunay `Sites`;
`NumSites` is `Voronoi->Centroids.Num()` and `DelaunaySitesNum` the number of
input points. The output points are a new, empty output. The arrays sized
with indeterminate content hold zeros here; every entry is written before it
is read. -/
def Process (bOutputSites bPruneOpenSites : Bool) (Circumcenters : List FVector)
    (WithinBounds : List Bool) (VoronoiEdges : List Nat) (Sites : List FDelaunaySite2)
    (NumSites DelaunaySitesNum : Nat) : Option FPruneResult :=
  let Accum : FSiteAccum :=
    if bOutputSites then
      { DelaunaySitesLocations := List.replicate DelaunaySitesNum FVector.ZeroVector
        DelaunaySitesInfluenceCount := List.replicate DelaunaySitesNum 0 }
    else { DelaunaySitesLocations := [], DelaunaySitesInfluenceCount := [] }
  (SiteLoop Circumcenters WithinBounds NumSites 0
    { SitesPositions := List.replicate NumSites FVector.ZeroVector
      RemappedIndices := List.replicate NumSites 0
      Centroids := [] }).bind fun s =>
  (if bOutputSites then
    if bPruneOpenSites then
      VoronoiEdges.foldlM (EdgeStepPruneOpenSites Sites s.SitesPositions s.RemappedIndices)
        { ValidEdges := [], Accum := Accum }
    else
      VoronoiEdges.foldlM (EdgeStepKeepOpenSites Sites s.SitesPositions s.RemappedIndices)
        { ValidEdges := [], Accum := Accum }
  else
    VoronoiEdges.foldlM (EdgeStepNoSites s.RemappedIndices)
      { ValidEdges := [], Accum := Accum }).map fun e =>
  { SitesPositions := s.SitesPositions, Centroids := s.Centroids
    ValidEdges := e.ValidEdges, Accum := e.Accum }

/-! #### The kept sites and edges, stated independently of the loops -/

/-- The circumcenters of the sites flagged within bounds, in site order. -/
def KeptSites : List FVector → List Bool → List FVector
  | c :: C, w :: W => if w then c :: KeptSites C W else KeptSites C W
  | _, _ => []

/-- The number of sites before the site `i` that are flagged within bounds:
the position of the site `i` among the kept ones. -/
def KeptBefore (WithinBounds : List Bool) (i : Nat) : Nat :=
  (WithinBounds.take i).count true

/-- The edge kept for a Voronoi edge: when its two sites are within bounds,
the pair of their positions among the kept sites. -/
def PrunedEdge (WithinBounds : List Bool) (Hash : Nat) : Option Nat :=
  if WithinBounds.getD (PCGEx.H64A Hash) false && WithinBounds.getD (PCGEx.H64B Hash) false then
    some (PCGEx.H64 (KeptBefore WithinBounds (PCGEx.H64A Hash))
      (KeptBefore WithinBounds (PCGEx.H64B Hash)))
  else none

/-- The remapped indices of the sites with the flags `W` when `k` sites are
already kept. -/
def RemapFrom : List Bool → Nat → List Int
  | [], _ => []
  | true :: W, k => Int.ofNat k :: RemapFrom W (k + 1)
  | false :: W, k => -1 :: RemapFrom W k

/-- The site `H` exists and its three vertices are input points. -/
def SiteInRange (Sites : List FDelaunaySite2) (DelaunaySitesNum : Nat) (H : Nat) : Prop :=
  ∃ Site, Sites[H]? = some Site ∧
    0 ≤ Site.Vtx0 ∧ Site.Vtx0 < DelaunaySitesNum ∧
    0 ≤ Site.Vtx1 ∧ Site.Vtx1 < DelaunaySitesNum ∧
    0 ≤ Site.Vtx2 ∧ Site.Vtx2 < DelaunaySitesNum

/-- The accumulators have one entry per input point. -/
def AccumSized (DelaunaySitesNum : Nat) (acc : FSiteAccum) : Prop :=
  acc.DelaunaySitesLocations.length = DelaunaySitesNum ∧
  acc.DelaunaySitesInfluenceCount.length = DelaunaySitesNum

end PCGExBuildVoronoi2D

/-! ### Sanitization tasks in sequence (PCGExRefineEdges.cpp) -/

namespace PCGExRefineEdges

open PCGExCluster

/-- One turn of the `for (int i = 0; i < NumIterations; i++)` loop of
`FSanitizeRangeTask::ExecuteTask`, for the node of index `NodeIndex`
(`StartIndex + i`): the inner loop finds `BestIndex` and `RestoreEdge` is
called with it. A node index outside the array, undefined in the source, is
skipped. -/
def SanitizeNode (MIN_dbl MAX_dbl : ℚ) (Sanitization : EPCGExRefineSanitization)
    (c : FCluster) (NodeIndex : Nat) : FCluster :=
  match Sanitization with
  | EPCGExRefineSanitization.Longest =>
    match c.GetNode (NodeIndex : Int) with
    | none => c
    | some Node => RestoreEdge c (FindLongest c Node MIN_dbl).1
  | EPCGExRefineSanitization.Shortest =>
    match c.GetNode (NodeIndex : Int) with
    | none => c
    | some Node => RestoreEdge c (FindShortest c Node MAX_dbl).1
  | _ => c

/-- The value of `BestIndex` with which one turn of the loop calls
`RestoreEdge` for the node of index `NodeIndex`; -1 when nothing is
restored. -/
def BestIndex (MIN_dbl MAX_dbl : ℚ) (Sanitization : EPCGExRefineSanitization)
    (c : FCluster) (NodeIndex : Nat) : Int :=
  match Sanitization with
  | EPCGExRefineSanitization.Longest =>
    match c.GetNode (NodeIndex : Int) with
    | none => -1
    | some Node => (FindLongest c Node MIN_dbl).1
  | EPCGExRefineSanitization.Shortest =>
    match c.GetNode (NodeIndex : Int) with
    | none => -1
    | some Node => (FindShortest c Node MAX_dbl).1
  | _ => -1

/-- Sanitization tasks run one after the other, in the order of the list;
a task is given by its scope `(StartIndex, NumIterations)`. -/
def RunTasks (MIN_dbl MAX_dbl : ℚ) (Sanitization : EPCGExRefineSanitization)
    (Scopes : List (Nat × Nat)) (c : FCluster) : FCluster :=
  Scopes.foldl
    (fun c Scope => FSanitizeRangeTask.ExecuteTask MIN_dbl MAX_dbl Sanitization Scope.1 Scope.2 c)
    c

/-- The node indices a list of tasks processes, in the order in which it
processes them. -/
def ScopeNodes : List (Nat × Nat) → List Nat
  | [] => []
  | Scope :: rest => List.range' Scope.1 Scope.2 ++ ScopeNodes rest

/-- A node without its validity flag. -/
def StripNode (n : FNode) : FNode := { n with bValid := false }

/-- An edge without its validity flag. -/
def StripEdge (e : PCGExGraph.FIndexedEdge) : PCGExGraph.FIndexedEdge := { e with bValid := false }

/-- Two clusters that differ at most in validity flags. -/
def SameGeometry (c c2 : FCluster) : Prop :=
  c2.Nodes.map StripNode = c.Nodes.map StripNode ∧
  c2.Edges.map StripEdge = c.Edges.map StripEdge

end PCGExRefineEdges

/-! ### The rows that `BuildIndexedEdges` keeps, stated independently of the loop -/

namespace PCGExGraph

/-- The pair of node indices an edge row resolves to: both attribute values
are keys of the node map and the two nodes differ. -/
def ResolveRow (StartValues EndValues : List Int) (NodeIndicesMap : Int → Option Int)
    (i : Nat) : Option (Int × Int) :=
  match NodeIndicesMap (StartValues.getD i 0), NodeIndicesMap (EndValues.getD i 0) with
  | some NodeStart, some NodeEnd => if NodeStart == NodeEnd then none else some (NodeStart, NodeEnd)
  | _, _ => none

/-- The resolving rows among `rows`, in order, each with its two nodes. -/
def ResolvedRows (StartValues EndValues : List Int) (NodeIndicesMap : Int → Option Int)
    (rows : List Nat) : List (Nat × Int × Int) :=
  rows.filterMap (fun i =>
    (ResolveRow StartValues EndValues NodeIndicesMap i).map (fun se => (i, se.1, se.2)))

/-- The edges emplaced for a list of resolved rows, numbered from `EdgeIndex`. -/
def EmplacedFrom : List (Nat × Int × Int) → Int → List FIndexedEdge
  | [], _ => []
  | r :: rest, EdgeIndex =>
    FIndexedEdge.ctorIndexed EdgeIndex r.2.1 r.2.2 (Int.ofNat r.1) :: EmplacedFrom rest (EdgeIndex + 1)

end PCGExGraph

/-! ### Concrete clusters used by the evaluations -/

namespace Examples

open PCGExCluster

/-- A path `0 - 1 - 2`: edge 0 joins nodes 0 and 1 and is valid, edge 1 joins
nodes 1 and 2 and has been invalidated by refinement. -/
def PathCluster : FCluster :=
  { Nodes :=
      [ { NodeIndex := 0, PointIndex := 0, Position := { X := 0, Y := 0, Z := 0 }
          Adjacency := [PCGEx.H64 1 0], bValid := true },
        { NodeIndex := 1, PointIndex := 1, Position := { X := 10, Y := 0, Z := 0 }
          Adjacency := [PCGEx.H64 0 0, PCGEx.H64 2 1], bValid := true },
        { NodeIndex := 2, PointIndex := 2, Position := { X := 20, Y := 0, Z := 0 }
          Adjacency := [PCGEx.H64 1 1], bValid := true } ]
    Edges :=
      [ { PCGExGraph.FIndexedEdge.ctorIndexed 0 0 1 0 with bValid := true },
        { PCGExGraph.FIndexedEdge.ctorIndexed 1 1 2 1 with bValid := false } ] }

/-- Two nodes at the same position joined by one edge, which refinement has
invalidated. -/
def CoincidentCluster : FCluster :=
  { Nodes :=
      [ { NodeIndex := 0, PointIndex := 0, Position := { X := 5, Y := 5, Z := 0 }
          Adjacency := [PCGEx.H64 1 0], bValid := true },
        { NodeIndex := 1, PointIndex := 1, Position := { X := 5, Y := 5, Z := 0 }
          Adjacency := [PCGEx.H64 0 0], bValid := true } ]
    Edges :=
      [ { PCGExGraph.FIndexedEdge.ctorIndexed 0 0 1 0 with bValid := false } ] }

/-- Two nodes ten units apart joined by one edge, which refinement has
invalidated. -/
def SegmentCluster : FCluster :=
  { Nodes :=
      [ { NodeIndex := 0, PointIndex := 0, Position := { X := 0, Y := 0, Z := 0 }
          Adjacency := [PCGEx.H64 1 0], bValid := true },
        { NodeIndex := 1, PointIndex := 1, Position := { X := 10, Y := 0, Z := 0 }
          Adjacency := [PCGEx.H64 0 0], bValid := true } ]
    Edges :=
      [ { PCGExGraph.FIndexedEdge.ctorIndexed 0 0 1 0 with bValid := false } ] }

/-- Three edge points `100, 101, 102` whose endpoints `0-1`, `1-2`, `2-0` are
all in the node map. -/
def TriangleEdgePoints : PCGExGraph.FEdgePointData Nat :=
  { Points := [100, 101, 102], EdgeStart := some [0, 1, 2], EdgeEnd := some [1, 2, 0] }

/-- Two edge points `100, 101`: the first one has both endpoints on node 0,
the second one joins nodes 0 and 1. -/
def SelfLoopEdgePoints : PCGExGraph.FEdgePointData Nat :=
  { Points := [100, 101], EdgeStart := some [0, 0], EdgeEnd := some [0, 1] }

/-- A node map that knows the vertices `0, 1, 2` and maps each to itself. -/
def NodeMap3 (k : Int) : Option Int := if 0 ≤ k ∧ k < 3 then some k else none

/-- The cluster whose edges are those built from `TriangleEdgePoints`, the second
one invalidated by refinement. -/
def TriangleEdgesCluster : FCluster :=
  { Nodes := []
    Edges :=
      [ PCGExGraph.FIndexedEdge.ctorIndexed 0 0 1 0,
        { PCGExGraph.FIndexedEdge.ctorIndexed 1 1 2 1 with bValid := false },
        PCGExGraph.FIndexedEdge.ctorIndexed 2 2 0 2 ] }

/-- The cluster whose edges are those built from `SelfLoopEdgePoints`. -/
def SelfLoopEdgesCluster : FCluster :=
  { Nodes := []
    Edges := (PCGExGraph.BuildIndexedEdges SelfLoopEdgePoints NodeMap3 [] false).2 }

/-- An empty edges-only output (no graph builder). -/
def EdgesOnlyOutput : PCGExRefineEdges.FInsertEdgesOutput Unit Nat :=
  { Graph := none, KeptEdges := [], RemovedEdges := [] }

/-- Intersection functions for which everything is geometrically coincident:
every point is inside every box, all boxes meet, and both `FindSplit` succeed
with time 1/2; edges are their own root. -/
def CoincidentOps : PCGExGraph.FIntersectionOps :=
  { IsInside := fun _ _ => true
    Intersect := fun _ _ => true
    FindSplitPE := fun _ _ s => (true, { s with Time := 1 / 2 })
    FindSplitEE := fun _ _ s => (true, { s with TimeA := 1 / 2, TimeB := 1 / 2 })
    GetRootIndex := fun i => i }

/-- A unit box. -/
def UnitBox : FBox := { Min := { X := 0, Y := 0, Z := 0 }, Max := { X := 1, Y := 1, Z := 1 } }

/-- Three points; the octree visits all of them. -/
def ThreePoints : PCGExGraph.FPointsData :=
  { Points := [{ X := 0, Y := 0, Z := 0 }, { X := 1, Y := 0, Z := 0 }, { X := 1 / 2, Y := 0, Z := 0 }]
    Octree := fun _ => [0, 1, 2] }

/-- One edge from node 0 to node 1, from source 0, and a third node on it
whose point compound comes from the source `ThirdSource`. -/
def PointEdgeCase (ThirdSource : Int) (bEnableSelfIntersection : Bool) :
    PCGExGraph.FPointEdgeIntersections :=
  { Graph :=
      { Nodes := [{ bValid := true, NodeIndex := 0, PointIndex := 0 },
                  { bValid := true, NodeIndex := 1, PointIndex := 1 },
                  { bValid := true, NodeIndex := 2, PointIndex := 2 }]
        Edges := [PCGExGraph.FIndexedEdge.ctorIndexed 0 0 1 0] }
    PointsCompounds :=
      { Compounds := [{ IOIndices := [0], CompoundedHashSet := [] },
                      { IOIndices := [0], CompoundedHashSet := [] },
                      { IOIndices := [ThirdSource], CompoundedHashSet := [] }] }
    EdgesCompounds := { Compounds := [{ IOIndices := [0], CompoundedHashSet := [] }] }
    bEnableSelfIntersection := bEnableSelfIntersection
    Edges := [{ EdgeIndex := 0, LengthSquared := 1, ToleranceSquared := 1, Box := UnitBox
                Start := { X := 0, Y := 0, Z := 0 }, End := { X := 1, Y := 0, Z := 0 } }]
    Added := [] }

/-- Two overlapping edges, the first from source 0 and the second from the
source `SecondSource`. -/
def EdgeEdgeCase (SecondSource : Int) (bEnableSelfIntersection : Bool) :
    PCGExGraph.FEdgeEdgeIntersections :=
  { EdgesCompounds :=
      { Compounds := [{ IOIndices := [0], CompoundedHashSet := [] },
                      { IOIndices := [SecondSource], CompoundedHashSet := [] }] }
    bEnableSelfIntersection := bEnableSelfIntersection
    Crossings := []
    Edges := [{ EdgeIndex := 0, LengthSquared := 1, ToleranceSquared := 1, Box := UnitBox
                Start := { X := 0, Y := 0, Z := 0 }, End := { X := 1, Y := 1, Z := 0 } },
              { EdgeIndex := 1, LengthSquared := 1, ToleranceSquared := 1, Box := UnitBox
                Start := { X := 0, Y := 1, Z := 0 }, End := { X := 1, Y := 0, Z := 0 } }]
    CheckedPairs := []
    Octree := fun _ => [0, 1] }

/-- The square of the contour-closure scenario: nodes 0..3 at (0,0), (10,0),
(10,10), (0,10); edge `i` joins node `i` and node `i + 1` (edge 3 joins
node 3 and node 0). -/
def SquareCluster : FCluster :=
  { Nodes :=
      [ { NodeIndex := 0, PointIndex := 0, Position := { X := 0, Y := 0, Z := 0 }
          Adjacency := [PCGEx.H64 1 0, PCGEx.H64 3 3], bValid := true },
        { NodeIndex := 1, PointIndex := 1, Position := { X := 10, Y := 0, Z := 0 }
          Adjacency := [PCGEx.H64 0 0, PCGEx.H64 2 1], bValid := true },
        { NodeIndex := 2, PointIndex := 2, Position := { X := 10, Y := 10, Z := 0 }
          Adjacency := [PCGEx.H64 1 1, PCGEx.H64 3 2], bValid := true },
        { NodeIndex := 3, PointIndex := 3, Position := { X := 0, Y := 10, Z := 0 }
          Adjacency := [PCGEx.H64 2 2, PCGEx.H64 0 3], bValid := true } ]
    Edges :=
      [ PCGExGraph.FIndexedEdge.ctorIndexed 0 0 1 0,
        PCGExGraph.FIndexedEdge.ctorIndexed 1 1 2 1,
        PCGExGraph.FIndexedEdge.ctorIndexed 2 2 3 2,
        PCGExGraph.FIndexedEdge.ctorIndexed 3 3 0 3 ] }

/-- The projected positions of the four vertex points of the square. -/
def SquarePositions : List FVector :=
  [{ X := 0, Y := 0, Z := 0 }, { X := 10, Y := 0, Z := 0 },
   { X := 10, Y := 10, Z := 0 }, { X := 0, Y := 10, Z := 0 }]

/-- The seed of the scenario, at (5,5). -/
def SquareSeeds : List FVector := [{ X := 5, Y := 5, Z := 0 }]

/-- The projected positions of the three vertex points of `PathCluster`. -/
def PathPositions : List FVector :=
  [{ X := 0, Y := 0, Z := 0 }, { X := 10, Y := 0, Z := 0 }, { X := 20, Y := 0, Z := 0 }]

/-- A seed next to the middle node of `PathCluster`. -/
def PathSeeds : List FVector := [{ X := 9, Y := 1, Z := 0 }]

/-- A concave pentagon cycle (0,0), (10,0), (10,10), (5,5), (0,10): the
interior angle at node 3 is reflex. -/
def PentagonCluster : FCluster :=
  { Nodes :=
      [ { NodeIndex := 0, PointIndex := 0, Position := { X := 0, Y := 0, Z := 0 }
          Adjacency := [PCGEx.H64 1 0, PCGEx.H64 4 4], bValid := true },
        { NodeIndex := 1, PointIndex := 1, Position := { X := 10, Y := 0, Z := 0 }
          Adjacency := [PCGEx.H64 0 0, PCGEx.H64 2 1], bValid := true },
        { NodeIndex := 2, PointIndex := 2, Position := { X := 10, Y := 10, Z := 0 }
          Adjacency := [PCGEx.H64 1 1, PCGEx.H64 3 2], bValid := true },
        { NodeIndex := 3, PointIndex := 3, Position := { X := 5, Y := 5, Z := 0 }
          Adjacency := [PCGEx.H64 2 2, PCGEx.H64 4 3], bValid := true },
        { NodeIndex := 4, PointIndex := 4, Position := { X := 0, Y := 10, Z := 0 }
          Adjacency := [PCGEx.H64 3 3, PCGEx.H64 0 4], bValid := true } ]
    Edges :=
      [ PCGExGraph.FIndexedEdge.ctorIndexed 0 0 1 0,
        PCGExGraph.FIndexedEdge.ctorIndexed 1 1 2 1,
        PCGExGraph.FIndexedEdge.ctorIndexed 2 2 3 2,
        PCGExGraph.FIndexedEdge.ctorIndexed 3 3 4 3,
        PCGExGraph.FIndexedEdge.ctorIndexed 4 4 0 4 ] }

/-- The projected positions of the five vertex points of the pentagon. -/
def PentagonPositions : List FVector :=
  [{ X := 0, Y := 0, Z := 0 }, { X := 10, Y := 0, Z := 0 }, { X := 10, Y := 10, Z := 0 },
   { X := 5, Y := 5, Z := 0 }, { X := 0, Y := 10, Z := 0 }]

/-- Two seeds for the pentagon: (1,1) next to node 0 and (9,9) next to
node 2. -/
def PentagonSeeds : List FVector := [{ X := 1, Y := 1, Z := 0 }, { X := 9, Y := 9, Z := 0 }]

/-- A path `0 - 1 - 2` on a line, both edges valid. -/
def LineCluster : FCluster :=
  { Nodes :=
      [ { NodeIndex := 0, PointIndex := 0, Position := { X := 0, Y := 0, Z := 0 }
          Adjacency := [PCGEx.H64 1 0], bValid := true },
        { NodeIndex := 1, PointIndex := 1, Position := { X := 10, Y := 0, Z := 0 }
          Adjacency := [PCGEx.H64 0 0, PCGEx.H64 2 1], bValid := true },
        { NodeIndex := 2, PointIndex := 2, Position := { X := 20, Y := 0, Z := 0 }
          Adjacency := [PCGEx.H64 1 1], bValid := true } ]
    Edges :=
      [ PCGExGraph.FIndexedEdge.ctorIndexed 0 0 1 0,
        PCGExGraph.FIndexedEdge.ctorIndexed 1 1 2 1 ] }

/-- A seed next to the middle node of `LineCluster`, on the side of node 2. -/
def LineSeeds : List FVector := [{ X := 11, Y := 1, Z := 0 }]

/-- The square cycle with a fifth node (20,20) hanging from node 2; the edge
to it comes first in the adjacency of node 2. -/
def SpurSquareCluster : FCluster :=
  { Nodes :=
      [ { NodeIndex := 0, PointIndex := 0, Position := { X := 0, Y := 0, Z := 0 }
          Adjacency := [PCGEx.H64 1 0, PCGEx.H64 3 4], bValid := true },
        { NodeIndex := 1, PointIndex := 1, Position := { X := 10, Y := 0, Z := 0 }
          Adjacency := [PCGEx.H64 0 0, PCGEx.H64 2 2], bValid := true },
        { NodeIndex := 2, PointIndex := 2, Position := { X := 10, Y := 10, Z := 0 }
          Adjacency := [PCGEx.H64 4 1, PCGEx.H64 1 2, PCGEx.H64 3 3], bValid := true },
        { NodeIndex := 3, PointIndex := 3, Position := { X := 0, Y := 10, Z := 0 }
          Adjacency := [PCGEx.H64 2 3, PCGEx.H64 0 4], bValid := true },
        { NodeIndex := 4, PointIndex := 4, Position := { X := 20, Y := 20, Z := 0 }
          Adjacency := [PCGEx.H64 2 1], bValid := true } ]
    Edges :=
      [ PCGExGraph.FIndexedEdge.ctorIndexed 0 0 1 0,
        PCGExGraph.FIndexedEdge.ctorIndexed 1 2 4 1,
        PCGExGraph.FIndexedEdge.ctorIndexed 2 1 2 2,
        PCGExGraph.FIndexedEdge.ctorIndexed 3 2 3 3,
        PCGExGraph.FIndexedEdge.ctorIndexed 4 3 0 4 ] }

/-- The projected positions of the five vertex points of `SpurSquareCluster`. -/
def SpurSquarePositions : List FVector :=
  [{ X := 0, Y := 0, Z := 0 }, { X := 10, Y := 0, Z := 0 }, { X := 10, Y := 10, Z := 0 },
   { X := 0, Y := 10, Z := 0 }, { X := 20, Y := 20, Z := 0 }]

/-- A cluster in which the walk gets caught: the start node 0 (10,-10) has a
dead-end neighbour 1 (10,-20) and the neighbour 2 (10,0); node 2 leads to
node 3 (0,0), a corner of the triangle 3 (0,0), 4 (0,10), 5 (20,0), whose side
from 3 to 5 runs over node 2. -/
def TrapCluster : FCluster :=
  { Nodes :=
      [ { NodeIndex := 0, PointIndex := 0, Position := { X := 10, Y := -10, Z := 0 }
          Adjacency := [PCGEx.H64 1 0, PCGEx.H64 2 1], bValid := true },
        { NodeIndex := 1, PointIndex := 1, Position := { X := 10, Y := -20, Z := 0 }
          Adjacency := [PCGEx.H64 0 0], bValid := true },
        { NodeIndex := 2, PointIndex := 2, Position := { X := 10, Y := 0, Z := 0 }
          Adjacency := [PCGEx.H64 0 1, PCGEx.H64 3 2], bValid := true },
        { NodeIndex := 3, PointIndex := 3, Position := { X := 0, Y := 0, Z := 0 }
          Adjacency := [PCGEx.H64 2 2, PCGEx.H64 4 3, PCGEx.H64 5 5], bValid := true },
        { NodeIndex := 4, PointIndex := 4, Position := { X := 0, Y := 10, Z := 0 }
          Adjacency := [PCGEx.H64 3 3, PCGEx.H64 5 4], bValid := true },
        { NodeIndex := 5, PointIndex := 5, Position := { X := 20, Y := 0, Z := 0 }
          Adjacency := [PCGEx.H64 4 4, PCGEx.H64 3 5], bValid := true } ]
    Edges :=
      [ PCGExGraph.FIndexedEdge.ctorIndexed 0 0 1 0,
        PCGExGraph.FIndexedEdge.ctorIndexed 1 0 2 1,
        PCGExGraph.FIndexedEdge.ctorIndexed 2 2 3 2,
        PCGExGraph.FIndexedEdge.ctorIndexed 3 3 4 3,
        PCGExGraph.FIndexedEdge.ctorIndexed 4 4 5 4,
        PCGExGraph.FIndexedEdge.ctorIndexed 5 5 3 5 ] }

/-- The projected positions of the six vertex points of `TrapCluster`. -/
def TrapPositions : List FVector :=
  [{ X := 10, Y := -10, Z := 0 }, { X := 10, Y := -20, Z := 0 }, { X := 10, Y := 0, Z := 0 },
   { X := 0, Y := 0, Z := 0 }, { X := 0, Y := 10, Z := 0 }, { X := 20, Y := 0, Z := 0 }]

/-- A seed next to the start node of `TrapCluster`, on the side of node 2. -/
def TrapSeeds : List FVector := [{ X := 10, Y := -9, Z := 0 }]

/-- Two seeds in the square: (5,5) and (9,9). -/
def SquareTwoSeeds : List FVector := [{ X := 5, Y := 5, Z := 0 }, { X := 9, Y := 9, Z := 0 }]

/-- A processor that has not accepted any contour yet. -/
def FreshProcessor : PCGExFindContours.FProcessorState :=
  { ExistingStartPairs := [], ExistingPaths := [] }

/-- What the two calls of the deduplicated run on the square leave behind:
the first one emits the contour, the second one is rejected. -/
def SquareTwoResults : List (PCGExFindContours.FContourResult Nat) :=
  [ { bResult := true
      Processor := { ExistingStartPairs := [1], ExistingPaths := [[1, 0, 3, 2]] }
      MutablePoints := [101, 100, 103, 102], DeadEndValues := none, RawTags := []
      Path := [1, 0, 3, 2], bGracefullyClosed := true, bIsConvex := true, Sign := 0 },
    { bResult := false
      Processor := { ExistingStartPairs := [1, 4294967298], ExistingPaths := [[1, 0, 3, 2]] }
      MutablePoints := [], DeadEndValues := none, RawTags := []
      Path := [2, 1, 0, 3], bGracefullyClosed := true, bIsConvex := true, Sign := 0 } ]

/-- The processor after the deduplicated run on the square. -/
def SquareTwoProcessor : PCGExFindContours.FProcessorState :=
  { ExistingStartPairs := [1, 4294967298], ExistingPaths := [[1, 0, 3, 2]] }

/-- Three cluster nodes whose points are the vertex points 5, 2 and 7. -/
def PartitionNodes : List FNode :=
  [ { NodeIndex := 0, PointIndex := 5, Position := { X := 0, Y := 0, Z := 0 }
      Adjacency := [PCGEx.H64 1 0], bValid := true },
    { NodeIndex := 1, PointIndex := 2, Position := { X := 10, Y := 0, Z := 0 }
      Adjacency := [PCGEx.H64 0 0, PCGEx.H64 2 1], bValid := true },
    { NodeIndex := 2, PointIndex := 7, Position := { X := 20, Y := 0, Z := 0 }
      Adjacency := [PCGEx.H64 1 1], bValid := true } ]

/-- Two cluster edges between the vertex points 5 and 2, and 2 and 7. -/
def PartitionEdges : List PCGExGraph.FIndexedEdge :=
  [ PCGExGraph.FIndexedEdge.ctorIndexed 0 5 2 0,
    PCGExGraph.FIndexedEdge.ctorIndexed 1 2 7 1 ]

/-- Eight input vertex points `100 .. 107`. -/
def PartitionVtxPoints : List Nat := [100, 101, 102, 103, 104, 105, 106, 107]

/-- A chain from node 0 to node 3 through the nodes 1 and 2. -/
def ChainOfFour : PCGExBreakClustersToPaths.FNodeChain := { First := 0, Last := 3, Nodes := [1, 2] }

/-- Direction settings that reverse every chain. -/
def ReversingDirection : PCGExBreakClustersToPaths.FDirectionSettings :=
  { bEdgeDotAttribute := false, GetEdgeIndex := fun _ _ => 0, SortEndpoints := fun _ => true }

/-- Paths of two to ten points are kept. -/
def TwoToTen : PCGExBreakClustersToPaths.FPathSettings :=
  { MinPointCount := 2, bOmitAbovePointCount := true, MaxPointCount := 10 }

/-- The result for `ChainOfFour` when the nodes 0, 1, 2, 3 have the points of
index 3, 2, 1, 0 among the input points 100, 101, 102, 103 and the chain is
reversed. -/
def ChainOfFourReversed : PCGExBreakClustersToPaths.FIterationResult Nat :=
  { Nodes := [2, 1], Path := some [some 100, some 101, some 102, some 103] }

/-- The circumcenters of three Voronoi sites. -/
def VoronoiCircumcenters : List FVector :=
  [{ X := 0, Y := 0, Z := 0 }, { X := 50, Y := 0, Z := 0 }, { X := 1, Y := 1, Z := 0 }]

/-- The Delaunay sites of the three Voronoi sites, over four input points. -/
def VoronoiDelaunaySites : List PCGExBuildVoronoi2D.FDelaunaySite2 :=
  [{ Vtx0 := 0, Vtx1 := 1, Vtx2 := 2 }, { Vtx0 := 1, Vtx1 := 2, Vtx2 := 3 },
   { Vtx0 := 0, Vtx1 := 2, Vtx2 := 3 }]

end Examples

/-! ## Theorems -/

namespace PCGEx

theorem toUInt32_lt (a : Int) : toUInt32 a < 4294967296 := by
  unfold toUInt32; omega

theorem toUInt32_inj {a b : Int} (ha : IsInt32 a) (hb : IsInt32 b)
    (h : toUInt32 a = toUInt32 b) : a = b := by
  unfold toUInt32 at h
  unfold IsInt32 at ha hb
  omega

theorem toInt32_isInt32 (u : Nat) : IsInt32 (toInt32 u) := by
  unfold toInt32 IsInt32
  split_ifs <;> omega

theorem toUInt32_toInt32 {u : Nat} (hu : u < 4294967296) : toUInt32 (toInt32 u) = u := by
  unfold toInt32 toUInt32
  split_ifs <;> omega

end PCGEx

namespace PCGExGraph

theorem GetUnsignedHash64_comm (A B : Nat) :
    GetUnsignedHash64 A B = GetUnsignedHash64 B A := by
  unfold GetUnsignedHash64
  by_cases h1 : A > B
  · have h2 : ¬ B > A := by omega
    simp [h1, h2]
  · by_cases h2 : B > A
    · simp [h1, h2]
    · have : A = B := by omega
      subst this
      rfl

theorem Legacy_GetUnsignedHash_comm (s e : Nat) (t u : EPCGExEdgeType) :
    Legacy.FUnsignedEdge.GetUnsignedHash { toFEdge := { Start := s, End := e, EdgeType := t } }
      = Legacy.FUnsignedEdge.GetUnsignedHash
          { toFEdge := { Start := e, End := s, EdgeType := u } } := by
  unfold Legacy.FUnsignedEdge.GetUnsignedHash
  by_cases h1 : s > e
  · have h2 : ¬ e > s := by omega
    simp [h1, h2]
  · by_cases h2 : e > s
    · simp [h1, h2]
    · have : s = e := by omega
      subst this
      rfl

/-- C4: `GetUnsignedHash64` is symmetric in its two arguments, hence
`FUnsignedEdge(a, b) == FUnsignedEdge(b, a)` for all endpoints, both with the
`FUnsignedEdge` of PCGExEdge.h and with the older one of PCGExGraph.h. -/
theorem C4_unsigned_hash_orientation_independent :
    (∀ A B : Nat, GetUnsignedHash64 A B = GetUnsignedHash64 B A) ∧
    (∀ a b : Int,
      FUnsignedEdge.eq (FUnsignedEdge.ctorEndpoints a b) (FUnsignedEdge.ctorEndpoints b a)
        = true) ∧
    (∀ (a b : Int) (t u : EPCGExEdgeType),
      FUnsignedEdge.eq (FUnsignedEdge.ctorTyped a b t) (FUnsignedEdge.ctorTyped b a u)
        = true) ∧
    (∀ (a b : Int) (t u : EPCGExEdgeType),
      Legacy.FUnsignedEdge.eq (Legacy.FUnsignedEdge.ctorTyped a b t)
        (Legacy.FUnsignedEdge.ctorTyped b a u) = true) := by
  refine ⟨GetUnsignedHash64_comm, ?_, ?_, ?_⟩
  · intro a b
    simp only [FUnsignedEdge.eq, FUnsignedEdge.GetUnsignedHash, FUnsignedEdge.ctorEndpoints,
      FEdge.ctorEndpoints, beq_iff_eq]
    exact GetUnsignedHash64_comm _ _
  · intro a b t u
    simp only [FUnsignedEdge.eq, FUnsignedEdge.GetUnsignedHash, FUnsignedEdge.ctorTyped,
      FEdge.ctorTyped, FEdge.ctorEndpoints, beq_iff_eq]
    exact GetUnsignedHash64_comm _ _
  · intro a b t u
    simp only [Legacy.FUnsignedEdge.eq, Legacy.FUnsignedEdge.ctorTyped, beq_iff_eq]
    exact Legacy_GetUnsignedHash_comm _ _ _ _

end PCGExGraph

namespace PCGExGraph

theorem FEdge_ctorEndpoints_noValidSelfLoop {a b : Int} (ha : PCGEx.IsInt32 a)
    (hb : PCGEx.IsInt32 b) : NoValidSelfLoop (FEdge.ctorEndpoints a b) := by
  intro hv h
  simp only [FEdge.ctorEndpoints, Bool.and_eq_true, bne_iff_ne, ne_eq] at hv h
  exact hv.1.1 (PCGEx.toUInt32_inj ha hb h)

/-- C5 (as stated, refuted): the default constructor `FEdge()` yields an edge
with `bValid = true` and `Start == End` (both 0), and so do the default
constructors of `FUnsignedEdge` and `FIndexedEdge`. -/
theorem C5_default_ctor_is_valid_self_loop :
    (FEdge.ctor.bValid = true ∧ FEdge.ctor.Start = FEdge.ctor.End) ∧
    (FUnsignedEdge.ctor.bValid = true ∧ FUnsignedEdge.ctor.Start = FUnsignedEdge.ctor.End) ∧
    (FIndexedEdge.ctor.bValid = true ∧ FIndexedEdge.ctor.Start = FIndexedEdge.ctor.End) := by
  decide

/-- C5 (amended): the endpoint constructors of `FEdge`, `FUnsignedEdge` and
`FIndexedEdge`, and the copy constructor of `FIndexedEdge`, never yield an
edge with `bValid = true` and `Start == End`; the default constructors yield
the placeholder edge `Start = End = 0` with `bValid = true`. -/
theorem C5_endpoint_ctors_exclude_self_loops (a b i p : Int) (t : EPCGExEdgeType)
    (o : FIndexedEdge) (ha : PCGEx.IsInt32 a) (hb : PCGEx.IsInt32 b) :
    NoValidSelfLoop (FEdge.ctorEndpoints a b) ∧
    NoValidSelfLoop (FEdge.ctorTyped a b t) ∧
    NoValidSelfLoop (FUnsignedEdge.ctorEndpoints a b).toFEdge ∧
    NoValidSelfLoop (FUnsignedEdge.ctorTyped a b t).toFEdge ∧
    NoValidSelfLoop (FIndexedEdge.ctorIndexed i a b p).toFEdge ∧
    NoValidSelfLoop (FIndexedEdge.ctorCopy o).toFEdge ∧
    (FEdge.ctor.bValid = true ∧ FEdge.ctor.Start = 0 ∧ FEdge.ctor.End = 0) := by
  have h := FEdge_ctorEndpoints_noValidSelfLoop ha hb
  refine ⟨h, h, h, h, h, ?_, by decide⟩
  exact FEdge_ctorEndpoints_noValidSelfLoop (PCGEx.toInt32_isInt32 _) (PCGEx.toInt32_isInt32 _)

/-- C5 (amended), at the endpoints 3 and 7: the edges built there are valid
and are not self-loops. -/
theorem C5_endpoint_ctors_exclude_self_loops_witness :
    PCGEx.IsInt32 3 ∧ PCGEx.IsInt32 7 ∧
    (FEdge.ctorEndpoints 3 7).bValid = true ∧
    (NoValidSelfLoop (FEdge.ctorEndpoints 3 7) ∧
     NoValidSelfLoop (FEdge.ctorTyped 3 7 EPCGExEdgeType.Shared) ∧
     NoValidSelfLoop (FUnsignedEdge.ctorEndpoints 3 7).toFEdge ∧
     NoValidSelfLoop (FUnsignedEdge.ctorTyped 3 7 EPCGExEdgeType.Shared).toFEdge ∧
     NoValidSelfLoop (FIndexedEdge.ctorIndexed 0 3 7 5).toFEdge ∧
     NoValidSelfLoop (FIndexedEdge.ctorCopy (FIndexedEdge.ctorIndexed 0 3 7 5)).toFEdge ∧
     (FEdge.ctor.bValid = true ∧ FEdge.ctor.Start = 0 ∧ FEdge.ctor.End = 0)) :=
  ⟨by decide, by decide, by decide,
    C5_endpoint_ctors_exclude_self_loops 3 7 0 5 EPCGExEdgeType.Shared
      (FIndexedEdge.ctorIndexed 0 3 7 5) (by decide) (by decide)⟩

end PCGExGraph

namespace PCGExRefineEdges

open PCGExCluster

theorem RestoreEdgeStep_reads_start_only (c : FCluster) (Edge : PCGExGraph.FIndexedEdge)
    (h : Edge.bValid = false) :
    (RestoreEdgeStep c Edge).bValid
      = (match c.GetEdgeStart Edge.EdgeIndex with
         | some n => n.bValid
         | none => false) := by
  unfold RestoreEdgeStep
  simp only [h, Bool.false_eq_true, if_false, Bool.and_self]
  split <;> simp_all

/-- C6 (code evaluated at the failing input): on the path `0 - 1 - 2` whose
edge 1 (from node 1 to node 2) is invalid, the invalidation loop invalidates
node 2, which has no valid edge, and keeps node 1 valid; the restoration loop
then turns edge 1 valid although its end node is invalid. In general the
restored flag of an invalid edge is the validity of its start node alone. -/
theorem C6_restore_ignores_end_node :
    (Examples.PathCluster.GetEdge 1).map (fun e => e.bValid) = some false ∧
    ((InvalidateNodes Examples.PathCluster).GetEdgeStart 1).map (fun n => n.bValid)
      = some true ∧
    ((InvalidateNodes Examples.PathCluster).GetEdgeEnd 1).map (fun n => n.bValid)
      = some false ∧
    ((OnEdgesProcessingComplete true Examples.PathCluster).GetEdge 1).map (fun e => e.bValid)
      = some true ∧
    (∀ (c : FCluster) (Edge : PCGExGraph.FIndexedEdge), Edge.bValid = false →
      (RestoreEdgeStep c Edge).bValid
        = (match c.GetEdgeStart Edge.EdgeIndex with
           | some n => n.bValid
           | none => false)) :=
  ⟨by decide!, by decide!, by decide!, by decide!,
    fun c Edge h => RestoreEdgeStep_reads_start_only c Edge h⟩

theorem Longest_coincident_unchanged (m M : ℚ) (hm : 0 ≤ m) :
    FSanitizeRangeTask.ExecuteTask m M EPCGExRefineSanitization.Longest 0 2
      Examples.CoincidentCluster = Examples.CoincidentCluster := by
  have hnot : ¬ (0 : ℚ) > m := not_lt.mpr hm
  have d01 : Examples.CoincidentCluster.GetDistSquared 0
      ((PCGEx.H64A (PCGEx.H64 1 0) : Nat) : Int) = 0 := by decide!
  have d10 : Examples.CoincidentCluster.GetDistSquared 1
      ((PCGEx.H64A (PCGEx.H64 0 0) : Nat) : Int) = 0 := by decide!
  have g0 : Examples.CoincidentCluster.GetNode ((0 + 0 : Nat) : Int) = some
      { NodeIndex := 0, PointIndex := 0, Position := { X := 5, Y := 5, Z := 0 }
        Adjacency := [PCGEx.H64 1 0], bValid := true } := by decide!
  have g1 : Examples.CoincidentCluster.GetNode ((0 + 1 : Nat) : Int) = some
      { NodeIndex := 1, PointIndex := 1, Position := { X := 5, Y := 5, Z := 0 }
        Adjacency := [PCGEx.H64 0 0], bValid := true } := by decide!
  simp only [FSanitizeRangeTask.ExecuteTask, List.range_succ, List.range_zero, List.nil_append,
    List.foldl_cons, List.foldl_nil, List.cons_append]
  simp only [g0, FindLongest, List.foldl_cons, List.foldl_nil, d01, hnot, if_false, RestoreEdge,
    beq_self_eq_true, if_true, g1, d10]

/-- C2 (code evaluated at the failing input): two coincident nodes joined by
one invalidated edge. With the engine's `MIN_dbl`, the `Longest` pass over all
nodes restores nothing: the squared distance 0 is not greater than `MIN_dbl`,
`BestIndex` stays -1, and node 0, which has an adjacency entry, is left
without a valid incident edge. The same holds for every `MIN_dbl` that is not
negative. The `Shortest` pass restores the edge on the same input, and
`Longest` restores it as soon as the two nodes are apart. -/
theorem C2_longest_skips_zero_length_edges :
    (Examples.CoincidentCluster.Nodes.map (fun n => n.Adjacency.length)) = [1, 1] ∧
    (Examples.CoincidentCluster.Edges.map (fun e => e.bValid)) = [false] ∧
    (FindLongest Examples.CoincidentCluster
      { NodeIndex := 0, PointIndex := 0, Position := { X := 5, Y := 5, Z := 0 }
        Adjacency := [PCGEx.H64 1 0], bValid := true } Engine_MIN_dbl).1 = -1 ∧
    HasValidIncidentEdge
      (FSanitizeRangeTask.ExecuteTask Engine_MIN_dbl Engine_MAX_dbl
        EPCGExRefineSanitization.Longest 0 2 Examples.CoincidentCluster) 0 = false ∧
    (∀ MIN_dbl MAX_dbl : ℚ, 0 ≤ MIN_dbl →
      FSanitizeRangeTask.ExecuteTask MIN_dbl MAX_dbl EPCGExRefineSanitization.Longest 0 2
        Examples.CoincidentCluster = Examples.CoincidentCluster) ∧
    HasValidIncidentEdge
      (FSanitizeRangeTask.ExecuteTask Engine_MIN_dbl Engine_MAX_dbl
        EPCGExRefineSanitization.Shortest 0 2 Examples.CoincidentCluster) 0 = true ∧
    HasValidIncidentEdge
      (FSanitizeRangeTask.ExecuteTask Engine_MIN_dbl Engine_MAX_dbl
        EPCGExRefineSanitization.Longest 0 2 Examples.SegmentCluster) 0 = true :=
  ⟨by decide!, by decide!, by decide!, by decide!,
    fun m M hm => Longest_coincident_unchanged m M hm, by decide!, by decide!⟩

end PCGExRefineEdges

namespace PCGExGraph

theorem BuildIndexedEdgesLoop_length_le (S E : List Int) (M : Int → Option Int) (b : Bool)
    (l : List Nat) (k : Int) (Out : List FIndexedEdge) :
    (BuildIndexedEdgesLoop S E M b l k Out).2.length ≤ Out.length + l.length := by
  induction l generalizing k Out with
  | nil => simp [BuildIndexedEdgesLoop]
  | cons i rest ih =>
    have ih1 := ih k Out
    have ih2 := fun s e => ih (k + 1) (Out ++ [FIndexedEdge.ctorIndexed k s e (i : Int)])
    simp only [List.length_append, List.length_cons, List.length_nil] at ih2
    rcases hs : M (S.getD i 0) with _ | s <;> rcases he : M (E.getD i 0) with _ | e <;>
      cases b <;> simp only [BuildIndexedEdgesLoop, hs, he, List.length_cons] <;>
      (try split_ifs) <;> (try simp only [Bool.false_eq_true, if_false]) <;>
      first
        | omega
        | (have h3 := ih2 s e; omega)

theorem BuildIndexedEdgesLoop_pointIndex (S E : List Int) (M : Int → Option Int) (b : Bool)
    (l : List Nat) (k : Int) (Out : List FIndexedEdge)
    (h : (BuildIndexedEdgesLoop S E M b l k Out).2.length = Out.length + l.length) :
    (BuildIndexedEdgesLoop S E M b l k Out).2.map (fun e => e.PointIndex)
      = Out.map (fun e => e.PointIndex) ++ l.map Int.ofNat := by
  induction l generalizing k Out with
  | nil => simp [BuildIndexedEdgesLoop]
  | cons i rest ih =>
    have hle := BuildIndexedEdgesLoop_length_le S E M b rest k Out
    have key : ∀ s e, M (S.getD i 0) = some s → M (E.getD i 0) = some e → (s == e) = false →
        (BuildIndexedEdgesLoop S E M b (i :: rest) k Out).2.map (fun e => e.PointIndex)
          = Out.map (fun e => e.PointIndex) ++ (i :: rest).map Int.ofNat := by
      intro s e hs he hse
      simp only [BuildIndexedEdgesLoop, hs, he, hse, List.length_cons] at h ⊢
      simp only [Bool.false_eq_true, if_false] at h ⊢
      have h' := ih (k + 1) (Out ++ [FIndexedEdge.ctorIndexed k s e (i : Int)])
        (by simp only [List.length_append, List.length_cons, List.length_nil]; omega)
      rw [h']
      simp [FIndexedEdge.ctorIndexed]
    rcases hs : M (S.getD i 0) with _ | s
    · exfalso
      cases b <;> simp only [BuildIndexedEdgesLoop, hs, List.length_cons] at h hle <;>
        (try simp only [Bool.false_eq_true, if_false, if_true] at h) <;> omega
    · rcases he : M (E.getD i 0) with _ | e
      · exfalso
        cases b <;> simp only [BuildIndexedEdgesLoop, hs, he, List.length_cons] at h hle <;>
          (try simp only [Bool.false_eq_true, if_false, if_true] at h) <;> omega
      · rcases hse : (s == e) with _ | _
        · exact key s e hs he hse
        · exfalso
          cases b <;> simp only [BuildIndexedEdgesLoop, hs, he, hse, List.length_cons] at h hle <;>
            (try simp only [Bool.false_eq_true, if_false, if_true] at h) <;> omega

theorem find_pointIndex_eq_getElem (Edges : List FIndexedEdge) (k n i : Nat)
    (h : Edges.map (fun e => e.PointIndex) = (List.range' k n).map Int.ofNat)
    (hk : k ≤ i) :
    Edges.find? (fun e => e.PointIndex == (i : Int)) = Edges[i - k]? := by
  induction Edges generalizing k n with
  | nil => simp
  | cons e rest ih =>
    cases n with
    | zero => simp at h
    | succ n =>
      simp only [List.range'_succ, List.map_cons, List.cons.injEq] at h
      obtain ⟨he, hrest⟩ := h
      rw [Int.ofNat_eq_coe] at he
      rw [List.find?_cons]
      by_cases hik : i = k
      · subst hik
        simp [he]
      · have hne : (e.PointIndex == (i : Int)) = false := by
          simp only [he, beq_eq_false_iff_ne, ne_eq, Nat.cast_inj]
          omega
        simp only [hne]
        rw [ih (k + 1) n hrest (by omega)]
        have : i - k = (i - (k + 1)) + 1 := by omega
        rw [this, List.getElem?_cons_succ]

end PCGExGraph

namespace PCGExRefineEdges

open PCGExCluster PCGExGraph

theorem InsertEdgesLoop_eq {P : Type} (Edges : List FIndexedEdge) (q : Nat → Bool)
    (pts : List P) (i : Nat) (K R : List P)
    (hq : ∀ j, i ≤ j → j < i + pts.length → ∃ e, Edges[j]? = some e ∧ e.bValid = q j) :
    InsertEdgesLoop Edges i pts K R
      = some (K ++ ((pts.enumFrom i).filter (fun ip => q ip.1)).map Prod.snd,
              R ++ ((pts.enumFrom i).filter (fun ip => !q ip.1)).map Prod.snd) := by
  induction pts generalizing i K R with
  | nil => simp [InsertEdgesLoop]
  | cons p rest ih =>
    obtain ⟨e, he, hv⟩ := hq i (Nat.le_refl i) (by simp)
    have hrest : ∀ j, i + 1 ≤ j → j < i + 1 + rest.length →
        ∃ e, Edges[j]? = some e ∧ e.bValid = q j := by
      intro j h1 h2
      exact hq j (by omega) (by simp only [List.length_cons]; omega)
    simp only [InsertEdgesLoop, he, List.enumFrom_cons]
    by_cases hqi : q i = true
    · rw [hv, hqi]
      simp only [if_true]
      rw [ih (i + 1) (K ++ [p]) R hrest]
      simp [List.filter_cons, hqi]
    · have hqi' : q i = false := by simpa using hqi
      rw [hv, hqi']
      simp only [Bool.false_eq_true, if_false]
      rw [ih (i + 1) K (R ++ [p]) hrest]
      simp [List.filter_cons, hqi']

theorem BuildIndexedEdges_pointIndex {P : Type} ( EdgeIO : FEdgePointData P) (M : Int → Option Int)
    (b : Bool) (h : (BuildIndexedEdges EdgeIO M [] b).2.length = EdgeIO.GetNum) :
    (BuildIndexedEdges EdgeIO M [] b).2.map (fun e => e.PointIndex)
      = (List.range' 0 EdgeIO.GetNum).map Int.ofNat := by
  unfold BuildIndexedEdges at h ⊢
  rcases hs : EdgeIO.EdgeStart with _ | S
  · simp only [hs, List.length_nil] at h
    simp [hs, ← h]
  · rcases he : EdgeIO.EdgeEnd with _ | E
    · simp only [hs, he, List.length_nil] at h
      simp [hs, he, ← h]
    · simp only [hs, he] at h ⊢
      have := BuildIndexedEdgesLoop_pointIndex S E M b (List.range EdgeIO.GetNum) 0 []
        (by simpa using h)
      rw [this, List.range_eq_range']
      simp

/-- C9 (as stated, refuted): `BuildIndexedEdges` (without
`bInvalidateOnError`) skips the first of two edge points, whose endpoints are
the same node, and returns `true` with one edge, whose `PointIndex` is 1. In
edges-only mode `InsertEdges` then decides about point 0 by reading
`Edges[0]`, the edge built from point 1, and reads `Edges[1]` outside the
array for point 1: no split of the two points into kept and removed edges is
produced. -/
theorem C9_skipped_edge_point_misaligns :
    (BuildIndexedEdges Examples.SelfLoopEdgePoints Examples.NodeMap3 [] false).1 = true ∧
    (BuildIndexedEdges Examples.SelfLoopEdgePoints Examples.NodeMap3 [] false).2.map
      (fun e => e.PointIndex) = [1] ∧
    EdgeBuiltFrom Examples.SelfLoopEdgesCluster.Edges 0 = none ∧
    InsertEdges (fun (g : Unit) _ => g) Examples.SelfLoopEdgesCluster
      Examples.SelfLoopEdgePoints.Points Examples.EdgesOnlyOutput = none := by
  decide!

/-- C9 (amended): when `BuildIndexedEdges` has kept every edge point (its
output has as many edges as the edge dataset has points) and the cluster
edges are the built ones up to their `bValid` flags, then in edges-only mode
`InsertEdges` succeeds, every edge point has a cluster edge built from it,
`KeptEdges` holds, in input order, the points whose edge is valid and
`RemovedEdges`, in input order, all the other points. -/
theorem C9_insert_edges_partitions_by_validity {P : Type}
    (GraphInsertEdges : Unit → List FIndexedEdge → Unit)
    ( EdgeIO : FEdgePointData P) (NodeIndicesMap : Int → Option Int) (bInvalidateOnError : Bool)
    (Cluster : FCluster)
    (hAll : (BuildIndexedEdges EdgeIO NodeIndicesMap [] bInvalidateOnError).2.length
      = EdgeIO.GetNum)
    (hEdges : Cluster.Edges.map (fun e => e.PointIndex)
      = (BuildIndexedEdges EdgeIO NodeIndicesMap [] bInvalidateOnError).2.map
          (fun e => e.PointIndex)) :
    (∀ i, i < EdgeIO.GetNum → ∃ e, EdgeBuiltFrom Cluster.Edges i = some e) ∧
    InsertEdges GraphInsertEdges Cluster EdgeIO.Points
        { Graph := none, KeptEdges := [], RemovedEdges := [] }
      = some
        { Graph := none
          KeptEdges := ( EdgeIO.Points.enum.filter
            (fun ip => EdgeBuiltFromIsValid Cluster.Edges ip.1)).map Prod.snd
          RemovedEdges := ( EdgeIO.Points.enum.filter
            (fun ip => !EdgeBuiltFromIsValid Cluster.Edges ip.1)).map Prod.snd } := by
  have hPI := BuildIndexedEdges_pointIndex EdgeIO NodeIndicesMap bInvalidateOnError hAll
  rw [← hEdges] at hPI
  have hlen : Cluster.Edges.length = EdgeIO.GetNum := by
    have := congrArg List.length hPI
    simpa using this
  have hfind : ∀ i, i < EdgeIO.GetNum →
      ∃ e, Cluster.Edges[i]? = some e ∧ EdgeBuiltFrom Cluster.Edges i = some e := by
    intro i hi
    have hlt : i < Cluster.Edges.length := by omega
    refine ⟨Cluster.Edges[i], List.getElem?_eq_getElem hlt, ?_⟩
    unfold EdgeBuiltFrom
    rw [find_pointIndex_eq_getElem Cluster.Edges 0 EdgeIO.GetNum i hPI (Nat.zero_le i)]
    simp [List.getElem?_eq_getElem hlt]
  refine ⟨fun i hi => (hfind i hi).imp (fun e he => he.2), ?_⟩
  have hq : ∀ j, 0 ≤ j → j < 0 + EdgeIO.Points.length →
      ∃ e, Cluster.Edges[j]? = some e ∧ e.bValid = EdgeBuiltFromIsValid Cluster.Edges j := by
    intro j _ hj
    obtain ⟨e, he1, he2⟩ := hfind j (by simpa [FEdgePointData.GetNum] using hj)
    exact ⟨e, he1, by simp [EdgeBuiltFromIsValid, he2]⟩
  simp only [InsertEdges]
  rw [InsertEdgesLoop_eq Cluster.Edges (EdgeBuiltFromIsValid Cluster.Edges) EdgeIO.Points 0
    [] [] hq]
  simp [List.enum]

/-- C9 (amended), on three edge points that are all kept by
`BuildIndexedEdges`, the second of which refinement has invalidated: points
100 and 102 are kept and point 101 is removed. -/
theorem C9_insert_edges_partitions_by_validity_witness :
    ((BuildIndexedEdges Examples.TriangleEdgePoints Examples.NodeMap3 [] false).2.length
      = Examples.TriangleEdgePoints.GetNum) ∧
    (Examples.TriangleEdgesCluster.Edges.map (fun e => e.PointIndex)
      = (BuildIndexedEdges Examples.TriangleEdgePoints Examples.NodeMap3 [] false).2.map
          (fun e => e.PointIndex)) ∧
    ((∀ i, i < Examples.TriangleEdgePoints.GetNum →
        ∃ e, EdgeBuiltFrom Examples.TriangleEdgesCluster.Edges i = some e) ∧
      InsertEdges (fun (g : Unit) _ => g) Examples.TriangleEdgesCluster
          Examples.TriangleEdgePoints.Points
          { Graph := none, KeptEdges := [], RemovedEdges := [] }
        = some
          { Graph := none
            KeptEdges := (Examples.TriangleEdgePoints.Points.enum.filter
              (fun ip => EdgeBuiltFromIsValid Examples.TriangleEdgesCluster.Edges ip.1)).map
                Prod.snd
            RemovedEdges := (Examples.TriangleEdgePoints.Points.enum.filter
              (fun ip => !EdgeBuiltFromIsValid Examples.TriangleEdgesCluster.Edges ip.1)).map
                Prod.snd }) ∧
    (Examples.TriangleEdgePoints.Points.enum.filter
      (fun ip => EdgeBuiltFromIsValid Examples.TriangleEdgesCluster.Edges ip.1)).map Prod.snd
      = [100, 102] ∧
    (Examples.TriangleEdgePoints.Points.enum.filter
      (fun ip => !EdgeBuiltFromIsValid Examples.TriangleEdgesCluster.Edges ip.1)).map Prod.snd
      = [101] :=
  ⟨by decide!, by decide!,
    C9_insert_edges_partitions_by_validity (fun g _ => g) Examples.TriangleEdgePoints
      Examples.NodeMap3 false Examples.TriangleEdgesCluster (by decide!) (by decide!),
    by decide!, by decide!⟩

end PCGExRefineEdges

namespace PCGExFilterGroup

theorem mem_InitManagedList (cof : List Nat) (b : Bool) (l : List FFilterFactory)
    (f : FFilterFactory) :
    f ∈ InitManagedList cof b l ↔ f ∈ l ∧ InitManagedFilter cof b f = true := by
  induction l with
  | nil => simp [InitManagedList]
  | cons g rest ih =>
    by_cases hg : InitManagedFilter cof b g = true
    · simp only [InitManagedList, hg, if_true, List.mem_cons, ih]
      constructor
      · rintro (h | h)
        · exact ⟨Or.inl h, h ▸ hg⟩
        · exact ⟨Or.inr h.1, h.2⟩
      · rintro ⟨h | h, h2⟩
        · exact Or.inl h
        · exact Or.inr ⟨h, h2⟩
    · simp only [InitManagedList, hg, Bool.false_eq_true, if_false, List.mem_cons, ih]
      constructor
      · rintro ⟨h1, h2⟩
        exact ⟨Or.inr h1, h2⟩
      · rintro ⟨h | h, h2⟩
        · exact absurd (h ▸ h2) hg
        · exact ⟨h, h2⟩

theorem InitManagedFilter_clusterOnly (cof : List Nat) (f : FFilterFactory)
    (h : f.IsClusterOnly cof = true) : InitManagedFilter cof false f = false := by
  cases f with
  | Single t p ok =>
    simp only [FFilterFactory.IsClusterOnly] at h
    simp only [InitManagedFilter, h, if_true, Bool.not_false]
  | Group p fs => simp [FFilterFactory.IsClusterOnly] at h

theorem mem_PostInitManaged (b : Bool) (l : List FFilterFactory) (f : FFilterFactory) (i : Nat)
    (h : (f, i) ∈ (PostInitManaged b l).2.ManagedFilters) : f ∈ l := by
  unfold PostInitManaged at h
  split_ifs at h with he
  · simp at h
  · have h1 := (List.of_mem_zip h).1
    exact (List.perm_insertionSort _ l).mem_iff.mp h1

/-- C7 (as stated, refuted): a group initialised without cluster data whose
children are a cluster-only filter (factory type 2) and a plain point filter
that initialises: the cluster-only child is refused, yet the group's `Init`
returns `true`, the group is valid and manages the other child. -/
theorem C7_group_survives_cluster_only_child :
    InitManagedFilter [2] false (FFilterFactory.Single 2 0 true) = false ∧
    (FFilterGroup.Init [2]
      [FFilterFactory.Single 2 0 true, FFilterFactory.Single 1 0 true]).1 = true ∧
    (FFilterGroup.Init [2]
      [FFilterFactory.Single 2 0 true, FFilterFactory.Single 1 0 true]).2.bValid = true ∧
    (FFilterGroup.Init [2]
      [FFilterFactory.Single 2 0 true, FFilterFactory.Single 1 0 true]).2.ManagedFilters.length
      = 1 := by
  decide

/-- C7 (amended): when a filter group is initialised without cluster data, a
child whose factory type is cluster-only is refused and left out of the
managed filters; the group's `Init` returns its validity, and it returns
`true` exactly when at least one child initialises successfully (so it returns
`false`, the group being invalid, exactly when none does). -/
theorem C7_cluster_only_child_is_left_out :
    ∀ (ClusterOnlyFilters : List Nat) (ManagedFactories : List FFilterFactory),
      (∀ f ∈ ManagedFactories, f.IsClusterOnly ClusterOnlyFilters = true →
        InitManagedFilter ClusterOnlyFilters false f = false) ∧
      (∀ f i, (f, i) ∈ (FFilterGroup.Init ClusterOnlyFilters ManagedFactories).2.ManagedFilters →
        f.IsClusterOnly ClusterOnlyFilters = false) ∧
      (FFilterGroup.Init ClusterOnlyFilters ManagedFactories).1
        = (FFilterGroup.Init ClusterOnlyFilters ManagedFactories).2.bValid ∧
      ((FFilterGroup.Init ClusterOnlyFilters ManagedFactories).1 = true ↔
        ∃ f ∈ ManagedFactories, InitManagedFilter ClusterOnlyFilters false f = true) := by
  intro cof l
  refine ⟨fun f _ h => InitManagedFilter_clusterOnly cof f h, ?_, ?_, ?_⟩
  · intro f i h
    have h1 := mem_PostInitManaged false _ f i h
    have h2 := ((mem_InitManagedList cof false l f).mp h1).2
    by_contra hc
    have hc' : f.IsClusterOnly cof = true := by simpa using hc
    rw [InitManagedFilter_clusterOnly cof f hc'] at h2
    exact Bool.false_ne_true h2
  · unfold FFilterGroup.Init InitManaged PostInitManaged
    split_ifs <;> rfl
  · unfold FFilterGroup.Init InitManaged PostInitManaged
    constructor
    · intro h
      split_ifs at h with he
      rcases hl : InitManagedList cof false l with _ | ⟨f, rest⟩
      · simp [hl] at he
      · have hf : f ∈ InitManagedList cof false l := by simp [hl]
        exact ⟨f, (mem_InitManagedList cof false l f).mp hf⟩
    · rintro ⟨f, hf, hinit⟩
      have hm := (mem_InitManagedList cof false l f).mpr ⟨hf, hinit⟩
      split_ifs with he
      · rw [List.isEmpty_iff] at he
        rw [he] at hm
        simp at hm
      · rfl

end PCGExFilterGroup

namespace PCGExGraph

/-- C8 (code evaluated at the failing input): with
`bComponentWiseTolerance` set the constructor never assigns `CWTolerance`;
with tolerances (2, 4, 8) the member keeps what it held before (here zero)
and is not (1/2, 1/4, 1/8). Without the flag and with tolerance 2 it is
1/2 on the three axes. -/
theorem C8_component_wise_tolerance_is_discarded :
    (∀ (Indeterminate : FVector) (s : FPCGExFuseSettings) (InBounds : FBox) (fp fm : Bool),
      s.bComponentWiseTolerance = true →
        (FCompoundGraph.ctor Indeterminate s InBounds fp fm).CWTolerance = Indeterminate) ∧
    (FCompoundGraph.ctor FVector.ZeroVector
      { bComponentWiseTolerance := true, Tolerance := 1, Tolerances := { X := 2, Y := 4, Z := 8 } }
      { Min := FVector.ZeroVector, Max := FVector.ZeroVector } true true).CWTolerance
      = FVector.ZeroVector ∧
    (FCompoundGraph.ctor FVector.ZeroVector
      { bComponentWiseTolerance := true, Tolerance := 1, Tolerances := { X := 2, Y := 4, Z := 8 } }
      { Min := FVector.ZeroVector, Max := FVector.ZeroVector } true true).CWTolerance
      ≠ { X := 1 / 2, Y := 1 / 4, Z := 1 / 8 } ∧
    (FCompoundGraph.ctor FVector.ZeroVector
      { bComponentWiseTolerance := false, Tolerance := 2, Tolerances := { X := 2, Y := 4, Z := 8 } }
      { Min := FVector.ZeroVector, Max := FVector.ZeroVector } true true).CWTolerance
      = { X := 1 / 2, Y := 1 / 2, Z := 1 / 2 } := by
  refine ⟨?_, by decide!, by decide!, by decide!⟩
  intro u s bnd fp fm h
  simp [FCompoundGraph.ctor, FCompoundGraph.ctorCWTolerance, h]

end PCGExGraph

namespace PCGExGraph

open PCGExData

theorem foldl_invariant {α β : Type} (Q : β → Prop) (f : β → α → β)
    (hf : ∀ b a, Q b → Q (f b a)) (l : List α) (init : β) (h : Q init) :
    Q (l.foldl f init) := by
  induction l generalizing init with
  | nil => exact h
  | cons a rest ih => exact ih (f init a) (hf init a h)

theorem not_shares_of_no_overlap (l m : FIdxCompoundList) (A B : Int)
    (h : l.HasIOIndexOverlap A (m.GetIOIndices B []) = false) :
    ¬ FIdxCompoundList.SharesIOIndex l A m B := by
  rintro ⟨a, b, io, ha, hb, hia, hib⟩
  simp only [FIdxCompoundList.HasIOIndexOverlap, FIdxCompoundList.IOIndexOverlap,
    FIdxCompoundList.GetIOIndices, ha, hb, List.nil_append, decide_eq_false_iff_not, not_lt,
    Nat.le_zero, List.length_eq_zero] at h
  have hmem : io ∈ a.IOIndices.filter (fun io => b.IOIndices.contains io) := by
    simp [List.mem_filter, hia, hib]
  rw [h] at hmem
  simp at hmem

theorem ProcessPointRef_inv (ops : FIntersectionOps) (I : FPointEdgeIntersections)
    (hI : I.bEnableSelfIntersection = false)
    (PointsData : FPointsData) (EdgeIndex : Int) (Edge : FPointEdgeProxy)
    (IEdge : FIndexedEdge) (st : FPESplit × List (Int × FPESplit)) (PointIndex : Int)
    (hst : ∀ x ∈ st.2, x.1 = EdgeIndex ∧ ¬ FIdxCompoundList.SharesIOIndex I.PointsCompounds
      x.2.NodeIndex I.EdgesCompounds (ops.GetRootIndex Edge.EdgeIndex)) :
    ∀ x ∈ (ProcessPointRef ops I PointsData EdgeIndex Edge IEdge
        (I.EdgesCompounds.GetIOIndices (ops.GetRootIndex Edge.EdgeIndex) []) st PointIndex).2,
      x.1 = EdgeIndex ∧ ¬ FIdxCompoundList.SharesIOIndex I.PointsCompounds
        x.2.NodeIndex I.EdgesCompounds (ops.GetRootIndex Edge.EdgeIndex) := by
  unfold ProcessPointRef
  simp only [hI, Bool.not_false, if_true]
  repeat' split
  all_goals first
    | exact hst
    | (rename_i hov
       intro x hx
       rcases List.mem_append.mp hx with hx | hx
       · exact hst x hx
       · simp only [List.mem_singleton] at hx
         subst hx
         refine ⟨rfl, ?_⟩
         apply not_shares_of_no_overlap
         simpa using hov)

end PCGExGraph

namespace PCGExGraph

open PCGExData

theorem ProcessEdge_inv (ops : FIntersectionOps) (I : FEdgeEdgeIntersections)
    (hI : I.bEnableSelfIntersection = false) (EdgeIndex : Int) (Edge : FEdgeEdgeProxy)
    (st : FEESplit × FEdgeEdgeIntersections) (ProxyIndex : Int)
    (hst : OverlapInv ops I EdgeIndex Edge st.2) :
    OverlapInv ops I EdgeIndex Edge
      (ProcessEdge ops EdgeIndex Edge
        (I.EdgesCompounds.GetIOIndices (ops.GetRootIndex Edge.EdgeIndex) []) st ProxyIndex).2 := by
  obtain ⟨hc, hb, he, added, hadd, hall⟩ := hst
  have hb' : st.2.bEnableSelfIntersection = false := by rw [hb, hI]
  unfold ProcessEdge
  simp only [hb', Bool.not_false, if_true]
  repeat' split
  all_goals first
    | exact ⟨hc, hb, he, added, hadd, hall⟩
    | (rename_i OtherEdge _ _ _ _ _ hov
       refine ⟨hc, hb, he, added ++ [FEECrossing.mk (-1) EdgeIndex OtherEdge.EdgeIndex
         (ops.FindSplitEE Edge OtherEdge st.1).2], ?_, ?_⟩
       · simp only [FEdgeEdgeIntersections.Add, hadd, List.append_assoc]
       · intro c hcm
         rcases List.mem_append.mp hcm with hcm | hcm
         · exact hall c hcm
         · simp only [List.mem_singleton] at hcm
           subst hcm
           refine ⟨rfl, ?_⟩
           apply not_shares_of_no_overlap
           rw [hc] at hov
           simpa using hov)

/-- C3: with `bEnableSelfIntersection = false`, whatever the geometry (the
box tests, the octree and both `FindSplit` are arbitrary), every split that
`FindCollinearNodes` records for an edge is for a node whose point compound
shares no IO index with the compound of the tested edge, and every crossing
that `FindOverlappingEdges` records joins the tested edge to an edge whose
compound shares no IO index with its own. On geometrically coincident inputs
a node or an edge from the same source yields nothing, one from another
source is recorded, and with self-intersection enabled both are recorded. -/
theorem C3_self_intersection_opt_out :
    (∀ (ops : FIntersectionOps) (I : FPointEdgeIntersections) (EdgeIndex : Int)
        (PointsData : FPointsData) (Edge : FPointEdgeProxy),
      getAt I.Edges EdgeIndex = some Edge →
      ∀ x ∈ FindCollinearNodes ops { I with bEnableSelfIntersection := false } EdgeIndex
          PointsData,
        x.1 = EdgeIndex ∧
        ¬ FIdxCompoundList.SharesIOIndex I.PointsCompounds x.2.NodeIndex
            I.EdgesCompounds (ops.GetRootIndex Edge.EdgeIndex)) ∧
    (∀ (ops : FIntersectionOps) (I : FEdgeEdgeIntersections) (EdgeIndex : Int)
        (Edge : FEdgeEdgeProxy),
      getAt I.Edges EdgeIndex = some Edge →
      ∃ added,
        (FindOverlappingEdges ops { I with bEnableSelfIntersection := false } EdgeIndex).Crossings
          = I.Crossings ++ added ∧
        ∀ c ∈ added, c.EdgeA = EdgeIndex ∧
          ¬ FIdxCompoundList.SharesIOIndex I.EdgesCompounds (ops.GetRootIndex c.EdgeB)
              I.EdgesCompounds (ops.GetRootIndex Edge.EdgeIndex)) ∧
    ((FindCollinearNodes Examples.CoincidentOps (Examples.PointEdgeCase 0 false) 0
        Examples.ThreePoints).length = 0 ∧
      (FindCollinearNodes Examples.CoincidentOps (Examples.PointEdgeCase 1 false) 0
        Examples.ThreePoints).map (fun x => x.2.NodeIndex) = [2] ∧
      (FindCollinearNodes Examples.CoincidentOps (Examples.PointEdgeCase 0 true) 0
        Examples.ThreePoints).map (fun x => x.2.NodeIndex) = [2]) ∧
    ((FindOverlappingEdges Examples.CoincidentOps (Examples.EdgeEdgeCase 0 false) 0).Crossings.length
        = 0 ∧
      (FindOverlappingEdges Examples.CoincidentOps (Examples.EdgeEdgeCase 1 false)
        0).Crossings.map (fun c => (c.EdgeA, c.EdgeB)) = [(0, 1)] ∧
      (FindOverlappingEdges Examples.CoincidentOps (Examples.EdgeEdgeCase 0 true)
        0).Crossings.map (fun c => (c.EdgeA, c.EdgeB)) = [(0, 1)]) := by
  refine ⟨?_, ?_, by decide!, by decide!⟩
  · intro ops I EdgeIndex PointsData Edge hE x hx
    unfold FindCollinearNodes at hx
    simp only [hE] at hx
    split at hx
    · rename_i Edge2 IEdge h1 h2
      simp only [Option.some.injEq] at h1
      subst h1
      simp only [Bool.not_false, if_true] at hx
      have key := foldl_invariant
        (fun (st : FPESplit × List (Int × FPESplit)) => ∀ x ∈ st.2, x.1 = EdgeIndex ∧
          ¬ FIdxCompoundList.SharesIOIndex I.PointsCompounds x.2.NodeIndex I.EdgesCompounds
            (ops.GetRootIndex Edge.EdgeIndex))
        (ProcessPointRef ops { I with bEnableSelfIntersection := false } PointsData EdgeIndex
          Edge IEdge (I.EdgesCompounds.GetIOIndices (ops.GetRootIndex Edge.EdgeIndex) []))
        (fun st a hst => ProcessPointRef_inv ops { I with bEnableSelfIntersection := false } rfl
          PointsData EdgeIndex Edge IEdge st a hst)
        (PointsData.Octree Edge.Box) (FPESplit.ctor, []) (by simp)
      exact key x hx
    · simp at hx
  · intro ops I EdgeIndex Edge hE
    have hinit : OverlapInv ops { I with bEnableSelfIntersection := false } EdgeIndex Edge
        { I with bEnableSelfIntersection := false } :=
      ⟨rfl, rfl, rfl, [], by simp, by simp⟩
    have key := foldl_invariant
      (fun (st : FEESplit × FEdgeEdgeIntersections) =>
        OverlapInv ops { I with bEnableSelfIntersection := false } EdgeIndex Edge st.2)
      (ProcessEdge ops EdgeIndex Edge
        (I.EdgesCompounds.GetIOIndices (ops.GetRootIndex Edge.EdgeIndex) []))
      (fun st a hst => ProcessEdge_inv ops { I with bEnableSelfIntersection := false } rfl
        EdgeIndex Edge st a hst)
      (I.Octree Edge.Box) (FEESplit.ctor, { I with bEnableSelfIntersection := false }) hinit
    unfold FindOverlappingEdges
    simp only [hE, Bool.not_false, if_true]
    obtain ⟨_, _, _, added, hadd, hall⟩ := key
    exact ⟨added, hadd, hall⟩

end PCGExGraph

namespace PCGExFindContours

open PCGExCluster

theorem Finish_accepted {P : Type} [Inhabited P] (S : FSettings) (c : FCluster)
    (OriginPoints : List P) (RawTags : List String) (Processor : FProcessorState) (w : FWalk)
    (hacc : (Finish S c OriginPoints RawTags Processor w).bResult = true) :
    Finish S c OriginPoints RawTags Processor w
      = EmitPath S c OriginPoints (RecordPath S Processor w.PathUniqueSet) RawTags w := by
  unfold Finish at hacc ⊢
  split_ifs at hacc ⊢ with h1 h2
  · simp [Reject] at hacc
  · simp [Reject] at hacc
  · rfl

theorem AfterLoop_accepted {P : Type} [Inhabited P] (S : FSettings) (c : FCluster)
    (OriginPoints : List P) (RawTags : List String) (Processor : FProcessorState)
    (r : Option (Option FWalk)) (out : FContourResult P)
    (hrun : AfterLoop S c OriginPoints RawTags Processor r = some out)
    (hacc : out.bResult = true) :
    ∃ w, r = some (some w) ∧
      out = EmitPath S c OriginPoints (RecordPath S Processor w.PathUniqueSet) RawTags w := by
  rcases r with _ | _ | w
  · simp [AfterLoop] at hrun
  · simp only [AfterLoop, Option.some.injEq] at hrun
    subst hrun
    simp [Reject] at hacc
  · simp only [AfterLoop, Option.some.injEq] at hrun
    subst hrun
    exact ⟨w, rfl, Finish_accepted S c OriginPoints RawTags Processor w hacc⟩

theorem TryFindContours_accepted {P : Type} [Inhabited P] (ops : FContourOps) (S : FSettings)
    (c : FCluster) (Positions ProjectedSeeds : List FVector) (OriginPoints : List P)
    (RawTags : List String) (Processor : FProcessorState) (SeedIndex : Int) (fuel : Nat)
    (out : FContourResult P)
    (hrun : TryFindContours ops S c Positions ProjectedSeeds OriginPoints RawTags Processor
      SeedIndex fuel = some out)
    (hacc : out.bResult = true) :
    ∃ Processor2 w, out = EmitPath S c OriginPoints Processor2 RawTags w := by
  unfold TryFindContours at hrun
  simp only at hrun
  split_ifs at hrun with h1 h2 h3
  · simp only [Option.some.injEq] at hrun; subst hrun; simp [Reject] at hacc
  · simp only [Option.some.injEq] at hrun; subst hrun; simp [Reject] at hacc
  · simp only [Option.some.injEq] at hrun; subst hrun; simp [Reject] at hacc
  · obtain ⟨w, _, hw⟩ := AfterLoop_accepted S c OriginPoints RawTags _ _ out hrun hacc
    exact ⟨_, w, hw⟩

/-- C10: when `bFlagDeadEnds` is enabled and `TryFindContours` accepts a
contour, a dead-end value is written for every point of the path, and the
value of point `i` is `true` if and only if the cluster node `Path[i]` has
exactly one adjacency entry. -/
theorem C10_dead_end_flag_iff_single_adjacency {P : Type} [Inhabited P] (ops : FContourOps)
    (S : FSettings) (c : FCluster) (Positions ProjectedSeeds : List FVector)
    (OriginPoints : List P) (RawTags : List String) (Processor : FProcessorState)
    (SeedIndex : Int) (fuel : Nat) (out : FContourResult P)
    (hflag : S.bFlagDeadEnds = true)
    (hrun : TryFindContours ops S c Positions ProjectedSeeds OriginPoints RawTags Processor
      SeedIndex fuel = some out)
    (hacc : out.bResult = true) :
    ∃ Values, out.DeadEndValues = some Values ∧
      Values.length = out.Path.length ∧ out.MutablePoints.length = out.Path.length ∧
      ∀ i, i < out.Path.length →
        (Values.getD i false = true ↔ AdjacencyNum c (out.Path.getD i (-1)) = 1) := by
  obtain ⟨Processor2, w, rfl⟩ := TryFindContours_accepted ops S c Positions ProjectedSeeds
    OriginPoints RawTags Processor SeedIndex fuel out hrun hacc
  refine ⟨w.Path.map (fun v => decide (AdjacencyNum c v = 1)), ?_, ?_, ?_, ?_⟩
  · simp [EmitPath, hflag]
  · simp [EmitPath]
  · simp [EmitPath]
  · intro i hi
    simp only [EmitPath] at hi ⊢
    simp [List.getD_eq_getElem?_getD, List.getElem?_map, List.getElem?_eq_getElem hi]

/-- C10, on the path `0 - 1 - 2` with a seed next to the middle node: the
contour `[1, 0]` is accepted; node 1 has two adjacency entries and is not
flagged, node 0 has one and is flagged. -/
theorem C10_dead_end_flag_iff_single_adjacency_witness :
    ∃ out : FContourResult Nat,
      TryFindContours (SpecOps 100) { DefaultSettings with bFlagDeadEnds := true }
        Examples.PathCluster Examples.PathPositions Examples.PathSeeds [100, 101, 102] []
        Examples.FreshProcessor 0 10 = some out ∧
      out.bResult = true ∧ out.Path = [1, 0] ∧ out.DeadEndValues = some [false, true] ∧
      ∃ Values, out.DeadEndValues = some Values ∧
        Values.length = out.Path.length ∧ out.MutablePoints.length = out.Path.length ∧
        ∀ i, i < out.Path.length →
          (Values.getD i false = true ↔
            AdjacencyNum Examples.PathCluster (out.Path.getD i (-1)) = 1) :=
  ⟨EmitPath { DefaultSettings with bFlagDeadEnds := true } Examples.PathCluster
      [100, 101, 102] Examples.FreshProcessor []
      { StartNodeIndex := 1, PrevIndex := 1, NextIndex := -1, Path := [1, 0]
        PathUniqueSet := [1, 0], Exclusions := [], bIsConvex := true, Sign := 0
        bGracefullyClosed := false },
    by decide!, by decide!, by decide!, by decide!,
    C10_dead_end_flag_iff_single_adjacency (SpecOps 100)
      { DefaultSettings with bFlagDeadEnds := true } Examples.PathCluster Examples.PathPositions
      Examples.PathSeeds [100, 101, 102] [] Examples.FreshProcessor 0 10 _ (by decide!)
      (by decide!) (by decide!)⟩

end PCGExFindContours

namespace PCGExFindContours

open PCGExCluster

theorem IsSimpleCycle_shift {c : FCluster} {n : Nat} {f : Int → Int} (b : Int)
    (h : IsSimpleCycle c n f) : IsSimpleCycle c n (fun i => f (i + b)) := by
  obtain ⟨h3, hlen, hper, hrange, hinj, hsurj, hnb⟩ := h
  refine ⟨h3, hlen, ?_, fun i => hrange _, ?_, ?_, ?_⟩
  · intro i
    show f (i + n + b) = f (i + b)
    rw [show i + (n : Int) + b = (i + b) + n by ring]
    exact hper _
  · intro i j hij
    have := hinj _ _ hij
    simpa using this
  · intro v hv0 hvn
    obtain ⟨i, hi⟩ := hsurj v hv0 hvn
    exact ⟨i - b, by simpa using hi⟩
  · intro i
    show Neighbors c (f (i + b)) = [f (i - 1 + b), f (i + 1 + b)] ∨
      Neighbors c (f (i + b)) = [f (i + 1 + b), f (i - 1 + b)]
    rw [show i - 1 + b = (i + b) - 1 by ring, show i + 1 + b = (i + b) + 1 by ring]
    exact hnb _

theorem IsSimpleCycle_neg {c : FCluster} {n : Nat} {f : Int → Int}
    (h : IsSimpleCycle c n f) : IsSimpleCycle c n (fun i => f (-i)) := by
  obtain ⟨h3, hlen, hper, hrange, hinj, hsurj, hnb⟩ := h
  refine ⟨h3, hlen, ?_, fun i => hrange _, ?_, ?_, ?_⟩
  · intro i
    show f (-(i + n)) = f (-i)
    have := hper (-(i + n))
    rw [show -(i + (n : Int)) + n = -i by ring] at this
    exact this.symm
  · intro i j hij
    have := hinj _ _ hij
    have h2 : (n : Int) ∣ -((-i) - (-j)) := (Int.dvd_neg).mpr this
    rw [show -((-i) - (-j)) = i - j by ring] at h2
    exact h2
  · intro v hv0 hvn
    obtain ⟨i, hi⟩ := hsurj v hv0 hvn
    exact ⟨-i, by simpa using hi⟩
  · intro i
    show Neighbors c (f (-i)) = [f (-(i - 1)), f (-(i + 1))] ∨
      Neighbors c (f (-i)) = [f (-(i + 1)), f (-(i - 1))]
    rw [show -(i - 1) = (-i) + 1 by ring, show -(i + 1) = (-i) - 1 by ring]
    exact (hnb (-i)).symm

theorem IsSimpleCycle_ne {c : FCluster} {n : Nat} {f : Int → Int}
    (h : IsSimpleCycle c n f) (i j : Int) (hlt : 0 < i - j) (hn : i - j < n) : f i ≠ f j := by
  intro heq
  have hd := h.2.2.2.2.1 i j heq
  have := Int.le_of_dvd hlt hd
  omega

theorem AdjacencyNum_eq_length (c : FCluster) (v : Int) :
    AdjacencyNum c v = (Neighbors c v).length := by
  unfold AdjacencyNum Neighbors
  cases c.GetNode v <;> simp

end PCGExFindContours

namespace PCGExFindContours

open PCGExCluster

theorem ScanNeighbors_pair (ops : FContourOps) (c : FCluster) (Positions : List FVector)
    (Exclusions : List Int) (StartNodeIndex : Int) (Origin GuideDir : FVector)
    (nbrs : List Int) (x y : Int) (cl : Bool)
    (hangle : ∀ u v, -1 < ops.GetDegreesBetweenVectors u v)
    (hx : Exclusions.contains x = true) (hy : Exclusions.contains y = false)
    (hn : nbrs = [x, y] ∨ nbrs = [y, x]) :
    (ScanNeighbors ops c Positions Exclusions StartNodeIndex Origin GuideDir nbrs
        (-1, -1, cl)).2
      = if y = StartNodeIndex then (-1, true) else (y, cl) := by
  have ha := hangle (ops.GetSafeNormal (FVector.sub Origin (ProjectedPosition c Positions y)))
    GuideDir
  have hx' : x ∈ Exclusions := by simpa using hx
  have hy' : y ∉ Exclusions := by simpa using hy
  rcases hn with rfl | rfl
  · by_cases hys : y = StartNodeIndex
    · subst hys
      simp [ScanNeighbors, hx', hy']
    · simp [ScanNeighbors, hx', hy', hys, ha]
  · by_cases hys : y = StartNodeIndex
    · subst hys
      simp [ScanNeighbors, hy']
    · simp [ScanNeighbors, hx', hy', hys, ha]

theorem SetAdd_contains_self (s : List Int) (a : Int) : (SetAdd s a).contains a = true := by
  unfold SetAdd
  split_ifs with h
  · exact h
  · simp

theorem SetAdd_contains_of (s : List Int) (a b : Int) (h : (SetAdd s a).contains b = true) :
    b = a ∨ s.contains b = true := by
  unfold SetAdd at h
  split_ifs at h with h1
  · exact Or.inr h
  · simp only [List.contains_eq_any_beq, List.any_append, Bool.or_eq_true] at h ⊢
    rcases h with h | h
    · exact Or.inr h
    · left; simpa using h

theorem WalkStep_cycle (ops : FContourOps) (S : FSettings) (c : FCluster)
    (Positions : List FVector) (n : Nat) (g : Int → Int) (hg : IsSimpleCycle c n g)
    (hangle : ∀ u v, -1 < ops.GetDegreesBetweenVectors u v)
    (hout : S.OutputType = EPCGExContourShapeTypeOutput.Both)
    (j : Int) (hj1 : 1 ≤ j) (hjn : j < n) (w : FWalk)
    (hstart : w.StartNodeIndex = g 0) (hprev : w.PrevIndex = g (j - 1))
    (hnext : w.NextIndex = g j)
    (hexcl : ∀ v, w.Exclusions.contains v = true → v = g (j - 1) ∨ v = g j) :
    WalkStep ops S c Positions w
      = some
        (if j + 1 = n then
          { StartNodeIndex := g 0, PrevIndex := g (j - 1), NextIndex := -1
            Path := w.Path ++ [g j], PathUniqueSet := SetAdd w.PathUniqueSet (g j)
            Exclusions := [], bIsConvex := w.bIsConvex, Sign := w.Sign
            bGracefullyClosed := true }
        else
          { StartNodeIndex := g 0, PrevIndex := g j, NextIndex := g (j + 1)
            Path := w.Path ++ [g j], PathUniqueSet := SetAdd w.PathUniqueSet (g j)
            Exclusions := [], bIsConvex := w.bIsConvex, Sign := w.Sign
            bGracefullyClosed := w.bGracefullyClosed }) := by
  obtain ⟨h3, hlen, hper, hrange, hinj, hsurj, hnb⟩ := id hg
  have hlen2 : (Neighbors c (g j)).length = 2 := by
    rcases hnb j with h | h <;> simp [h]
  have hxin : (SetAdd w.Exclusions (g (j - 1))).contains (g (j - 1)) = true :=
    SetAdd_contains_self _ _
  have hyout : (SetAdd w.Exclusions (g (j - 1))).contains (g (j + 1)) = false := by
    by_contra hc
    have hc' : (SetAdd w.Exclusions (g (j - 1))).contains (g (j + 1)) = true := by
      simpa using hc
    have h1 : g (j + 1) ≠ g (j - 1) := IsSimpleCycle_ne hg _ _ (by omega) (by omega)
    have h2 : g (j + 1) ≠ g j := IsSimpleCycle_ne hg _ _ (by omega) (by omega)
    rcases SetAdd_contains_of _ _ _ hc' with h | h
    · exact h1 h
    · rcases hexcl _ h with h | h
      · exact h1 h
      · exact h2 h
  have hscan := ScanNeighbors_pair ops c Positions (SetAdd w.Exclusions (g (j - 1))) (g 0)
    (ProjectedPosition c Positions (g j))
    (ops.GetSafeNormal (FVector.sub (ProjectedPosition c Positions (g j))
      (ProjectedPosition c Positions (g (j - 1)))))
    (Neighbors c (g j)) (g (j - 1)) (g (j + 1)) w.bGracefullyClosed hangle hxin hyout (hnb j)
  have hne : g (j + 1) ≠ -1 := by
    have := (hrange (j + 1)).1
    omega
  by_cases hclose : j + 1 = n
  · have hg0 : g (j + 1) = g 0 := by
      rw [hclose]
      have := hper 0
      simpa using this
    rw [if_pos hg0] at hscan
    unfold WalkStep
    simp only [hstart, hprev, hnext, hlen2, hout]
    simp only [show ((2 : Nat) == 1) = false from rfl, Bool.false_and, Bool.false_eq_true,
      if_false, show (2 : Nat) > 1 from by decide, if_true, hscan, if_pos hclose]
    simp
  · have hg0 : g (j + 1) ≠ g 0 := IsSimpleCycle_ne hg _ _ (by omega) (by omega)
    rw [if_neg hg0] at hscan
    unfold WalkStep
    simp only [hstart, hprev, hnext, hlen2, hout]
    simp only [show ((2 : Nat) == 1) = false from rfl, Bool.false_and, Bool.false_eq_true,
      if_false, show (2 : Nat) > 1 from by decide, if_true, hscan, if_neg hclose]
    simp [hne]

end PCGExFindContours

namespace PCGExFindContours

open PCGExCluster

theorem WalkLoop_cycle (ops : FContourOps) (S : FSettings) (c : FCluster)
    (Positions : List FVector) (n : Nat) (g : Int → Int) (hg : IsSimpleCycle c n g)
    (hangle : ∀ u v, -1 < ops.GetDegreesBetweenVectors u v)
    (hout : S.OutputType = EPCGExContourShapeTypeOutput.Both) :
    ∀ (m j fuel : Nat) (w : FWalk), j + m = n → 1 ≤ j → 1 ≤ m → m + 1 ≤ fuel →
      w.StartNodeIndex = g 0 → w.PrevIndex = g ((j : Int) - 1) → w.NextIndex = g (j : Int) →
      (∀ v, w.Exclusions.contains v = true → v = g ((j : Int) - 1) ∨ v = g (j : Int)) →
      w.Path = (List.range j).map (fun i => g (Int.ofNat i)) → w.bIsConvex = true →
      ∃ w2, WalkLoop ops S c Positions fuel w = some (some w2) ∧
        w2.Path = (List.range n).map (fun i => g (Int.ofNat i)) ∧
        w2.bGracefullyClosed = true ∧ w2.bIsConvex = true := by
  intro m
  induction m with
  | zero => intro j fuel w _ _ h; omega
  | succ k ih =>
    intro j fuel w hjm hj1 _ hfuel hstart hprev hnext hexcl hpath hconv
    obtain ⟨fuel2, rfl⟩ : ∃ f2, fuel = f2 + 1 := ⟨fuel - 1, by omega⟩
    have hstep := WalkStep_cycle ops S c Positions n g hg hangle hout (j : Int)
      (by omega) (by omega) w hstart hprev hnext hexcl
    have hne : (w.NextIndex == -1) = false := by
      rw [hnext]
      have := (hg.2.2.2.1 (j : Int)).1
      simp only [beq_eq_false_iff_ne, ne_eq]
      omega
    have hpath2 : w.Path ++ [g (j : Int)] = (List.range (j + 1)).map (fun i => g (Int.ofNat i)) := by
      rw [List.range_succ, List.map_append, hpath]
      simp
    simp only [WalkLoop, hne, Bool.false_eq_true, if_false, hstep]
    by_cases hclose : (j : Int) + 1 = n
    · rw [if_pos hclose]
      obtain ⟨fuel3, rfl⟩ : ∃ f3, fuel2 = f3 + 1 := ⟨fuel2 - 1, by omega⟩
      have hjn : j + 1 = n := by omega
      simp only [WalkLoop, show ((-1 : Int) == -1) = true from rfl, if_true]
      exact ⟨_, rfl, by simp only [hpath2, hjn], rfl, hconv⟩
    · rw [if_neg hclose]
      apply ih (j + 1) fuel2 _ (by omega) (by omega) (by omega) (by omega) rfl
      · simp
      · simp
      · intro v hv
        simp at hv
      · exact hpath2
      · exact hconv

end PCGExFindContours

namespace PCGExFindContours

open PCGExCluster

theorem IsSimpleCycle_add_mul {c : FCluster} {n : Nat} {f : Int → Int}
    (h : IsSimpleCycle c n f) (i k : Int) : f (i + k * n) = f i := by
  have hper := h.2.2.1
  induction k using Int.induction_on with
  | hz => simp
  | hp k ih =>
    rw [show i + ((k : Int) + 1) * n = (i + k * n) + n by ring, hper, ih]
  | hn k ih =>
    have := hper (i + (-(k : Int) - 1) * n)
    rw [show i + (-(k : Int) - 1) * n + n = i + -(k : Int) * n by ring, ih] at this
    exact this.symm

theorem IsSimpleCycle_mem_range {c : FCluster} {n : Nat} {f : Int → Int}
    (h : IsSimpleCycle c n f) (v : Int) (hv0 : 0 ≤ v) (hvn : v < n) :
    v ∈ (List.range n).map (fun i => f (Int.ofNat i)) := by
  obtain ⟨i, hi⟩ := h.2.2.2.2.2.1 v hv0 hvn
  have hn : (0 : Int) < n := by have := h.1; omega
  have hmod : f (i % n) = f i := by
    have := IsSimpleCycle_add_mul h (i % n) (i / n)
    rw [show i % (n : Int) + i / n * n = i by
      have := Int.emod_add_ediv i n
      linarith [mul_comm (n : Int) (i / n)]] at this
    exact this.symm
  have h0 : 0 ≤ i % n := Int.emod_nonneg i (by omega)
  have h1 : i % n < n := Int.emod_lt_of_pos i hn
  refine List.mem_map.mpr ⟨(i % n).toNat, ?_, ?_⟩
  · rw [List.mem_range]
    omega
  · simp only [Int.ofNat_eq_coe, Int.toNat_of_nonneg h0]
    rw [hmod, hi]

theorem IsSimpleCycle_nodup_range {c : FCluster} {n : Nat} {f : Int → Int}
    (h : IsSimpleCycle c n f) : ((List.range n).map (fun i => f (Int.ofNat i))).Nodup := by
  apply List.Nodup.map_on _ (List.nodup_range n)
  intro x hx y hy hxy
  rw [List.mem_range] at hx hy
  have hd := h.2.2.2.2.1 _ _ hxy
  simp only [Int.ofNat_eq_coe] at hd
  obtain ⟨k, hk⟩ := hd
  have hk0 : k = 0 := by
    by_contra hne
    rcases Int.lt_or_gt_of_ne hne with hlt | hgt
    · have : (n : Int) * k ≤ (n : Int) * (-1) :=
        Int.mul_le_mul_of_nonneg_left (by omega) (by omega)
      omega
    · have : (n : Int) * 1 ≤ (n : Int) * k :=
        Int.mul_le_mul_of_nonneg_left (by omega) (by omega)
      omega
  rw [hk0] at hk
  omega

theorem IsSimpleCycle_reparam {c : FCluster} {n : Nat} {f : Int → Int}
    (h : IsSimpleCycle c n f) (b : Int) (P0 N0 : Int) (hP : P0 = f b)
    (hN : N0 = f (b + 1) ∨ N0 = f (b - 1)) :
    ∃ g, IsSimpleCycle c n g ∧ g 0 = P0 ∧ g 1 = N0 := by
  rcases hN with hN | hN
  · refine ⟨fun i => f (i + b), IsSimpleCycle_shift b h, ?_, ?_⟩
    · simp [hP]
    · simp only [hN]
      rw [show (1 : Int) + b = b + 1 by ring]
  · refine ⟨fun i => f (-i + b), IsSimpleCycle_neg (IsSimpleCycle_shift b h), ?_, ?_⟩
    · simp [hP]
    · simp only [hN]
      rw [show -(1 : Int) + b = b - 1 by ring]

theorem WalkLoop_from_pair (ops : FContourOps) (S : FSettings) (c : FCluster)
    (Positions : List FVector) (n : Nat) (g : Int → Int) (hg : IsSimpleCycle c n g)
    (hangle : ∀ u v, -1 < ops.GetDegreesBetweenVectors u v)
    (hout : S.OutputType = EPCGExContourShapeTypeOutput.Both)
    (fuel : Nat) (hfuel : n ≤ fuel) :
    ∃ w2, WalkLoop ops S c Positions fuel (InitialWalk (g 0) (g 1)) = some (some w2) ∧
      w2.Path = (List.range n).map (fun i => g (Int.ofNat i)) ∧
      w2.bGracefullyClosed = true ∧ w2.bIsConvex = true := by
  have h3 := hg.1
  apply WalkLoop_cycle ops S c Positions n g hg hangle hout (n - 1) 1 fuel
    (InitialWalk (g 0) (g 1)) (by omega) (by omega) (by omega) (by omega)
  · rfl
  · simp [InitialWalk]
  · simp [InitialWalk]
  · intro v hv
    simp only [InitialWalk] at hv
    rcases SetAdd_contains_of _ _ _ hv with h | h
    · right; simpa using h
    · left; simpa using h
  · simp [InitialWalk, List.range_succ]
  · rfl

end PCGExFindContours

namespace PCGExFindContours

open PCGExCluster

theorem Finish_closed_both {P : Type} [Inhabited P] (S : FSettings) (c : FCluster)
    (OriginPoints : List P) (RawTags : List String) (Processor : FProcessorState) (w : FWalk)
    (hout : S.OutputType = EPCGExContourShapeTypeOutput.Both)
    (hclosed : w.bGracefullyClosed = true)
    (hdedupe : S.bDedupePaths = false ∨ Processor.ExistingPaths = []) :
    Finish S c OriginPoints RawTags Processor w
      = EmitPath S c OriginPoints (RecordPath S Processor w.PathUniqueSet) RawTags w := by
  unfold Finish
  have h1 : ((S.bKeepOnlyGracefulContours && !w.bGracefullyClosed)
      || (w.bIsConvex && S.OutputType == EPCGExContourShapeTypeOutput.ConcaveOnly)) = false := by
    simp [hout, hclosed]
  have h2 : (S.bDedupePaths && Processor.ExistingPaths.any (fun ExistingPathSet =>
      SameSet w.PathUniqueSet ExistingPathSet)) = false := by
    rcases hdedupe with h | h <;> simp [h]
  simp only [h1, h2, Bool.false_eq_true, if_false]

/-- C1 (amended): for every cluster that is a single simple cycle, when the
start node found for the seed is a node of the cluster within the pick
radius, the start edge joins it to one of its neighbours, the output type is
`Both` and the contour is not a duplicate (`bDedupePaths` off, or nothing
recorded yet), `TryFindContours` returns `true` given enough fuel (one turn
per node and one more), the emitted path has exactly one point per cycle node
with no node repeated, the walk ends with `bGracefullyClosed = true` and
`bIsConvex` is true. -/
theorem C1_simple_cycle_is_traced {P : Type} [Inhabited P] (ops : FContourOps)
    (S : FSettings) (c : FCluster) (Positions ProjectedSeeds : List FVector)
    (OriginPoints : List P) (RawTags : List String) (Processor : FProcessorState)
    (SeedIndex : Int) (fuel n : Nat) (f : Int → Int)
    (hcyc : IsSimpleCycle c n f)
    (hstart : 0 ≤ ops.FindClosestNode c (SeedGuide ProjectedSeeds SeedIndex) 2 ∧
      ops.FindClosestNode c (SeedGuide ProjectedSeeds SeedIndex) 2 < n)
    (hedge : ops.FindClosestEdge c
      (ops.FindClosestNode c (SeedGuide ProjectedSeeds SeedIndex) 2)
      (SeedGuide ProjectedSeeds SeedIndex) ≠ -1)
    (hother : OtherNodeIndex c
        (ops.FindClosestEdge c (ops.FindClosestNode c (SeedGuide ProjectedSeeds SeedIndex) 2)
          (SeedGuide ProjectedSeeds SeedIndex))
        (ops.FindClosestNode c (SeedGuide ProjectedSeeds SeedIndex) 2)
      ∈ Neighbors c (ops.FindClosestNode c (SeedGuide ProjectedSeeds SeedIndex) 2))
    (hwithin : ops.WithinDistance
      (NodePosition c (ops.FindClosestNode c (SeedGuide ProjectedSeeds SeedIndex) 2))
      (SeedGuide ProjectedSeeds SeedIndex) = true)
    (hangle : ∀ u v, -1 < ops.GetDegreesBetweenVectors u v)
    (hout : S.OutputType = EPCGExContourShapeTypeOutput.Both)
    (hdedupe : S.bDedupePaths = false ∨
      (Processor.ExistingStartPairs = [] ∧ Processor.ExistingPaths = []))
    (hfuel : n + 1 ≤ fuel) :
    ∃ out, TryFindContours ops S c Positions ProjectedSeeds OriginPoints RawTags Processor
        SeedIndex fuel = some out ∧
      out.bResult = true ∧
      out.MutablePoints.length = n ∧ out.Path.length = n ∧ out.Path.Nodup ∧
      (∀ v : Int, 0 ≤ v → v < n → v ∈ out.Path) ∧
      out.bGracefullyClosed = true ∧ out.bIsConvex = true := by
  generalize hG : SeedGuide ProjectedSeeds SeedIndex = Guide at *
  generalize hs : ops.FindClosestNode c Guide 2 = s at *
  generalize hE : ops.FindClosestEdge c s Guide = E at *
  obtain ⟨a, ha⟩ := hcyc.2.2.2.2.2.1 s hstart.1 hstart.2
  have hnb := hcyc.2.2.2.2.2.2 a
  rw [ha] at hnb
  have hadj : AdjacencyNum c s = 2 := by
    rw [AdjacencyNum_eq_length]
    rcases hnb with h | h <;> simp [h]
  have ho : OtherNodeIndex c E s = f (a + 1) ∨ OtherNodeIndex c E s = f (a - 1) := by
    rcases hnb with h | h <;> rw [h] at hother <;> simp at hother <;> tauto
  -- the first two nodes of the walk, in any orientation, open a cycle order
  have hpair : ∃ g, IsSimpleCycle c n g ∧ g 0 = (OrientStart ops c Guide s E).1 ∧
      g 1 = (OrientStart ops c Guide s E).2 := by
    unfold OrientStart
    simp only
    split_ifs with hsw
    · rcases ho with h | h
      · exact IsSimpleCycle_reparam hcyc (a + 1) _ _ h
          (Or.inr (by rw [show a + 1 - 1 = a by ring]; exact ha.symm))
      · exact IsSimpleCycle_reparam hcyc (a - 1) _ _ h
          (Or.inl (by rw [show a - 1 + 1 = a by ring]; exact ha.symm))
    · exact IsSimpleCycle_reparam hcyc a _ _ ha.symm ho
  obtain ⟨g, hg, hg0, hg1⟩ := hpair
  obtain ⟨w2, hloop, hpath, hclosed, hconv⟩ :=
    WalkLoop_from_pair ops S c Positions n g hg hangle hout fuel (by omega)
  rw [hg0, hg1] at hloop
  have hc1 : (s == -1 || E == -1 || decide (AdjacencyNum c s ≤ 1)) = false := by
    have h1 : s ≠ -1 := by omega
    simp [h1, hedge, hadj]
  have hc3 : (S.bDedupePaths && Processor.ExistingStartPairs.contains
      (StartHash (OrientStart ops c Guide s E).1 (OrientStart ops c Guide s E).2)) = false := by
    rcases hdedupe with h | h
    · simp [h]
    · simp [h.1]
  have hfin := Finish_closed_both S c OriginPoints RawTags
    (RecordStart S Processor
      (StartHash (OrientStart ops c Guide s E).1 (OrientStart ops c Guide s E).2)) w2 hout hclosed
    (by
      rcases hdedupe with h | h
      · exact Or.inl h
      · right
        unfold RecordStart
        split_ifs <;> simp [h.2])
  refine ⟨EmitPath S c OriginPoints
    (RecordPath S
      (RecordStart S Processor
        (StartHash (OrientStart ops c Guide s E).1 (OrientStart ops c Guide s E).2))
      w2.PathUniqueSet) RawTags w2, ?_, ?_⟩
  · unfold TryFindContours
    simp only [hG, hs, hE, hc1, hwithin, hc3, hloop, AfterLoop, hfin, Bool.false_eq_true,
      if_false, Bool.not_true]
  · refine ⟨rfl, ?_, ?_, ?_, ?_, hclosed, hconv⟩
    · simp [EmitPath, hpath]
    · simp [EmitPath, hpath]
    · simp only [EmitPath, hpath]
      exact IsSimpleCycle_nodup_range hg
    · intro v hv0 hvn
      simp only [EmitPath, hpath]
      exact IsSimpleCycle_mem_range hg v hv0 hvn

end PCGExFindContours

namespace PCGExFindContours

open PCGExCluster

theorem SpecDegreesBetweenVectors_gt (A B : FVector) : -1 < SpecDegreesBetweenVectors A B := by
  unfold SpecDegreesBetweenVectors
  simp only
  generalize A.X * B.X + A.Y * B.Y + A.Z * B.Z = d
  generalize A.X * B.Y - A.Y * B.X = k
  split_ifs with h1 h2 h3 h4
  · norm_num
  · have := div_nonneg (show 0 ≤ 90 * k by linarith) (show 0 ≤ d + k by linarith)
    linarith
  · have := div_nonneg (show 0 ≤ 90 * (-d) by linarith) (show 0 ≤ k - d by linarith)
    linarith
  · have := div_nonneg (show 0 ≤ 90 * (-k) by linarith) (show 0 ≤ -d - k by linarith)
    linarith
  · have := div_nonneg (show 0 ≤ 90 * d by linarith) (show 0 ≤ d - k by linarith)
    linarith

theorem Square_isSimpleCycle : IsSimpleCycle Examples.SquareCluster 4 (fun i => i % 4) := by
  refine ⟨by decide, by decide, ?_, ?_, ?_, ?_, ?_⟩
  · intro i
    show (i + (4 : Nat)) % 4 = i % 4
    omega
  · intro i
    show 0 ≤ i % 4 ∧ i % 4 < (4 : Nat)
    omega
  · intro i j h
    have h' : i % 4 = j % 4 := h
    show ((4 : Nat) : Int) ∣ i - j
    omega
  · intro v hv0 hvn
    refine ⟨v, ?_⟩
    show v % 4 = v
    omega
  · intro i
    show Neighbors Examples.SquareCluster (i % 4) = [(i - 1) % 4, (i + 1) % 4] ∨
      Neighbors Examples.SquareCluster (i % 4) = [(i + 1) % 4, (i - 1) % 4]
    have h : i % 4 = 0 ∨ i % 4 = 1 ∨ i % 4 = 2 ∨ i % 4 = 3 := by omega
    rcases h with h | h | h | h
    · rw [h, show (i - 1) % 4 = 3 by omega, show (i + 1) % 4 = 1 by omega]
      right; decide
    · rw [h, show (i - 1) % 4 = 0 by omega, show (i + 1) % 4 = 2 by omega]
      left; decide
    · rw [h, show (i - 1) % 4 = 1 by omega, show (i + 1) % 4 = 3 by omega]
      left; decide
    · rw [h, show (i - 1) % 4 = 2 by omega, show (i + 1) % 4 = 0 by omega]
      left; decide

/-- C1 (as stated, refuted): the square cycle (0,0), (10,0), (10,10), (0,10)
with the seed (5,5) within the pick radius, and the output type
`ConcaveOnly`: the walk visits the four nodes and closes gracefully with
`bIsConvex` true, and for that very reason `TryFindContours` returns `false`
and writes no point. -/
theorem C1_square_rejected_when_concave_only :
    IsSimpleCycle Examples.SquareCluster 4 (fun i => i % 4) ∧
    SpecWithinDistance 100
      (NodePosition Examples.SquareCluster
        (SpecFindClosestNode Examples.SquareCluster (SeedGuide Examples.SquareSeeds 0) 2))
      (SeedGuide Examples.SquareSeeds 0) = true ∧
    (TryFindContours (SpecOps 100)
        { DefaultSettings with OutputType := EPCGExContourShapeTypeOutput.ConcaveOnly }
        Examples.SquareCluster Examples.SquarePositions Examples.SquareSeeds
        [100, 101, 102, 103] [] Examples.FreshProcessor 0 10).map
      (fun r => (r.bResult, r.MutablePoints, r.Path, r.bGracefullyClosed, r.bIsConvex))
      = some (false, [], [1, 0, 3, 2], true, true) :=
  ⟨Square_isSimpleCycle, by decide!, by decide!⟩

/-- C1 (amended), on the square cycle with the seed (5,5) and the default
settings: the contour `[1, 0, 3, 2]` is emitted, four points, closed
gracefully, convex. -/
theorem C1_simple_cycle_is_traced_witness :
    IsSimpleCycle Examples.SquareCluster 4 (fun i => i % 4) ∧
    (∃ out : FContourResult Nat,
      TryFindContours (SpecOps 100) DefaultSettings Examples.SquareCluster
        Examples.SquarePositions Examples.SquareSeeds [100, 101, 102, 103] []
        Examples.FreshProcessor 0 5 = some out ∧
      out.bResult = true ∧
      out.MutablePoints.length = 4 ∧ out.Path.length = 4 ∧ out.Path.Nodup ∧
      (∀ v : Int, 0 ≤ v → v < (4 : Nat) → v ∈ out.Path) ∧
      out.bGracefullyClosed = true ∧ out.bIsConvex = true) ∧
    (TryFindContours (SpecOps 100) DefaultSettings Examples.SquareCluster
        Examples.SquarePositions Examples.SquareSeeds [100, 101, 102, 103] []
        Examples.FreshProcessor 0 5).map (fun r => (r.Path, r.MutablePoints))
      = some ([1, 0, 3, 2], [101, 100, 103, 102]) :=
  ⟨Square_isSimpleCycle,
    C1_simple_cycle_is_traced (SpecOps 100) DefaultSettings Examples.SquareCluster
      Examples.SquarePositions Examples.SquareSeeds [100, 101, 102, 103] []
      Examples.FreshProcessor 0 5 4 (fun i => i % 4) Square_isSimpleCycle
      (by decide!) (by decide!) (by decide!) (by decide!)
      SpecDegreesBetweenVectors_gt rfl (Or.inl rfl) (by decide),
    by decide!⟩

end PCGExFindContours

/-! ### C17: what `BuildIndexedEdges` outputs -/

namespace PCGExGraph

theorem EmplacedFrom_getElem? (rows : List (Nat × Int × Int)) (EdgeIndex : Int) (k : Nat) :
    (EmplacedFrom rows EdgeIndex)[k]? =
      (rows[k]?).map (fun r =>
        FIndexedEdge.ctorIndexed (EdgeIndex + (k : Int)) r.2.1 r.2.2 (Int.ofNat r.1)) := by
  induction rows generalizing EdgeIndex k with
  | nil => simp [EmplacedFrom]
  | cons r rest ih =>
    cases k with
    | zero => simp [EmplacedFrom]
    | succ k =>
      simp only [EmplacedFrom, List.getElem?_cons_succ, ih]
      congr 1
      funext r
      congr 1
      push_cast
      ring

theorem BuildIndexedEdgesLoop_keep (S E : List Int) (M : Int → Option Int) (l : List Nat)
    (EdgeIndex : Int) (Out : List FIndexedEdge) :
    BuildIndexedEdgesLoop S E M false l EdgeIndex Out =
      (true, Out ++ EmplacedFrom (ResolvedRows S E M l) EdgeIndex) := by
  induction l generalizing EdgeIndex Out with
  | nil => simp [BuildIndexedEdgesLoop, ResolvedRows, EmplacedFrom]
  | cons i rest ih =>
    unfold ResolvedRows at ih ⊢
    rcases hs : M (S.getD i 0) with _ | s <;> rcases he : M (E.getD i 0) with _ | e
    · simp only [BuildIndexedEdgesLoop, hs, he, ih, List.filterMap_cons, ResolveRow,
        Option.map_none', Bool.false_eq_true, if_false]
    · simp only [BuildIndexedEdgesLoop, hs, he, ih, List.filterMap_cons, ResolveRow,
        Option.map_none', Bool.false_eq_true, if_false]
    · simp only [BuildIndexedEdgesLoop, hs, he, ih, List.filterMap_cons, ResolveRow,
        Option.map_none', Bool.false_eq_true, if_false]
    · by_cases hse : (s == e) = true
      · simp only [BuildIndexedEdgesLoop, hs, he, ih, List.filterMap_cons, ResolveRow, hse,
          if_true, Option.map_none', Bool.false_eq_true, if_false]
      · simp only [BuildIndexedEdgesLoop, hs, he, ih, List.filterMap_cons, ResolveRow, hse,
          if_false, Option.map_some', EmplacedFrom, List.append_assoc, List.singleton_append,
          Bool.false_eq_true]
        rfl

theorem BuildIndexedEdgesLoop_strict (S E : List Int) (M : Int → Option Int) (l : List Nat)
    (EdgeIndex : Int) (Out : List FIndexedEdge) :
    (BuildIndexedEdgesLoop S E M true l EdgeIndex Out).1 = true ↔
      ∀ i ∈ l, (ResolveRow S E M i).isSome = true := by
  induction l generalizing EdgeIndex Out with
  | nil => simp [BuildIndexedEdgesLoop]
  | cons i rest ih =>
    rw [List.forall_mem_cons]
    rcases hs : M (S.getD i 0) with _ | s <;> rcases he : M (E.getD i 0) with _ | e
    · have hr : ResolveRow S E M i = none := by simp only [ResolveRow, hs, he]
      have hl : BuildIndexedEdgesLoop S E M true (i :: rest) EdgeIndex Out = (false, Out) := by
        simp only [BuildIndexedEdgesLoop, hs, he, if_true]
      simp [hr, hl]
    · have hr : ResolveRow S E M i = none := by simp only [ResolveRow, hs, he]
      have hl : BuildIndexedEdgesLoop S E M true (i :: rest) EdgeIndex Out = (false, Out) := by
        simp only [BuildIndexedEdgesLoop, hs, he, if_true]
      simp [hr, hl]
    · have hr : ResolveRow S E M i = none := by simp only [ResolveRow, hs, he]
      have hl : BuildIndexedEdgesLoop S E M true (i :: rest) EdgeIndex Out = (false, Out) := by
        simp only [BuildIndexedEdgesLoop, hs, he, if_true]
      simp [hr, hl]
    · by_cases hse : (s == e) = true
      · have hr : ResolveRow S E M i = none := by simp only [ResolveRow, hs, he, hse, if_true]
        have hl : BuildIndexedEdgesLoop S E M true (i :: rest) EdgeIndex Out = (false, Out) := by
          simp only [BuildIndexedEdgesLoop, hs, he, hse, if_true]
        simp [hr, hl]
      · have hr : ResolveRow S E M i = some (s, e) := by
          simp only [ResolveRow, hs, he, hse, if_false, Bool.false_eq_true]
        have hl : BuildIndexedEdgesLoop S E M true (i :: rest) EdgeIndex Out =
            BuildIndexedEdgesLoop S E M true rest (EdgeIndex + 1)
              (Out ++ [FIndexedEdge.ctorIndexed EdgeIndex s e (i : Int)]) := by
          simp only [BuildIndexedEdgesLoop, hs, he, hse, if_false, Bool.false_eq_true]
        rw [hl, ih, hr]
        simp

end PCGExGraph

namespace PCGExGraph

/-- C17: when both endpoint attributes bind, `BuildIndexedEdges` without
`bInvalidateOnError` returns `true` and appends to `OutEdges` one edge per
resolving row (both attribute values are keys of the node map and the two
nodes differ), in row order: the `k`-th new edge is the one emplaced with
`EdgeIndex = k`, the two resolved node indices (as `uint32`) and the row as
`PointIndex`. With `bInvalidateOnError` it returns `true` exactly when every
row resolves. -/
theorem C17_build_indexed_edges_keeps_resolving_rows {P : Type} ( EdgeIO : FEdgePointData P)
    (M : Int → Option Int) (S E : List Int) (Out : List FIndexedEdge)
    (hS : EdgeIO.EdgeStart = some S) (hE : EdgeIO.EdgeEnd = some E) :
    (BuildIndexedEdges EdgeIO M Out false).1 = true ∧
    (∃ New : List FIndexedEdge,
      (BuildIndexedEdges EdgeIO M Out false).2 = Out ++ New ∧
      New.length = (ResolvedRows S E M (List.range EdgeIO.GetNum)).length ∧
      ∀ (k : Nat) (r : Nat × Int × Int),
        (ResolvedRows S E M (List.range EdgeIO.GetNum))[k]? = some r →
        ∃ e, New[k]? = some e ∧
          e = FIndexedEdge.ctorIndexed (Int.ofNat k) r.2.1 r.2.2 (Int.ofNat r.1) ∧
          e.EdgeIndex = Int.ofNat k ∧ e.Start = PCGEx.toUInt32 r.2.1 ∧
          e.End = PCGEx.toUInt32 r.2.2 ∧ e.PointIndex = Int.ofNat r.1) ∧
    ((BuildIndexedEdges EdgeIO M Out true).1 = true ↔
      ∀ i, i < EdgeIO.GetNum → (ResolveRow S E M i).isSome = true) := by
  refine ⟨?_, ?_, ?_⟩
  · simp only [BuildIndexedEdges, hS, hE, BuildIndexedEdgesLoop_keep]
  · refine ⟨EmplacedFrom (ResolvedRows S E M (List.range EdgeIO.GetNum)) 0, ?_, ?_, ?_⟩
    · simp only [BuildIndexedEdges, hS, hE, BuildIndexedEdgesLoop_keep]
    · generalize ResolvedRows S E M (List.range EdgeIO.GetNum) = rows
      generalize (0 : Int) = k0
      induction rows generalizing k0 with
      | nil => rfl
      | cons r rest ih => simp [EmplacedFrom, ih]
    · intro k r hr
      refine ⟨FIndexedEdge.ctorIndexed (Int.ofNat k) r.2.1 r.2.2 (Int.ofNat r.1), ?_, rfl, rfl,
        rfl, rfl, rfl⟩
      rw [EmplacedFrom_getElem?, hr]
      simp
  · simp only [BuildIndexedEdges, hS, hE, BuildIndexedEdgesLoop_strict, List.mem_range]

/-- C17 at the triangle edge dataset: three rows, three edges. -/
theorem C17_build_indexed_edges_keeps_resolving_rows_witness :
    (BuildIndexedEdges Examples.TriangleEdgePoints Examples.NodeMap3 [] false).1 = true ∧
    (∃ New : List FIndexedEdge,
      (BuildIndexedEdges Examples.TriangleEdgePoints Examples.NodeMap3 [] false).2 = [] ++ New ∧
      New.length = (ResolvedRows [0, 1, 2] [1, 2, 0] Examples.NodeMap3
        (List.range Examples.TriangleEdgePoints.GetNum)).length ∧
      ∀ (k : Nat) (r : Nat × Int × Int),
        (ResolvedRows [0, 1, 2] [1, 2, 0] Examples.NodeMap3
          (List.range Examples.TriangleEdgePoints.GetNum))[k]? = some r →
        ∃ e, New[k]? = some e ∧
          e = FIndexedEdge.ctorIndexed (Int.ofNat k) r.2.1 r.2.2 (Int.ofNat r.1) ∧
          e.EdgeIndex = Int.ofNat k ∧ e.Start = PCGEx.toUInt32 r.2.1 ∧
          e.End = PCGEx.toUInt32 r.2.2 ∧ e.PointIndex = Int.ofNat r.1) ∧
    ((BuildIndexedEdges Examples.TriangleEdgePoints Examples.NodeMap3 [] true).1 = true ↔
      ∀ i, i < Examples.TriangleEdgePoints.GetNum →
        (ResolveRow [0, 1, 2] [1, 2, 0] Examples.NodeMap3 i).isSome = true) :=
  C17_build_indexed_edges_keeps_resolving_rows Examples.TriangleEdgePoints Examples.NodeMap3
    [0, 1, 2] [1, 2, 0] [] rfl rfl

end PCGExGraph

/-! ### C15: managed filters are sorted by priority and indexed by position -/

theorem insertionSort_priority_sorted {α : Type} (prio : α → Int) (l : List α) :
    ((l.insertionSort (fun A B => prio A ≤ prio B)).map prio).Pairwise (fun a b => a ≤ b) := by
  haveI : IsTotal α (fun A B => prio A ≤ prio B) := ⟨fun a b => le_total (prio a) (prio b)⟩
  haveI : IsTrans α (fun A B => prio A ≤ prio B) := ⟨fun a b c h1 h2 => le_trans h1 h2⟩
  have h := List.sorted_insertionSort (fun A B => prio A ≤ prio B) l
  rw [List.pairwise_map]
  exact h

theorem zip_range_fst {α : Type} (l : List α) (n : Nat) (h : l.length = n) :
    (l.zip (List.range n)).map Prod.fst = l := by
  rw [List.map_fst_zip]
  simp [h]

theorem zip_range_snd {α : Type} (l : List α) (n : Nat) (h : l.length = n) :
    (l.zip (List.range n)).map Prod.snd = List.range (l.zip (List.range n)).length := by
  rw [List.map_snd_zip]
  · simp [h]
  · simp [h]

theorem zip_range_priority {α : Type} (prio : α → Int) (l : List α) (n : Nat)
    (h : l.length = n) :
    (l.zip (List.range n)).map (fun f => prio f.1) = l.map prio := by
  have h1 : (fun f : α × Nat => prio f.1) = prio ∘ Prod.fst := rfl
  rw [h1, ← List.map_map, zip_range_fst l n h]

theorem PostInitManaged_sorted (b : Bool) (l : List PCGExFilterGroup.FFilterFactory) :
    (l ≠ [] →
      (PCGExFilterGroup.PostInitManaged b l).1 = true ∧
      (PCGExFilterGroup.PostInitManaged b l).2.bValid = true ∧
      ((PCGExFilterGroup.PostInitManaged b l).2.ManagedFilters.map Prod.fst).Perm l ∧
      ((PCGExFilterGroup.PostInitManaged b l).2.ManagedFilters.map
        (fun f => f.1.Priority)).Pairwise (fun p q => p ≤ q) ∧
      (PCGExFilterGroup.PostInitManaged b l).2.ManagedFilters.map Prod.snd =
        List.range (PCGExFilterGroup.PostInitManaged b l).2.ManagedFilters.length) ∧
    (l = [] →
      (PCGExFilterGroup.PostInitManaged b l).1 = false ∧
      (PCGExFilterGroup.PostInitManaged b l).2.bValid = false) := by
  constructor
  · intro hl
    have he : l.isEmpty = false := by cases l with
      | nil => exact absurd rfl hl
      | cons a t => rfl
    simp only [PCGExFilterGroup.PostInitManaged, he, Bool.false_eq_true, if_false]
    refine ⟨trivial, trivial, ?_, ?_, zip_range_snd _ _ rfl⟩
    · rw [zip_range_fst _ _ rfl]
      exact List.perm_insertionSort _ l
    · rw [zip_range_priority PCGExFilterGroup.FFilterFactory.Priority _ _ rfl]
      exact insertionSort_priority_sorted PCGExFilterGroup.FFilterFactory.Priority l
  · intro hl
    subst hl
    exact ⟨rfl, rfl⟩

theorem TManager_PostInit_sorted (l : List PCGExPointFilter.FFilterFactory) :
    (l ≠ [] →
      (PCGExPointFilter.TManager.PostInit l).1 = true ∧
      (PCGExPointFilter.TManager.PostInit l).2.bValid = true ∧
      ((PCGExPointFilter.TManager.PostInit l).2.ManagedFilters.map Prod.fst).Perm l ∧
      ((PCGExPointFilter.TManager.PostInit l).2.ManagedFilters.map
        (fun f => f.1.Priority)).Pairwise (fun p q => p ≤ q) ∧
      (PCGExPointFilter.TManager.PostInit l).2.ManagedFilters.map Prod.snd =
        List.range (PCGExPointFilter.TManager.PostInit l).2.ManagedFilters.length) ∧
    (l = [] →
      (PCGExPointFilter.TManager.PostInit l).1 = false ∧
      (PCGExPointFilter.TManager.PostInit l).2.bValid = false) := by
  constructor
  · intro hl
    have he : l.isEmpty = false := by cases l with
      | nil => exact absurd rfl hl
      | cons a t => rfl
    simp only [PCGExPointFilter.TManager.PostInit, he, Bool.false_eq_true, if_false]
    refine ⟨trivial, trivial, ?_, ?_, zip_range_snd _ _ rfl⟩
    · rw [zip_range_fst _ _ rfl]
      exact List.perm_insertionSort _ l
    · rw [zip_range_priority PCGExPointFilter.FFilterFactory.Priority _ _ rfl]
      exact insertionSort_priority_sorted PCGExPointFilter.FFilterFactory.Priority l
  · intro hl
    subst hl
    exact ⟨rfl, rfl⟩

theorem TFilterManager_Register_sorted (m : PCGExDataFilter.TFilterManager)
    (Defs : List PCGExDataFilter.FFilterDefinition) :
    (m.Handlers.map Prod.fst ++ Defs.filter (fun Def => Def.bValidAfterCapture) ≠ [] →
      (m.Register Defs).bValid = true ∧
      ((m.Register Defs).Handlers.map Prod.fst).Perm
        (m.Handlers.map Prod.fst ++ Defs.filter (fun Def => Def.bValidAfterCapture)) ∧
      ((m.Register Defs).Handlers.map (fun f => f.1.Priority)).Pairwise (fun p q => p ≤ q) ∧
      (m.Register Defs).Handlers.map Prod.snd = List.range (m.Register Defs).Handlers.length) ∧
    (m.Handlers.map Prod.fst ++ Defs.filter (fun Def => Def.bValidAfterCapture) = [] →
      (m.Register Defs).bValid = false ∧ (m.Register Defs).Handlers = []) := by
  constructor
  · intro hl
    have he : (m.Handlers ++ (Defs.filter
        (fun Def : PCGExDataFilter.FFilterDefinition => Def.bValidAfterCapture)).map
        (fun Def : PCGExDataFilter.FFilterDefinition => (Def, 0))).isEmpty = false := by
      rcases hm : m.Handlers with _ | ⟨a, t⟩
      · rcases hd : Defs.filter (fun Def => Def.bValidAfterCapture) with _ | ⟨d, t⟩
        · rw [hm, hd] at hl
          exact absurd rfl hl
        · rw [hd]
          rfl
      · rfl
    unfold PCGExDataFilter.TFilterManager.Register
    simp only [he, Bool.false_eq_true, if_false]
    refine ⟨trivial, ?_, ?_, ?_⟩
    · rw [zip_range_fst _ _ (by simp)]
      refine ((List.perm_insertionSort _ _).map _).trans ?_
      simp [Function.comp_def]
    · rw [zip_range_priority PCGExDataFilter.FFilterDefinition.Priority _ _ (by simp),
        List.map_map]
      exact insertionSort_priority_sorted
        (fun A : PCGExDataFilter.FFilterDefinition × Nat => A.1.Priority) _
    · exact zip_range_snd _ _ (by simp)
  · intro hl
    have h1 : m.Handlers = [] := by
      rcases hm : m.Handlers with _ | ⟨a, t⟩
      · rfl
      · rw [hm] at hl
        simp at hl
    have h2 : Defs.filter (fun Def => Def.bValidAfterCapture) = [] := by
      rw [h1] at hl
      simpa using hl
    simp [PCGExDataFilter.TFilterManager.Register, h1, h2]

/-- C15: after `FFilterGroup::InitManaged`, `TManager::Init` and
`TFilterManager::Register`, when at least one filter was accepted the manager
is valid, manages exactly the accepted filters (a permutation of them), in
non-decreasing order of factory `Priority`, and the index of each filter is
its position; when no filter was accepted the manager is invalid (and the two
`Init` return `false`). -/
theorem C15_managed_filters_sorted_and_indexed :
    (∀ (ClusterOnlyFilters : List Nat) (bInitForCluster : Bool)
        (Factories : List PCGExFilterGroup.FFilterFactory),
      (PCGExFilterGroup.InitManagedList ClusterOnlyFilters bInitForCluster Factories ≠ [] →
        (PCGExFilterGroup.InitManaged ClusterOnlyFilters bInitForCluster Factories).1 = true ∧
        (PCGExFilterGroup.InitManaged ClusterOnlyFilters bInitForCluster Factories).2.bValid
          = true ∧
        ((PCGExFilterGroup.InitManaged ClusterOnlyFilters bInitForCluster
          Factories).2.ManagedFilters.map Prod.fst).Perm
          (PCGExFilterGroup.InitManagedList ClusterOnlyFilters bInitForCluster Factories) ∧
        ((PCGExFilterGroup.InitManaged ClusterOnlyFilters bInitForCluster
          Factories).2.ManagedFilters.map (fun f => f.1.Priority)).Pairwise (fun p q => p ≤ q) ∧
        (PCGExFilterGroup.InitManaged ClusterOnlyFilters bInitForCluster
          Factories).2.ManagedFilters.map Prod.snd =
          List.range (PCGExFilterGroup.InitManaged ClusterOnlyFilters bInitForCluster
            Factories).2.ManagedFilters.length) ∧
      (PCGExFilterGroup.InitManagedList ClusterOnlyFilters bInitForCluster Factories = [] →
        (PCGExFilterGroup.InitManaged ClusterOnlyFilters bInitForCluster Factories).1 = false ∧
        (PCGExFilterGroup.InitManaged ClusterOnlyFilters bInitForCluster Factories).2.bValid
          = false)) ∧
    (∀ (Factories : List PCGExPointFilter.FFilterFactory),
      (Factories.filter (fun Factory => Factory.bInitResult) ≠ [] →
        (PCGExPointFilter.TManager.Init Factories).1 = true ∧
        (PCGExPointFilter.TManager.Init Factories).2.bValid = true ∧
        ((PCGExPointFilter.TManager.Init Factories).2.ManagedFilters.map Prod.fst).Perm
          (Factories.filter (fun Factory => Factory.bInitResult)) ∧
        ((PCGExPointFilter.TManager.Init Factories).2.ManagedFilters.map
          (fun f => f.1.Priority)).Pairwise (fun p q => p ≤ q) ∧
        (PCGExPointFilter.TManager.Init Factories).2.ManagedFilters.map Prod.snd =
          List.range (PCGExPointFilter.TManager.Init Factories).2.ManagedFilters.length) ∧
      (Factories.filter (fun Factory => Factory.bInitResult) = [] →
        (PCGExPointFilter.TManager.Init Factories).1 = false ∧
        (PCGExPointFilter.TManager.Init Factories).2.bValid = false)) ∧
    (∀ (m : PCGExDataFilter.TFilterManager) (Defs : List PCGExDataFilter.FFilterDefinition),
      (m.Handlers.map Prod.fst ++ Defs.filter (fun Def => Def.bValidAfterCapture) ≠ [] →
        (m.Register Defs).bValid = true ∧
        ((m.Register Defs).Handlers.map Prod.fst).Perm
          (m.Handlers.map Prod.fst ++ Defs.filter (fun Def => Def.bValidAfterCapture)) ∧
        ((m.Register Defs).Handlers.map (fun f => f.1.Priority)).Pairwise (fun p q => p ≤ q) ∧
        (m.Register Defs).Handlers.map Prod.snd =
          List.range (m.Register Defs).Handlers.length) ∧
      (m.Handlers.map Prod.fst ++ Defs.filter (fun Def => Def.bValidAfterCapture) = [] →
        (m.Register Defs).bValid = false ∧ (m.Register Defs).Handlers = [])) :=
  ⟨fun cof b Factories => PostInitManaged_sorted b (PCGExFilterGroup.InitManagedList cof b Factories),
   fun Factories => TManager_PostInit_sorted (Factories.filter (fun Factory => Factory.bInitResult)),
   fun m Defs => TFilterManager_Register_sorted m Defs⟩

/-! ### C13: which edge the sanitization task restores -/

namespace PCGExRefineEdges

open PCGExCluster

theorem foldl_longest (d : Nat → ℚ) (e : Nat → Int) (l : List Nat) (init : Int × ℚ) :
    (l.foldl (fun (best : Int × ℚ) (h : Nat) => if d h > best.2 then (e h, d h) else best) init
        = init ∧ ∀ h ∈ l, d h ≤ init.2) ∨
    (∃ pre h post, l = pre ++ h :: post ∧
      l.foldl (fun (best : Int × ℚ) (h : Nat) => if d h > best.2 then (e h, d h) else best) init
        = (e h, d h) ∧
      init.2 < d h ∧ (∀ x ∈ pre, d x < d h) ∧ (∀ x ∈ post, d x ≤ d h)) := by
  induction l generalizing init with
  | nil => exact Or.inl ⟨rfl, fun h hh => by simp at hh⟩
  | cons a t ih =>
    by_cases ha : d a > init.2
    · simp only [List.foldl_cons, ha, if_true]
      rcases ih (e a, d a) with ⟨hr, hall⟩ | ⟨pre, h, post, hl, hr, hlt, hpre, hpost⟩
      · exact Or.inr ⟨[], a, t, rfl, hr, ha, fun x hx => by simp at hx, hall⟩
      · refine Or.inr ⟨a :: pre, h, post, by rw [hl]; rfl, hr, lt_trans ha hlt, ?_, hpost⟩
        intro x hx
        rcases List.mem_cons.mp hx with rfl | hx
        · exact hlt
        · exact hpre x hx
    · simp only [List.foldl_cons, ha, if_false]
      rcases ih init with ⟨hr, hall⟩ | ⟨pre, h, post, hl, hr, hlt, hpre, hpost⟩
      · refine Or.inl ⟨hr, ?_⟩
        intro x hx
        rcases List.mem_cons.mp hx with rfl | hx
        · exact not_lt.mp ha
        · exact hall x hx
      · refine Or.inr ⟨a :: pre, h, post, by rw [hl]; rfl, hr, hlt, ?_, hpost⟩
        intro x hx
        rcases List.mem_cons.mp hx with rfl | hx
        · exact lt_of_le_of_lt (not_lt.mp ha) hlt
        · exact hpre x hx

theorem foldl_shortest (d : Nat → ℚ) (e : Nat → Int) (l : List Nat) (init : Int × ℚ) :
    (l.foldl (fun (best : Int × ℚ) (h : Nat) => if d h < best.2 then (e h, d h) else best) init
        = init ∧ ∀ h ∈ l, init.2 ≤ d h) ∨
    (∃ pre h post, l = pre ++ h :: post ∧
      l.foldl (fun (best : Int × ℚ) (h : Nat) => if d h < best.2 then (e h, d h) else best) init
        = (e h, d h) ∧
      d h < init.2 ∧ (∀ x ∈ pre, d h < d x) ∧ (∀ x ∈ post, d h ≤ d x)) := by
  induction l generalizing init with
  | nil => exact Or.inl ⟨rfl, fun h hh => by simp at hh⟩
  | cons a t ih =>
    by_cases ha : d a < init.2
    · simp only [List.foldl_cons, ha, if_true]
      rcases ih (e a, d a) with ⟨hr, hall⟩ | ⟨pre, h, post, hl, hr, hlt, hpre, hpost⟩
      · exact Or.inr ⟨[], a, t, rfl, hr, ha, fun x hx => by simp at hx, hall⟩
      · refine Or.inr ⟨a :: pre, h, post, by rw [hl]; rfl, hr, lt_trans hlt ha, ?_, hpost⟩
        intro x hx
        rcases List.mem_cons.mp hx with rfl | hx
        · exact hlt
        · exact hpre x hx
    · simp only [List.foldl_cons, ha, if_false]
      rcases ih init with ⟨hr, hall⟩ | ⟨pre, h, post, hl, hr, hlt, hpre, hpost⟩
      · refine Or.inl ⟨hr, ?_⟩
        intro x hx
        rcases List.mem_cons.mp hx with rfl | hx
        · exact not_lt.mp ha
        · exact hall x hx
      · refine Or.inr ⟨a :: pre, h, post, by rw [hl]; rfl, hr, hlt, ?_, hpost⟩
        intro x hx
        rcases List.mem_cons.mp hx with rfl | hx
        · exact lt_of_lt_of_le hlt (not_lt.mp ha)
        · exact hpre x hx

theorem GetEdge_SetNodeValid (c : FCluster) (i j : Int) (v : Bool) :
    (c.SetNodeValid i v).GetEdge j = c.GetEdge j := by
  unfold FCluster.SetNodeValid FCluster.GetEdge
  by_cases hi : i < 0 <;> simp [hi]

theorem GetNode_SetEdgeValid (c : FCluster) (i j : Int) (v : Bool) :
    (c.SetEdgeValid i v).GetNode j = c.GetNode j := by
  unfold FCluster.SetEdgeValid FCluster.GetNode
  by_cases hi : i < 0 <;> simp [hi]

theorem GetEdge_SetEdgeValid (c : FCluster) (i : Int) (v : Bool) (e : PCGExGraph.FIndexedEdge)
    (h : c.GetEdge i = some e) :
    (c.SetEdgeValid i v).GetEdge i = some { e with bValid := v } := by
  unfold FCluster.GetEdge at h ⊢
  unfold FCluster.SetEdgeValid
  by_cases hi : i < 0
  · simp [hi] at h
  · simp only [hi, if_false] at h ⊢
    rw [List.getElem?_modify, h]
    simp

theorem GetNode_SetNodeValid_valid (c : FCluster) (i j : Int) (n : FNode)
    (h : c.GetNode j = some n) :
    (c.SetNodeValid i true).GetNode j =
      some { n with bValid := if i = j then true else n.bValid } := by
  unfold FCluster.GetNode at h ⊢
  unfold FCluster.SetNodeValid
  by_cases hj : j < 0
  · simp [hj] at h
  · simp only [hj, if_false] at h ⊢
    by_cases hi : i < 0
    · have hne : i ≠ j := by omega
      simp [hi, h, hne]
    · simp only [hi, if_false]
      rw [List.getElem?_modify, h]
      by_cases hij : i = j
      · subst hij
        simp
      · have hne : i.toNat ≠ j.toNat := by omega
        simp [hij, hne]

theorem RestoreEdge_sets_valid (c : FCluster) (EdgeIndex : Int) (e : PCGExGraph.FIndexedEdge)
    (hne : EdgeIndex ≠ -1) (h : c.GetEdge EdgeIndex = some e) :
    ((RestoreEdge c EdgeIndex).GetEdge EdgeIndex).map (fun x => x.bValid) = some true ∧
    (∀ n, c.GetNode (e.Start : Int) = some n →
      ((RestoreEdge c EdgeIndex).GetNode (e.Start : Int)).map (fun x => x.bValid) = some true) ∧
    (∀ n, c.GetNode (e.End : Int) = some n →
      ((RestoreEdge c EdgeIndex).GetNode (e.End : Int)).map (fun x => x.bValid) = some true) := by
  have hb : (EdgeIndex == -1) = false := by simpa using hne
  simp only [RestoreEdge, hb, Bool.false_eq_true, if_false, h]
  refine ⟨?_, ?_, ?_⟩
  · rw [GetEdge_SetNodeValid, GetEdge_SetNodeValid, GetEdge_SetEdgeValid c EdgeIndex true e h]
    rfl
  · intro n hn
    have h1 : (c.SetEdgeValid EdgeIndex true).GetNode (e.Start : Int) = some n := by
      rw [GetNode_SetEdgeValid]; exact hn
    have h2 := GetNode_SetNodeValid_valid _ (e.Start : Int) (e.Start : Int) n h1
    rw [GetNode_SetNodeValid_valid _ (e.End : Int) (e.Start : Int) _ h2]
    simp
  · intro n hn
    have h1 : (c.SetEdgeValid EdgeIndex true).GetNode (e.End : Int) = some n := by
      rw [GetNode_SetEdgeValid]; exact hn
    have h2 := GetNode_SetNodeValid_valid _ (e.Start : Int) (e.End : Int) n h1
    rw [GetNode_SetNodeValid_valid _ (e.End : Int) (e.End : Int) _ h2]
    simp

/-- C13 (code evaluated at the failing input, with what does hold in
general): node 0 of the cluster of two coincident nodes has one adjacency
entry, yet the `Longest` loop leaves `BestIndex = -1` (0 is not greater than
`MIN_dbl`), `RestoreEdge(-1)` restores nothing and the task leaves the only
edge invalid. In general the `Longest` loop selects the first entry of
greatest squared distance provided that distance exceeds `MIN_dbl`, and
otherwise none; the `Shortest` loop selects the first entry of smallest
squared distance provided it is below `MAX_dbl`; and restoring an edge of the
cluster sets it and both of its endpoint nodes valid. -/
theorem C13_longest_restores_no_edge_of_coincident_nodes :
    (Examples.CoincidentCluster.GetNode 0).map (fun n => n.Adjacency.length) = some 1 ∧
    (Examples.CoincidentCluster.GetNode 0).map
      (fun n => (FindLongest Examples.CoincidentCluster n Engine_MIN_dbl).1) = some (-1) ∧
    RestoreEdge Examples.CoincidentCluster (-1) = Examples.CoincidentCluster ∧
    (FSanitizeRangeTask.ExecuteTask Engine_MIN_dbl Engine_MAX_dbl
      EPCGExRefineSanitization.Longest 0 1 Examples.CoincidentCluster).Edges.map
      (fun e => e.bValid) = [false] ∧
    (∀ (c : FCluster) (Node : FNode) (MIN_dbl : ℚ),
      ((FindLongest c Node MIN_dbl).1 = -1 ∧
        ∀ h ∈ Node.Adjacency, c.GetDistSquared Node.NodeIndex (PCGEx.H64A h : Int) ≤ MIN_dbl) ∨
      (∃ pre h post, Node.Adjacency = pre ++ h :: post ∧
        (FindLongest c Node MIN_dbl).1 = PCGEx.toInt32 (PCGEx.H64B h) ∧
        MIN_dbl < c.GetDistSquared Node.NodeIndex (PCGEx.H64A h : Int) ∧
        (∀ x ∈ pre, c.GetDistSquared Node.NodeIndex (PCGEx.H64A x : Int)
          < c.GetDistSquared Node.NodeIndex (PCGEx.H64A h : Int)) ∧
        (∀ x ∈ post, c.GetDistSquared Node.NodeIndex (PCGEx.H64A x : Int)
          ≤ c.GetDistSquared Node.NodeIndex (PCGEx.H64A h : Int)))) ∧
    (∀ (c : FCluster) (Node : FNode) (MAX_dbl : ℚ),
      ((FindShortest c Node MAX_dbl).1 = -1 ∧
        ∀ h ∈ Node.Adjacency, MAX_dbl ≤ c.GetDistSquared Node.NodeIndex (PCGEx.H64A h : Int)) ∨
      (∃ pre h post, Node.Adjacency = pre ++ h :: post ∧
        (FindShortest c Node MAX_dbl).1 = PCGEx.toInt32 (PCGEx.H64B h) ∧
        c.GetDistSquared Node.NodeIndex (PCGEx.H64A h : Int) < MAX_dbl ∧
        (∀ x ∈ pre, c.GetDistSquared Node.NodeIndex (PCGEx.H64A h : Int)
          < c.GetDistSquared Node.NodeIndex (PCGEx.H64A x : Int)) ∧
        (∀ x ∈ post, c.GetDistSquared Node.NodeIndex (PCGEx.H64A h : Int)
          ≤ c.GetDistSquared Node.NodeIndex (PCGEx.H64A x : Int)))) ∧
    (∀ (c : FCluster) (EdgeIndex : Int) (e : PCGExGraph.FIndexedEdge),
      EdgeIndex ≠ -1 → c.GetEdge EdgeIndex = some e →
      ((RestoreEdge c EdgeIndex).GetEdge EdgeIndex).map (fun x => x.bValid) = some true ∧
      (∀ n, c.GetNode (e.Start : Int) = some n →
        ((RestoreEdge c EdgeIndex).GetNode (e.Start : Int)).map (fun x => x.bValid)
          = some true) ∧
      (∀ n, c.GetNode (e.End : Int) = some n →
        ((RestoreEdge c EdgeIndex).GetNode (e.End : Int)).map (fun x => x.bValid)
          = some true)) := by
  refine ⟨by decide!, by decide!, by decide!, by decide!, ?_, ?_,
    fun c EdgeIndex e hne h => RestoreEdge_sets_valid c EdgeIndex e hne h⟩
  · intro c Node MIN_dbl
    rcases foldl_longest (fun h => c.GetDistSquared Node.NodeIndex (PCGEx.H64A h : Int))
      (fun h => PCGEx.toInt32 (PCGEx.H64B h)) Node.Adjacency (-1, MIN_dbl) with
      ⟨hr, hall⟩ | ⟨pre, h, post, hl, hr, hlt, hpre, hpost⟩
    · exact Or.inl ⟨congrArg Prod.fst hr, hall⟩
    · exact Or.inr ⟨pre, h, post, hl, congrArg Prod.fst hr, hlt, hpre, hpost⟩
  · intro c Node MAX_dbl
    rcases foldl_shortest (fun h => c.GetDistSquared Node.NodeIndex (PCGEx.H64A h : Int))
      (fun h => PCGEx.toInt32 (PCGEx.H64B h)) Node.Adjacency (-1, MAX_dbl) with
      ⟨hr, hall⟩ | ⟨pre, h, post, hl, hr, hlt, hpre, hpost⟩
    · exact Or.inl ⟨congrArg Prod.fst hr, hall⟩
    · exact Or.inr ⟨pre, h, post, hl, congrArg Prod.fst hr, hlt, hpre, hpost⟩

end PCGExRefineEdges

/-! ### C14: the `Filters` sanitization policy -/

namespace PCGExRefineEdges

open PCGExCluster

theorem SanitizeEdge_foldl_inv (F : List (PCGExGraph.FIndexedEdge → Bool)) (c : FCluster)
    (k : Nat) :
    ((List.range k).foldl (SanitizeEdge F) c).Nodes = c.Nodes ∧
    ∀ j : Nat, ((List.range k).foldl (SanitizeEdge F) c).Edges[j]? =
      (c.Edges[j]?).map (fun e =>
        if j < k then { e with bValid := e.bValid || PCGExPointFilter.TManager.Test F e }
        else e) := by
  induction k with
  | zero => simp
  | succ k ih =>
    rw [List.range_succ, List.foldl_append, List.foldl_cons, List.foldl_nil]
    generalize (List.range k).foldl (SanitizeEdge F) c = ck at ih
    obtain ⟨ihn, ihe⟩ := ih
    have hget : ck.GetEdge (Int.ofNat k) = c.Edges[k]? := by
      unfold FCluster.GetEdge
      have h0 : ¬ (Int.ofNat k < 0) := by simp
      have h1 : (Int.ofNat k).toNat = k := rfl
      simp only [h0, if_false]
      rw [h1, ihe k]
      simp
    unfold SanitizeEdge
    rw [hget]
    rcases hk : c.Edges[k]? with _ | e
    · refine ⟨ihn, fun j => ?_⟩
      rw [ihe j]
      rcases hj : c.Edges[j]? with _ | ej
      · rfl
      · have hjk : j ≠ k := by
          intro hjk
          rw [hjk, hk] at hj
          cases hj
        have h1 : (j < k + 1) = (j < k) := by
          apply propext
          omega
        simp only [Option.map_some', h1]
    · by_cases ht : PCGExPointFilter.TManager.Test F e = true
      · simp only [ht, if_true]
        refine ⟨?_, fun j => ?_⟩
        · unfold FCluster.SetEdgeValid
          have h0 : ¬ (Int.ofNat k < 0) := by simp
          simp only [h0, if_false]
          exact ihn
        · unfold FCluster.SetEdgeValid
          have h0 : ¬ (Int.ofNat k < 0) := by simp
          have h2 : (Int.ofNat k).toNat = k := rfl
          simp only [h0, if_false]
          rw [h2, List.getElem?_modify, ihe j]
          rcases hj : c.Edges[j]? with _ | ej
          · rfl
          · by_cases hjk : k = j
            · subst hjk
              rw [hk] at hj
              cases hj
              simp [ht]
            · have h1 : (j < k + 1) = (j < k) := by
                apply propext
                omega
              simp [hjk, h1]
      · have hf : PCGExPointFilter.TManager.Test F e = false := by
          simpa using ht
        simp only [hf, Bool.false_eq_true, if_false]
        refine ⟨ihn, fun j => ?_⟩
        rw [ihe j]
        rcases hj : c.Edges[j]? with _ | ej
        · rfl
        · by_cases hjk : k = j
          · subst hjk
            rw [hk] at hj
            cases hj
            simp [hf]
          · have h1 : (j < k + 1) = (j < k) := by
              apply propext
              omega
            simp only [Option.map_some', h1]

end PCGExRefineEdges

namespace PCGExRefineEdges

open PCGExCluster

/-- C14: under the `Filters` policy, when the edge dataset has at least as
many points as the cluster has edges (every cluster edge is built from its own
edge point), `Sanitize` leaves the nodes alone and changes only the `bValid`
of edges: an edge is valid afterwards exactly when it was valid before or the
sanitization filters pass on it. In particular a valid edge stays valid. -/
theorem C14_filters_sanitization_only_restores (MIN_dbl MAX_dbl : ℚ)
    (F : List (PCGExGraph.FIndexedEdge → Bool)) (NumEdgePoints NumNodes : Nat) (c : FCluster)
    (hnum : c.Edges.length ≤ NumEdgePoints) :
    (Sanitize MIN_dbl MAX_dbl EPCGExRefineSanitization.Filters F NumEdgePoints NumNodes c).Nodes
      = c.Nodes ∧
    (Sanitize MIN_dbl MAX_dbl EPCGExRefineSanitization.Filters F NumEdgePoints NumNodes c).Edges
      = c.Edges.map (fun e =>
          { e with bValid := e.bValid || PCGExPointFilter.TManager.Test F e }) ∧
    (∀ (j : Nat) (e : PCGExGraph.FIndexedEdge), c.Edges[j]? = some e →
      ∃ e2, (Sanitize MIN_dbl MAX_dbl EPCGExRefineSanitization.Filters F NumEdgePoints NumNodes
          c).Edges[j]? = some e2 ∧
        (e2.bValid = true ↔ e.bValid = true ∨ PCGExPointFilter.TManager.Test F e = true) ∧
        (e.bValid = true → e2.bValid = true)) := by
  obtain ⟨hn, he⟩ := SanitizeEdge_foldl_inv F c NumEdgePoints
  have hedges : (Sanitize MIN_dbl MAX_dbl EPCGExRefineSanitization.Filters F NumEdgePoints
      NumNodes c).Edges = c.Edges.map (fun e =>
        { e with bValid := e.bValid || PCGExPointFilter.TManager.Test F e }) := by
    apply List.ext_getElem?
    intro j
    simp only [Sanitize]
    rw [he j, List.getElem?_map]
    rcases hj : c.Edges[j]? with _ | ej
    · rfl
    · have hlt : j < c.Edges.length := by
        rcases Nat.lt_or_ge j c.Edges.length with h | h
        · exact h
        · rw [List.getElem?_eq_none h] at hj
          cases hj
      have hjn : j < NumEdgePoints := lt_of_lt_of_le hlt hnum
      simp [hjn]
  refine ⟨hn, hedges, ?_⟩
  intro j e hj
  refine ⟨{ e with bValid := e.bValid || PCGExPointFilter.TManager.Test F e }, ?_, ?_, ?_⟩
  · rw [hedges, List.getElem?_map, hj]
    rfl
  · simp
  · intro h
    simp [h]

/-- C14 on the path `0 - 1 - 2` (edge 0 valid, edge 1 invalid) with one
sanitization filter that passes on edge 1 only. -/
theorem C14_filters_sanitization_only_restores_witness :
    Examples.PathCluster.Edges.length ≤ 2 ∧
    (Sanitize Engine_MIN_dbl Engine_MAX_dbl EPCGExRefineSanitization.Filters
      [fun e => e.EdgeIndex == 1] 2 3 Examples.PathCluster).Nodes = Examples.PathCluster.Nodes ∧
    (Sanitize Engine_MIN_dbl Engine_MAX_dbl EPCGExRefineSanitization.Filters
      [fun e => e.EdgeIndex == 1] 2 3 Examples.PathCluster).Edges
      = Examples.PathCluster.Edges.map (fun e =>
          { e with bValid := e.bValid ||
              PCGExPointFilter.TManager.Test [fun e => e.EdgeIndex == 1] e }) ∧
    (∀ (j : Nat) (e : PCGExGraph.FIndexedEdge), Examples.PathCluster.Edges[j]? = some e →
      ∃ e2, (Sanitize Engine_MIN_dbl Engine_MAX_dbl EPCGExRefineSanitization.Filters
          [fun e => e.EdgeIndex == 1] 2 3 Examples.PathCluster).Edges[j]? = some e2 ∧
        (e2.bValid = true ↔ e.bValid = true ∨
          PCGExPointFilter.TManager.Test [fun e => e.EdgeIndex == 1] e = true) ∧
        (e.bValid = true → e2.bValid = true)) :=
  ⟨by decide, C14_filters_sanitization_only_restores Engine_MIN_dbl Engine_MAX_dbl
    [fun e => e.EdgeIndex == 1] 2 3 Examples.PathCluster (by decide)⟩

end PCGExRefineEdges

/-! ### C11: the rejections of `TryFindContours` -/

namespace PCGExFindContours

open PCGExCluster

theorem WalkStep_eq (ops : FContourOps) (S : FSettings) (c : FCluster)
    (Positions : List FVector) (w : FWalk) :
    WalkStep ops S c Positions w =
      if (StepScan ops c Positions w).2.1 != -1 then
        if (S.OutputType != EPCGExContourShapeTypeOutput.Both
              && decide ((StepPath S c w).length > 2))
            && !(if (S.OutputType != EPCGExContourShapeTypeOutput.Both
                  && decide ((StepPath S c w).length > 2)) = true then
                ops.CheckConvex (NodePosition c (Last (StepPath S c w) 2))
                  (NodePosition c (Last (StepPath S c w) 1))
                  (NodePosition c (Last (StepPath S c w) 0)) (w.bIsConvex, w.Sign)
              else (w.bIsConvex, w.Sign)).1
            && S.OutputType == EPCGExContourShapeTypeOutput.ConvexOnly then none
        else
          some
            { StartNodeIndex := w.StartNodeIndex, PrevIndex := w.NextIndex
              NextIndex := (StepScan ops c Positions w).2.1
              Path := StepPath S c w, PathUniqueSet := SetAdd w.PathUniqueSet w.NextIndex
              Exclusions := []
              bIsConvex := (if (S.OutputType != EPCGExContourShapeTypeOutput.Both
                  && decide ((StepPath S c w).length > 2)) = true then
                ops.CheckConvex (NodePosition c (Last (StepPath S c w) 2))
                  (NodePosition c (Last (StepPath S c w) 1))
                  (NodePosition c (Last (StepPath S c w) 0)) (w.bIsConvex, w.Sign)
              else (w.bIsConvex, w.Sign)).1
              Sign := (if (S.OutputType != EPCGExContourShapeTypeOutput.Both
                  && decide ((StepPath S c w).length > 2)) = true then
                ops.CheckConvex (NodePosition c (Last (StepPath S c w) 2))
                  (NodePosition c (Last (StepPath S c w) 1))
                  (NodePosition c (Last (StepPath S c w) 0)) (w.bIsConvex, w.Sign)
              else (w.bIsConvex, w.Sign)).2
              bGracefullyClosed := (StepScan ops c Positions w).2.2 }
      else
        some
          { StartNodeIndex := w.StartNodeIndex, PrevIndex := w.PrevIndex, NextIndex := -1
            Path := StepPath S c w, PathUniqueSet := SetAdd w.PathUniqueSet w.NextIndex
            Exclusions := []
            bIsConvex := w.bIsConvex, Sign := w.Sign
            bGracefullyClosed := (StepScan ops c Positions w).2.2 } := by
  unfold WalkStep StepScan StepPath StepExclusions
  by_cases h1 : ((Neighbors c w.NextIndex).length == 1 && S.bDuplicateDeadEndPoints) = true
  · simp only [h1, if_true]
  · simp only [h1, if_false]

end PCGExFindContours

namespace PCGExFindContours

open PCGExCluster

theorem WalkStep_none_iff (ops : FContourOps) (S : FSettings) (c : FCluster)
    (Positions : List FVector) (w : FWalk) :
    WalkStep ops S c Positions w = none ↔
      (StepScan ops c Positions w).2.1 ≠ -1 ∧
      S.OutputType = EPCGExContourShapeTypeOutput.ConvexOnly ∧
      2 < (StepPath S c w).length ∧
      (ops.CheckConvex (NodePosition c (Last (StepPath S c w) 2))
        (NodePosition c (Last (StepPath S c w) 1))
        (NodePosition c (Last (StepPath S c w) 0)) (w.bIsConvex, w.Sign)).1 = false := by
  rw [WalkStep_eq]
  by_cases hn : (StepScan ops c Positions w).2.1 = -1
  · simp [hn]
  · by_cases hl : 2 < (StepPath S c w).length
    · cases hO : S.OutputType <;>
        cases hc : (ops.CheckConvex (NodePosition c (Last (StepPath S c w) 2))
          (NodePosition c (Last (StepPath S c w) 1))
          (NodePosition c (Last (StepPath S c w) 0)) (w.bIsConvex, w.Sign)).1 <;>
        simp [hn, hl, hc]
    · cases hO : S.OutputType <;> simp [hn, hl]

theorem WalkLoop_none_convexOnly (ops : FContourOps) (S : FSettings) (c : FCluster)
    (Positions : List FVector) (fuel : Nat) (w : FWalk)
    (h : WalkLoop ops S c Positions fuel w = some none) :
    S.OutputType = EPCGExContourShapeTypeOutput.ConvexOnly := by
  induction fuel generalizing w with
  | zero => simp [WalkLoop] at h
  | succ fuel ih =>
    unfold WalkLoop at h
    by_cases hn : (w.NextIndex == -1) = true
    · simp [hn] at h
    · simp only [hn, Bool.false_eq_true, if_false] at h
      rcases hs : WalkStep ops S c Positions w with _ | w2
      · exact ((WalkStep_none_iff ops S c Positions w).mp hs).2.1
      · rw [hs] at h
        exact ih w2 h

theorem TryFindContours_early {P : Type} [Inhabited P] (ops : FContourOps) (S : FSettings)
    (c : FCluster) (Positions ProjectedSeeds : List FVector) (OriginPoints : List P)
    (RawTags : List String) (Processor : FProcessorState) (SeedIndex : Int) (fuel : Nat)
    (h : ops.FindClosestNode c (SeedGuide ProjectedSeeds SeedIndex) 2 = -1 ∨
      ops.FindClosestEdge c (ops.FindClosestNode c (SeedGuide ProjectedSeeds SeedIndex) 2)
        (SeedGuide ProjectedSeeds SeedIndex) = -1 ∨
      AdjacencyNum c (ops.FindClosestNode c (SeedGuide ProjectedSeeds SeedIndex) 2) ≤ 1 ∨
      ops.WithinDistance
        (NodePosition c (ops.FindClosestNode c (SeedGuide ProjectedSeeds SeedIndex) 2))
        (SeedGuide ProjectedSeeds SeedIndex) = false) :
    TryFindContours ops S c Positions ProjectedSeeds OriginPoints RawTags Processor
      SeedIndex fuel = some (Reject Processor RawTags [] false true 0) := by
  unfold TryFindContours
  simp only []
  by_cases h1 : (ops.FindClosestNode c (SeedGuide ProjectedSeeds SeedIndex) 2 == -1 ||
      ops.FindClosestEdge c (ops.FindClosestNode c (SeedGuide ProjectedSeeds SeedIndex) 2)
        (SeedGuide ProjectedSeeds SeedIndex) == -1 ||
      decide (AdjacencyNum c (ops.FindClosestNode c (SeedGuide ProjectedSeeds SeedIndex) 2)
        ≤ 1)) = true
  · rw [if_pos h1]
  · rw [if_neg h1]
    rcases h with h | h | h | h
    · exact absurd (by simp [h]) h1
    · exact absurd (by simp [h]) h1
    · exact absurd (by simp [h]) h1
    · simp [h]

theorem TryFindContours_cases {P : Type} [Inhabited P] (ops : FContourOps) (S : FSettings)
    (c : FCluster) (Positions ProjectedSeeds : List FVector) (OriginPoints : List P)
    (RawTags : List String) (Processor : FProcessorState) (SeedIndex : Int) (fuel : Nat) :
    TryFindContours ops S c Positions ProjectedSeeds OriginPoints RawTags Processor
        SeedIndex fuel = some (Reject Processor RawTags [] false true 0) ∨
    TryFindContours ops S c Positions ProjectedSeeds OriginPoints RawTags Processor
        SeedIndex fuel =
      AfterLoop S c OriginPoints RawTags
        (RecordStart S Processor
          (StartHash
            (OrientStart ops c (SeedGuide ProjectedSeeds SeedIndex)
              (ops.FindClosestNode c (SeedGuide ProjectedSeeds SeedIndex) 2)
              (ops.FindClosestEdge c (ops.FindClosestNode c (SeedGuide ProjectedSeeds SeedIndex) 2)
                (SeedGuide ProjectedSeeds SeedIndex))).1
            (OrientStart ops c (SeedGuide ProjectedSeeds SeedIndex)
              (ops.FindClosestNode c (SeedGuide ProjectedSeeds SeedIndex) 2)
              (ops.FindClosestEdge c (ops.FindClosestNode c (SeedGuide ProjectedSeeds SeedIndex) 2)
                (SeedGuide ProjectedSeeds SeedIndex))).2))
        (WalkLoop ops S c Positions fuel
          (InitialWalk
            (OrientStart ops c (SeedGuide ProjectedSeeds SeedIndex)
              (ops.FindClosestNode c (SeedGuide ProjectedSeeds SeedIndex) 2)
              (ops.FindClosestEdge c (ops.FindClosestNode c (SeedGuide ProjectedSeeds SeedIndex) 2)
                (SeedGuide ProjectedSeeds SeedIndex))).1
            (OrientStart ops c (SeedGuide ProjectedSeeds SeedIndex)
              (ops.FindClosestNode c (SeedGuide ProjectedSeeds SeedIndex) 2)
              (ops.FindClosestEdge c (ops.FindClosestNode c (SeedGuide ProjectedSeeds SeedIndex) 2)
                (SeedGuide ProjectedSeeds SeedIndex))).2)) := by
  unfold TryFindContours
  simp only []
  split_ifs with h1 h2 h3
  · exact Or.inl rfl
  · exact Or.inl rfl
  · exact Or.inl rfl
  · exact Or.inr rfl

end PCGExFindContours

namespace PCGExFindContours

open PCGExCluster

theorem TryFindContours_of_walk {P : Type} [Inhabited P] (ops : FContourOps) (S : FSettings)
    (c : FCluster) (Positions ProjectedSeeds : List FVector) (OriginPoints : List P)
    (RawTags : List String) (Processor : FProcessorState) (SeedIndex : Int) (fuel : Nat) :
    TryFindContours ops S c Positions ProjectedSeeds OriginPoints RawTags Processor
        SeedIndex fuel = some (Reject Processor RawTags [] false true 0) ∨
    TryFindContours ops S c Positions ProjectedSeeds OriginPoints RawTags Processor
        SeedIndex fuel =
      AfterLoop S c OriginPoints RawTags
        (RecordStart S Processor
          (StartHash (StartWalk ops c ProjectedSeeds SeedIndex).PrevIndex
            (StartWalk ops c ProjectedSeeds SeedIndex).NextIndex))
        (WalkLoop ops S c Positions fuel (StartWalk ops c ProjectedSeeds SeedIndex)) :=
  TryFindContours_cases ops S c Positions ProjectedSeeds OriginPoints RawTags Processor
    SeedIndex fuel

theorem Finish_rejected {P : Type} [Inhabited P] (S : FSettings) (c : FCluster)
    (OriginPoints : List P) (RawTags : List String) (Processor : FProcessorState) (w : FWalk)
    (h : (S.OutputType = EPCGExContourShapeTypeOutput.ConcaveOnly ∧ w.bIsConvex = true) ∨
      (S.bKeepOnlyGracefulContours = true ∧ w.bGracefullyClosed = false)) :
    Finish S c OriginPoints RawTags Processor w =
      Reject Processor RawTags w.Path w.bGracefullyClosed w.bIsConvex w.Sign := by
  unfold Finish
  have h1 : ((S.bKeepOnlyGracefulContours && !w.bGracefullyClosed)
      || (w.bIsConvex && S.OutputType == EPCGExContourShapeTypeOutput.ConcaveOnly)) = true := by
    rcases h with ⟨h1, h2⟩ | ⟨h1, h2⟩
    · simp [h1, h2]
    · simp [h1, h2]
  rw [if_pos h1]

end PCGExFindContours

namespace PCGExFindContours

open PCGExCluster

/-- C11: `TryFindContours` returns `false` and writes no point to the path
output when no start node or no start edge is found, when the start node has
at most one adjacency entry or lies outside the pick radius, when the loop
body returns `false` (which a step does exactly when the output type is
`ConvexOnly` and the convexity check it has just run reports a concave turn),
when the loop ends with `bIsConvex` still true under `ConcaveOnly`, or when it
ends without `bGracefullyClosed` under `bKeepOnlyGracefulContours`. Each case
is then evaluated on a concrete cluster. -/
theorem C11_rejections_write_no_point :
    (∀ {P : Type} [Inhabited P] (ops : FContourOps) (S : FSettings) (c : FCluster)
        (Positions ProjectedSeeds : List FVector) (OriginPoints : List P)
        (RawTags : List String) (Processor : FProcessorState) (SeedIndex : Int) (fuel : Nat),
      ((StartNode ops c ProjectedSeeds SeedIndex = -1 ∨
          StartEdge ops c ProjectedSeeds SeedIndex = -1 ∨
          AdjacencyNum c (StartNode ops c ProjectedSeeds SeedIndex) ≤ 1 ∨
          ops.WithinDistance (NodePosition c (StartNode ops c ProjectedSeeds SeedIndex))
            (SeedGuide ProjectedSeeds SeedIndex) = false) →
        ∃ out, TryFindContours ops S c Positions ProjectedSeeds OriginPoints RawTags Processor
            SeedIndex fuel = some out ∧ out.bResult = false ∧ out.MutablePoints = []) ∧
      (WalkLoop ops S c Positions fuel (StartWalk ops c ProjectedSeeds SeedIndex) = some none →
        ∃ out, TryFindContours ops S c Positions ProjectedSeeds OriginPoints RawTags Processor
            SeedIndex fuel = some out ∧ out.bResult = false ∧ out.MutablePoints = []) ∧
      (∀ w, WalkLoop ops S c Positions fuel (StartWalk ops c ProjectedSeeds SeedIndex)
            = some (some w) →
        ((S.OutputType = EPCGExContourShapeTypeOutput.ConcaveOnly ∧ w.bIsConvex = true) ∨
          (S.bKeepOnlyGracefulContours = true ∧ w.bGracefullyClosed = false)) →
        ∃ out, TryFindContours ops S c Positions ProjectedSeeds OriginPoints RawTags Processor
            SeedIndex fuel = some out ∧ out.bResult = false ∧ out.MutablePoints = [])) ∧
    (∀ (ops : FContourOps) (S : FSettings) (c : FCluster) (Positions : List FVector)
        (w : FWalk),
      WalkStep ops S c Positions w = none ↔
        (StepScan ops c Positions w).2.1 ≠ -1 ∧
        S.OutputType = EPCGExContourShapeTypeOutput.ConvexOnly ∧
        2 < (StepPath S c w).length ∧
        (ops.CheckConvex (NodePosition c (Last (StepPath S c w) 2))
          (NodePosition c (Last (StepPath S c w) 1))
          (NodePosition c (Last (StepPath S c w) 0)) (w.bIsConvex, w.Sign)).1 = false) ∧
    StartNode (SpecOps 100) Examples.SegmentCluster Examples.SquareSeeds 0 = -1 ∧
    (TryFindContours (SpecOps 100) DefaultSettings Examples.SegmentCluster
        Examples.SquarePositions Examples.SquareSeeds [100, 101] [] Examples.FreshProcessor
        0 10).map (fun r => (r.bResult, r.MutablePoints)) = some (false, []) ∧
    (SpecOps 1).WithinDistance
      (NodePosition Examples.SquareCluster
        (StartNode (SpecOps 1) Examples.SquareCluster Examples.SquareSeeds 0))
      (SeedGuide Examples.SquareSeeds 0) = false ∧
    (TryFindContours (SpecOps 1) DefaultSettings Examples.SquareCluster
        Examples.SquarePositions Examples.SquareSeeds [100, 101, 102, 103] []
        Examples.FreshProcessor 0 10).map (fun r => (r.bResult, r.MutablePoints))
      = some (false, []) ∧
    WalkLoop (SpecOps 100)
        { DefaultSettings with OutputType := EPCGExContourShapeTypeOutput.ConvexOnly }
        Examples.PentagonCluster Examples.PentagonPositions 10
        (StartWalk (SpecOps 100) Examples.PentagonCluster Examples.PentagonSeeds 1)
      = some none ∧
    (TryFindContours (SpecOps 100)
        { DefaultSettings with OutputType := EPCGExContourShapeTypeOutput.ConvexOnly }
        Examples.PentagonCluster Examples.PentagonPositions Examples.PentagonSeeds
        [100, 101, 102, 103, 104] [] Examples.FreshProcessor 1 10).map
      (fun r => (r.bResult, r.MutablePoints)) = some (false, []) ∧
    (TryFindContours (SpecOps 100)
        { DefaultSettings with OutputType := EPCGExContourShapeTypeOutput.ConcaveOnly }
        Examples.SquareCluster Examples.SquarePositions Examples.SquareSeeds
        [100, 101, 102, 103] [] Examples.FreshProcessor 0 10).map
      (fun r => (r.bResult, r.MutablePoints, r.bIsConvex)) = some (false, [], true) ∧
    (TryFindContours (SpecOps 100)
        { DefaultSettings with bKeepOnlyGracefulContours := true }
        Examples.PathCluster Examples.PathPositions Examples.PathSeeds
        [100, 101, 102] [] Examples.FreshProcessor 0 10).map
      (fun r => (r.bResult, r.MutablePoints, r.bGracefullyClosed)) = some (false, [], false) := by
  refine ⟨?_, fun ops S c Positions w => WalkStep_none_iff ops S c Positions w,
    by decide!, by decide!, by decide!, by decide!, by decide!, by decide!, by decide!,
    by decide!⟩
  intro P _ ops S c Positions ProjectedSeeds OriginPoints RawTags Processor SeedIndex fuel
  refine ⟨?_, ?_, ?_⟩
  · intro h
    exact ⟨_, TryFindContours_early ops S c Positions ProjectedSeeds OriginPoints RawTags
      Processor SeedIndex fuel h, rfl, rfl⟩
  · intro hloop
    rcases TryFindContours_of_walk ops S c Positions ProjectedSeeds OriginPoints RawTags
      Processor SeedIndex fuel with h | h
    · exact ⟨_, h, rfl, rfl⟩
    · rw [hloop] at h
      exact ⟨_, h, rfl, rfl⟩
  · intro w hloop hcond
    rcases TryFindContours_of_walk ops S c Positions ProjectedSeeds OriginPoints RawTags
      Processor SeedIndex fuel with h | h
    · exact ⟨_, h, rfl, rfl⟩
    · rw [hloop] at h
      simp only [AfterLoop] at h
      rw [Finish_rejected S c OriginPoints RawTags _ w hcond] at h
      exact ⟨_, h, rfl, rfl⟩

end PCGExFindContours

/-! ### C19: which triples the convexity check sees -/

namespace PCGExFindContours

open PCGExCluster

theorem WalkStep_last_unchecked (ops : FContourOps) (S : FSettings) (c : FCluster)
    (Positions : List FVector) (w : FWalk) (h : (StepScan ops c Positions w).2.1 = -1) :
    ∃ w2, WalkStep ops S c Positions w = some w2 ∧ w2.NextIndex = -1 ∧
      w2.Path = StepPath S c w ∧ w2.bIsConvex = w.bIsConvex ∧ w2.Sign = w.Sign := by
  rw [WalkStep_eq]
  simp only [h, bne_self_eq_false, Bool.false_eq_true, if_false]
  exact ⟨_, rfl, rfl, rfl, rfl, rfl⟩

/-- C19 (code evaluated at the failing input): the concave pentagon (0,0),
(10,0), (10,10), (5,5), (0,10) with the seed (1,1) and the output type
`ConvexOnly`. The walk `[1, 0, 4, 3, 2]` is accepted with `bIsConvex` true and
five points are written, although the turn at node 3 (triple 4, 3, 2) is to
the left while the turns at nodes 0 and 4 are to the right: the check would
report it (it turns `bIsConvex` false from the accepted state), but it is
never run on that triple: with a `CheckConvex` that counts its calls, two
calls are made for the three consecutive triples. In general the step that
ends the walk leaves `bIsConvex` and `Sign` as they were: the triple that ends
at the last point of the path is never tested. -/
theorem C19_last_triple_is_not_tested :
    (TryFindContours (SpecOps 100)
        { DefaultSettings with OutputType := EPCGExContourShapeTypeOutput.ConvexOnly }
        Examples.PentagonCluster Examples.PentagonPositions Examples.PentagonSeeds
        [100, 101, 102, 103, 104] [] Examples.FreshProcessor 0 10).map
      (fun r => (r.bResult, r.MutablePoints, r.Path, r.bGracefullyClosed, r.bIsConvex, r.Sign))
      = some (true, [101, 100, 104, 103, 102], [1, 0, 4, 3, 2], true, true, -1) ∧
    TurnCross (NodePosition Examples.PentagonCluster 1) (NodePosition Examples.PentagonCluster 0)
      (NodePosition Examples.PentagonCluster 4) < 0 ∧
    TurnCross (NodePosition Examples.PentagonCluster 0) (NodePosition Examples.PentagonCluster 4)
      (NodePosition Examples.PentagonCluster 3) < 0 ∧
    0 < TurnCross (NodePosition Examples.PentagonCluster 4)
      (NodePosition Examples.PentagonCluster 3) (NodePosition Examples.PentagonCluster 2) ∧
    (SpecCheckConvex (NodePosition Examples.PentagonCluster 4)
      (NodePosition Examples.PentagonCluster 3) (NodePosition Examples.PentagonCluster 2)
      (true, -1)).1 = false ∧
    (TryFindContours (CountingOps 100)
        { DefaultSettings with OutputType := EPCGExContourShapeTypeOutput.ConvexOnly }
        Examples.PentagonCluster Examples.PentagonPositions Examples.PentagonSeeds
        [100, 101, 102, 103, 104] [] Examples.FreshProcessor 0 10).map
      (fun r => (r.bResult, r.Path, r.Sign)) = some (true, [1, 0, 4, 3, 2], 2) ∧
    (∀ (ops : FContourOps) (S : FSettings) (c : FCluster) (Positions : List FVector)
        (w : FWalk), (StepScan ops c Positions w).2.1 = -1 →
      ∃ w2, WalkStep ops S c Positions w = some w2 ∧ w2.NextIndex = -1 ∧
        w2.Path = StepPath S c w ∧ w2.bIsConvex = w.bIsConvex ∧ w2.Sign = w.Sign) :=
  ⟨by decide!, by decide!, by decide!, by decide!, by decide!, by decide!,
    fun ops S c Positions w h => WalkStep_last_unchecked ops S c Positions w h⟩

end PCGExFindContours

/-! ### C20: a walk that never ends -/

namespace PCGExFindContours

open PCGExCluster

theorem ScanNeighbors_next_indep (ops : FContourOps) (c : FCluster) (Positions : List FVector)
    (Exclusions : List Int) (StartNodeIndex : Int) (Origin GuideDir : FVector)
    (l : List Int) (a : ℚ) (n : Int) (g g2 : Bool) :
    (ScanNeighbors ops c Positions Exclusions StartNodeIndex Origin GuideDir l (a, n, g)).2.1 =
    (ScanNeighbors ops c Positions Exclusions StartNodeIndex Origin GuideDir l (a, n, g2)).2.1 := by
  induction l generalizing a n with
  | nil => rfl
  | cons x rest ih =>
    simp only [ScanNeighbors]
    split_ifs
    · exact ih a n
    · rfl
    · exact ih _ _
    · exact ih a n

theorem StepScan_congr (ops : FContourOps) (c : FCluster) (Positions : List FVector)
    (w w2 : FWalk) (hs : w.StartNodeIndex = w2.StartNodeIndex) (hp : w.PrevIndex = w2.PrevIndex)
    (hn : w.NextIndex = w2.NextIndex) (he : w.Exclusions = w2.Exclusions) :
    (StepScan ops c Positions w).2.1 = (StepScan ops c Positions w2).2.1 := by
  unfold StepScan StepExclusions
  rw [hs, hp, hn, he]
  exact ScanNeighbors_next_indep _ _ _ _ _ _ _ _ _ _ _ _

theorem WalkLoop_step_both (ops : FContourOps) (S : FSettings) (c : FCluster)
    (Positions : List FVector) (hS : S.OutputType = EPCGExContourShapeTypeOutput.Both)
    (w : FWalk) (hn : w.NextIndex ≠ -1) (hnext : (StepScan ops c Positions w).2.1 ≠ -1)
    (fuel : Nat) :
    ∃ w2, WalkLoop ops S c Positions (fuel + 1) w = WalkLoop ops S c Positions fuel w2 ∧
      w2.StartNodeIndex = w.StartNodeIndex ∧ w2.PrevIndex = w.NextIndex ∧
      w2.NextIndex = (StepScan ops c Positions w).2.1 ∧ w2.Exclusions = [] ∧
      w2.Path = StepPath S c w := by
  have hb : (w.NextIndex == -1) = false := by simpa using hn
  have hb2 : ((StepScan ops c Positions w).2.1 != -1) = true := by simpa using hnext
  simp only [WalkLoop, hb, Bool.false_eq_true, if_false]
  rw [WalkStep_eq]
  simp only [hb2, if_true, hS]
  exact ⟨_, rfl, rfl, rfl, rfl, rfl, rfl⟩

end PCGExFindContours

namespace PCGExFindContours

open PCGExCluster

theorem Trap_scan (w : FWalk) (hs : w.StartNodeIndex = 0) (he : w.Exclusions = []) :
    (w.PrevIndex = 2 → w.NextIndex = 3 →
      (StepScan (SpecOps 100) Examples.TrapCluster Examples.TrapPositions w).2.1 = 4) ∧
    (w.PrevIndex = 3 → w.NextIndex = 4 →
      (StepScan (SpecOps 100) Examples.TrapCluster Examples.TrapPositions w).2.1 = 5) ∧
    (w.PrevIndex = 4 → w.NextIndex = 5 →
      (StepScan (SpecOps 100) Examples.TrapCluster Examples.TrapPositions w).2.1 = 3) ∧
    (w.PrevIndex = 5 → w.NextIndex = 3 →
      (StepScan (SpecOps 100) Examples.TrapCluster Examples.TrapPositions w).2.1 = 4) := by
  refine ⟨fun hp hn => ?_, fun hp hn => ?_, fun hp hn => ?_, fun hp hn => ?_⟩
  · rw [StepScan_congr _ _ _ w
      { StartNodeIndex := 0, PrevIndex := 2, NextIndex := 3, Path := [], PathUniqueSet := []
        Exclusions := [], bIsConvex := true, Sign := 0, bGracefullyClosed := false } hs hp hn he]
    decide!
  · rw [StepScan_congr _ _ _ w
      { StartNodeIndex := 0, PrevIndex := 3, NextIndex := 4, Path := [], PathUniqueSet := []
        Exclusions := [], bIsConvex := true, Sign := 0, bGracefullyClosed := false } hs hp hn he]
    decide!
  · rw [StepScan_congr _ _ _ w
      { StartNodeIndex := 0, PrevIndex := 4, NextIndex := 5, Path := [], PathUniqueSet := []
        Exclusions := [], bIsConvex := true, Sign := 0, bGracefullyClosed := false } hs hp hn he]
    decide!
  · rw [StepScan_congr _ _ _ w
      { StartNodeIndex := 0, PrevIndex := 5, NextIndex := 3, Path := [], PathUniqueSet := []
        Exclusions := [], bIsConvex := true, Sign := 0, bGracefullyClosed := false } hs hp hn he]
    decide!

theorem Trap_loop (fuel : Nat) (w : FWalk) (hs : w.StartNodeIndex = 0) (he : w.Exclusions = [])
    (hw : (w.PrevIndex = 2 ∧ w.NextIndex = 3) ∨ (w.PrevIndex = 3 ∧ w.NextIndex = 4) ∨
      (w.PrevIndex = 4 ∧ w.NextIndex = 5) ∨ (w.PrevIndex = 5 ∧ w.NextIndex = 3)) :
    WalkLoop (SpecOps 100) DefaultSettings Examples.TrapCluster Examples.TrapPositions fuel w
      = none := by
  induction fuel generalizing w with
  | zero => rfl
  | succ fuel ih =>
    obtain ⟨h1, h2, h3, h4⟩ := Trap_scan w hs he
    rcases hw with ⟨hp, hn⟩ | ⟨hp, hn⟩ | ⟨hp, hn⟩ | ⟨hp, hn⟩
    · have hscan := h1 hp hn
      obtain ⟨w2, hl, hs2, hp2, hn2, he2, _⟩ := WalkLoop_step_both (SpecOps 100) DefaultSettings
        Examples.TrapCluster Examples.TrapPositions rfl w (by rw [hn]; decide)
        (by rw [hscan]; decide) fuel
      rw [hl]
      exact ih w2 (hs2.trans hs) he2 (Or.inr (Or.inl ⟨hp2.trans hn, hn2.trans hscan⟩))
    · have hscan := h2 hp hn
      obtain ⟨w2, hl, hs2, hp2, hn2, he2, _⟩ := WalkLoop_step_both (SpecOps 100) DefaultSettings
        Examples.TrapCluster Examples.TrapPositions rfl w (by rw [hn]; decide)
        (by rw [hscan]; decide) fuel
      rw [hl]
      exact ih w2 (hs2.trans hs) he2 (Or.inr (Or.inr (Or.inl ⟨hp2.trans hn, hn2.trans hscan⟩)))
    · have hscan := h3 hp hn
      obtain ⟨w2, hl, hs2, hp2, hn2, he2, _⟩ := WalkLoop_step_both (SpecOps 100) DefaultSettings
        Examples.TrapCluster Examples.TrapPositions rfl w (by rw [hn]; decide)
        (by rw [hscan]; decide) fuel
      rw [hl]
      exact ih w2 (hs2.trans hs) he2 (Or.inr (Or.inr (Or.inr ⟨hp2.trans hn, hn2.trans hscan⟩)))
    · have hscan := h4 hp hn
      obtain ⟨w2, hl, hs2, hp2, hn2, he2, _⟩ := WalkLoop_step_both (SpecOps 100) DefaultSettings
        Examples.TrapCluster Examples.TrapPositions rfl w (by rw [hn]; decide)
        (by rw [hscan]; decide) fuel
      rw [hl]
      exact ih w2 (hs2.trans hs) he2 (Or.inr (Or.inl ⟨hp2.trans hn, hn2.trans hscan⟩))

theorem Trap_walk_never_ends (fuel : Nat) :
    WalkLoop (SpecOps 100) DefaultSettings Examples.TrapCluster Examples.TrapPositions fuel
      (StartWalk (SpecOps 100) Examples.TrapCluster Examples.TrapSeeds 0) = none := by
  have h0 : StartWalk (SpecOps 100) Examples.TrapCluster Examples.TrapSeeds 0
      = InitialWalk 0 2 := by decide!
  rw [h0]
  cases fuel with
  | zero => rfl
  | succ fuel =>
    have hscan : (StepScan (SpecOps 100) Examples.TrapCluster Examples.TrapPositions
        (InitialWalk 0 2)).2.1 = 3 := by decide!
    obtain ⟨w2, hl, hs2, hp2, hn2, he2, _⟩ := WalkLoop_step_both (SpecOps 100) DefaultSettings
      Examples.TrapCluster Examples.TrapPositions rfl (InitialWalk 0 2) (by decide)
      (by rw [hscan]; decide) fuel
    rw [hl]
    exact Trap_loop fuel w2 hs2 he2 (Or.inl ⟨hp2, hn2.trans hscan⟩)

end PCGExFindContours

namespace PCGExFindContours

open PCGExCluster

theorem WalkStep_both (ops : FContourOps) (S : FSettings) (c : FCluster)
    (Positions : List FVector) (hS : S.OutputType = EPCGExContourShapeTypeOutput.Both)
    (w : FWalk) (hnext : (StepScan ops c Positions w).2.1 ≠ -1) :
    ∃ w2, WalkStep ops S c Positions w = some w2 ∧
      w2.StartNodeIndex = w.StartNodeIndex ∧ w2.PrevIndex = w.NextIndex ∧
      w2.NextIndex = (StepScan ops c Positions w).2.1 ∧ w2.Exclusions = [] ∧
      w2.Path = StepPath S c w := by
  have hb2 : ((StepScan ops c Positions w).2.1 != -1) = true := by simpa using hnext
  rw [WalkStep_eq]
  simp only [hb2, if_true, hS]
  exact ⟨_, rfl, rfl, rfl, rfl, rfl, rfl⟩

theorem Trap_step (w : FWalk) (hs : w.StartNodeIndex = 0) (he : w.Exclusions = [])
    (hw : (w.PrevIndex = 3 ∧ w.NextIndex = 4) ∨ (w.PrevIndex = 4 ∧ w.NextIndex = 5) ∨
      (w.PrevIndex = 5 ∧ w.NextIndex = 3)) :
    ∃ w2, WalkStep (SpecOps 100) DefaultSettings Examples.TrapCluster Examples.TrapPositions w
        = some w2 ∧
      w2.StartNodeIndex = 0 ∧ w2.Exclusions = [] ∧
      ((w2.PrevIndex = 3 ∧ w2.NextIndex = 4) ∨ (w2.PrevIndex = 4 ∧ w2.NextIndex = 5) ∨
        (w2.PrevIndex = 5 ∧ w2.NextIndex = 3)) ∧
      w2.Path = w.Path ++ [w.NextIndex] := by
  obtain ⟨_, h2, h3, h4⟩ := Trap_scan w hs he
  rcases hw with ⟨hp, hn⟩ | ⟨hp, hn⟩ | ⟨hp, hn⟩
  · have hscan := h2 hp hn
    obtain ⟨w2, hl, hs2, hp2, hn2, he2, hpath⟩ := WalkStep_both (SpecOps 100) DefaultSettings
      Examples.TrapCluster Examples.TrapPositions rfl w (by rw [hscan]; decide)
    refine ⟨w2, hl, hs2.trans hs, he2, Or.inr (Or.inl ⟨hp2.trans hn, hn2.trans hscan⟩), ?_⟩
    rw [hpath]
    simp only [StepPath, hn]
    rfl
  · have hscan := h3 hp hn
    obtain ⟨w2, hl, hs2, hp2, hn2, he2, hpath⟩ := WalkStep_both (SpecOps 100) DefaultSettings
      Examples.TrapCluster Examples.TrapPositions rfl w (by rw [hscan]; decide)
    refine ⟨w2, hl, hs2.trans hs, he2, Or.inr (Or.inr ⟨hp2.trans hn, hn2.trans hscan⟩), ?_⟩
    rw [hpath]
    simp only [StepPath, hn]
    rfl
  · have hscan := h4 hp hn
    obtain ⟨w2, hl, hs2, hp2, hn2, he2, hpath⟩ := WalkStep_both (SpecOps 100) DefaultSettings
      Examples.TrapCluster Examples.TrapPositions rfl w (by rw [hscan]; decide)
    refine ⟨w2, hl, hs2.trans hs, he2, Or.inl ⟨hp2.trans hn, hn2.trans hscan⟩, ?_⟩
    rw [hpath]
    simp only [StepPath, hn]
    rfl

/-- C20 (code evaluated at the failing input): in the cluster whose start node
0 leads through node 2 to the triangle 3, 4, 5 (the side from 3 to 5 running
over node 2), with the seed (10,-9), the start node and edge are found within
the pick radius and the walk goes 0, 2, 3, 4, 5, 3, 4, 5, ...: at node 3, coming
from 5, node 2 lies in the incoming direction (angle 0) and node 4 wins. Every
turn in the triangle leads to the next turn in the triangle and appends a node
to the path; the loop returns for no amount of fuel, and `TryFindContours`
with it. -/
theorem C20_walk_in_triangle_never_ends :
    StartNode (SpecOps 100) Examples.TrapCluster Examples.TrapSeeds 0 = 0 ∧
    StartEdge (SpecOps 100) Examples.TrapCluster Examples.TrapSeeds 0 = 1 ∧
    AdjacencyNum Examples.TrapCluster 0 = 2 ∧
    (SpecOps 100).WithinDistance (NodePosition Examples.TrapCluster 0)
      (SeedGuide Examples.TrapSeeds 0) = true ∧
    (WalkLoop (SpecOps 100) DefaultSettings Examples.TrapCluster Examples.TrapPositions 3
      (StartWalk (SpecOps 100) Examples.TrapCluster Examples.TrapSeeds 0) = none) ∧
    (∀ w : FWalk, w.StartNodeIndex = 0 → w.Exclusions = [] →
      ((w.PrevIndex = 3 ∧ w.NextIndex = 4) ∨ (w.PrevIndex = 4 ∧ w.NextIndex = 5) ∨
        (w.PrevIndex = 5 ∧ w.NextIndex = 3)) →
      ∃ w2, WalkStep (SpecOps 100) DefaultSettings Examples.TrapCluster Examples.TrapPositions w
          = some w2 ∧
        w2.StartNodeIndex = 0 ∧ w2.Exclusions = [] ∧
        ((w2.PrevIndex = 3 ∧ w2.NextIndex = 4) ∨ (w2.PrevIndex = 4 ∧ w2.NextIndex = 5) ∨
          (w2.PrevIndex = 5 ∧ w2.NextIndex = 3)) ∧
        w2.Path = w.Path ++ [w.NextIndex]) ∧
    (∀ fuel : Nat,
      WalkLoop (SpecOps 100) DefaultSettings Examples.TrapCluster Examples.TrapPositions fuel
        (StartWalk (SpecOps 100) Examples.TrapCluster Examples.TrapSeeds 0) = none) ∧
    (∀ fuel : Nat,
      TryFindContours (SpecOps 100) DefaultSettings Examples.TrapCluster Examples.TrapPositions
        Examples.TrapSeeds [100, 101, 102, 103, 104, 105] [] Examples.FreshProcessor 0 fuel
        = none) := by
  refine ⟨by decide!, by decide!, by decide!, by decide!, by decide!,
    fun w hs he hw => Trap_step w hs he hw, Trap_walk_never_ends, ?_⟩
  intro fuel
  have h1 : ¬ ((SpecOps 100).FindClosestNode Examples.TrapCluster
        (SeedGuide Examples.TrapSeeds 0) 2 == -1 ||
      (SpecOps 100).FindClosestEdge Examples.TrapCluster
        ((SpecOps 100).FindClosestNode Examples.TrapCluster (SeedGuide Examples.TrapSeeds 0) 2)
        (SeedGuide Examples.TrapSeeds 0) == -1 ||
      decide (AdjacencyNum Examples.TrapCluster
        ((SpecOps 100).FindClosestNode Examples.TrapCluster (SeedGuide Examples.TrapSeeds 0) 2)
        ≤ 1)) = true := by decide!
  have h2 : ¬ (!(SpecOps 100).WithinDistance
      (NodePosition Examples.TrapCluster
        ((SpecOps 100).FindClosestNode Examples.TrapCluster (SeedGuide Examples.TrapSeeds 0) 2))
      (SeedGuide Examples.TrapSeeds 0)) = true := by decide!
  have h3 := Trap_walk_never_ends fuel
  simp only [StartWalk, StartNode, StartEdge] at h3
  unfold TryFindContours
  simp only []
  rw [if_neg h1, if_neg h2]
  split_ifs with h4
  · simp [DefaultSettings] at h4
  · rw [h3]
    rfl

end PCGExFindContours

/-! ### C18: how a step chooses the next node -/

namespace PCGExFindContours

open PCGExCluster

theorem filter_excluded (E l : List Int) (x : Int) (hx : E.contains x = true) :
    (x :: l).filter (fun n => !E.contains n) = l.filter (fun n => !E.contains n) :=
  List.filter_cons_of_neg (by
    show ¬ ((!E.contains x) = true)
    rw [hx]
    decide)

theorem filter_not_excluded (E l : List Int) (x : Int) (hx : ¬ E.contains x = true) :
    (x :: l).filter (fun n => !E.contains n) = x :: l.filter (fun n => !E.contains n) :=
  List.filter_cons_of_pos (by
    show (!E.contains x) = true
    cases h : E.contains x
    · rfl
    · exact absurd h hx)

theorem ScanNeighbors_closed (ops : FContourOps) (c : FCluster) (Positions : List FVector)
    (Exclusions : List Int) (StartNodeIndex : Int) (Origin GuideDir : FVector)
    (l : List Int) (acc : ℚ × Int × Bool)
    (h : StartNodeIndex ∈ l.filter (fun n => !Exclusions.contains n)) :
    (ScanNeighbors ops c Positions Exclusions StartNodeIndex Origin GuideDir l acc).2.1 = -1 ∧
    (ScanNeighbors ops c Positions Exclusions StartNodeIndex Origin GuideDir l acc).2.2
      = true := by
  induction l generalizing acc with
  | nil => simp at h
  | cons x rest ih =>
    obtain ⟨a, n, g⟩ := acc
    by_cases hx : Exclusions.contains x = true
    · have h2 : StartNodeIndex ∈ rest.filter (fun n => !Exclusions.contains n) := by
        rw [filter_excluded _ _ _ hx] at h
        exact h
      simp only [ScanNeighbors, hx, if_true]
      exact ih _ h2
    · by_cases hs : (x == StartNodeIndex) = true
      · simp only [ScanNeighbors, hx, hs, if_true, Bool.false_eq_true, if_false]
        exact ⟨trivial, trivial⟩
      · have hne : StartNodeIndex ≠ x := by
          intro he
          exact hs (by simp [he])
        have h2 : StartNodeIndex ∈ rest.filter (fun n => !Exclusions.contains n) := by
          rw [filter_not_excluded _ _ _ hx] at h
          rcases List.mem_cons.mp h with h | h
          · exact absurd h hne
          · exact h
        simp only [ScanNeighbors, hx, hs, Bool.false_eq_true, if_false]
        split_ifs
        · exact ih _ h2
        · exact ih _ h2

theorem ScanNeighbors_open (ops : FContourOps) (c : FCluster) (Positions : List FVector)
    (Exclusions : List Int) (StartNodeIndex : Int) (Origin GuideDir : FVector)
    (l : List Int) (a : ℚ) (n : Int) (g : Bool)
    (h : StartNodeIndex ∉ l.filter (fun n => !Exclusions.contains n)) :
    (ScanNeighbors ops c Positions Exclusions StartNodeIndex Origin GuideDir l (a, n, g)).2.2
      = g ∧
    (((ScanNeighbors ops c Positions Exclusions StartNodeIndex Origin GuideDir l (a, n, g)).1 = a ∧
      (ScanNeighbors ops c Positions Exclusions StartNodeIndex Origin GuideDir l (a, n, g)).2.1
        = n ∧
      ∀ x ∈ l.filter (fun n => !Exclusions.contains n),
        ops.GetDegreesBetweenVectors
          (ops.GetSafeNormal (FVector.sub Origin (ProjectedPosition c Positions x))) GuideDir
          ≤ a) ∨
    (∃ pre b post, l.filter (fun n => !Exclusions.contains n) = pre ++ b :: post ∧
      (ScanNeighbors ops c Positions Exclusions StartNodeIndex Origin GuideDir l (a, n, g)).2.1
        = b ∧
      (ScanNeighbors ops c Positions Exclusions StartNodeIndex Origin GuideDir l (a, n, g)).1 =
        ops.GetDegreesBetweenVectors
          (ops.GetSafeNormal (FVector.sub Origin (ProjectedPosition c Positions b))) GuideDir ∧
      a < ops.GetDegreesBetweenVectors
          (ops.GetSafeNormal (FVector.sub Origin (ProjectedPosition c Positions b))) GuideDir ∧
      (∀ x ∈ pre, ops.GetDegreesBetweenVectors
          (ops.GetSafeNormal (FVector.sub Origin (ProjectedPosition c Positions x))) GuideDir
        < ops.GetDegreesBetweenVectors
          (ops.GetSafeNormal (FVector.sub Origin (ProjectedPosition c Positions b))) GuideDir) ∧
      (∀ x ∈ post, ops.GetDegreesBetweenVectors
          (ops.GetSafeNormal (FVector.sub Origin (ProjectedPosition c Positions x))) GuideDir
        ≤ ops.GetDegreesBetweenVectors
          (ops.GetSafeNormal (FVector.sub Origin (ProjectedPosition c Positions b)))
            GuideDir))) := by
  induction l generalizing a n with
  | nil => exact ⟨rfl, Or.inl ⟨rfl, rfl, fun x hx => by simp at hx⟩⟩
  | cons x rest ih =>
    by_cases hx : Exclusions.contains x = true
    · have hf : (x :: rest).filter (fun n => !Exclusions.contains n)
          = rest.filter (fun n => !Exclusions.contains n) := filter_excluded _ _ _ hx
      rw [hf] at h ⊢
      simp only [ScanNeighbors, hx, if_true]
      exact ih a n h
    · have hf : (x :: rest).filter (fun n => !Exclusions.contains n)
          = x :: rest.filter (fun n => !Exclusions.contains n) := filter_not_excluded _ _ _ hx
      rw [hf] at h ⊢
      have hne : ¬ (x == StartNodeIndex) = true := by
        intro he
        apply h
        have : x = StartNodeIndex := by simpa using he
        rw [this]
        exact List.mem_cons_self _ _
      have h2 : StartNodeIndex ∉ rest.filter (fun n => !Exclusions.contains n) :=
        fun hm => h (List.mem_cons_of_mem _ hm)
      simp only [ScanNeighbors, hx, hne, Bool.false_eq_true, if_false]
      by_cases hgt : ops.GetDegreesBetweenVectors
          (ops.GetSafeNormal (FVector.sub Origin (ProjectedPosition c Positions x))) GuideDir > a
      · rw [if_pos hgt]
        obtain ⟨hg, hr⟩ := ih _ x h2
        refine ⟨hg, Or.inr ?_⟩
        rcases hr with ⟨h1, h3, hall⟩ | ⟨pre, b, post, hl, hb, ha, hlt, hpre, hpost⟩
        · exact ⟨[], x, _, rfl, h3, h1, hgt, fun y hy => by simp at hy, hall⟩
        · refine ⟨x :: pre, b, post, by rw [hl]; rfl, hb, ha, lt_trans hgt hlt, ?_, hpost⟩
          intro y hy
          rcases List.mem_cons.mp hy with rfl | hy
          · exact hlt
          · exact hpre y hy
      · rw [if_neg hgt]
        obtain ⟨hg, hr⟩ := ih a n h2
        refine ⟨hg, ?_⟩
        rcases hr with ⟨h1, h3, hall⟩ | ⟨pre, b, post, hl, hb, ha, hlt, hpre, hpost⟩
        · refine Or.inl ⟨h1, h3, ?_⟩
          intro y hy
          rcases List.mem_cons.mp hy with rfl | hy
          · exact not_lt.mp hgt
          · exact hall y hy
        · refine Or.inr ⟨x :: pre, b, post, by rw [hl]; rfl, hb, ha, hlt, ?_, hpost⟩
          intro y hy
          rcases List.mem_cons.mp hy with rfl | hy
          · exact lt_of_le_of_lt (not_lt.mp hgt) hlt
          · exact hpre y hy

end PCGExFindContours

namespace PCGExFindContours

open PCGExCluster

theorem WalkStep_fields (ops : FContourOps) (S : FSettings) (c : FCluster)
    (Positions : List FVector) (w w2 : FWalk) (h : WalkStep ops S c Positions w = some w2) :
    w2.StartNodeIndex = w.StartNodeIndex ∧ w2.Exclusions = [] ∧
    w2.NextIndex = (StepScan ops c Positions w).2.1 ∧
    w2.bGracefullyClosed = (StepScan ops c Positions w).2.2 ∧
    w2.Path = StepPath S c w ∧ w2.PathUniqueSet = SetAdd w.PathUniqueSet w.NextIndex := by
  rw [WalkStep_eq] at h
  by_cases h1 : (StepScan ops c Positions w).2.1 = -1
  · have hb : ((StepScan ops c Positions w).2.1 != -1) = false := by simp [h1]
    simp only [hb, Bool.false_eq_true, if_false, Option.some.injEq] at h
    subst h
    exact ⟨rfl, rfl, h1.symm, rfl, rfl, rfl⟩
  · have hb : ((StepScan ops c Positions w).2.1 != -1) = true := by simpa using h1
    simp only [hb, if_true] at h
    split_ifs at h
    all_goals
      simp only [Option.some.injEq] at h
      subst h
      exact ⟨rfl, rfl, rfl, rfl, rfl, rfl⟩

/-- C18 (as stated, refuted): on the line `0 - 1 - 2` with the seed (11,1) the
walk is `[2, 1, 0, 1]`: at the dead end 0, reached from node 1, nothing is
excluded and the next node is node 1, the node just visited. On the square
with a fifth node hanging from node 2, the walk `[1, 0, 3, 2]` is closed at
node 2 although the viable neighbours there are node 4 and the start node 1,
not the start node alone. -/
theorem C18_dead_end_turns_back :
    (TryFindContours (SpecOps 100) DefaultSettings Examples.LineCluster Examples.PathPositions
        Examples.LineSeeds [100, 101, 102] [] Examples.FreshProcessor 0 10).map
      (fun r => (r.bResult, r.Path, r.bGracefullyClosed)) = some (true, [2, 1, 0, 1], true) ∧
    (WalkStep (SpecOps 100) DefaultSettings Examples.LineCluster Examples.PathPositions
        { StartNodeIndex := 2, PrevIndex := 1, NextIndex := 0, Path := [2, 1]
          PathUniqueSet := [2, 1], Exclusions := [], bIsConvex := true, Sign := 0
          bGracefullyClosed := false }).map (fun w => (w.PrevIndex, w.NextIndex, w.Path))
      = some (0, 1, [2, 1, 0]) ∧
    Viable Examples.LineCluster
        { StartNodeIndex := 2, PrevIndex := 1, NextIndex := 0, Path := [2, 1]
          PathUniqueSet := [2, 1], Exclusions := [], bIsConvex := true, Sign := 0
          bGracefullyClosed := false } = [1] ∧
    (TryFindContours (SpecOps 100) DefaultSettings Examples.SpurSquareCluster
        Examples.SpurSquarePositions Examples.SquareSeeds [100, 101, 102, 103, 104] []
        Examples.FreshProcessor 0 10).map
      (fun r => (r.bResult, r.Path, r.bGracefullyClosed)) = some (true, [1, 0, 3, 2], true) ∧
    Viable Examples.SpurSquareCluster
        { StartNodeIndex := 1, PrevIndex := 3, NextIndex := 2, Path := [1, 0, 3]
          PathUniqueSet := [1, 0, 3], Exclusions := [], bIsConvex := true, Sign := 0
          bGracefullyClosed := false } = [4, 1] ∧
    (StepScan (SpecOps 100) Examples.SpurSquareCluster Examples.SpurSquarePositions
        { StartNodeIndex := 1, PrevIndex := 3, NextIndex := 2, Path := [1, 0, 3]
          PathUniqueSet := [1, 0, 3], Exclusions := [], bIsConvex := true, Sign := 0
          bGracefullyClosed := false }).2 = (-1, true) := by
  refine ⟨by decide!, by decide!, by decide!, by decide!, by decide!, by decide!⟩

end PCGExFindContours

namespace PCGExFindContours

open PCGExCluster

theorem Viable_of_no_exclusions (c : FCluster) (w : FWalk) (he : w.Exclusions = []) (x : Int) :
    x ∈ Viable c w ↔
      x ∈ Neighbors c w.NextIndex ∧ (1 < (Neighbors c w.NextIndex).length → x ≠ w.PrevIndex) := by
  unfold Viable StepExclusions
  rw [he]
  by_cases hl : (Neighbors c w.NextIndex).length > 1
  · simp only [hl, if_true, SetAdd, List.mem_filter]
    have h1 : 1 < (Neighbors c w.NextIndex).length := hl
    simp [h1]
  · simp only [hl, if_false, List.mem_filter]
    have h1 : ¬ 1 < (Neighbors c w.NextIndex).length := hl
    simp [h1]

/-- C18 (amended): at a step of the walk the viable neighbours are the
neighbours of the current node that are not in `Exclusions`, to which the
previous node is added only when the current node has more than one neighbour;
after the first step `Exclusions` is empty, so the previous node alone is
excluded, and nothing at a dead end. If the start node is viable the scan
closes the contour (`bGracefullyClosed`, no next node), whatever the other
viable neighbours. Otherwise `bGracefullyClosed` is left as it was and the
next node is the first viable neighbour of largest angle, provided that angle
exceeds -1; there is no next node when no viable neighbour has such an angle.
The step continues with that next node and empties `Exclusions`. -/
theorem C18_next_is_first_largest_angle_among_viable (ops : FContourOps) (c : FCluster)
    (Positions : List FVector) (w : FWalk) :
    (w.Exclusions = [] → ∀ x, x ∈ Viable c w ↔
      x ∈ Neighbors c w.NextIndex ∧
        (1 < (Neighbors c w.NextIndex).length → x ≠ w.PrevIndex)) ∧
    (w.StartNodeIndex ∈ Viable c w →
      (StepScan ops c Positions w).2.1 = -1 ∧ (StepScan ops c Positions w).2.2 = true) ∧
    (w.StartNodeIndex ∉ Viable c w →
      (StepScan ops c Positions w).2.2 = w.bGracefullyClosed ∧
      (((StepScan ops c Positions w).2.1 = -1 ∧
          ∀ x ∈ Viable c w, StepAngle ops c Positions w x ≤ -1) ∨
        (∃ pre b post, Viable c w = pre ++ b :: post ∧
          (StepScan ops c Positions w).2.1 = b ∧
          -1 < StepAngle ops c Positions w b ∧
          (∀ x ∈ pre, StepAngle ops c Positions w x < StepAngle ops c Positions w b) ∧
          (∀ x ∈ post, StepAngle ops c Positions w x ≤ StepAngle ops c Positions w b)))) ∧
    (∀ (S : FSettings) (w2 : FWalk), WalkStep ops S c Positions w = some w2 →
      w2.StartNodeIndex = w.StartNodeIndex ∧ w2.Exclusions = [] ∧
      w2.NextIndex = (StepScan ops c Positions w).2.1 ∧
      w2.bGracefullyClosed = (StepScan ops c Positions w).2.2) := by
  refine ⟨fun he x => Viable_of_no_exclusions c w he x, ?_, ?_, ?_⟩
  · intro h
    exact ScanNeighbors_closed ops c Positions _ _ _ _ _ _ h
  · intro h
    obtain ⟨hg, hr⟩ := ScanNeighbors_open ops c Positions (StepExclusions c w) w.StartNodeIndex
      (ProjectedPosition c Positions w.NextIndex)
      (ops.GetSafeNormal (FVector.sub (ProjectedPosition c Positions w.NextIndex)
        (ProjectedPosition c Positions w.PrevIndex)))
      (Neighbors c w.NextIndex) (-1) (-1) w.bGracefullyClosed h
    refine ⟨hg, ?_⟩
    rcases hr with ⟨_, h3, hall⟩ | ⟨pre, b, post, hl, hb, _, hlt, hpre, hpost⟩
    · exact Or.inl ⟨h3, hall⟩
    · exact Or.inr ⟨pre, b, post, hl, hb, hlt, hpre, hpost⟩
  · intro S w2 h
    obtain ⟨h1, h2, h3, h4, _, _⟩ := WalkStep_fields ops S c Positions w w2 h
    exact ⟨h1, h2, h3, h4⟩

end PCGExFindContours

/-! ### C12: deduplication over a sequence of calls -/

namespace PCGExFindContours

open PCGExCluster

theorem mem_SetAdd (s : List Int) (a x : Int) : x ∈ SetAdd s a ↔ x ∈ s ∨ x = a := by
  unfold SetAdd
  by_cases h : s.contains a = true
  · rw [if_pos h]
    have ha : a ∈ s := by simpa using h
    constructor
    · exact fun hx => Or.inl hx
    · rintro (hx | hx)
      · exact hx
      · rw [hx]; exact ha
  · rw [if_neg h]
    simp

theorem nodup_SetAdd (s : List Int) (a : Int) (h : s.Nodup) : (SetAdd s a).Nodup := by
  unfold SetAdd
  by_cases hc : s.contains a = true
  · rw [if_pos hc]
    exact h
  · rw [if_neg hc]
    have ha : a ∉ s := by simpa using hc
    rw [List.nodup_append]
    refine ⟨h, List.nodup_singleton a, ?_⟩
    intro x hx hx2
    have : x = a := by simpa using hx2
    exact ha (this ▸ hx)

theorem SameSet_of_same_elements (A B : List Int) (hA : A.Nodup) (hB : B.Nodup)
    (h : ∀ x, x ∈ A ↔ x ∈ B) : SameSet A B = true := by
  have hp : A.Perm B := (List.perm_ext_iff_of_nodup hA hB).mpr h
  unfold SameSet
  simp only [Bool.and_eq_true, beq_iff_eq, List.all_eq_true]
  refine ⟨hp.length_eq, ?_⟩
  intro x hx
  have : x ∈ B := (h x).mp hx
  simpa using this

theorem WalkStep_pathSet (ops : FContourOps) (S : FSettings) (c : FCluster)
    (Positions : List FVector) (w w2 : FWalk) (h : WalkStep ops S c Positions w = some w2)
    (hn : w.PathUniqueSet.Nodup) (hm : ∀ x, x ∈ w.PathUniqueSet ↔ x ∈ w.Path) :
    w2.PathUniqueSet.Nodup ∧ ∀ x, x ∈ w2.PathUniqueSet ↔ x ∈ w2.Path := by
  obtain ⟨_, _, _, _, hp, hu⟩ := WalkStep_fields ops S c Positions w w2 h
  rw [hp, hu]
  refine ⟨nodup_SetAdd _ _ hn, fun x => ?_⟩
  rw [mem_SetAdd, hm x]
  unfold StepPath
  split_ifs <;> simp [or_assoc]

theorem WalkLoop_pathSet (ops : FContourOps) (S : FSettings) (c : FCluster)
    (Positions : List FVector) (fuel : Nat) (w w2 : FWalk)
    (h : WalkLoop ops S c Positions fuel w = some (some w2))
    (hn : w.PathUniqueSet.Nodup) (hm : ∀ x, x ∈ w.PathUniqueSet ↔ x ∈ w.Path) :
    w2.PathUniqueSet.Nodup ∧ ∀ x, x ∈ w2.PathUniqueSet ↔ x ∈ w2.Path := by
  induction fuel generalizing w with
  | zero => simp [WalkLoop] at h
  | succ fuel ih =>
    unfold WalkLoop at h
    by_cases hnx : (w.NextIndex == -1) = true
    · simp only [hnx, if_true, Option.some.injEq] at h
      subst h
      exact ⟨hn, hm⟩
    · simp only [hnx, Bool.false_eq_true, if_false] at h
      rcases hs : WalkStep ops S c Positions w with _ | w1
      · rw [hs] at h
        simp at h
      · rw [hs] at h
        obtain ⟨hn1, hm1⟩ := WalkStep_pathSet ops S c Positions w w1 hs hn hm
        exact ih w1 h hn1 hm1

end PCGExFindContours

namespace PCGExFindContours

open PCGExCluster

theorem TryFindContours_dedupe {P : Type} [Inhabited P] (ops : FContourOps) (S : FSettings)
    (c : FCluster) (Positions ProjectedSeeds : List FVector) (OriginPoints : List P)
    (RawTags : List String) (Processor : FProcessorState) (SeedIndex : Int) (fuel : Nat)
    (out : FContourResult P) (hd : S.bDedupePaths = true)
    (hrun : TryFindContours ops S c Positions ProjectedSeeds OriginPoints RawTags Processor
      SeedIndex fuel = some out) :
    (out.bResult = false ∧ out.Processor.ExistingPaths = Processor.ExistingPaths) ∨
    (out.bResult = true ∧ ∃ U : List Int, U.Nodup ∧ (∀ x, x ∈ U ↔ x ∈ out.Path) ∧
      out.Processor.ExistingPaths = Processor.ExistingPaths ++ [U] ∧
      ∀ E ∈ Processor.ExistingPaths, SameSet U E = false) := by
  rcases TryFindContours_of_walk ops S c Positions ProjectedSeeds OriginPoints RawTags
    Processor SeedIndex fuel with h | h
  · rw [h] at hrun
    simp only [Option.some.injEq] at hrun
    subst hrun
    exact Or.inl ⟨rfl, rfl⟩
  · rw [h] at hrun
    have hrs : ∀ k, (RecordStart S Processor k).ExistingPaths = Processor.ExistingPaths := by
      intro k
      simp [RecordStart, hd]
    rcases hl : WalkLoop ops S c Positions fuel (StartWalk ops c ProjectedSeeds SeedIndex)
      with _ | _ | w
    · rw [hl] at hrun
      simp [AfterLoop] at hrun
    · rw [hl] at hrun
      simp only [AfterLoop, Option.some.injEq] at hrun
      subst hrun
      exact Or.inl ⟨rfl, hrs _⟩
    · rw [hl] at hrun
      simp only [AfterLoop, Option.some.injEq] at hrun
      obtain ⟨hn, hm⟩ := WalkLoop_pathSet ops S c Positions fuel _ w hl
        (by simp [StartWalk, InitialWalk]) (by simp [StartWalk, InitialWalk])
      unfold Finish at hrun
      split_ifs at hrun with h1 h2
      · subst hrun
        exact Or.inl ⟨rfl, hrs _⟩
      · subst hrun
        exact Or.inl ⟨rfl, hrs _⟩
      · subst hrun
        refine Or.inr ⟨rfl, w.PathUniqueSet, hn, hm, ?_, ?_⟩
        · simp [EmitPath, RecordPath, hd, hrs]
        · intro E hE
          have h3 : (Processor.ExistingPaths.any (fun ExistingPathSet =>
              SameSet w.PathUniqueSet ExistingPathSet)) = false := by
            have h4 := h2
            simp only [hd, Bool.true_and, hrs] at h4
            simpa using h4
          rw [List.any_eq_false] at h3
          simpa using h3 E hE

theorem RunSeeds_dedupe {P : Type} [Inhabited P] (ops : FContourOps) (S : FSettings)
    (c : FCluster) (Positions ProjectedSeeds : List FVector) (OriginPoints : List P)
    (RawTags : List String) (fuel : Nat) (hd : S.bDedupePaths = true) (Seeds : List Int) :
    ∀ (Processor : FProcessorState) (r : List (FContourResult P) × FProcessorState),
      RunSeeds ops S c Positions ProjectedSeeds OriginPoints RawTags fuel Seeds Processor
        = some r →
      (∃ added, r.2.ExistingPaths = Processor.ExistingPaths ++ added) ∧
      (∀ out ∈ r.1, out.bResult = true →
        ∃ U ∈ r.2.ExistingPaths, ∀ x, x ∈ U ↔ x ∈ out.Path) ∧
      r.1.Pairwise (fun a b => a.bResult = true → b.bResult = true →
        ¬ ∀ x, x ∈ a.Path ↔ x ∈ b.Path) ∧
      (∀ E ∈ Processor.ExistingPaths, E.Nodup → ∀ out ∈ r.1, out.bResult = true →
        ¬ ∀ x, x ∈ E ↔ x ∈ out.Path) := by
  induction Seeds with
  | nil =>
    intro Processor r h
    simp only [RunSeeds, Option.some.injEq] at h
    subst h
    exact ⟨⟨[], by simp⟩, fun out ho => by simp at ho, List.Pairwise.nil,
      fun E _ _ out ho => by simp at ho⟩
  | cons i rest ih =>
    intro Processor r h
    unfold RunSeeds at h
    rcases h1 : TryFindContours ops S c Positions ProjectedSeeds OriginPoints RawTags
      Processor i fuel with _ | out
    · rw [h1] at h
      simp at h
    · rw [h1] at h
      simp only at h
      rcases h2 : RunSeeds ops S c Positions ProjectedSeeds OriginPoints RawTags fuel rest
        out.Processor with _ | r2
      · rw [h2] at h
        simp at h
      · rw [h2] at h
        simp only [Option.some.injEq] at h
        subst h
        obtain ⟨⟨added, hadd⟩, hrec, hpair, hold⟩ := ih out.Processor r2 h2
        have hcall := TryFindContours_dedupe ops S c Positions ProjectedSeeds OriginPoints
          RawTags Processor i fuel out hd h1
        have hmono : ∃ a, out.Processor.ExistingPaths = Processor.ExistingPaths ++ a := by
          rcases hcall with ⟨_, he⟩ | ⟨_, U, _, _, he, _⟩
          · exact ⟨[], by simp [he]⟩
          · exact ⟨[U], he⟩
        obtain ⟨a1, ha1⟩ := hmono
        refine ⟨⟨a1 ++ added, by simp [hadd, ha1]⟩, ?_, ?_, ?_⟩
        · intro o ho hres
          rcases List.mem_cons.mp ho with rfl | ho
          · rcases hcall with ⟨hf, _⟩ | ⟨_, U, _, hm, he, _⟩
            · rw [hf] at hres
              cases hres
            · refine ⟨U, ?_, hm⟩
              simp [hadd, he]
          · exact hrec o ho hres
        · refine List.Pairwise.cons ?_ hpair
          intro b hb hres hbres hsame
          rcases hcall with ⟨hf, _⟩ | ⟨_, U, hn, hm, he, _⟩
          · rw [hf] at hres
            cases hres
          · have hU : U ∈ out.Processor.ExistingPaths := by simp [he]
            exact hold U hU hn b hb hbres (fun x => (hm x).trans (hsame x))
        · intro E hE hEn o ho hres hsame
          rcases List.mem_cons.mp ho with rfl | ho
          · rcases hcall with ⟨hf, _⟩ | ⟨_, U, hn, hm, _, hdiff⟩
            · rw [hf] at hres
              cases hres
            · have h3 := SameSet_of_same_elements U E hn hEn
                (fun x => (hm x).trans (hsame x).symm)
              rw [hdiff E hE] at h3
              cases h3
          · have hE2 : E ∈ out.Processor.ExistingPaths := by
              rw [ha1]
              exact List.mem_append_left _ hE
            exact hold E hE2 hEn o ho hres hsame

end PCGExFindContours

namespace PCGExFindContours

open PCGExCluster

/-- C12: with `bDedupePaths`, for a sequence of calls of `TryFindContours` on
one cluster processor, one after the other (`r` holds their results and the
processor after the last one): no two calls that return `true` have paths with
the same set of node indices, and for every call that returns `true` a set
with exactly the node indices of its path is in `ExistingPaths` at the end. -/
theorem C12_dedupe_over_a_sequence_of_calls {P : Type} [Inhabited P] (ops : FContourOps)
    (S : FSettings) (c : FCluster) (Positions ProjectedSeeds : List FVector)
    (OriginPoints : List P) (RawTags : List String) (fuel : Nat) (Seeds : List Int)
    (Processor : FProcessorState) (r : List (FContourResult P) × FProcessorState)
    (hd : S.bDedupePaths = true)
    (hrun : RunSeeds ops S c Positions ProjectedSeeds OriginPoints RawTags fuel Seeds Processor
      = some r) :
    r.1.Pairwise (fun a b => a.bResult = true → b.bResult = true →
      ¬ ∀ x, x ∈ a.Path ↔ x ∈ b.Path) ∧
    (∀ out ∈ r.1, out.bResult = true →
      ∃ U ∈ r.2.ExistingPaths, ∀ x, x ∈ U ↔ x ∈ out.Path) := by
  obtain ⟨_, hrec, hpair, _⟩ := RunSeeds_dedupe ops S c Positions ProjectedSeeds OriginPoints
    RawTags fuel hd Seeds Processor r hrun
  exact ⟨hpair, hrec⟩

/-- C12 on the square with the seeds (5,5) and (9,9): the first call emits
the contour `[1, 0, 3, 2]`, the second one walks `[2, 1, 0, 3]`, the same node
set, and is rejected. -/
theorem C12_dedupe_over_a_sequence_of_calls_witness :
    ({ DefaultSettings with bDedupePaths := true } : FSettings).bDedupePaths = true ∧
    RunSeeds (SpecOps 100) { DefaultSettings with bDedupePaths := true } Examples.SquareCluster
        Examples.SquarePositions Examples.SquareTwoSeeds [100, 101, 102, 103] [] 10 [0, 1]
        Examples.FreshProcessor
      = some (Examples.SquareTwoResults, Examples.SquareTwoProcessor) ∧
    Examples.SquareTwoResults.map (fun r => (r.bResult, r.Path))
      = [(true, [1, 0, 3, 2]), (false, [2, 1, 0, 3])] ∧
    (Examples.SquareTwoResults.Pairwise
      (fun a b => a.bResult = true → b.bResult = true → ¬ ∀ x, x ∈ a.Path ↔ x ∈ b.Path) ∧
    (∀ out ∈ Examples.SquareTwoResults, out.bResult = true →
      ∃ U ∈ Examples.SquareTwoProcessor.ExistingPaths, ∀ x, x ∈ U ↔ x ∈ out.Path)) :=
  ⟨by decide, by decide!, by decide,
    C12_dedupe_over_a_sequence_of_calls (SpecOps 100)
      { DefaultSettings with bDedupePaths := true } Examples.SquareCluster
      Examples.SquarePositions Examples.SquareTwoSeeds [100, 101, 102, 103] [] 10 [0, 1]
      Examples.FreshProcessor (Examples.SquareTwoResults, Examples.SquareTwoProcessor)
      (by decide) (by decide!)⟩

end PCGExFindContours

/-! ### C16: the renumbering of `PCGExPartitionVertices::FProcessor` -/

namespace PCGExPartitionVertices

open PCGExCluster

theorem setAt_ofNat {α : Type} (l : List α) (o : Nat) (v : α) (h : o < l.length) :
    setAt l (o : Int) v = some (l.set o v) := by
  unfold setAt
  have h1 : ¬ (((o : Int) < 0) ∨ l.length ≤ ((o : Int)).toNat) := by
    rw [Int.toNat_ofNat]
    omega
  rw [if_neg h1, Int.toNat_ofNat]

theorem ProcessLoop_spec (l : List FNode) (o : Nat) (K : List Int) (R : Int → Option Int)
    (hidx : ∀ i (h : i < l.length), l[i].NodeIndex = ((o + i : Nat) : Int))
    (hlen : o + l.length ≤ K.length)
    (hnd : (l.map (fun n => n.PointIndex)).Nodup) :
    ∃ K2 R2, ProcessLoop l K R
        = some (l.map (fun n => { n with PointIndex := n.NodeIndex }), K2, R2) ∧
      K2.length = K.length ∧
      (∀ j, j < o → K2[j]? = K[j]?) ∧
      (∀ i (h : i < l.length), K2[o + i]? = some l[i].PointIndex) ∧
      (∀ key, (∀ n ∈ l, n.PointIndex ≠ key) → R2 key = R key) ∧
      (∀ i (h : i < l.length), R2 l[i].PointIndex = some ((o + i : Nat) : Int)) := by
  induction l generalizing o K R with
  | nil =>
    exact ⟨K, R, rfl, rfl, fun j _ => rfl, fun i h => absurd h (Nat.not_lt_zero i),
      fun key _ => rfl, fun i h => absurd h (Nat.not_lt_zero i)⟩
  | cons a t ih =>
    have h0 : a.NodeIndex = ((o : Nat) : Int) := by
      have := hidx 0 (by simp)
      simpa using this
    have hoK : o < K.length := by
      simp only [List.length_cons] at hlen
      omega
    have hset : setAt K a.NodeIndex a.PointIndex = some (K.set o a.PointIndex) := by
      rw [h0]
      exact setAt_ofNat K o _ hoK
    have hidx2 : ∀ i (h : i < t.length), t[i].NodeIndex = ((o + 1 + i : Nat) : Int) := by
      intro i h
      have := hidx (i + 1) (by simp; omega)
      simp only [List.getElem_cons_succ] at this
      rw [this]
      congr 1
      omega
    have hlen2 : o + 1 + t.length ≤ (K.set o a.PointIndex).length := by
      simp only [List.length_cons] at hlen
      rw [List.length_set]
      omega
    have hnd2 : (t.map (fun n => n.PointIndex)).Nodup := by
      simp only [List.map_cons, List.nodup_cons] at hnd
      exact hnd.2
    have hnotin : ∀ n ∈ t, n.PointIndex ≠ a.PointIndex := by
      simp only [List.map_cons, List.nodup_cons] at hnd
      intro n hn he
      exact hnd.1 (by rw [← he]; exact List.mem_map_of_mem _ hn)
    obtain ⟨K2, R2, hrun, hl2, hlow, hk, hr, hrk⟩ := ih (o + 1) (K.set o a.PointIndex)
      (MapAdd R a.PointIndex a.NodeIndex) hidx2 hlen2 hnd2
    refine ⟨K2, R2, ?_, ?_, ?_, ?_, ?_, ?_⟩
    · simp only [ProcessLoop, hset, hrun, List.map_cons]
    · rw [hl2, List.length_set]
    · intro j hj
      rw [hlow j (by omega), List.getElem?_set_ne (by omega)]
    · intro i h
      cases i with
      | zero =>
        rw [Nat.add_zero, hlow o (by omega), List.getElem?_set_self hoK]
        rfl
      | succ i =>
        have := hk i (by simpa using h)
        simp only [List.getElem_cons_succ]
        rw [← this]
        congr 1
        omega
    · intro key hkey
      rw [hr key (fun n hn => hkey n (List.mem_cons_of_mem _ hn))]
      have hne : key ≠ a.PointIndex := fun he => hkey a (List.mem_cons_self _ _) he.symm
      simp [MapAdd, hne]
    · intro i h
      cases i with
      | zero =>
        simp only [List.getElem_cons_zero, Nat.add_zero]
        rw [hr a.PointIndex hnotin]
        simp [MapAdd, h0]
      | succ i =>
        have := hrk i (by simpa using h)
        simp only [List.getElem_cons_succ]
        rw [this]
        congr 2
        omega

end PCGExPartitionVertices

namespace PCGExPartitionVertices

open PCGExCluster

theorem NodeLoop_spec {P : Type} (VtxPoints : List P) (K : List Int) (l : List FNode)
    (o : Nat) (M : List P)
    (hidx : ∀ i (h : i < l.length), l[i].NodeIndex = ((o + i : Nat) : Int))
    (hlen : o + l.length ≤ M.length)
    (hval : ∀ i, i < l.length → ∃ p,
      (PCGExGraph.getAt K ((o + i : Nat) : Int)).bind (PCGExGraph.getAt VtxPoints) = some p) :
    ∃ M2, NodeLoop VtxPoints K l M = some M2 ∧ M2.length = M.length ∧
      (∀ j, j < o → M2[j]? = M[j]?) ∧
      (∀ i, i < l.length → M2[o + i]? =
        (PCGExGraph.getAt K ((o + i : Nat) : Int)).bind (PCGExGraph.getAt VtxPoints)) := by
  induction l generalizing o M with
  | nil =>
    exact ⟨M, rfl, rfl, fun j _ => rfl, fun i h => absurd h (Nat.not_lt_zero i)⟩
  | cons a t ih =>
    have h0 : a.NodeIndex = ((o : Nat) : Int) := by
      have := hidx 0 (by simp)
      simpa using this
    have hoM : o < M.length := by
      simp only [List.length_cons] at hlen
      omega
    obtain ⟨p, hp⟩ := hval 0 (by simp)
    rw [Nat.add_zero] at hp
    rcases hk : PCGExGraph.getAt K ((o : Nat) : Int) with _ | kept
    · rw [hk] at hp
      cases hp
    · rw [hk] at hp
      change PCGExGraph.getAt VtxPoints kept = some p at hp
      have hstep : ProcessSingleNode VtxPoints K M a = some (M.set o p) := by
        unfold ProcessSingleNode
        rw [h0, hk]
        simp only []
        rw [hp]
        exact setAt_ofNat M o p hoM
      have hidx2 : ∀ i (h : i < t.length), t[i].NodeIndex = ((o + 1 + i : Nat) : Int) := by
        intro i h
        have := hidx (i + 1) (by simp; omega)
        simp only [List.getElem_cons_succ] at this
        rw [this]
        congr 1
        omega
      have hlen2 : o + 1 + t.length ≤ (M.set o p).length := by
        simp only [List.length_cons] at hlen
        rw [List.length_set]
        omega
      have hval2 : ∀ i, i < t.length → ∃ q,
          (PCGExGraph.getAt K ((o + 1 + i : Nat) : Int)).bind (PCGExGraph.getAt VtxPoints)
            = some q := by
        intro i h
        have := hval (i + 1) (by simp; omega)
        rw [show o + (i + 1) = o + 1 + i by omega] at this
        exact this
      obtain ⟨M2, hrun, hl2, hlow, hm⟩ := ih (o + 1) (M.set o p) hidx2 hlen2 hval2
      refine ⟨M2, ?_, ?_, ?_, ?_⟩
      · simp only [NodeLoop, hstep, hrun]
      · rw [hl2, List.length_set]
      · intro j hj
        rw [hlow j (by omega), List.getElem?_set_ne (by omega)]
      · intro i h
        cases i with
        | zero =>
          rw [Nat.add_zero, hlow o (by omega), List.getElem?_set_self hoM, hk]
          exact hp.symm
        | succ i =>
          have := hm i (by simpa using h)
          rw [show o + (i + 1) = o + 1 + i by omega]
          exact this

theorem EdgeLoop_spec (R : Int → Option Int) (l : List PCGExGraph.FIndexedEdge)
    (h : ∀ e ∈ l, ∃ s t, R (PCGEx.toInt32 e.Start) = some s ∧ R (PCGEx.toInt32 e.End) = some t) :
    ∃ l2, EdgeLoop R l = some l2 ∧ l2.length = l.length ∧
      ∀ k (hk : k < l.length) s t, R (PCGEx.toInt32 l[k].Start) = some s →
        R (PCGEx.toInt32 l[k].End) = some t →
        l2[k]? = some { l[k] with Start := PCGEx.toUInt32 s, End := PCGEx.toUInt32 t } := by
  induction l with
  | nil => exact ⟨[], rfl, rfl, fun k hk => absurd hk (Nat.not_lt_zero k)⟩
  | cons e rest ih =>
    obtain ⟨s, t, hs, ht⟩ := h e (List.mem_cons_self _ _)
    obtain ⟨l2, hrun, hl2, hall⟩ := ih (fun e2 he2 => h e2 (List.mem_cons_of_mem _ he2))
    have hstep : ProcessSingleEdge R e
        = some { e with Start := PCGEx.toUInt32 s, End := PCGEx.toUInt32 t } := by
      unfold ProcessSingleEdge
      rw [hs, ht]
    refine ⟨({ e with Start := PCGEx.toUInt32 s, End := PCGEx.toUInt32 t } :
      PCGExGraph.FIndexedEdge) :: l2, ?_, ?_, ?_⟩
    · simp only [EdgeLoop, hstep, hrun]
    · simp [hl2]
    · intro k hk s2 t2 hs2 ht2
      cases k with
      | zero =>
        simp only [List.getElem_cons_zero] at hs2 ht2
        rw [hs] at hs2
        rw [ht] at ht2
        cases hs2
        cases ht2
        simp
      | succ k =>
        simp only [List.getElem_cons_succ] at hs2 ht2 ⊢
        simp only [List.getElem?_cons_succ]
        exact hall k (by simpa using hk) s2 t2 hs2 ht2

end PCGExPartitionVertices

namespace PCGExPartitionVertices

open PCGExCluster

theorem toInt32_small (u : Nat) (h : u < 2147483648) : PCGEx.toInt32 u = (u : Int) := by
  unfold PCGEx.toInt32
  have h1 : u % 4294967296 = u := Nat.mod_eq_of_lt (by omega)
  rw [h1, if_pos h]

theorem toUInt32_small (a : Nat) (h : a < 4294967296) : PCGEx.toUInt32 (a : Int) = a := by
  unfold PCGEx.toUInt32
  omega

/-- C16: for cluster nodes whose `NodeIndex` is their position in the node
array and whose point indices are pairwise distinct indices of input vertex
points, and cluster edges whose endpoints are point indices of cluster nodes,
`FProcessor::Process` and the node and edge loops run through (`Run` returns)
and afterwards every node keeps its fields but has `PointIndex = NodeIndex`,
the partition has one point per node, point `i` being the input vertex point
that node `i` referenced before, and every edge keeps its fields but has as
`Start` and `End` the indices of the nodes that referenced its two former
endpoints. -/
theorem C16_partition_renumbers_consistently {P : Type} (IndeterminatePoint : P)
    (IndeterminateIndex : Int) (VtxPoints : List P) (Nodes : List FNode)
    (Edges : List PCGExGraph.FIndexedEdge)
    (hidx : ∀ i (h : i < Nodes.length), Nodes[i].NodeIndex = (i : Int))
    (hnd : (Nodes.map (fun n => n.PointIndex)).Nodup)
    (hpts : ∀ n ∈ Nodes, 0 ≤ n.PointIndex ∧ n.PointIndex < (VtxPoints.length : Int))
    (hsize : VtxPoints.length ≤ 2147483648) (hnum : Nodes.length ≤ 2147483648)
    (hedges : ∀ e ∈ Edges, ∃ a b, ∃ (ha : a < Nodes.length) (hb : b < Nodes.length),
      Nodes[a].PointIndex = (e.Start : Int) ∧ Nodes[b].PointIndex = (e.End : Int)) :
    ∃ out, Run IndeterminatePoint IndeterminateIndex VtxPoints Nodes Edges = some out ∧
      out.Nodes = Nodes.map (fun n => { n with PointIndex := n.NodeIndex }) ∧
      (∀ n ∈ out.Nodes, n.PointIndex = n.NodeIndex) ∧
      out.MutablePoints.length = Nodes.length ∧
      (∀ i (h : i < Nodes.length), ∃ p,
        PCGExGraph.getAt VtxPoints Nodes[i].PointIndex = some p ∧
        out.MutablePoints[i]? = some p) ∧
      out.Edges.length = Edges.length ∧
      (∀ k (hk : k < Edges.length) a b (ha : a < Nodes.length) (hb : b < Nodes.length),
        Nodes[a].PointIndex = (Edges[k].Start : Int) →
        Nodes[b].PointIndex = (Edges[k].End : Int) →
        out.Edges[k]? = some { Edges[k] with Start := a, End := b }) := by
  obtain ⟨K2, R2, hproc, hK2len, _, hK2, _, hR2⟩ := ProcessLoop_spec Nodes 0
    (List.replicate Nodes.length IndeterminateIndex) (fun _ => none)
    (fun i h => by rw [hidx i h, Nat.zero_add]) (by simp) hnd
  have hgetK : ∀ i (h : i < Nodes.length),
      PCGExGraph.getAt K2 ((0 + i : Nat) : Int) = some Nodes[i].PointIndex := by
    intro i h
    unfold PCGExGraph.getAt
    have h0 : ¬ (((0 + i : Nat) : Int) < 0) := by omega
    rw [if_neg h0, Int.toNat_ofNat]
    exact hK2 i h
  have hgetV : ∀ i (h : i < Nodes.length), ∃ p,
      PCGExGraph.getAt VtxPoints Nodes[i].PointIndex = some p := by
    intro i h
    obtain ⟨h1, h2⟩ := hpts Nodes[i] (List.getElem_mem h)
    unfold PCGExGraph.getAt
    have h0 : ¬ (Nodes[i].PointIndex < 0) := by omega
    rw [if_neg h0]
    have h3 : Nodes[i].PointIndex.toNat < VtxPoints.length := by omega
    exact ⟨VtxPoints[Nodes[i].PointIndex.toNat], List.getElem?_eq_getElem h3⟩
  obtain ⟨M2, hnode, hM2len, _, hM2⟩ := NodeLoop_spec VtxPoints K2
    (Nodes.map (fun n => { n with PointIndex := n.NodeIndex })) 0
    (List.replicate Nodes.length IndeterminatePoint)
    (fun i h => by
      have h2 : i < Nodes.length := by simpa using h
      rw [List.getElem_map, Nat.zero_add]
      exact hidx i h2)
    (by simp)
    (fun i h => by
      have h2 : i < Nodes.length := by simpa using h
      obtain ⟨p, hp⟩ := hgetV i h2
      exact ⟨p, by rw [hgetK i h2]; exact hp⟩)
  have hsmall : ∀ (e : PCGExGraph.FIndexedEdge) (a : Nat) (ha : a < Nodes.length),
      Nodes[a].PointIndex = (e.Start : Int) → PCGEx.toInt32 e.Start = Nodes[a].PointIndex := by
    intro e a ha he
    obtain ⟨_, h2⟩ := hpts Nodes[a] (List.getElem_mem ha)
    rw [toInt32_small e.Start (by omega), he]
  have hsmallE : ∀ (e : PCGExGraph.FIndexedEdge) (b : Nat) (hb : b < Nodes.length),
      Nodes[b].PointIndex = (e.End : Int) → PCGEx.toInt32 e.End = Nodes[b].PointIndex := by
    intro e b hb he
    obtain ⟨_, h2⟩ := hpts Nodes[b] (List.getElem_mem hb)
    rw [toInt32_small e.End (by omega), he]
  obtain ⟨E2, hedge, hE2len, hE2⟩ := EdgeLoop_spec R2 Edges (fun e he => by
    obtain ⟨a, b, ha, hb, hs, ht⟩ := hedges e he
    exact ⟨((0 + a : Nat) : Int), ((0 + b : Nat) : Int),
      by rw [hsmall e a ha hs]; exact hR2 a ha,
      by rw [hsmallE e b hb ht]; exact hR2 b hb⟩)
  refine ⟨{ Nodes := Nodes.map (fun n => { n with PointIndex := n.NodeIndex }), Edges := E2
            MutablePoints := M2 }, ?_, rfl, ?_, ?_, ?_, hE2len, ?_⟩
  · simp only [Run, hproc, hnode, hedge]
  · intro n hn
    simp only [List.mem_map] at hn
    obtain ⟨m, _, rfl⟩ := hn
    rfl
  · rw [hM2len]
    simp
  · intro i h
    obtain ⟨p, hp⟩ := hgetV i h
    refine ⟨p, hp, ?_⟩
    have := hM2 i (by simpa using h)
    rw [Nat.zero_add] at this
    rw [this, ← Nat.zero_add i, hgetK i h]
    exact hp
  · intro k hk a b ha hb hs ht
    have h1 := hE2 k hk ((0 + a : Nat) : Int) ((0 + b : Nat) : Int)
      (by rw [hsmall Edges[k] a ha hs]; exact hR2 a ha)
      (by rw [hsmallE Edges[k] b hb ht]; exact hR2 b hb)
    rw [h1, Nat.zero_add, Nat.zero_add, toUInt32_small a (by omega),
      toUInt32_small b (by omega)]

end PCGExPartitionVertices

namespace PCGExPartitionVertices

open PCGExCluster

/-- C16 on three nodes whose points are the vertex points 5, 2 and 7, with
the edges 5 - 2 and 2 - 7: the partition holds the points 105, 102, 107 and
the edges become 0 - 1 and 1 - 2. -/
theorem C16_partition_renumbers_consistently_witness :
    (Run 0 0 Examples.PartitionVtxPoints Examples.PartitionNodes Examples.PartitionEdges).map
      (fun o => (o.Nodes.map (fun n => (n.NodeIndex, n.PointIndex)), o.MutablePoints,
        o.Edges.map (fun e => (e.Start, e.End))))
      = some ([(0, 0), (1, 1), (2, 2)], [105, 102, 107], [(0, 1), (1, 2)]) ∧
    (∃ out, Run 0 0 Examples.PartitionVtxPoints Examples.PartitionNodes Examples.PartitionEdges
        = some out ∧
      out.Nodes = Examples.PartitionNodes.map (fun n => { n with PointIndex := n.NodeIndex }) ∧
      (∀ n ∈ out.Nodes, n.PointIndex = n.NodeIndex) ∧
      out.MutablePoints.length = Examples.PartitionNodes.length ∧
      (∀ i (h : i < Examples.PartitionNodes.length), ∃ p,
        PCGExGraph.getAt Examples.PartitionVtxPoints Examples.PartitionNodes[i].PointIndex
          = some p ∧
        out.MutablePoints[i]? = some p) ∧
      out.Edges.length = Examples.PartitionEdges.length ∧
      (∀ k (hk : k < Examples.PartitionEdges.length) a b
          (ha : a < Examples.PartitionNodes.length) (hb : b < Examples.PartitionNodes.length),
        Examples.PartitionNodes[a].PointIndex = (Examples.PartitionEdges[k].Start : Int) →
        Examples.PartitionNodes[b].PointIndex = (Examples.PartitionEdges[k].End : Int) →
        out.Edges[k]? = some { Examples.PartitionEdges[k] with Start := a, End := b })) :=
  ⟨by decide,
    C16_partition_renumbers_consistently 0 0 Examples.PartitionVtxPoints Examples.PartitionNodes
      Examples.PartitionEdges (by decide) (by decide) (by decide) (by decide) (by decide)
      (by
        intro e he
        simp only [Examples.PartitionEdges, List.mem_cons, List.mem_singleton,
          List.not_mem_nil, or_false] at he
        rcases he with rfl | rfl
        · exact ⟨0, 1, by decide, by decide, by decide, by decide⟩
        · exact ⟨1, 2, by decide, by decide, by decide, by decide⟩)⟩

end PCGExPartitionVertices

/-! ### C22: what the copy constructor of `FIndexedEdge` keeps -/

namespace PCGExGraph

/-- C22 (code evaluated at the failing input): the edge built by
`FIndexedEdge(0, 0, 1, 0)` and then invalidated (`bValid = false`) is valid
again in its copy. In general the copy constructor keeps `Start`, `End`,
`EdgeIndex` and `PointIndex`, but rebuilds the base from the two endpoints: the
copy's `bValid` is recomputed from them, whatever the source's flag was, and
its `Type` is `Unknown`. -/
theorem C22_copy_recomputes_validity :
    ({ FIndexedEdge.ctorIndexed 0 0 1 0 with bValid := false } : FIndexedEdge).bValid = false ∧
    (FIndexedEdge.ctorCopy { FIndexedEdge.ctorIndexed 0 0 1 0 with bValid := false }).bValid
      = true ∧
    (∀ Other : FIndexedEdge, Other.Start < 4294967296 → Other.End < 4294967296 →
      (FIndexedEdge.ctorCopy Other).Start = Other.Start ∧
      (FIndexedEdge.ctorCopy Other).End = Other.End ∧
      (FIndexedEdge.ctorCopy Other).EdgeIndex = Other.EdgeIndex ∧
      (FIndexedEdge.ctorCopy Other).PointIndex = Other.PointIndex ∧
      (FIndexedEdge.ctorCopy Other).EdgeType = EPCGExEdgeType.Unknown ∧
      (FIndexedEdge.ctorCopy Other).bValid =
        (PCGEx.toInt32 Other.Start != PCGEx.toInt32 Other.End
          && PCGEx.toInt32 Other.Start != -1 && PCGEx.toInt32 Other.End != -1)) := by
  refine ⟨by decide, by decide, ?_⟩
  intro Other hs he
  refine ⟨?_, ?_, rfl, rfl, rfl, rfl⟩
  · exact PCGEx.toUInt32_toInt32 hs
  · exact PCGEx.toUInt32_toInt32 he

end PCGExGraph

/-! ### C25 and C29: packed pairs -/

namespace PCGExGraph

theorem pack_low_high (x y : Nat) (hx : x < 4294967296) (hy : y < 4294967296) :
    (x % 2 ^ 64) ||| ((y <<< 32) % 2 ^ 64) = x + y * 4294967296 := by
  have h1 : x % 2 ^ 64 = x := Nat.mod_eq_of_lt (by omega)
  have h2 : (y <<< 32) % 2 ^ 64 = 2 ^ 32 * y := by
    rw [Nat.shiftLeft_eq]
    have h3 : y * 2 ^ 32 < 2 ^ 64 := by omega
    rw [Nat.mod_eq_of_lt h3]
    ring
  have hx2 : x < 2 ^ 32 := by omega
  rw [h1, h2, Nat.or_comm, ← Nat.mul_add_lt_is_or hx2 y]
  omega

theorem low_word (v : Nat) : v &&& 0xFFFFFFFF = v % 4294967296 := by
  have h := Nat.and_pow_two_sub_one_eq_mod v 32
  simpa using h

theorem high_word (v : Nat) : (v >>> 32) &&& 0xFFFFFFFF = v / 4294967296 % 4294967296 := by
  rw [low_word, Nat.shiftRight_eq_div_pow]

theorem GetUnsignedHash64_eq (A B : Nat) (hA : A < 4294967296) (hB : B < 4294967296) :
    GetUnsignedHash64 A B = max A B + min A B * 4294967296 := by
  unfold GetUnsignedHash64
  split_ifs with h
  · rw [pack_low_high A B hA hB]
    have h1 : max A B = A := by omega
    have h2 : min A B = B := by omega
    rw [h1, h2]
  · rw [pack_low_high B A hB hA]
    have h1 : max A B = B := by omega
    have h2 : min A B = A := by omega
    rw [h1, h2]

theorem GetUnsignedHash64_inj (A B C D : Nat) (hA : A < 4294967296) (hB : B < 4294967296)
    (hC : C < 4294967296) (hD : D < 4294967296) :
    GetUnsignedHash64 A B = GetUnsignedHash64 C D ↔ (A = C ∧ B = D) ∨ (A = D ∧ B = C) := by
  rw [GetUnsignedHash64_eq A B hA hB, GetUnsignedHash64_eq C D hC hD]
  constructor
  · intro h
    have h1 : max A B = max C D := by omega
    have h2 : min A B = min C D := by omega
    omega
  · rintro (⟨rfl, rfl⟩ | ⟨rfl, rfl⟩)
    · rfl
    · rw [max_comm, min_comm]

end PCGExGraph

namespace PCGExGraph

/-- C25: for 32-bit unsigned `A`, `B`, `C`, `D`, `GetUnsignedHash64(A, B)`
equals `GetUnsignedHash64(C, D)` exactly when the two unordered pairs are the
same, and two `FUnsignedEdge` with these endpoints compare equal exactly
then. -/
theorem C25_unsigned_hash_identifies_unordered_pair (A B C D : Nat)
    (hA : A < 4294967296) (hB : B < 4294967296) (hC : C < 4294967296) (hD : D < 4294967296) :
    (GetUnsignedHash64 A B = GetUnsignedHash64 C D ↔ (A = C ∧ B = D) ∨ (A = D ∧ B = C)) ∧
    (∀ a b : FUnsignedEdge, a.Start = A → a.End = B → b.Start = C → b.End = D →
      (a.eq b = true ↔ (a.Start = b.Start ∧ a.End = b.End) ∨
        (a.Start = b.End ∧ a.End = b.Start))) := by
  refine ⟨GetUnsignedHash64_inj A B C D hA hB hC hD, ?_⟩
  intro a b h1 h2 h3 h4
  unfold FUnsignedEdge.eq FUnsignedEdge.GetUnsignedHash
  rw [h1, h2, h3, h4, beq_iff_eq]
  exact GetUnsignedHash64_inj A B C D hA hB hC hD

/-- C25 at the pairs (1, 2) and (2, 1). -/
theorem C25_unsigned_hash_identifies_unordered_pair_witness :
    (1 : Nat) < 4294967296 ∧ (2 : Nat) < 4294967296 ∧
    ((GetUnsignedHash64 1 2 = GetUnsignedHash64 2 1 ↔
        ((1 : Nat) = 2 ∧ (2 : Nat) = 1) ∨ ((1 : Nat) = 1 ∧ (2 : Nat) = 2)) ∧
      (∀ a b : FUnsignedEdge, a.Start = 1 → a.End = 2 → b.Start = 2 → b.End = 1 →
        (a.eq b = true ↔ (a.Start = b.Start ∧ a.End = b.End) ∨
          (a.Start = b.End ∧ a.End = b.Start)))) :=
  ⟨by decide, by decide,
    C25_unsigned_hash_identifies_unordered_pair 1 2 2 1 (by decide) (by decide) (by decide)
      (by decide)⟩

/-- C29: for 32-bit unsigned `A` and `B`, `ExpandHash64(GetHash64(A, B))`
yields `(A, B)`, and an edge with `Start = A` and `End = B` converted to
`uint64` and back has the same `Start` and `End`, with the layout of
PCGExEdge.h (`Start` in the low word) and with that of PCGExGraph.h (`Start`
in the high word). -/
theorem C29_packing_is_lossless (A B : Nat) (hA : A < 4294967296) (hB : B < 4294967296) :
    ExpandHash64 (GetHash64 A B) = (A, B) ∧
    (∀ e : FEdge, e.Start = A → e.End = B →
      (FEdge.ctorPacked e.toUInt64).Start = e.Start ∧
      (FEdge.ctorPacked e.toUInt64).End = e.End) ∧
    (∀ e : Legacy.FEdge, e.Start = A → e.End = B →
      (Legacy.FEdge.ctorPacked e.toUInt64).Start = e.Start ∧
      (Legacy.FEdge.ctorPacked e.toUInt64).End = e.End) := by
  have hlow : (A + B * 4294967296) % 4294967296 = A := by omega
  have hhigh : (A + B * 4294967296) / 4294967296 % 4294967296 = B := by omega
  refine ⟨?_, ?_, ?_⟩
  · unfold ExpandHash64 GetHash64
    rw [pack_low_high A B hA hB, low_word, high_word, hlow, hhigh,
      PCGEx.toUInt32_toInt32 hA, PCGEx.toUInt32_toInt32 hB]
  · intro e h1 h2
    unfold FEdge.ctorPacked FEdge.toUInt64
    rw [h1, h2, pack_low_high A B hA hB, high_word, low_word, hlow, hhigh]
    exact ⟨Nat.mod_eq_of_lt hA, Nat.mod_eq_of_lt hB⟩
  · intro e h1 h2
    have hlow2 : (B + A * 4294967296) % 4294967296 = B := by omega
    have hhigh2 : (B + A * 4294967296) / 4294967296 % 4294967296 = A := by omega
    unfold Legacy.FEdge.ctorPacked Legacy.FEdge.toUInt64
    rw [h1, h2, Nat.or_comm, pack_low_high B A hB hA, high_word, low_word, hlow2, hhigh2]
    exact ⟨Nat.mod_eq_of_lt hA, Nat.mod_eq_of_lt hB⟩

/-- C29 at the pair (7, 4294967295). -/
theorem C29_packing_is_lossless_witness :
    (7 : Nat) < 4294967296 ∧ (4294967295 : Nat) < 4294967296 ∧
    (ExpandHash64 (GetHash64 7 4294967295) = (7, 4294967295) ∧
    (∀ e : FEdge, e.Start = 7 → e.End = 4294967295 →
      (FEdge.ctorPacked e.toUInt64).Start = e.Start ∧
      (FEdge.ctorPacked e.toUInt64).End = e.End) ∧
    (∀ e : Legacy.FEdge, e.Start = 7 → e.End = 4294967295 →
      (Legacy.FEdge.ctorPacked e.toUInt64).Start = e.Start ∧
      (Legacy.FEdge.ctorPacked e.toUInt64).End = e.End)) :=
  ⟨by decide, by decide, C29_packing_is_lossless 7 4294967295 (by decide) (by decide)⟩

end PCGExGraph

/-! ### C28: the loop of `GetCollectionFacades` -/

namespace PCGExData

theorem GetCollectionFacadesLoop_overrun {E F : Type} (Pairs : List E) (NewFacade : E → F)
    (k : Nat) :
    ∀ (fuel i : Nat) (Out : List F), Out.length = Pairs.length → 0 < Pairs.length →
      i + k = Pairs.length → k < fuel →
      GetCollectionFacadesLoop Pairs NewFacade fuel i Out
        = some (FFacadesOutcome.OutOfBounds Pairs.length) := by
  induction k with
  | zero =>
    intro fuel i Out hlen hpos hi hfuel
    obtain ⟨f, rfl⟩ : ∃ f, fuel = f + 1 := ⟨fuel - 1, by omega⟩
    have hi2 : i = Pairs.length := by omega
    subst hi2
    have hne : (Out.length != 0) = true := bne_iff_ne.mpr (by omega)
    have hget : Pairs[Pairs.length]? = none := List.getElem?_eq_none (le_refl _)
    simp only [GetCollectionFacadesLoop, hne, if_true, hget]
  | succ k ih =>
    intro fuel i Out hlen hpos hi hfuel
    obtain ⟨f, rfl⟩ : ∃ f, fuel = f + 1 := ⟨fuel - 1, by omega⟩
    have hilt : i < Pairs.length := by omega
    have hne : (Out.length != 0) = true := bne_iff_ne.mpr (by omega)
    have hget : Pairs[i]? = some Pairs[i] := List.getElem?_eq_getElem hilt
    have hio : i < Out.length := by omega
    simp only [GetCollectionFacadesLoop, hne, if_true, hget, hio]
    exact ih f (i + 1) _ (by rw [List.length_set]; exact hlen) hpos (by omega) (by omega)

theorem GetCollectionFacadesLoop_running {E F : Type} (Pairs : List E) (NewFacade : E → F)
    (fuel : Nat) :
    ∀ (i : Nat) (Out : List F), Out.length = Pairs.length → 0 < Pairs.length →
      i + fuel ≤ Pairs.length →
      GetCollectionFacadesLoop Pairs NewFacade fuel i Out = none := by
  induction fuel with
  | zero => intro i Out _ _ _; rfl
  | succ f ih =>
    intro i Out hlen hpos hi
    have hilt : i < Pairs.length := by omega
    have hne : (Out.length != 0) = true := bne_iff_ne.mpr (by omega)
    have hget : Pairs[i]? = some Pairs[i] := List.getElem?_eq_getElem hilt
    have hio : i < Out.length := by omega
    simp only [GetCollectionFacadesLoop, hne, if_true, hget, hio]
    exact ih (i + 1) _ (by rw [List.length_set]; exact hlen) hpos (by omega)

end PCGExData

namespace PCGExData

/-- C28 (code evaluated at the failing input): for a collection of one entry
the loop writes facade 0, finds `OutFacades.Num()` still non-zero and goes on
to index 1, outside both arrays. In general the loop condition never changes:
for an empty collection the function returns at once with no facade; for a
collection of `n > 0` entries the loop is still running after `n` turns and
its next turn accesses index `n`, past the end of `Pairs` and of
`OutFacades`, so the function never returns. -/
theorem C28_loop_runs_past_the_end :
    GetCollectionFacades 0 [7] (fun e => e + 100) 1 = none ∧
    GetCollectionFacades 0 [7] (fun e => e + 100) 2 = some (FFacadesOutcome.OutOfBounds 1) ∧
    (∀ (F : Type) (Indeterminate : F) (NewFacade : Nat → F) (fuel : Nat),
      GetCollectionFacades Indeterminate ([] : List Nat) NewFacade (fuel + 1)
        = some (FFacadesOutcome.Returned [])) ∧
    (∀ (E F : Type) (Indeterminate : F) (Pairs : List E) (NewFacade : E → F) (fuel : Nat),
      0 < Pairs.length →
      (fuel ≤ Pairs.length → GetCollectionFacades Indeterminate Pairs NewFacade fuel = none) ∧
      (Pairs.length < fuel → GetCollectionFacades Indeterminate Pairs NewFacade fuel
        = some (FFacadesOutcome.OutOfBounds Pairs.length)) ∧
      ∀ Out, GetCollectionFacades Indeterminate Pairs NewFacade fuel
        ≠ some (FFacadesOutcome.Returned Out)) := by
  refine ⟨by decide, by decide, ?_, ?_⟩
  · intro F Indeterminate NewFacade fuel
    rfl
  · intro E F Indeterminate Pairs NewFacade fuel hpos
    have h1 : fuel ≤ Pairs.length →
        GetCollectionFacades Indeterminate Pairs NewFacade fuel = none := fun h =>
      GetCollectionFacadesLoop_running Pairs NewFacade fuel 0 _ (by simp) hpos (by omega)
    have h2 : Pairs.length < fuel → GetCollectionFacades Indeterminate Pairs NewFacade fuel
        = some (FFacadesOutcome.OutOfBounds Pairs.length) := fun h =>
      GetCollectionFacadesLoop_overrun Pairs NewFacade Pairs.length fuel 0 _ (by simp) hpos
        (by omega) h
    refine ⟨h1, h2, ?_⟩
    intro Out hret
    rcases Nat.lt_or_ge Pairs.length fuel with h | h
    · rw [h2 h] at hret
      cases hret
    · rw [h1 h] at hret
      cases hret

end PCGExData

/-! ### C23: a recorded split is never for an endpoint of the tested edge -/

namespace PCGExGraph

theorem getAt_mem {α : Type} (l : List α) (i : Int) (a : α) (h : getAt l i = some a) :
    a ∈ l := by
  unfold getAt at h
  split at h
  · cases h
  · exact List.getElem?_mem h

theorem ProcessPointRef_endpoints (ops : FIntersectionOps) (I : FPointEdgeIntersections)
    (PointsData : FPointsData) (EdgeIndex : Int) (Edge : FPointEdgeProxy)
    (IEdge : FIndexedEdge) (IOIndices : List Int)
    (st : FPESplit × List (Int × FPESplit)) (PointIndex : Int)
    (hst : ∀ x ∈ st.2, x.1 = EdgeIndex ∧ ∃ Node ∈ I.Graph.Nodes, Node.bValid = true ∧
      x.2.NodeIndex = Node.NodeIndex ∧ IEdge.Start ≠ PCGEx.toUInt32 Node.PointIndex ∧
      IEdge.End ≠ PCGEx.toUInt32 Node.PointIndex) :
    ∀ x ∈ (ProcessPointRef ops I PointsData EdgeIndex Edge IEdge IOIndices st PointIndex).2,
      x.1 = EdgeIndex ∧ ∃ Node ∈ I.Graph.Nodes, Node.bValid = true ∧
      x.2.NodeIndex = Node.NodeIndex ∧ IEdge.Start ≠ PCGEx.toUInt32 Node.PointIndex ∧
      IEdge.End ≠ PCGEx.toUInt32 Node.PointIndex := by
  intro x hx
  unfold ProcessPointRef at hx
  split at hx
  · exact hst x hx
  split at hx
  · exact hst x hx
  rename_i Node hNode
  split at hx
  · exact hst x hx
  rename_i hvalid
  split at hx
  · exact hst x hx
  split at hx
  · exact hst x hx
  split at hx
  · exact hst x hx
  rename_i hends
  have hmem := getAt_mem _ _ _ hNode
  have hv : Node.bValid = true := by simpa using hvalid
  have he : IEdge.Start ≠ PCGEx.toUInt32 Node.PointIndex ∧
      IEdge.End ≠ PCGEx.toUInt32 Node.PointIndex := by
    simpa [not_or] using hends
  have hnew : ∀ s : FPESplit, x ∈ st.2 ++ [(EdgeIndex, { s with NodeIndex := Node.NodeIndex })] →
      x.1 = EdgeIndex ∧ ∃ Node ∈ I.Graph.Nodes, Node.bValid = true ∧
      x.2.NodeIndex = Node.NodeIndex ∧ IEdge.Start ≠ PCGEx.toUInt32 Node.PointIndex ∧
      IEdge.End ≠ PCGEx.toUInt32 Node.PointIndex := by
    intro s hxs
    rcases List.mem_append.mp hxs with hxs | hxs
    · exact hst x hxs
    · simp only [List.mem_singleton] at hxs
      subst hxs
      exact ⟨rfl, Node, hmem, hv, rfl, he⟩
  dsimp only at hx
  split_ifs at hx
  all_goals first
    | exact hst x hx
    | exact hnew _ hx

/-- C23: whether self-intersection is enabled or disabled, every split that
`FindCollinearNodes` records for the edge `EdgeIndex` carries the `NodeIndex`
of a valid graph node whose `PointIndex` is neither the start nor the end of
that edge; in a graph whose nodes have `NodeIndex = PointIndex` (node `i` is
the node of point `i`, which is how the function itself looks nodes up), the
recorded `NodeIndex` is therefore neither the start nor the end of the
edge. -/
theorem C23_no_split_at_an_endpoint (ops : FIntersectionOps) (I : FPointEdgeIntersections)
    (bEnableSelfIntersection : Bool) (EdgeIndex : Int) (PointsData : FPointsData)
    (IEdge : FIndexedEdge) (x : Int × FPESplit)
    (hNodes : ∀ Node ∈ I.Graph.Nodes, Node.NodeIndex = Node.PointIndex)
    (hIEdge : getAt I.Graph.Edges EdgeIndex = some IEdge)
    (hx : x ∈ FindCollinearNodes ops
      { I with bEnableSelfIntersection := bEnableSelfIntersection } EdgeIndex PointsData) :
    x.1 = EdgeIndex ∧
    IEdge.Start ≠ PCGEx.toUInt32 x.2.NodeIndex ∧
    IEdge.End ≠ PCGEx.toUInt32 x.2.NodeIndex ∧
    ∃ Node ∈ I.Graph.Nodes, Node.bValid = true ∧ x.2.NodeIndex = Node.NodeIndex ∧
      IEdge.Start ≠ PCGEx.toUInt32 Node.PointIndex ∧
      IEdge.End ≠ PCGEx.toUInt32 Node.PointIndex := by
  unfold FindCollinearNodes at hx
  simp only [hIEdge] at hx
  split at hx
  · rename_i Edge IEdge2 h1 h2
    simp only [Option.some.injEq] at h2
    subst h2
    have key := foldl_invariant
      (fun (st : FPESplit × List (Int × FPESplit)) => ∀ x ∈ st.2, x.1 = EdgeIndex ∧
        ∃ Node ∈ I.Graph.Nodes, Node.bValid = true ∧
        x.2.NodeIndex = Node.NodeIndex ∧ IEdge.Start ≠ PCGEx.toUInt32 Node.PointIndex ∧
        IEdge.End ≠ PCGEx.toUInt32 Node.PointIndex)
      (ProcessPointRef ops { I with bEnableSelfIntersection := bEnableSelfIntersection }
        PointsData EdgeIndex Edge IEdge
        (if !bEnableSelfIntersection then
          I.EdgesCompounds.GetIOIndices (ops.GetRootIndex Edge.EdgeIndex) [] else []))
      (fun st a hst => ProcessPointRef_endpoints ops
        { I with bEnableSelfIntersection := bEnableSelfIntersection }
        PointsData EdgeIndex Edge IEdge _ st a hst)
      (PointsData.Octree Edge.Box) (FPESplit.ctor, []) (by simp)
    obtain ⟨hx1, Node, hmem, hv, hn, hs, he⟩ := key x hx
    have hnp := hNodes Node hmem
    refine ⟨hx1, ?_, ?_, Node, hmem, hv, hn, hs, he⟩
    · rw [hn, hnp]; exact hs
    · rw [hn, hnp]; exact he
  · simp at hx

/-- C23 at concrete inputs: on the edge 0 - 1 with a third node on it, from
another source with self-intersection disabled, the split of node 2 is
recorded, and 2 is neither end of the edge. -/
theorem C23_no_split_at_an_endpoint_witness :
    (∀ Node ∈ (Examples.PointEdgeCase 1 false).Graph.Nodes, Node.NodeIndex = Node.PointIndex) ∧
    getAt (Examples.PointEdgeCase 1 false).Graph.Edges 0
      = some (FIndexedEdge.ctorIndexed 0 0 1 0) ∧
    ((0 : Int), ({ NodeIndex := 2, Time := 1 / 2, ClosestPoint := FVector.ZeroVector } : FPESplit))
      ∈ FindCollinearNodes Examples.CoincidentOps
        { Examples.PointEdgeCase 1 false with bEnableSelfIntersection := false } 0
        Examples.ThreePoints ∧
    ((0 : Int) = 0 ∧
      (FIndexedEdge.ctorIndexed 0 0 1 0).Start ≠ PCGEx.toUInt32 2 ∧
      (FIndexedEdge.ctorIndexed 0 0 1 0).End ≠ PCGEx.toUInt32 2) := by
  have hN : ∀ Node ∈ (Examples.PointEdgeCase 1 false).Graph.Nodes,
      Node.NodeIndex = Node.PointIndex := by decide
  have hE : getAt (Examples.PointEdgeCase 1 false).Graph.Edges 0
      = some (FIndexedEdge.ctorIndexed 0 0 1 0) := by decide
  have hx : ((0 : Int),
      ({ NodeIndex := 2, Time := 1 / 2, ClosestPoint := FVector.ZeroVector } : FPESplit))
      ∈ FindCollinearNodes Examples.CoincidentOps
        { Examples.PointEdgeCase 1 false with bEnableSelfIntersection := false } 0
        Examples.ThreePoints := by decide!
  have h := C23_no_split_at_an_endpoint Examples.CoincidentOps (Examples.PointEdgeCase 1 false)
    false 0 Examples.ThreePoints _ _ hN hE hx
  exact ⟨hN, hE, hx, h.1, h.2.1, h.2.2.1⟩

end PCGExGraph

/-! ### C26: which nodes `Process` marks as breakpoints -/

namespace PCGExBreakClustersToPaths

open PCGExCluster

theorem setAt_append_cons {α : Type} (P : List α) (t : α) (T : List α) (v : α) :
    PCGExPartitionVertices.setAt (P ++ t :: T) (Int.ofNat P.length) v = some ((P ++ [v]) ++ T) := by
  unfold PCGExPartitionVertices.setAt
  have h1 : (Int.ofNat P.length).toNat = P.length := rfl
  have h2 : ¬ (Int.ofNat P.length < 0 ∨ (P ++ t :: T).length ≤ (Int.ofNat P.length).toNat) := by
    rw [h1]
    simp only [List.length_append, List.length_cons]
    have h3 : ¬ Int.ofNat P.length < 0 := not_lt.mpr (Int.ofNat_nonneg P.length)
    intro h4
    rcases h4 with h4 | h4
    · exact h3 h4
    · omega
  rw [if_neg h2, h1]
  simp

theorem BreakpointLoop_spec (Value : FNode → Bool) :
    ∀ (rest : List FNode) (P T : List Bool), T.length = rest.length →
      (∀ (j : Nat) (n : FNode), rest[j]? = some n → n.NodeIndex = Int.ofNat (P.length + j)) →
      BreakpointLoop Value rest (P ++ T) = some (P ++ rest.map Value) := by
  intro rest
  induction rest with
  | nil =>
    intro P T hT _
    have : T = [] := List.length_eq_zero.mp hT
    subst this
    rfl
  | cons n r ih =>
    intro P T hT hidx
    cases T with
    | nil => simp at hT
    | cons t T2 =>
      have hn : n.NodeIndex = Int.ofNat P.length := by
        have := hidx 0 n (by simp)
        simpa using this
      simp only [BreakpointLoop, hn, setAt_append_cons, Option.some_bind]
      rw [ih (P ++ [Value n]) T2 (by simpa using hT)]
      · simp
      · intro j m hj
        have := hidx (j + 1) m (by simpa using hj)
        rw [this]
        simp only [List.length_append, List.length_singleton]
        congr 1
        omega

end PCGExBreakClustersToPaths

namespace PCGExBreakClustersToPaths

open PCGExCluster

/-- C26 (counterexample): on the line `0 - 1 - 2` without filter factories,
`Process` marks no node when `IsComplex` is "more than two adjacency entries",
although the end nodes 0 and 2 have degree 1; whatever `IsComplex` is, a node
it does not flag is not marked when there are no filter factories or when the
filter manager fails to initialise, and the degree is not read. -/
theorem C26_dead_end_is_not_marked :
    (Examples.LineCluster.Nodes.map (fun n => n.Adjacency.length)) = [1, 2, 1] ∧
    ProcessBreakpoints (fun n => decide (2 < n.Adjacency.length)) true false (fun _ => true)
      Examples.LineCluster.Nodes = some [false, false, false] ∧
    (∀ (IsComplex : FNode → Bool) (bInit : Bool) (Test : FNode → Bool),
      (∀ n ∈ Examples.LineCluster.Nodes, IsComplex n = false) →
      ProcessBreakpoints IsComplex true bInit Test Examples.LineCluster.Nodes
        = some [false, false, false] ∧
      ProcessBreakpoints IsComplex false false Test Examples.LineCluster.Nodes
        = some [false, false, false]) := by
  refine ⟨by decide, by decide, ?_⟩
  intro IsComplex bInit Test h
  have h0 := h _ (List.mem_cons_self _ _)
  have h1 := h _ (List.mem_cons_of_mem _ (List.mem_cons_self _ _))
  have h2 := h _ (List.mem_cons_of_mem _ (List.mem_cons_of_mem _ (List.mem_cons_self _ _)))
  constructor
  · simp [ProcessBreakpoints, BreakpointLoop, PCGExPartitionVertices.setAt, Examples.LineCluster,
      h0, h1, h2] at h0 h1 h2 ⊢
  · simp [ProcessBreakpoints, BreakpointLoop, PCGExPartitionVertices.setAt, Examples.LineCluster,
      h0, h1, h2] at h0 h1 h2 ⊢

/-- C26 (amended): in a cluster whose nodes carry their position in the node
array as `NodeIndex`, `Process` returns with one flag per node, and the flag
of a node is set if and only if the node is complex (`FNode::IsComplex`) or
there are filter factories, the filter manager initialises with them and the
node passes its test. -/
theorem C26_breakpoint_iff_complex_or_filter_match (IsComplex : FNode → Bool)
    (bFactoriesEmpty bInit : Bool) (Test : FNode → Bool) (Nodes : List FNode)
    (hIndex : ∀ (i : Nat) (n : FNode), Nodes[i]? = some n → n.NodeIndex = Int.ofNat i) :
    ProcessBreakpoints IsComplex bFactoriesEmpty bInit Test Nodes
      = some (Nodes.map (fun n => IsComplex n || (!bFactoriesEmpty && bInit && Test n))) := by
  have hrep : List.replicate Nodes.length false = [] ++ List.replicate Nodes.length false := rfl
  have hidx : ∀ (j : Nat) (n : FNode), Nodes[j]? = some n →
      n.NodeIndex = Int.ofNat (([] : List Bool).length + j) := by
    intro j n hj
    rw [hIndex j n hj]
    simp
  unfold ProcessBreakpoints
  simp only []
  rw [hrep]
  split
  · rename_i hc
    rw [BreakpointLoop_spec _ Nodes [] _ (by simp) hidx]
    simp only [List.nil_append, Option.some.injEq]
    apply List.map_congr_left
    intro n _
    rw [hc]
    cases IsComplex n <;> simp
  · rename_i hc
    rw [BreakpointLoop_spec _ Nodes [] _ (by simp) hidx]
    simp only [List.nil_append, Option.some.injEq]
    apply List.map_congr_left
    intro n _
    have hc2 : (!bFactoriesEmpty && bInit) = false := by simpa using hc
    rw [hc2]
    simp

/-- C26 at concrete inputs: the square with a spur, whose node 2 has three
neighbours, with a filter that only node 0 passes. -/
theorem C26_breakpoint_iff_complex_or_filter_match_witness :
    (∀ (i : Nat) (n : FNode), Examples.SpurSquareCluster.Nodes[i]? = some n →
      n.NodeIndex = Int.ofNat i) ∧
    ProcessBreakpoints (fun n => decide (2 < n.Adjacency.length)) false true
        (fun n => n.NodeIndex == 0) Examples.SpurSquareCluster.Nodes
      = some [true, false, true, false, false] := by
  have hI : ∀ (i : Nat) (n : FNode), Examples.SpurSquareCluster.Nodes[i]? = some n →
      n.NodeIndex = Int.ofNat i := by
    intro i n h
    have hlt : i < 5 := by
      by_contra hge
      have : Examples.SpurSquareCluster.Nodes[i]? = none :=
        List.getElem?_eq_none (by simp [Examples.SpurSquareCluster]; omega)
      rw [this] at h
      cases h
    interval_cases i <;> (simp [Examples.SpurSquareCluster] at h; subst h; rfl)
  refine ⟨hI, ?_⟩
  rw [C26_breakpoint_iff_complex_or_filter_match _ _ _ _ _ hI]
  decide

end PCGExBreakClustersToPaths

/-! ### C27: the path emitted for a chain -/

namespace PCGExBreakClustersToPaths

open PCGExCluster

theorem WriteNodes_spec {P : Type} (VtxPointIndices : List Int) (InPoints : List P) :
    ∀ (rest : List Int) (Pre T S : List (Option P)), T.length = rest.length →
      (∀ n ∈ rest, (VtxPoint VtxPointIndices InPoints n).isSome = true) →
      WriteNodes VtxPointIndices InPoints rest (Pre ++ (T ++ S)) (Int.ofNat Pre.length)
        = some (Pre ++ (rest.map (VtxPoint VtxPointIndices InPoints) ++ S),
            Int.ofNat (Pre.length + rest.length)) := by
  intro rest
  induction rest with
  | nil =>
    intro Pre T S hT _
    have : T = [] := List.length_eq_zero.mp hT
    subst this
    simp [WriteNodes]
  | cons n r ih =>
    intro Pre T S hT hall
    cases T with
    | nil => simp at hT
    | cons t T2 =>
      have hn := hall n (List.mem_cons_self _ _)
      obtain ⟨p, hp⟩ := Option.isSome_iff_exists.mp hn
      have hp2 := hp
      unfold VtxPoint at hp2
      cases hidx : PCGExGraph.getAt VtxPointIndices n with
      | none => rw [hidx] at hp2; cases hp2
      | some Idx =>
        rw [hidx] at hp2
        change PCGExGraph.getAt InPoints Idx = some p at hp2
        have hnext : (Int.ofNat Pre.length + 1) = Int.ofNat (Pre ++ [some p]).length := by
          simp
        simp only [WriteNodes, hidx, hp2, Option.some_bind, List.cons_append, setAt_append_cons]
        rw [hnext, ih (Pre ++ [some p]) T2 S (by simpa using hT)
          (fun m hm => hall m (List.mem_cons_of_mem _ hm))]
        have hlen : (Pre ++ [some p]).length + r.length = Pre.length + (n :: r).length := by
          simp only [List.length_append, List.length_singleton, List.length_cons, List.length_nil]
          omega
        rw [hlen]
        simp only [List.map_cons, hp, List.append_assoc, List.singleton_append, List.cons_append,
          List.nil_append]

theorem emit_path {P : Type} (VtxPointIndices : List Int) (InPoints : List P)
    (NL : List Int) (A B : Int) (pA pB : P) (k : Nat)
    (hA : PCGExGraph.getAt InPoints A = some pA) (hB : PCGExGraph.getAt InPoints B = some pB)
    (hN : ∀ n ∈ NL, (VtxPoint VtxPointIndices InPoints n).isSome = true)
    (hk : k = NL.length) :
    ((PCGExGraph.getAt InPoints A).bind fun First =>
      (PCGExPartitionVertices.setAt (List.replicate (k + 2) (none : Option P)) 0
        (some First)).bind fun M1 =>
      (WriteNodes VtxPointIndices InPoints NL M1 1).bind fun r =>
      (PCGExGraph.getAt InPoints B).bind fun Last =>
      (PCGExPartitionVertices.setAt r.1 r.2 (some Last)).bind fun M2 =>
      some (some ({ Nodes := NL, Path := some M2 } : FIterationResult P)))
    = some (some { Nodes := NL
                   Path := some (some pA ::
                     (NL.map (VtxPoint VtxPointIndices InPoints) ++ [some pB])) }) := by
  have hs1 : PCGExPartitionVertices.setAt (List.replicate (k + 2) (none : Option P)) 0 (some pA)
      = some (([] ++ [some pA]) ++ (List.replicate k none ++ [none])) := by
    have hrep : List.replicate (k + 2) (none : Option P)
        = [] ++ none :: (List.replicate k none ++ [none]) := by
      rw [List.replicate_succ', List.replicate_succ]
      simp
    rw [hrep]
    exact setAt_append_cons [] none _ (some pA)
  have hw := WriteNodes_spec VtxPointIndices InPoints NL [some pA] (List.replicate k none) [none]
    (by simp [hk]) hN
  have hs2 := setAt_append_cons (some pA :: NL.map (VtxPoint VtxPointIndices InPoints))
    (none : Option P) [] (some pB)
  simp only [List.length_cons, List.length_map] at hs2
  simp only [hA, hB, Option.some_bind, hs1, List.nil_append]
  change ((WriteNodes VtxPointIndices InPoints NL
    ([some pA] ++ (List.replicate k none ++ [none])) (Int.ofNat [some pA].length)).bind _) = _
  rw [hw]
  simp only [Option.some_bind, List.length_singleton, List.singleton_append]
  have h1 : (1 + NL.length) = NL.length + 1 := by omega
  rw [h1]
  have h2 : some pA :: (NL.map (VtxPoint VtxPointIndices InPoints) ++ [none])
      = (some pA :: NL.map (VtxPoint VtxPointIndices InPoints)) ++ [none] := by simp
  rw [h2, hs2]
  simp

end PCGExBreakClustersToPaths

namespace PCGExBreakClustersToPaths

open PCGExCluster

/-- C27: for a chain whose nodes have input points, `ProcessSingleRangeIteration`
returns; it emits a path only if the chain size (interior node count + 2) is
at least `MinPointCount` and, when `bOmitAbovePointCount` is set, at most
`MaxPointCount`, and then it does emit one; the emitted path has exactly that
many points, all initialised: the input point of `First`, those of the
interior nodes in chain order, then that of `Last`, or that whole sequence
reversed when `SortEndpoints` asks for the reversal. -/
theorem C27_emitted_path_of_a_chain {P : Type} (Settings : FPathSettings)
    (DirectionSettings : FDirectionSettings) (c : FCluster) (VtxPointIndices : List Int)
    (InPoints : List P) (Chains : List (Option FNodeChain)) (Iteration : Int)
    (Chain : FNodeChain) (StartIdx EndIdx : Int) (bReverse : Bool)
    (hChain : PCGExGraph.getAt Chains Iteration = some (some Chain))
    (hFirst : PCGExGraph.getAt VtxPointIndices Chain.First = some StartIdx)
    (hLast : PCGExGraph.getAt VtxPointIndices Chain.Last = some EndIdx)
    (hPoints : ∀ n ∈ Chain.Order, (VtxPoint VtxPointIndices InPoints n).isSome = true)
    (hSort : SortChain DirectionSettings c Chain Iteration StartIdx EndIdx = some bReverse) :
    ProcessSingleRangeIteration Settings DirectionSettings c VtxPointIndices InPoints Chains
        Iteration
      = some (some
          { Nodes := if bReverse then Chain.Nodes.reverse else Chain.Nodes
            Path :=
              if decide ((Chain.Nodes.length : Int) + 2 < Settings.MinPointCount)
                  || (Settings.bOmitAbovePointCount
                    && decide ((Chain.Nodes.length : Int) + 2 > Settings.MaxPointCount))
              then none
              else some ((if bReverse then Chain.Order.reverse else Chain.Order).map
                (VtxPoint VtxPointIndices InPoints)) }) ∧
    ((if bReverse then Chain.Order.reverse else Chain.Order).map
      (VtxPoint VtxPointIndices InPoints)).length = Chain.Nodes.length + 2 ∧
    ∀ q ∈ (if bReverse then Chain.Order.reverse else Chain.Order).map
      (VtxPoint VtxPointIndices InPoints), q.isSome = true := by
  refine ⟨?_, ?_, ?_⟩
  · have hF := hPoints Chain.First (by simp [FNodeChain.Order])
    have hL := hPoints Chain.Last (by simp [FNodeChain.Order])
    have hN : ∀ n ∈ Chain.Nodes, (VtxPoint VtxPointIndices InPoints n).isSome = true :=
      fun n hn => hPoints n (by simp [FNodeChain.Order, hn])
    have hNr : ∀ n ∈ Chain.Nodes.reverse, (VtxPoint VtxPointIndices InPoints n).isSome = true :=
      fun n hn => hN n (List.mem_reverse.mp hn)
    obtain ⟨pF, hpF⟩ := Option.isSome_iff_exists.mp hF
    obtain ⟨pL, hpL⟩ := Option.isSome_iff_exists.mp hL
    have hgF : PCGExGraph.getAt InPoints StartIdx = some pF := by
      unfold VtxPoint at hpF
      rw [hFirst] at hpF
      exact hpF
    have hgL : PCGExGraph.getAt InPoints EndIdx = some pL := by
      unfold VtxPoint at hpL
      rw [hLast] at hpL
      exact hpL
    have htn : ((Chain.Nodes.length : Int) + 2).toNat = Chain.Nodes.length + 2 := by omega
    unfold ProcessSingleRangeIteration
    simp only [hChain, hFirst, hLast, hSort, htn]
    by_cases h1 : (Chain.Nodes.length : Int) + 2 < Settings.MinPointCount
    · simp [h1]
    · by_cases h2 : (Settings.bOmitAbovePointCount
          && decide ((Chain.Nodes.length : Int) + 2 > Settings.MaxPointCount)) = true
      · simp only [h1, h2, if_true, if_false, decide_False, Bool.false_or]
      · simp only [h1, h2, if_false, decide_False, Bool.false_or]
        cases bReverse
        · simp only [Bool.false_eq_true, if_false]
          rw [emit_path VtxPointIndices InPoints Chain.Nodes StartIdx EndIdx pF pL
            Chain.Nodes.length hgF hgL hN rfl]
          simp [FNodeChain.Order, hpF, hpL]
        · simp only [if_true]
          rw [emit_path VtxPointIndices InPoints Chain.Nodes.reverse EndIdx StartIdx pL pF
            Chain.Nodes.length hgL hgF hNr (by simp)]
          simp [FNodeChain.Order, hpF, hpL]
  · cases bReverse <;> simp [FNodeChain.Order]
  · intro q hq
    obtain ⟨n, hn, rfl⟩ := List.mem_map.mp hq
    apply hPoints
    cases bReverse
    · simpa using hn
    · simpa using hn

/-- C27 at concrete inputs: the chain 0 - 1 - 2 - 3, whose nodes have the
input points 103, 102, 101, 100, reversed by the direction settings, gives
the path 100, 101, 102, 103. -/
theorem C27_emitted_path_of_a_chain_witness :
    PCGExGraph.getAt [some Examples.ChainOfFour] 0 = some (some Examples.ChainOfFour) ∧
    PCGExGraph.getAt [3, 2, 1, 0] Examples.ChainOfFour.First = some 3 ∧
    PCGExGraph.getAt [3, 2, 1, 0] Examples.ChainOfFour.Last = some 0 ∧
    (∀ n ∈ Examples.ChainOfFour.Order,
      (VtxPoint [3, 2, 1, 0] [100, 101, 102, 103] n).isSome = true) ∧
    SortChain Examples.ReversingDirection Examples.LineCluster Examples.ChainOfFour 0 3 0
      = some true ∧
    ProcessSingleRangeIteration Examples.TwoToTen Examples.ReversingDirection
        Examples.LineCluster [3, 2, 1, 0] [100, 101, 102, 103] [some Examples.ChainOfFour] 0
      = some (some Examples.ChainOfFourReversed) :=
  ⟨by decide, by decide, by decide, by decide, by decide,
    (C27_emitted_path_of_a_chain Examples.TwoToTen Examples.ReversingDirection
      Examples.LineCluster [3, 2, 1, 0] [100, 101, 102, 103] [some Examples.ChainOfFour] 0
      Examples.ChainOfFour 3 0 true (by decide) (by decide) (by decide) (by decide)
      (by decide)).1.trans (by decide)⟩

end PCGExBreakClustersToPaths

/-! ### C21: the start edge is looked up before the start node is checked -/

namespace PCGExFindContours

open PCGExCluster

/-- C21 (code evaluated at the failing input): on the cluster of two nodes
joined by one edge no node has two neighbours, `FindClosestNode` returns -1,
and `TryFindContours` calls `FindClosestEdge` with the node index -1 before
it tests the index. In general, whenever `FindClosestNode` returns -1 the
accesses are exactly the two lookups, the second one with the node index -1;
the node array and the expanded arrays are not indexed, and the function
returns false whatever the fuel. -/
theorem C21_closest_edge_is_queried_with_no_node :
    StartNode (SpecOps 100) Examples.SegmentCluster [{ X := 1, Y := 1, Z := 0 }] 0 = -1 ∧
    StartAccesses (SpecOps 100) Examples.SegmentCluster [{ X := 1, Y := 1, Z := 0 }] 0
      = [FStartAccess.FindClosestNode, FStartAccess.FindClosestEdge (-1)] ∧
    (∀ (ops : FContourOps) (c : FCluster) (ProjectedSeeds : List FVector) (SeedIndex : Int),
      StartNode ops c ProjectedSeeds SeedIndex = -1 →
      StartAccesses ops c ProjectedSeeds SeedIndex
        = [FStartAccess.FindClosestNode, FStartAccess.FindClosestEdge (-1)] ∧
      ∀ (S : FSettings) (Positions : List FVector) (OriginPoints : List Nat)
        (RawTags : List String) (Processor : FProcessorState) (fuel : Nat),
        TryFindContours ops S c Positions ProjectedSeeds OriginPoints RawTags Processor
          SeedIndex fuel = some (Reject Processor RawTags [] false true 0)) ∧
    (∀ (ops : FContourOps) (c : FCluster) (ProjectedSeeds : List FVector) (SeedIndex : Int),
      FStartAccess.FindClosestEdge (StartNode ops c ProjectedSeeds SeedIndex)
        ∈ StartAccesses ops c ProjectedSeeds SeedIndex) := by
  refine ⟨by decide!, by decide!, ?_, ?_⟩
  · intro ops c ProjectedSeeds SeedIndex h
    have h2 : ops.FindClosestNode c (SeedGuide ProjectedSeeds SeedIndex) 2 = -1 := h
    constructor
    · simp [StartAccesses, h2]
    · intro S Positions OriginPoints RawTags Processor fuel
      exact TryFindContours_early ops S c Positions ProjectedSeeds OriginPoints RawTags Processor
        SeedIndex fuel (Or.inl h2)
  · intro ops c ProjectedSeeds SeedIndex
    simp [StartAccesses, StartNode]

end PCGExFindContours

/-! ### C30: the vertices and edges of the pruned Voronoi graph -/

namespace PCGExBuildVoronoi2D

open PCGExGraph PCGExPartitionVertices

theorem getElem?_append_cons {α : Type} (P : List α) (t : α) (T : List α) :
    (P ++ t :: T)[P.length]? = some t := by
  rw [List.getElem?_append_right (le_refl _)]
  simp

theorem getAt_ofNat {α : Type} (l : List α) (n : Nat) : getAt l (Int.ofNat n) = l[n]? := by
  unfold getAt
  have h1 : ¬ Int.ofNat n < 0 := not_lt.mpr (Int.ofNat_nonneg n)
  rw [if_neg h1]
  rfl

theorem SiteLoop_spec (C : List FVector) (W : List Bool) :
    ∀ (n : Nat) (Cp Cr : List FVector) (Wp Wr : List Bool) (X : List FVector)
      (Rp Y : List Int) (K : List FVector),
      C = Cp ++ Cr → W = Wp ++ Wr → Cr.length = n → Wr.length = n → X.length = n →
      Y.length = n → Wp.length = Cp.length → Rp.length = Cp.length →
      SiteLoop C W n Cp.length
          { SitesPositions := Cp ++ X, RemappedIndices := Rp ++ Y, Centroids := K }
        = some { SitesPositions := Cp ++ Cr, RemappedIndices := Rp ++ RemapFrom Wr K.length
                 Centroids := K ++ KeptSites Cr Wr } := by
  intro n
  induction n with
  | zero =>
    intro Cp Cr Wp Wr X Rp Y K _ _ hCr hWr hX hY _ _
    have h1 : Cr = [] := List.length_eq_zero.mp hCr
    have h2 : Wr = [] := List.length_eq_zero.mp hWr
    have h3 : X = [] := List.length_eq_zero.mp hX
    have h4 : Y = [] := List.length_eq_zero.mp hY
    subst h1 h2 h3 h4
    simp [SiteLoop, RemapFrom, KeptSites]
  | succ n ih =>
    intro Cp Cr Wp Wr X Rp Y K hC hW hCr hWr hX hY hWp hRp
    cases Cr with
    | nil => simp at hCr
    | cons c Cr2 =>
    cases Wr with
    | nil => simp at hWr
    | cons w Wr2 =>
    cases X with
    | nil => simp at hX
    | cons x X2 =>
    cases Y with
    | nil => simp at hY
    | cons y Y2 =>
    have hrc : C[Cp.length]? = some c := by rw [hC]; exact getElem?_append_cons Cp c Cr2
    have hrw : W[Cp.length]? = some w := by
      rw [hW, ← hWp]; exact getElem?_append_cons Wp w Wr2
    have hsp : setAt (Cp ++ x :: X2) (Int.ofNat Cp.length) c = some ((Cp ++ [c]) ++ X2) :=
      PCGExBreakClustersToPaths.setAt_append_cons Cp x X2 c
    have hsr : ∀ v : Int, setAt (Rp ++ y :: Y2) (Int.ofNat Cp.length) v
        = some ((Rp ++ [v]) ++ Y2) := by
      intro v
      rw [← hRp]
      exact PCGExBreakClustersToPaths.setAt_append_cons Rp y Y2 v
    have hlen : Cp.length + 1 = (Cp ++ [c]).length := by simp
    have hC2 : C = (Cp ++ [c]) ++ Cr2 := by rw [hC]; simp
    have hW2 : W = (Wp ++ [w]) ++ Wr2 := by rw [hW]; simp
    have hCr2 : Cr2.length = n := by simpa using hCr
    have hWr2 : Wr2.length = n := by simpa using hWr
    have hX2 : X2.length = n := by simpa using hX
    have hY2 : Y2.length = n := by simpa using hY
    have hWp2 : (Wp ++ [w]).length = (Cp ++ [c]).length := by simp [hWp]
    cases w with
    | false =>
      have hRp2 : (Rp ++ [(-1 : Int)]).length = (Cp ++ [c]).length := by simp [hRp]
      simp only [SiteLoop, hrc, hrw, hsp, hsr, Option.some_bind, Bool.not_false, if_true]
      rw [hlen, ih (Cp ++ [c]) Cr2 (Wp ++ [false]) Wr2 X2 (Rp ++ [-1]) Y2 K hC2 hW2 hCr2 hWr2
        hX2 hY2 hWp2 hRp2]
      simp [RemapFrom, KeptSites]
    | true =>
      have hRp2 : (Rp ++ [Int.ofNat K.length]).length = (Cp ++ [c]).length := by simp [hRp]
      simp only [SiteLoop, hrc, hrw, hsp, hsr, Option.some_bind, Bool.not_true,
        Bool.false_eq_true, if_false]
      rw [hlen, ih (Cp ++ [c]) Cr2 (Wp ++ [true]) Wr2 X2 (Rp ++ [Int.ofNat K.length]) Y2
        (K ++ [c]) hC2 hW2 hCr2 hWr2 hX2 hY2 hWp2 hRp2]
      simp [RemapFrom, KeptSites]

theorem RemapFrom_length : ∀ (W : List Bool) (k : Nat), (RemapFrom W k).length = W.length := by
  intro W
  induction W with
  | nil => intro k; rfl
  | cons w W ih =>
    intro k
    cases w <;> simp [RemapFrom, ih]

theorem RemapFrom_getElem : ∀ (W : List Bool) (k i : Nat), i < W.length →
    (RemapFrom W k)[i]? =
      some (if W.getD i false then Int.ofNat (k + (W.take i).count true) else -1) := by
  intro W
  induction W with
  | nil => intro k i h; simp at h
  | cons w W ih =>
    intro k i h
    cases i with
    | zero => cases w <;> simp [RemapFrom]
    | succ i =>
      have hi : i < W.length := by simpa using h
      cases w
      · simp only [RemapFrom, List.getElem?_cons_succ, ih k i hi, List.getD_cons_succ,
          List.take_succ_cons]
        simp
      · simp only [RemapFrom, List.getElem?_cons_succ, ih (k + 1) i hi, List.getD_cons_succ,
          List.take_succ_cons, List.count_cons_self]
        congr 3
        omega

theorem KeptSites_position : ∀ (C : List FVector) (W : List Bool) (i : Nat) (c : FVector),
    W[i]? = some true → C[i]? = some c →
    (KeptSites C W)[KeptBefore W i]? = some c := by
  intro C
  induction C with
  | nil => intro W i c _ hc; simp at hc
  | cons c0 C ih =>
    intro W i c hw hc
    cases W with
    | nil => simp at hw
    | cons w W =>
      cases i with
      | zero =>
        simp only [List.getElem?_cons_zero, Option.some.injEq] at hw hc
        subst hw hc
        simp [KeptSites, KeptBefore]
      | succ i =>
        simp only [List.getElem?_cons_succ] at hw hc
        have h := ih W i c hw hc
        cases w
        · simpa [KeptSites, KeptBefore] using h
        · simpa [KeptSites, KeptBefore] using h

theorem getAt_cast {α : Type} (l : List α) (n : Nat) : getAt l (n : Int) = l[n]? :=
  getAt_ofNat l n

theorem KeptBefore_le (W : List Bool) (i : Nat) : KeptBefore W i ≤ i := by
  unfold KeptBefore
  exact le_trans (List.count_le_length true _) (List.length_take_le i W)

theorem remap_read (W : List Bool) (a : Nat) (ha : a < W.length) (hs : a < 2147483648) :
    getAt (RemapFrom W 0) (PCGEx.toInt32 a)
      = some (if W.getD a false then (KeptBefore W a : Int) else -1) := by
  rw [toInt32_small a hs, getAt_cast, RemapFrom_getElem W 0 a ha]
  simp [KeptBefore]

theorem UpdateSitePosition_ok (D : Nat) (acc : FSiteAccum) (idx : Int) (pos : FVector)
    (hacc : AccumSized D acc) (h0 : 0 ≤ idx) (h1 : idx < D) :
    ∃ acc2, UpdateSitePosition acc idx pos = some acc2 ∧ AccumSized D acc2 := by
  obtain ⟨hl, hc⟩ := hacc
  obtain ⟨k, rfl⟩ := Int.eq_ofNat_of_zero_le h0
  have hk : k < D := by omega
  have hkl : k < acc.DelaunaySitesLocations.length := by omega
  have hkc : k < acc.DelaunaySitesInfluenceCount.length := by omega
  have hs : ∀ {α : Type} (l : List α) (v : α), k < l.length →
      setAt l (k : Int) v = some (l.set k v) := by
    intro α l v hlt
    unfold setAt
    have : ¬ ((k : Int) < 0 ∨ l.length ≤ (k : Int).toNat) := by
      simp only [Int.toNat_ofNat]
      omega
    rw [if_neg this]
    simp
  unfold UpdateSitePosition
  rw [getAt_cast, getAt_cast, List.getElem?_eq_getElem hkl, List.getElem?_eq_getElem hkc]
  simp only [Option.some_bind, hs _ _ hkl, hs _ _ hkc]
  exact ⟨_, rfl, by simp [hl], by simp [hc]⟩

theorem UpdateSite_ok (D : Nat) (Sites : List FDelaunaySite2) (SitesPositions : List FVector)
    (H : Nat) (acc : FSiteAccum) (hacc : AccumSized D acc) (hS : SiteInRange Sites D H)
    (hH : H < SitesPositions.length) (hs : H < 2147483648) :
    ∃ acc2, UpdateSite Sites SitesPositions (PCGEx.toInt32 H) acc = some acc2 ∧
      AccumSized D acc2 := by
  obtain ⟨Site, hSite, h00, h01, h10, h11, h20, h21⟩ := hS
  unfold UpdateSite
  rw [toInt32_small H hs, getAt_cast, getAt_cast, hSite, List.getElem?_eq_getElem hH]
  simp only [Option.some_bind]
  obtain ⟨a0, e0, i0⟩ := UpdateSitePosition_ok D acc Site.Vtx0 SitesPositions[H] hacc h00 h01
  obtain ⟨a1, e1, i1⟩ := UpdateSitePosition_ok D a0 Site.Vtx1 SitesPositions[H] i0 h10 h11
  obtain ⟨a2, e2, i2⟩ := UpdateSitePosition_ok D a1 Site.Vtx2 SitesPositions[H] i1 h20 h21
  rw [e0]
  simp only [Option.some_bind]
  rw [e1]
  simp only [Option.some_bind]
  exact ⟨a2, e2, i2⟩

theorem kept_pair (W : List Bool) (Hash : Nat) (wa wb : Bool)
    (ha : W.getD (PCGEx.H64A Hash) false = wa) (hb : W.getD (PCGEx.H64B Hash) false = wb)
    (hsa : PCGEx.H64A Hash < 2147483648) (hsb : PCGEx.H64B Hash < 2147483648) :
    (((if wa then (KeptBefore W (PCGEx.H64A Hash) : Int) else -1) == -1
        || (if wb then (KeptBefore W (PCGEx.H64B Hash) : Int) else -1) == -1) = true →
      PrunedEdge W Hash = none) ∧
    (¬ ((if wa then (KeptBefore W (PCGEx.H64A Hash) : Int) else -1) == -1
        || (if wb then (KeptBefore W (PCGEx.H64B Hash) : Int) else -1) == -1) = true →
      PrunedEdge W Hash = some (PCGEx.H64
        (PCGEx.toUInt32 (if wa then (KeptBefore W (PCGEx.H64A Hash) : Int) else -1))
        (PCGEx.toUInt32 (if wb then (KeptBefore W (PCGEx.H64B Hash) : Int) else -1)))) := by
  have hka := KeptBefore_le W (PCGEx.H64A Hash)
  have hkb := KeptBefore_le W (PCGEx.H64B Hash)
  have hna : ((KeptBefore W (PCGEx.H64A Hash) : Int) == -1) = false := by
    apply beq_false_of_ne
    omega
  have hnb : ((KeptBefore W (PCGEx.H64B Hash) : Int) == -1) = false := by
    apply beq_false_of_ne
    omega
  unfold PrunedEdge
  rw [ha, hb]
  cases wa <;> cases wb <;> simp [hna, hnb]
  rw [toUInt32_small _ (by omega), toUInt32_small _ (by omega)]

theorem foldlM_edges (step : FEdgeLoopState → Nat → Option FEdgeLoopState)
    (f : Nat → Option Nat) (Inv : FSiteAccum → Prop) :
    ∀ (edges : List Nat),
      (∀ Hash ∈ edges, ∀ st, Inv st.Accum → ∃ st2, step st Hash = some st2 ∧ Inv st2.Accum ∧
        st2.ValidEdges = st.ValidEdges ++ (f Hash).toList) →
      ∀ st, Inv st.Accum → ∃ st2, edges.foldlM step st = some st2 ∧ Inv st2.Accum ∧
        st2.ValidEdges = st.ValidEdges ++ edges.filterMap f := by
  intro edges
  induction edges with
  | nil =>
    intro _ st hst
    exact ⟨st, rfl, hst, by simp⟩
  | cons Hash rest ih =>
    intro hstep st hst
    obtain ⟨st1, e1, i1, v1⟩ := hstep Hash (List.mem_cons_self _ _) st hst
    obtain ⟨st2, e2, i2, v2⟩ := ih (fun H hH => hstep H (List.mem_cons_of_mem _ hH)) st1 i1
    refine ⟨st2, ?_, i2, ?_⟩
    · simp only [List.foldlM_cons, e1, Option.bind_eq_bind, Option.some_bind, e2]
    · rw [v2, v1]
      cases hf : f Hash <;> simp [List.filterMap_cons, hf]

theorem EdgeStepPruneOpenSites_ok (D : Nat) (W : List Bool) (Sites : List FDelaunaySite2)
    (SP : List FVector) (Hash : Nat) (st : FEdgeLoopState) (hSP : SP.length = W.length)
    (ha : PCGEx.H64A Hash < W.length) (hb : PCGEx.H64B Hash < W.length)
    (hN : W.length < 2147483648)
    (hSa : SiteInRange Sites D (PCGEx.H64A Hash)) (hSb : SiteInRange Sites D (PCGEx.H64B Hash))
    (hacc : AccumSized D st.Accum) :
    ∃ st2, EdgeStepPruneOpenSites Sites SP (RemapFrom W 0) st Hash = some st2 ∧
      AccumSized D st2.Accum ∧
      st2.ValidEdges = st.ValidEdges ++ (PrunedEdge W Hash).toList := by
  have hsa : PCGEx.H64A Hash < 2147483648 := by omega
  have hsb : PCGEx.H64B Hash < 2147483648 := by omega
  have kp := kept_pair W Hash _ _ rfl rfl hsa hsb
  unfold EdgeStepPruneOpenSites
  simp only []
  rw [remap_read W _ ha hsa, remap_read W _ hb hsb]
  simp only [Option.some_bind]
  generalize (if W.getD (PCGEx.H64A Hash) false = true
    then (KeptBefore W (PCGEx.H64A Hash) : Int) else -1) = A at kp ⊢
  generalize (if W.getD (PCGEx.H64B Hash) false = true
    then (KeptBefore W (PCGEx.H64B Hash) : Int) else -1) = B at kp ⊢
  by_cases hc : (A == -1 || B == -1) = true
  · rw [if_pos hc, kp.1 hc]
    exact ⟨st, rfl, hacc, by simp⟩
  · rw [if_neg hc, kp.2 hc]
    obtain ⟨a1, e1, i1⟩ := UpdateSite_ok D Sites SP _ st.Accum hacc hSa (by omega) hsa
    obtain ⟨a2, e2, i2⟩ := UpdateSite_ok D Sites SP _ a1 i1 hSb (by omega) hsb
    rw [e1]
    simp only [Option.some_bind]
    rw [e2]
    exact ⟨_, rfl, i2, by simp⟩

theorem EdgeStepKeepOpenSites_ok (D : Nat) (W : List Bool) (Sites : List FDelaunaySite2)
    (SP : List FVector) (Hash : Nat) (st : FEdgeLoopState) (hSP : SP.length = W.length)
    (ha : PCGEx.H64A Hash < W.length) (hb : PCGEx.H64B Hash < W.length)
    (hN : W.length < 2147483648)
    (hSa : SiteInRange Sites D (PCGEx.H64A Hash)) (hSb : SiteInRange Sites D (PCGEx.H64B Hash))
    (hacc : AccumSized D st.Accum) :
    ∃ st2, EdgeStepKeepOpenSites Sites SP (RemapFrom W 0) st Hash = some st2 ∧
      AccumSized D st2.Accum ∧
      st2.ValidEdges = st.ValidEdges ++ (PrunedEdge W Hash).toList := by
  have hsa : PCGEx.H64A Hash < 2147483648 := by omega
  have hsb : PCGEx.H64B Hash < 2147483648 := by omega
  have kp := kept_pair W Hash _ _ rfl rfl hsa hsb
  obtain ⟨a1, e1, i1⟩ := UpdateSite_ok D Sites SP _ st.Accum hacc hSa (by omega) hsa
  obtain ⟨a2, e2, i2⟩ := UpdateSite_ok D Sites SP _ a1 i1 hSb (by omega) hsb
  unfold EdgeStepKeepOpenSites
  simp only []
  rw [remap_read W _ ha hsa, remap_read W _ hb hsb]
  simp only [Option.some_bind]
  rw [e1]
  simp only [Option.some_bind]
  rw [e2]
  simp only [Option.some_bind]
  generalize (if W.getD (PCGEx.H64A Hash) false = true
    then (KeptBefore W (PCGEx.H64A Hash) : Int) else -1) = A at kp ⊢
  generalize (if W.getD (PCGEx.H64B Hash) false = true
    then (KeptBefore W (PCGEx.H64B Hash) : Int) else -1) = B at kp ⊢
  by_cases hc : (A == -1 || B == -1) = true
  · rw [if_pos hc, kp.1 hc]
    exact ⟨_, rfl, i2, by simp⟩
  · rw [if_neg hc, kp.2 hc]
    exact ⟨_, rfl, i2, by simp⟩

theorem EdgeStepNoSites_ok (W : List Bool) (Hash : Nat) (st : FEdgeLoopState)
    (ha : PCGEx.H64A Hash < W.length) (hb : PCGEx.H64B Hash < W.length)
    (hN : W.length < 2147483648) :
    ∃ st2, EdgeStepNoSites (RemapFrom W 0) st Hash = some st2 ∧ True ∧
      st2.ValidEdges = st.ValidEdges ++ (PrunedEdge W Hash).toList := by
  have hsa : PCGEx.H64A Hash < 2147483648 := by omega
  have hsb : PCGEx.H64B Hash < 2147483648 := by omega
  have kp := kept_pair W Hash _ _ rfl rfl hsa hsb
  unfold EdgeStepNoSites
  rw [remap_read W _ ha hsa, remap_read W _ hb hsb]
  simp only [Option.some_bind]
  generalize (if W.getD (PCGEx.H64A Hash) false = true
    then (KeptBefore W (PCGEx.H64A Hash) : Int) else -1) = A at kp ⊢
  generalize (if W.getD (PCGEx.H64B Hash) false = true
    then (KeptBefore W (PCGEx.H64B Hash) : Int) else -1) = B at kp ⊢
  by_cases hc : (A == -1 || B == -1) = true
  · rw [if_pos hc, kp.1 hc]
    exact ⟨st, rfl, trivial, by simp⟩
  · rw [if_neg hc, kp.2 hc]
    exact ⟨_, rfl, trivial, by simp⟩

end PCGExBuildVoronoi2D

namespace PCGExBuildVoronoi2D

open PCGExGraph PCGExPartitionVertices

/-- C30: in the branch of `Process` for circumcenter cells with
`bPruneOutOfBounds`, when the kernel's arrays have one entry per site, the
Voronoi edges join sites and, if sites are output, the Delaunay sites of the
edges' ends exist with vertices among the input points, the branch runs
through in each of the `bOutputSites` / `bPruneOpenSites` variants; the
output vertices are exactly the circumcenters of the sites flagged within
bounds, in site order, a kept site `i` being the vertex at the position
`KeptBefore WithinBounds i`; and the edge list handed to the graph holds, in
order, the pair of those positions for exactly the Voronoi edges whose two
sites are within bounds. -/
theorem C30_pruned_vertices_and_edges (bOutputSites bPruneOpenSites : Bool)
    (Circumcenters : List FVector) (WithinBounds : List Bool) (VoronoiEdges : List Nat)
    (Sites : List FDelaunaySite2) (NumSites DelaunaySitesNum : Nat)
    (hC : Circumcenters.length = NumSites) (hW : WithinBounds.length = NumSites)
    (hN : NumSites < 2147483648)
    (hE : ∀ Hash ∈ VoronoiEdges, PCGEx.H64A Hash < NumSites ∧ PCGEx.H64B Hash < NumSites)
    (hS : bOutputSites = true → ∀ Hash ∈ VoronoiEdges,
      SiteInRange Sites DelaunaySitesNum (PCGEx.H64A Hash) ∧
      SiteInRange Sites DelaunaySitesNum (PCGEx.H64B Hash)) :
    (∃ r, Process bOutputSites bPruneOpenSites Circumcenters WithinBounds VoronoiEdges Sites
        NumSites DelaunaySitesNum = some r ∧
      r.Centroids = KeptSites Circumcenters WithinBounds ∧
      r.ValidEdges = VoronoiEdges.filterMap (PrunedEdge WithinBounds)) ∧
    (∀ (i : Nat) (c : FVector), WithinBounds[i]? = some true → Circumcenters[i]? = some c →
      (KeptSites Circumcenters WithinBounds)[KeptBefore WithinBounds i]? = some c) ∧
    (KeptSites Circumcenters WithinBounds).length = WithinBounds.count true := by
  refine ⟨?_, KeptSites_position Circumcenters WithinBounds, ?_⟩
  · have hsite := SiteLoop_spec Circumcenters WithinBounds NumSites [] Circumcenters []
      WithinBounds (List.replicate NumSites FVector.ZeroVector) [] (List.replicate NumSites 0) []
      rfl rfl hC hW (by simp) (by simp) rfl rfl
    simp only [List.nil_append, List.length_nil] at hsite
    have hWN : WithinBounds.length < 2147483648 := by omega
    unfold Process
    simp only []
    rw [hsite]
    simp only [Option.some_bind]
    cases bOutputSites with
    | false =>
      obtain ⟨e, he, _, hv⟩ := foldlM_edges (EdgeStepNoSites (RemapFrom WithinBounds 0))
        (PrunedEdge WithinBounds) (fun _ => True) VoronoiEdges
        (fun Hash hH st _ => EdgeStepNoSites_ok WithinBounds Hash st
          (by have := (hE Hash hH).1; omega) (by have := (hE Hash hH).2; omega) hWN)
        { ValidEdges := [], Accum := { DelaunaySitesLocations := []
                                       DelaunaySitesInfluenceCount := [] } } trivial
      simp only [Bool.false_eq_true, if_false, he, Option.map_some']
      exact ⟨_, rfl, rfl, by simpa using hv⟩
    | true =>
      have hS2 := hS rfl
      have hacc : AccumSized DelaunaySitesNum
          { DelaunaySitesLocations := List.replicate DelaunaySitesNum FVector.ZeroVector
            DelaunaySitesInfluenceCount := List.replicate DelaunaySitesNum 0 } := by
        constructor <;> simp
      cases bPruneOpenSites with
      | true =>
        obtain ⟨e, he, _, hv⟩ := foldlM_edges
          (EdgeStepPruneOpenSites Sites Circumcenters (RemapFrom WithinBounds 0))
          (PrunedEdge WithinBounds) (AccumSized DelaunaySitesNum) VoronoiEdges
          (fun Hash hH st hst => EdgeStepPruneOpenSites_ok DelaunaySitesNum WithinBounds Sites
            Circumcenters Hash st (by omega)
            (by have := (hE Hash hH).1; omega) (by have := (hE Hash hH).2; omega) hWN
            (hS2 Hash hH).1 (hS2 Hash hH).2 hst)
          { ValidEdges := [], Accum :=
            { DelaunaySitesLocations := List.replicate DelaunaySitesNum FVector.ZeroVector
              DelaunaySitesInfluenceCount := List.replicate DelaunaySitesNum 0 } } hacc
        simp only [if_true, he, Option.map_some']
        exact ⟨_, rfl, rfl, by simpa using hv⟩
      | false =>
        obtain ⟨e, he, _, hv⟩ := foldlM_edges
          (EdgeStepKeepOpenSites Sites Circumcenters (RemapFrom WithinBounds 0))
          (PrunedEdge WithinBounds) (AccumSized DelaunaySitesNum) VoronoiEdges
          (fun Hash hH st hst => EdgeStepKeepOpenSites_ok DelaunaySitesNum WithinBounds Sites
            Circumcenters Hash st (by omega)
            (by have := (hE Hash hH).1; omega) (by have := (hE Hash hH).2; omega) hWN
            (hS2 Hash hH).1 (hS2 Hash hH).2 hst)
          { ValidEdges := [], Accum :=
            { DelaunaySitesLocations := List.replicate DelaunaySitesNum FVector.ZeroVector
              DelaunaySitesInfluenceCount := List.replicate DelaunaySitesNum 0 } } hacc
        simp only [if_true, Bool.false_eq_true, if_false, he, Option.map_some']
        exact ⟨_, rfl, rfl, by simpa using hv⟩
  · have hlen : ∀ (C : List FVector) (W : List Bool), C.length = W.length →
        (KeptSites C W).length = W.count true := by
      intro C
      induction C with
      | nil =>
        intro W h
        have : W = [] := List.length_eq_zero.mp h.symm
        subst this
        rfl
      | cons c C ih =>
        intro W h
        cases W with
        | nil => simp at h
        | cons w W =>
          have h2 : C.length = W.length := by simpa using h
          cases w <;> simp [KeptSites, ih W h2]
    exact hlen _ _ (by omega)

/-- C30 at concrete inputs: three sites of which the second is out of bounds,
the Voronoi edges (0, 2) and (0, 1), sites output and open sites kept: the
vertices are the circumcenters of the sites 0 and 2 and the only edge is
(0, 1), the positions of the sites 0 and 2 among the kept ones. -/
theorem C30_pruned_vertices_and_edges_witness :
    Examples.VoronoiCircumcenters.length = 3 ∧
    [true, false, true].length = 3 ∧
    3 < 2147483648 ∧
    (∀ Hash ∈ [8589934592, 4294967296], PCGEx.H64A Hash < 3 ∧ PCGEx.H64B Hash < 3) ∧
    (true = true → ∀ Hash ∈ [8589934592, 4294967296],
      SiteInRange Examples.VoronoiDelaunaySites 4 (PCGEx.H64A Hash) ∧
      SiteInRange Examples.VoronoiDelaunaySites 4 (PCGEx.H64B Hash)) ∧
    ∃ r, Process true false Examples.VoronoiCircumcenters [true, false, true]
        [8589934592, 4294967296] Examples.VoronoiDelaunaySites 3 4 = some r ∧
      r.Centroids = [{ X := 0, Y := 0, Z := 0 }, { X := 1, Y := 1, Z := 0 }] ∧
      r.ValidEdges = [4294967296] := by
  have hE : ∀ Hash ∈ [8589934592, 4294967296], PCGEx.H64A Hash < 3 ∧ PCGEx.H64B Hash < 3 := by
    decide
  have hS : true = true → ∀ Hash ∈ [8589934592, 4294967296],
      SiteInRange Examples.VoronoiDelaunaySites 4 (PCGEx.H64A Hash) ∧
      SiteInRange Examples.VoronoiDelaunaySites 4 (PCGEx.H64B Hash) := by
    intro _ Hash hH
    have h0 : SiteInRange Examples.VoronoiDelaunaySites 4 0 :=
      ⟨{ Vtx0 := 0, Vtx1 := 1, Vtx2 := 2 }, rfl, by decide⟩
    have h1 : SiteInRange Examples.VoronoiDelaunaySites 4 1 :=
      ⟨{ Vtx0 := 1, Vtx1 := 2, Vtx2 := 3 }, rfl, by decide⟩
    have h2 : SiteInRange Examples.VoronoiDelaunaySites 4 2 :=
      ⟨{ Vtx0 := 0, Vtx1 := 2, Vtx2 := 3 }, rfl, by decide⟩
    simp only [List.mem_cons, List.mem_singleton, List.not_mem_nil, or_false] at hH
    rcases hH with rfl | rfl
    · exact ⟨h0, h2⟩
    · exact ⟨h0, h1⟩
  obtain ⟨⟨r, hr, hc, hv⟩, _, _⟩ := C30_pruned_vertices_and_edges true false
    Examples.VoronoiCircumcenters [true, false, true] [8589934592, 4294967296]
    Examples.VoronoiDelaunaySites 3 4 rfl rfl (by decide) hE hS
  exact ⟨rfl, rfl, by decide, hE, hS, r, hr, hc.trans rfl, hv.trans (by decide)⟩

end PCGExBuildVoronoi2D

/-! ### C24: the order of the sanitization turns does not matter -/

namespace PCGExRefineEdges

open PCGExCluster

theorem modify_valid_comm4 {α : Type} (f : α → α) (hf : ∀ a, f (f a) = f a)
    (l : List α) (a b x y : Nat) :
    (((l.modify f a).modify f b).modify f x).modify f y
      = (((l.modify f x).modify f y).modify f a).modify f b := by
  apply List.ext_getElem?
  intro i
  simp only [List.getElem?_modify]
  rcases l[i]? with _ | v
  · rfl
  · by_cases h1 : a = i <;> by_cases h2 : b = i <;> by_cases h3 : x = i <;> by_cases h4 : y = i <;>
      simp [h1, h2, h3, h4, hf]

theorem modify_valid_comm {α : Type} (f : α → α) (l : List α) (a b : Nat) :
    (l.modify f a).modify f b = (l.modify f b).modify f a := by
  apply List.ext_getElem?
  intro i
  simp only [List.getElem?_modify]
  rcases l[i]? with _ | v
  · rfl
  · by_cases h1 : a = i <;> by_cases h2 : b = i <;> simp [h1, h2]

theorem map_strip_modify {α : Type} (strip f : α → α) (h : ∀ a, strip (f a) = strip a)
    (l : List α) (k : Nat) : (l.modify f k).map strip = l.map strip := by
  apply List.ext_getElem?
  intro i
  simp only [List.getElem?_map, List.getElem?_modify]
  rcases l[i]? with _ | v
  · rfl
  · by_cases h1 : k = i <;> simp [h1, h]

theorem option_map_eq_cases {α : Type} (strip : α → α) (o o2 : Option α)
    (h : o2.map strip = o.map strip) :
    (o = none ∧ o2 = none) ∨ ∃ n n2, o = some n ∧ o2 = some n2 ∧ strip n2 = strip n := by
  cases o with
  | none =>
    cases o2 with
    | none => exact Or.inl ⟨rfl, rfl⟩
    | some v => cases h
  | some n =>
    cases o2 with
    | none => cases h
    | some n2 =>
      simp only [Option.map_some', Option.some.injEq] at h
      exact Or.inr ⟨n, n2, rfl, rfl, h⟩

theorem RestoreEdge_of_none (c : FCluster) (x : Int) (h : c.GetEdge x = none) :
    RestoreEdge c x = c := by
  unfold RestoreEdge
  split
  · rfl
  · rw [h]

theorem RestoreEdge_of_some (c : FCluster) (x : Int) (e : PCGExGraph.FIndexedEdge)
    (h : c.GetEdge x = some e) :
    RestoreEdge c x =
      { Nodes := (c.Nodes.modify (fun n => { n with bValid := true }) e.Start).modify
          (fun n => { n with bValid := true }) e.End
        Edges := c.Edges.modify (fun e => { e with bValid := true }) x.toNat } := by
  have hx : ¬ x < 0 := by
    intro hlt
    unfold FCluster.GetEdge at h
    rw [if_pos hlt] at h
    cases h
  have hx1 : (x == -1) = false := by
    apply beq_false_of_ne
    omega
  have hs : ¬ ((e.Start : Nat) : Int) < 0 := by omega
  have he : ¬ ((e.End : Nat) : Int) < 0 := by omega
  unfold RestoreEdge
  simp only [hx1, Bool.false_eq_true, if_false, h]
  unfold FCluster.SetNodeValid FCluster.SetEdgeValid
  simp only [hx, hs, he, if_false, Int.toNat_ofNat]

theorem SameGeometry_refl (c : FCluster) : SameGeometry c c := ⟨rfl, rfl⟩

theorem SameGeometry_RestoreEdge (c : FCluster) (x : Int) : SameGeometry c (RestoreEdge c x) := by
  cases h : c.GetEdge x with
  | none => rw [RestoreEdge_of_none c x h]; exact SameGeometry_refl c
  | some e =>
    rw [RestoreEdge_of_some c x e h]
    constructor
    · show List.map StripNode (List.modify (fun n : FNode => { n with bValid := true }) _
        (List.modify (fun n : FNode => { n with bValid := true }) _ c.Nodes)) = _
      rw [map_strip_modify StripNode (fun n : FNode => { n with bValid := true }) (fun _ => rfl),
        map_strip_modify StripNode (fun n : FNode => { n with bValid := true }) (fun _ => rfl)]
    · show List.map StripEdge (List.modify
        (fun e : PCGExGraph.FIndexedEdge => { e with bValid := true }) _ c.Edges) = _
      rw [map_strip_modify StripEdge
        (fun e : PCGExGraph.FIndexedEdge => { e with bValid := true }) (fun _ => rfl)]

theorem SameGeometry_GetNode (c c2 : FCluster) (h : SameGeometry c c2) (i : Int) :
    (c2.GetNode i).map StripNode = (c.GetNode i).map StripNode := by
  unfold FCluster.GetNode
  split
  · rfl
  · have := congrArg (fun l => l[i.toNat]?) h.1
    simpa [List.getElem?_map] using this

theorem SameGeometry_GetEdge (c c2 : FCluster) (h : SameGeometry c c2) (i : Int) :
    (c2.GetEdge i).map StripEdge = (c.GetEdge i).map StripEdge := by
  unfold FCluster.GetEdge
  split
  · rfl
  · have := congrArg (fun l => l[i.toNat]?) h.2
    simpa [List.getElem?_map] using this

theorem SameGeometry_GetDistSquared (c c2 : FCluster) (h : SameGeometry c c2) (A B : Int) :
    c2.GetDistSquared A B = c.GetDistSquared A B := by
  have hA := option_map_eq_cases StripNode _ _ (SameGeometry_GetNode c c2 h A)
  have hB := option_map_eq_cases StripNode _ _ (SameGeometry_GetNode c c2 h B)
  unfold FCluster.GetDistSquared
  rcases hA with ⟨a1, a2⟩ | ⟨a, a2, ha, ha2, hsa⟩
  · rw [a1, a2]
  · rcases hB with ⟨b1, b2⟩ | ⟨b, b2, hb, hb2, hsb⟩
    · rw [b1, b2, ha, ha2]
    · rw [ha, ha2, hb, hb2]
      have p1 : a2.Position = a.Position := by
        have p := congrArg (fun n : FNode => n.Position) hsa
        exact p
      have p2 : b2.Position = b.Position := by
        have p := congrArg (fun n : FNode => n.Position) hsb
        exact p
      simp only [p1, p2]

theorem SameGeometry_BestIndex (MIN_dbl MAX_dbl : ℚ) (Sanitization : EPCGExRefineSanitization)
    (c c2 : FCluster) (h : SameGeometry c c2) (NodeIndex : Nat) :
    BestIndex MIN_dbl MAX_dbl Sanitization c2 NodeIndex
      = BestIndex MIN_dbl MAX_dbl Sanitization c NodeIndex := by
  have hN := option_map_eq_cases StripNode _ _ (SameGeometry_GetNode c c2 h (NodeIndex : Int))
  have hD : c2.GetDistSquared = c.GetDistSquared := by
    funext A B
    exact SameGeometry_GetDistSquared c c2 h A B
  unfold BestIndex
  cases Sanitization with
  | None => rfl
  | Filters => rfl
  | Longest =>
    simp only []
    rcases hN with ⟨n1, n2⟩ | ⟨n, n2, hn, hn2, hs⟩
    · rw [n1, n2]
    · rw [hn, hn2]
      have a1 : n2.Adjacency = n.Adjacency := by
        have p := congrArg (fun n : FNode => n.Adjacency) hs
        exact p
      have a2 : n2.NodeIndex = n.NodeIndex := by
        have p := congrArg (fun n : FNode => n.NodeIndex) hs
        exact p
      simp only [FindLongest, hD, a1, a2]
  | Shortest =>
    simp only []
    rcases hN with ⟨n1, n2⟩ | ⟨n, n2, hn, hn2, hs⟩
    · rw [n1, n2]
    · rw [hn, hn2]
      have a1 : n2.Adjacency = n.Adjacency := by
        have p := congrArg (fun n : FNode => n.Adjacency) hs
        exact p
      have a2 : n2.NodeIndex = n.NodeIndex := by
        have p := congrArg (fun n : FNode => n.NodeIndex) hs
        exact p
      simp only [FindShortest, hD, a1, a2]

theorem SanitizeNode_eq (MIN_dbl MAX_dbl : ℚ) (Sanitization : EPCGExRefineSanitization)
    (c : FCluster) (NodeIndex : Nat) :
    SanitizeNode MIN_dbl MAX_dbl Sanitization c NodeIndex
      = RestoreEdge c (BestIndex MIN_dbl MAX_dbl Sanitization c NodeIndex) := by
  have hm : RestoreEdge c (-1) = c := by
    unfold RestoreEdge
    simp
  unfold SanitizeNode BestIndex
  cases Sanitization with
  | None => exact hm.symm
  | Filters => exact hm.symm
  | Longest =>
    simp only []
    cases c.GetNode (NodeIndex : Int) with
    | none => exact hm.symm
    | some n => rfl
  | Shortest =>
    simp only []
    cases c.GetNode (NodeIndex : Int) with
    | none => exact hm.symm
    | some n => rfl

theorem RestoreEdge_comm (c : FCluster) (x y : Int) :
    RestoreEdge (RestoreEdge c x) y = RestoreEdge (RestoreEdge c y) x := by
  have gx := option_map_eq_cases StripEdge _ _
    (SameGeometry_GetEdge c _ (SameGeometry_RestoreEdge c x) y)
  have gy := option_map_eq_cases StripEdge _ _
    (SameGeometry_GetEdge c _ (SameGeometry_RestoreEdge c y) x)
  rcases gy with ⟨hx, hx2⟩ | ⟨ex, ex2, hx, hx2, hsx⟩
  · rw [RestoreEdge_of_none _ x hx2, RestoreEdge_of_none c x hx]
  · rcases gx with ⟨hy, hy2⟩ | ⟨ey, ey2, hy, hy2, hsy⟩
    · rw [RestoreEdge_of_none _ y hy2, RestoreEdge_of_none c y hy]
    · have sy : ey2.Start = ey.Start := by
        have p := congrArg (fun e : PCGExGraph.FIndexedEdge => e.Start) hsy
        exact p
      have ty : ey2.End = ey.End := by
        have p := congrArg (fun e : PCGExGraph.FIndexedEdge => e.End) hsy
        exact p
      have sx : ex2.Start = ex.Start := by
        have p := congrArg (fun e : PCGExGraph.FIndexedEdge => e.Start) hsx
        exact p
      have tx : ex2.End = ex.End := by
        have p := congrArg (fun e : PCGExGraph.FIndexedEdge => e.End) hsx
        exact p
      rw [RestoreEdge_of_some _ y ey2 hy2, RestoreEdge_of_some _ x ex2 hx2]
      rw [RestoreEdge_of_some c x ex hx, RestoreEdge_of_some c y ey hy]
      simp only [sy, ty, sx, tx]
      congr 1
      · exact modify_valid_comm4 (fun n : FNode => { n with bValid := true }) (fun _ => rfl)
          c.Nodes _ _ _ _
      · exact modify_valid_comm (fun e : PCGExGraph.FIndexedEdge => { e with bValid := true })
          c.Edges _ _

theorem SanitizeNode_comm (MIN_dbl MAX_dbl : ℚ) (Sanitization : EPCGExRefineSanitization)
    (c : FCluster) (a b : Nat) :
    SanitizeNode MIN_dbl MAX_dbl Sanitization (SanitizeNode MIN_dbl MAX_dbl Sanitization c a) b
      = SanitizeNode MIN_dbl MAX_dbl Sanitization
          (SanitizeNode MIN_dbl MAX_dbl Sanitization c b) a := by
  rw [SanitizeNode_eq _ _ _ c a, SanitizeNode_eq _ _ _ c b, SanitizeNode_eq, SanitizeNode_eq,
    SameGeometry_BestIndex _ _ _ c _ (SameGeometry_RestoreEdge c _) b,
    SameGeometry_BestIndex _ _ _ c _ (SameGeometry_RestoreEdge c _) a]
  exact RestoreEdge_comm c _ _

theorem ExecuteTask_eq_foldl (MIN_dbl MAX_dbl : ℚ) (Sanitization : EPCGExRefineSanitization)
    (StartIndex NumIterations : Nat) (c : FCluster) :
    FSanitizeRangeTask.ExecuteTask MIN_dbl MAX_dbl Sanitization StartIndex NumIterations c
      = (List.range' StartIndex NumIterations).foldl
          (SanitizeNode MIN_dbl MAX_dbl Sanitization) c := by
  rw [List.range'_eq_map_range, List.foldl_map]
  unfold FSanitizeRangeTask.ExecuteTask
  cases Sanitization with
  | Longest => rfl
  | Shortest => rfl
  | None =>
    simp only [SanitizeNode]
    induction (List.range NumIterations) with
    | nil => rfl
    | cons a l ih => simp
  | Filters =>
    simp only [SanitizeNode]
    induction (List.range NumIterations) with
    | nil => rfl
    | cons a l ih => simp

theorem RunTasks_eq_foldl (MIN_dbl MAX_dbl : ℚ) (Sanitization : EPCGExRefineSanitization)
    (Scopes : List (Nat × Nat)) :
    ∀ c, RunTasks MIN_dbl MAX_dbl Sanitization Scopes c
      = (ScopeNodes Scopes).foldl (SanitizeNode MIN_dbl MAX_dbl Sanitization) c := by
  induction Scopes with
  | nil => intro c; rfl
  | cons s rest ih =>
    intro c
    have := ih (FSanitizeRangeTask.ExecuteTask MIN_dbl MAX_dbl Sanitization s.1 s.2 c)
    unfold RunTasks at this ⊢
    simp only [List.foldl_cons, ScopeNodes, List.foldl_append]
    rw [this, ExecuteTask_eq_foldl]

end PCGExRefineEdges

namespace PCGExRefineEdges

open PCGExCluster

/-- C24: running sanitization tasks over two lists of scopes that process the
same node indices the same number of times, in whatever order and however
the nodes are split into ranges, leaves the same cluster, so the same
`bValid` flag on every edge and every node; this holds for each policy and
for every cluster, and covers every interleaving of the turns of the tasks,
an interleaving being a list of one-node scopes. -/
theorem C24_sanitization_does_not_depend_on_order (MIN_dbl MAX_dbl : ℚ)
    (Sanitization : EPCGExRefineSanitization) (c : FCluster) (Scopes1 Scopes2 : List (Nat × Nat))
    (h : (ScopeNodes Scopes1).Perm (ScopeNodes Scopes2)) :
    RunTasks MIN_dbl MAX_dbl Sanitization Scopes1 c
      = RunTasks MIN_dbl MAX_dbl Sanitization Scopes2 c := by
  rw [RunTasks_eq_foldl, RunTasks_eq_foldl]
  exact List.Perm.foldl_eq' h
    (fun x _ y _ z => SanitizeNode_comm MIN_dbl MAX_dbl Sanitization z x y) c

/-- C24 at concrete inputs: on the path cluster, the `Longest` tasks over the
ranges `[0, 2)` then `[2, 3)` and over `[1, 3)` then `[0, 1)` process the
same nodes and leave the same flags. -/
theorem C24_sanitization_does_not_depend_on_order_witness :
    (ScopeNodes [(0, 2), (2, 1)]).Perm (ScopeNodes [(1, 2), (0, 1)]) ∧
    RunTasks Engine_MIN_dbl Engine_MAX_dbl EPCGExRefineSanitization.Longest [(0, 2), (2, 1)]
        Examples.PathCluster
      = RunTasks Engine_MIN_dbl Engine_MAX_dbl EPCGExRefineSanitization.Longest
          [(1, 2), (0, 1)] Examples.PathCluster :=
  ⟨by decide,
    C24_sanitization_does_not_depend_on_order Engine_MIN_dbl Engine_MAX_dbl
      EPCGExRefineSanitization.Longest Examples.PathCluster [(0, 2), (2, 1)] [(1, 2), (0, 1)]
      (by decide)⟩

end PCGExRefineEdges
